import Mathlib

/-! # NDR marshalling engine (dlls/rpcrt4/ndr_marshall.c)

A shallow embedding of the format-string driven marshalling engine and the
properties its specification states.

Modelling conventions

* A byte cell holds a natural number; every load reduces the cell modulo 256 and
  every typed store writes reduced bytes.  `memcpy` moves cells unchanged.
* The wire buffer (`wire`) and process memory (`mem`) are separate address
  spaces, each a total map from addresses to cells.  Pointers are 32 bit wide
  and stored little-endian in memory (the `__i386__` host of the source); `0`
  is `NULL`.  Memory protection is not modelled: address `0` of `mem` can be
  loaded like any other address.
* Cursor arithmetic (`Buffer`, memory cursors) is on unbounded naturals.  The
  running totals `BufferLength` and `MemorySize` are `unsigned long` fields of
  32 bits: every update of them is reduced modulo `2^32`, like the
  `DWORD`/`ULONG` values and products.
* An assignment through a `float` or `double` lvalue is `floatAssign` or
  `doubleAssign` on the bit image of the value: on a build that moves such a
  value through an x87 register a signalling NaN arrives quieted.
* `RpcRaiseException` and a failed `assert` end the call: operations return in
  `Except Fault`.  `TRACE`, `FIXME`, `ERR` and `STD_OVERFLOW_CHECK` only log and
  are omitted.
* An `unsigned char **ppMemory` argument is passed by value-result: the
  operation receives the current `*ppMemory` and returns the final one; a caller
  whose pointer cell lives in memory loads it before and stores it after the
  call.
* The dispatch tables and the stub descriptor are passed explicitly to the
  operations that consult them.
-/

namespace NDR

/-! ## Memory primitives -/

/-- Byte-addressed store: address to cell. -/
abbrev MEMORY := Nat → Nat

/-- Load of an `unsigned char`. -/
def load8 (m : MEMORY) (a : Nat) : Nat := m a % 256

/-- Load of a little-endian `USHORT`. -/
def load16 (m : MEMORY) (a : Nat) : Nat := load8 m a + 256 * load8 m (a + 1)

/-- Load of a little-endian `ULONG` (also of a pointer). -/
def load32 (m : MEMORY) (a : Nat) : Nat :=
  load8 m a + 256 * load8 m (a + 1) + 65536 * load8 m (a + 2) + 16777216 * load8 m (a + 3)

/-- Load of a little-endian `ULONGLONG`. -/
def load64 (m : MEMORY) (a : Nat) : Nat := load32 m a + 4294967296 * load32 m (a + 4)

/-- Store of an `unsigned char`. -/
def store8 (m : MEMORY) (a v : Nat) : MEMORY := fun x => if x = a then v % 256 else m x

/-- Store of a little-endian `USHORT` (the value is truncated to 16 bits). -/
def store16 (m : MEMORY) (a v : Nat) : MEMORY := store8 (store8 m a v) (a + 1) (v / 256)

/-- Store of a little-endian `ULONG` (the value is truncated to 32 bits). -/
def store32 (m : MEMORY) (a v : Nat) : MEMORY :=
  store8 (store8 (store8 (store8 m a v) (a + 1) (v / 256)) (a + 2) (v / 65536)) (a + 3)
    (v / 16777216)

/-- Store of a little-endian `ULONGLONG`. -/
def store64 (m : MEMORY) (a v : Nat) : MEMORY := store32 (store32 m a v) (a + 4) (v / 4294967296)

/-- The C `memcpy(dst + d, src + s, n)`: all `n` cells are read from the source before the
destination changes. -/
def memcpy (dst : MEMORY) (d : Nat) (src : MEMORY) (s n : Nat) : MEMORY :=
  fun x => if d ≤ x ∧ x < d + n then src (s + (x - d)) else dst x

/-- The C `memset(m + d, c, n)`. -/
def memset (m : MEMORY) (d c n : Nat) : MEMORY :=
  fun x => if d ≤ x ∧ x < d + n then c % 256 else m x

/-- Sign extension of a 16-bit pattern to a C `short`. -/
def toSHORT (w : Nat) : Int := if w % 65536 < 32768 then (w % 65536 : Nat) else (w % 65536 : Nat) - 65536

/-- Conversion of a signed integer to a `DWORD` (reduction modulo `2^32`). -/
def toDWORD (i : Int) : Nat := (i % 4294967296).toNat

/-! ## Format strings -/

/-- A `PFORMAT_STRING`: a position inside an immutable byte string. -/
structure PFORMAT_STRING where
  str : Int → Nat
  pos : Int

namespace PFORMAT_STRING

/-- Pointer arithmetic `pFormat + k`. -/
def add (p : PFORMAT_STRING) (k : Int) : PFORMAT_STRING := { p with pos := p.pos + k }

/-- The byte `pFormat[k]`. -/
def byte (p : PFORMAT_STRING) (k : Int) : Nat := p.str (p.pos + k) % 256

/-- The C `*(const WORD*)&pFormat[k]`. -/
def WORD (p : PFORMAT_STRING) (k : Int) : Nat := p.byte k + 256 * p.byte (k + 1)

/-- The C `*(const SHORT*)&pFormat[k]`. -/
def SHORT (p : PFORMAT_STRING) (k : Int) : Int := toSHORT (p.WORD k)

/-- The C `*(const ULONG*)&pFormat[k]`. -/
def ULONG (p : PFORMAT_STRING) (k : Int) : Nat := p.WORD k + 65536 * p.WORD (k + 2)

/-- A format string given by its bytes, positioned at its first byte. -/
def ofList (l : List Nat) : PFORMAT_STRING :=
  { str := fun i => if 0 ≤ i then l.getD i.toNat 0 else 0, pos := 0 }

end PFORMAT_STRING

/-! ## Format characters

Modelled from the spec: `wine/rpcfc.h` is not part of the excerpt; the values are those of the
established `RPC_FC_*` tag space, consistent with the index comments of the dispatch tables. -/

/-- Modelled from the spec: tag of the established `RPC_FC_*` space (`wine/rpcfc.h`). -/
def RPC_FC_BYTE : Nat := 0x01
/-- Modelled from the spec: tag of the established `RPC_FC_*` space (`wine/rpcfc.h`). -/
def RPC_FC_CHAR : Nat := 0x02
/-- Modelled from the spec: tag of the established `RPC_FC_*` space (`wine/rpcfc.h`). -/
def RPC_FC_SMALL : Nat := 0x03
/-- Modelled from the spec: tag of the established `RPC_FC_*` space (`wine/rpcfc.h`). -/
def RPC_FC_USMALL : Nat := 0x04
/-- Modelled from the spec: tag of the established `RPC_FC_*` space (`wine/rpcfc.h`). -/
def RPC_FC_WCHAR : Nat := 0x05
/-- Modelled from the spec: tag of the established `RPC_FC_*` space (`wine/rpcfc.h`). -/
def RPC_FC_SHORT : Nat := 0x06
/-- Modelled from the spec: tag of the established `RPC_FC_*` space (`wine/rpcfc.h`). -/
def RPC_FC_USHORT : Nat := 0x07
/-- Modelled from the spec: tag of the established `RPC_FC_*` space (`wine/rpcfc.h`). -/
def RPC_FC_LONG : Nat := 0x08
/-- Modelled from the spec: tag of the established `RPC_FC_*` space (`wine/rpcfc.h`). -/
def RPC_FC_ULONG : Nat := 0x09
/-- Modelled from the spec: tag of the established `RPC_FC_*` space (`wine/rpcfc.h`). -/
def RPC_FC_FLOAT : Nat := 0x0a
/-- Modelled from the spec: tag of the established `RPC_FC_*` space (`wine/rpcfc.h`). -/
def RPC_FC_HYPER : Nat := 0x0b
/-- Modelled from the spec: tag of the established `RPC_FC_*` space (`wine/rpcfc.h`). -/
def RPC_FC_DOUBLE : Nat := 0x0c
/-- Modelled from the spec: tag of the established `RPC_FC_*` space (`wine/rpcfc.h`). -/
def RPC_FC_ENUM16 : Nat := 0x0d
/-- Modelled from the spec: tag of the established `RPC_FC_*` space (`wine/rpcfc.h`). -/
def RPC_FC_ENUM32 : Nat := 0x0e
/-- Modelled from the spec: tag of the established `RPC_FC_*` space (`wine/rpcfc.h`). -/
def RPC_FC_ERROR_STATUS_T : Nat := 0x10
/-- Modelled from the spec: tag of the established `RPC_FC_*` space (`wine/rpcfc.h`). -/
def RPC_FC_RP : Nat := 0x11
/-- Modelled from the spec: tag of the established `RPC_FC_*` space (`wine/rpcfc.h`). -/
def RPC_FC_UP : Nat := 0x12
/-- Modelled from the spec: tag of the established `RPC_FC_*` space (`wine/rpcfc.h`). -/
def RPC_FC_OP : Nat := 0x13
/-- Modelled from the spec: tag of the established `RPC_FC_*` space (`wine/rpcfc.h`). -/
def RPC_FC_FP : Nat := 0x14
/-- Modelled from the spec: tag of the established `RPC_FC_*` space (`wine/rpcfc.h`). -/
def RPC_FC_STRUCT : Nat := 0x15
/-- Modelled from the spec: tag of the established `RPC_FC_*` space (`wine/rpcfc.h`). -/
def RPC_FC_PSTRUCT : Nat := 0x16
/-- Modelled from the spec: tag of the established `RPC_FC_*` space (`wine/rpcfc.h`). -/
def RPC_FC_CSTRUCT : Nat := 0x17
/-- Modelled from the spec: tag of the established `RPC_FC_*` space (`wine/rpcfc.h`). -/
def RPC_FC_CPSTRUCT : Nat := 0x18
/-- Modelled from the spec: tag of the established `RPC_FC_*` space (`wine/rpcfc.h`). -/
def RPC_FC_BOGUS_STRUCT : Nat := 0x1a
/-- Modelled from the spec: tag of the established `RPC_FC_*` space (`wine/rpcfc.h`). -/
def RPC_FC_CARRAY : Nat := 0x1b
/-- Modelled from the spec: tag of the established `RPC_FC_*` space (`wine/rpcfc.h`). -/
def RPC_FC_CVARRAY : Nat := 0x1c
/-- Modelled from the spec: tag of the established `RPC_FC_*` space (`wine/rpcfc.h`). -/
def RPC_FC_BOGUS_ARRAY : Nat := 0x21
/-- Modelled from the spec: tag of the established `RPC_FC_*` space (`wine/rpcfc.h`). -/
def RPC_FC_C_CSTRING : Nat := 0x22
/-- Modelled from the spec: tag of the established `RPC_FC_*` space (`wine/rpcfc.h`). -/
def RPC_FC_C_WSTRING : Nat := 0x25
/-- Modelled from the spec: tag of the established `RPC_FC_*` space (`wine/rpcfc.h`). -/
def RPC_FC_NON_ENCAPSULATED_UNION : Nat := 0x2b
/-- Modelled from the spec: tag of the established `RPC_FC_*` space (`wine/rpcfc.h`). -/
def RPC_FC_IP : Nat := 0x2f
/-- Modelled from the spec: tag of the established `RPC_FC_*` space (`wine/rpcfc.h`). -/
def RPC_FC_POINTER : Nat := 0x36
/-- Modelled from the spec: tag of the established `RPC_FC_*` space (`wine/rpcfc.h`). -/
def RPC_FC_ALIGNM4 : Nat := 0x38
/-- Modelled from the spec: tag of the established `RPC_FC_*` space (`wine/rpcfc.h`). -/
def RPC_FC_ALIGNM8 : Nat := 0x39
/-- Modelled from the spec: tag of the established `RPC_FC_*` space (`wine/rpcfc.h`). -/
def RPC_FC_STRUCTPAD2 : Nat := 0x3e
/-- Modelled from the spec: tag of the established `RPC_FC_*` space (`wine/rpcfc.h`). -/
def RPC_FC_NO_REPEAT : Nat := 0x46
/-- Modelled from the spec: tag of the established `RPC_FC_*` space (`wine/rpcfc.h`). -/
def RPC_FC_FIXED_REPEAT : Nat := 0x47
/-- Modelled from the spec: tag of the established `RPC_FC_*` space (`wine/rpcfc.h`). -/
def RPC_FC_VARIABLE_REPEAT : Nat := 0x48
/-- Modelled from the spec: tag of the established `RPC_FC_*` space (`wine/rpcfc.h`). -/
def RPC_FC_FIXED_OFFSET : Nat := 0x49
/-- Modelled from the spec: tag of the established `RPC_FC_*` space (`wine/rpcfc.h`). -/
def RPC_FC_VARIABLE_OFFSET : Nat := 0x4a
/-- Modelled from the spec: tag of the established `RPC_FC_*` space (`wine/rpcfc.h`). -/
def RPC_FC_PP : Nat := 0x4b
/-- Modelled from the spec: tag of the established `RPC_FC_*` space (`wine/rpcfc.h`). -/
def RPC_FC_EMBEDDED_COMPLEX : Nat := 0x4c
/-- Modelled from the spec: tag of the established `RPC_FC_*` space (`wine/rpcfc.h`). -/
def RPC_FC_END : Nat := 0x5b
/-- Modelled from the spec: tag of the established `RPC_FC_*` space (`wine/rpcfc.h`). -/
def RPC_FC_PAD : Nat := 0x5c
/-- Modelled from the spec: tag of the established `RPC_FC_*` space (`wine/rpcfc.h`). -/
def RPC_FC_USER_MARSHAL : Nat := 0xb4
/-- Modelled from the spec: pointer attribute bit of `wine/rpcfc.h`. -/
def RPC_FC_P_ALLOCALLNODES : Nat := 0x01
/-- Modelled from the spec: pointer attribute bit of `wine/rpcfc.h`. -/
def RPC_FC_P_DONTFREE : Nat := 0x02
/-- Modelled from the spec: pointer attribute bit of `wine/rpcfc.h`. -/
def RPC_FC_P_ONSTACK : Nat := 0x04
/-- Modelled from the spec: pointer attribute bit of `wine/rpcfc.h`. -/
def RPC_FC_P_SIMPLEPOINTER : Nat := 0x08
/-- Modelled from the spec: pointer attribute bit of `wine/rpcfc.h`. -/
def RPC_FC_P_DEREF : Nat := 0x10
/-- Modelled from the spec: correlation type nibble of `wine/rpcfc.h`. -/
def RPC_FC_NORMAL_CONFORMANCE : Nat := 0x00
/-- Modelled from the spec: correlation type nibble of `wine/rpcfc.h`. -/
def RPC_FC_POINTER_CONFORMANCE : Nat := 0x10
/-- Modelled from the spec: correlation type nibble of `wine/rpcfc.h`. -/
def RPC_FC_TOP_LEVEL_CONFORMANCE : Nat := 0x20
/-- Modelled from the spec: correlation type nibble of `wine/rpcfc.h`. -/
def RPC_FC_CONSTANT_CONFORMANCE : Nat := 0x40
/-- Modelled from the spec: correlation type nibble of `wine/rpcfc.h`. -/
def RPC_FC_TOP_LEVEL_MULTID_CONFORMANCE : Nat := 0x80
/-- Modelled from the spec: correlation operator of `wine/rpcfc.h`. -/
def RPC_FC_DEREFERENCE : Nat := 0x54
/-- Modelled from the spec: correlation operator of `wine/rpcfc.h`. -/
def RPC_FC_CALLBACK : Nat := 0x59

/-- The source constant `BUFFER_PARANOIA`. -/
def BUFFER_PARANOIA : Nat := 20
/-- The source constant `NDR_TABLE_MASK`. -/
def NDR_TABLE_MASK : Nat := 127
/-- The C limit `USHRT_MAX`. -/
def USHRT_MAX : Nat := 65535

/-! ## Stub message -/

/-- Ways in which a call ends without returning. -/
inductive Fault where
  | RPC_X_BAD_STUB_DATA
  | RPC_S_INTERNAL_ERROR
  | RPC_X_ENUM_VALUE_OUT_OF_RANGE
  | assertion_failed
  | null_format_dereference
  | uninitialized_read
  | out_of_fuel
  | not_modelled
  deriving DecidableEq, Repr

/-- The marshalling context `MIDL_STUB_MESSAGE`, together with the two stores it works on,
the record of allocator and deallocator calls, the build option
`NDR_LOCAL_IS_BIG_ENDIAN`, and the build property `FLOATS_THROUGH_X87`: whether the compiler
moves a `float` or `double` through an x87 register (the `__i386__` host without SSE moves)
or as plain bytes. -/
structure MIDL_STUB_MESSAGE where
  Buffer : Nat
  BufferMark : Nat
  BufferLength : Nat
  MemorySize : Nat
  Memory : Nat
  MaxCount : Nat
  Offset : Nat
  ActualCount : Nat
  StackTop : Nat
  fHasNewCorrDesc : Bool
  ReuseBuffer : Bool
  IgnoreEmbeddedPointers : Bool
  /-- The injected allocator: requests made so far (latest first) and size to address. -/
  pfnAllocate : List Nat → Nat → Nat
  /-- Sizes requested from the allocator, latest first. -/
  allocated : List Nat
  /-- Pointers passed to the deallocator, latest first. -/
  freed : List Nat
  wire : MEMORY
  mem : MEMORY
  NDR_LOCAL_IS_BIG_ENDIAN : Bool
  FLOATS_THROUGH_X87 : Bool

/-- The part of `MIDL_STUB_DESC` the engine calls back into: the expression evaluators. -/
structure MIDL_STUB_DESC where
  apfnExprEval : Int → MIDL_STUB_MESSAGE → MIDL_STUB_MESSAGE

/-- Signature of a dispatch-table marshaller. -/
abbrev NDR_MARSHALL := MIDL_STUB_MESSAGE → Nat → PFORMAT_STRING → Except Fault MIDL_STUB_MESSAGE
/-- Signature of a dispatch-table unmarshaller; the result carries the final `*ppMemory`. -/
abbrev NDR_UNMARSHALL :=
  MIDL_STUB_MESSAGE → Nat → PFORMAT_STRING → Bool → Except Fault (MIDL_STUB_MESSAGE × Nat)
/-- Signature of a dispatch-table buffer sizer. -/
abbrev NDR_BUFFERSIZE := MIDL_STUB_MESSAGE → Nat → PFORMAT_STRING → Except Fault MIDL_STUB_MESSAGE
/-- Signature of a dispatch-table memory sizer. -/
abbrev NDR_MEMORYSIZE := MIDL_STUB_MESSAGE → PFORMAT_STRING → Except Fault (MIDL_STUB_MESSAGE × Nat)

/-! ## Byte order and alignment macros -/

/-- The macro `LITTLE_ENDIAN_UINT32_WRITE`. -/
def LITTLE_ENDIAN_UINT32_WRITE (w : MEMORY) (pchar uint32 : Nat) : MEMORY :=
  store8 (store8 (store8 (store8 w pchar uint32) (pchar + 1) (uint32 / 256)) (pchar + 2)
    (uint32 / 65536)) (pchar + 3) (uint32 / 16777216)

/-- The macro `LITTLE_ENDIAN_UINT32_READ`. -/
def LITTLE_ENDIAN_UINT32_READ (w : MEMORY) (pchar : Nat) : Nat :=
  load8 w pchar + 256 * load8 w (pchar + 1) + 65536 * load8 w (pchar + 2)
    + 16777216 * load8 w (pchar + 3)

/-- The macro `BIG_ENDIAN_UINT32_WRITE`. -/
def BIG_ENDIAN_UINT32_WRITE (w : MEMORY) (pchar uint32 : Nat) : MEMORY :=
  store8 (store8 (store8 (store8 w (pchar + 3) uint32) (pchar + 2) (uint32 / 256)) (pchar + 1)
    (uint32 / 65536)) pchar (uint32 / 16777216)

/-- The macro `BIG_ENDIAN_UINT32_READ`. -/
def BIG_ENDIAN_UINT32_READ (w : MEMORY) (pchar : Nat) : Nat :=
  load8 w (pchar + 3) + 256 * load8 w (pchar + 2) + 65536 * load8 w (pchar + 1)
    + 16777216 * load8 w pchar

/-- The macro `NDR_LOCAL_UINT32_WRITE`, by build option. -/
def NDR_LOCAL_UINT32_WRITE (be : Bool) (w : MEMORY) (pchar uint32 : Nat) : MEMORY :=
  if be then BIG_ENDIAN_UINT32_WRITE w pchar uint32 else LITTLE_ENDIAN_UINT32_WRITE w pchar uint32

/-- The macro `NDR_LOCAL_UINT32_READ`, by build option. -/
def NDR_LOCAL_UINT32_READ (be : Bool) (w : MEMORY) (pchar : Nat) : Nat :=
  if be then BIG_ENDIAN_UINT32_READ w pchar else LITTLE_ENDIAN_UINT32_READ w pchar

/-- The macro `ALIGNED_LENGTH(_Len, _Align)`, that is `(_Len + _Align - 1) & ~(_Align - 1)`.
For a mask `m` one has `x & ~m = x - (x & m)`; with `_Align = 0` the mask `~(0 - 1)` is zero. -/
def ALIGNED_LENGTH (Len Align : Nat) : Nat :=
  if Align = 0 then 0 else (Len + Align - 1) - ((Len + Align - 1) &&& (Align - 1))

/-- The macro `ALIGN_LENGTH(_Len, _Align)` applied to the 32-bit `unsigned long` field
`BufferLength`: the value it assigns.  The sum `_Len + _Align - 1` is formed in 32-bit unsigned
arithmetic, so it is reduced modulo `2^32` before the mask `~(_Align - 1)` is applied. -/
def ALIGN_LENGTH (Len Align : Nat) : Nat :=
  if Align = 0 then 0
  else (Len + Align - 1) % 4294967296 - ((Len + Align - 1) % 4294967296 &&& (Align - 1))

/-- The assignment `*(float *)d = *(float *)s`, on the 32-bit image `v` of the value.  Where
the value travels through an x87 register (`x87`), a signalling NaN (exponent bits 23..30 all
set, mantissa not zero, bit 22 clear) arrives with the quiet bit 22 set; every other value
arrives unchanged, and so does every value on a build that moves the four bytes. -/
def floatAssign (x87 : Bool) (v : Nat) : Nat :=
  if x87 = true ∧ v / 8388608 % 256 = 255 ∧ v % 8388608 ≠ 0 ∧ v / 4194304 % 2 = 0 then
    v + 4194304
  else v

/-- The assignment `*(double *)d = *(double *)s`, on the 64-bit image `v` of the value.  Where
the value travels through an x87 register (`x87`), a signalling NaN (exponent bits 52..62 all
set, mantissa not zero, bit 51 clear) arrives with the quiet bit 51 set; every other value
arrives unchanged, and so does every value on a build that moves the eight bytes. -/
def doubleAssign (x87 : Bool) (v : Nat) : Nat :=
  if x87 = true ∧ v / 4503599627370496 % 2048 = 2047 ∧ v % 4503599627370496 ≠ 0 ∧
      v / 2251799813685248 % 2 = 0 then
    v + 2251799813685248
  else v

/-- The function `NdrAllocate`: one call of the injected allocator. -/
def NdrAllocate (pStubMsg : MIDL_STUB_MESSAGE) (len : Nat) : MIDL_STUB_MESSAGE × Nat :=
  ({ pStubMsg with allocated := len :: pStubMsg.allocated },
    pStubMsg.pfnAllocate pStubMsg.allocated len)

/-! ## Conformance and variance on the wire -/

/-- The function `IsConformanceOrVariancePresent`. -/
def IsConformanceOrVariancePresent (pFormat : PFORMAT_STRING) : Bool :=
  pFormat.ULONG 0 != 4294967295

/-- The cursor step shared by the correlation readers: 6 bytes with `fHasNewCorrDesc`, else 4. -/
def corrDescStep (pStubMsg : MIDL_STUB_MESSAGE) : Int :=
  if pStubMsg.fHasNewCorrDesc then 6 else 4

/-- The function `ReadConformance`; a `NULL` format cursor is `none`, and `NULL + k` stays
`none`. -/
def ReadConformance (pStubMsg : MIDL_STUB_MESSAGE) (pFormat : Option PFORMAT_STRING) :
    MIDL_STUB_MESSAGE × Option PFORMAT_STRING :=
  let b := ALIGNED_LENGTH pStubMsg.Buffer 4
  ({ pStubMsg with
      MaxCount := NDR_LOCAL_UINT32_READ pStubMsg.NDR_LOCAL_IS_BIG_ENDIAN pStubMsg.wire b
      Buffer := b + 4 },
    pFormat.map fun f => f.add (corrDescStep pStubMsg))

/-- The function `ReadVariance`. -/
def ReadVariance (pStubMsg : MIDL_STUB_MESSAGE) (pFormat : Option PFORMAT_STRING) :
    MIDL_STUB_MESSAGE × Option PFORMAT_STRING :=
  let absent : Bool :=
    match pFormat with
    | some f => !IsConformanceOrVariancePresent f
    | none => false
  let s :=
    if absent then { pStubMsg with Offset := 0, ActualCount := pStubMsg.MaxCount }
    else
      let b := ALIGNED_LENGTH pStubMsg.Buffer 4
      { pStubMsg with
          Offset := NDR_LOCAL_UINT32_READ pStubMsg.NDR_LOCAL_IS_BIG_ENDIAN pStubMsg.wire b
          ActualCount :=
            NDR_LOCAL_UINT32_READ pStubMsg.NDR_LOCAL_IS_BIG_ENDIAN pStubMsg.wire (b + 4)
          Buffer := b + 8 }
  (s, pFormat.map fun f => f.add (corrDescStep pStubMsg))

/-- The function `WriteConformance`. -/
def WriteConformance (pStubMsg : MIDL_STUB_MESSAGE) : MIDL_STUB_MESSAGE :=
  let b := ALIGNED_LENGTH pStubMsg.Buffer 4
  { pStubMsg with
      wire := NDR_LOCAL_UINT32_WRITE pStubMsg.NDR_LOCAL_IS_BIG_ENDIAN pStubMsg.wire b
        pStubMsg.MaxCount
      Buffer := b + 4 }

/-- The function `WriteVariance`. -/
def WriteVariance (pStubMsg : MIDL_STUB_MESSAGE) : MIDL_STUB_MESSAGE :=
  let b := ALIGNED_LENGTH pStubMsg.Buffer 4
  let w1 := NDR_LOCAL_UINT32_WRITE pStubMsg.NDR_LOCAL_IS_BIG_ENDIAN pStubMsg.wire b
    pStubMsg.Offset
  { pStubMsg with
      wire := NDR_LOCAL_UINT32_WRITE pStubMsg.NDR_LOCAL_IS_BIG_ENDIAN w1 (b + 4)
        pStubMsg.ActualCount
      Buffer := b + 8 }

/-- The function `SizeConformance`. -/
def SizeConformance (pStubMsg : MIDL_STUB_MESSAGE) : MIDL_STUB_MESSAGE :=
  { pStubMsg with BufferLength := (ALIGN_LENGTH pStubMsg.BufferLength 4 + 4) % 4294967296 }

/-- The function `SizeVariance`. -/
def SizeVariance (pStubMsg : MIDL_STUB_MESSAGE) : MIDL_STUB_MESSAGE :=
  { pStubMsg with BufferLength := (ALIGN_LENGTH pStubMsg.BufferLength 4 + 8) % 4294967296 }

/-! ## Conformant strings -/

/-- The C `strlen`, scanning at most `fuel` characters: the number of bytes before the first
zero byte at or after `p`. -/
def strlen (m : MEMORY) (p : Nat) : Nat → Option Nat
  | 0 => none
  | fuel + 1 =>
    if load8 m p = 0 then some 0
    else (strlen m (p + 1) fuel).map fun n => n + 1

/-- The function `strlenW`, scanning at most `fuel` characters: the number of 16-bit units
before the first zero unit. -/
def strlenW (m : MEMORY) (p : Nat) : Nat → Option Nat
  | 0 => none
  | fuel + 1 =>
    if load16 m p = 0 then some 0
    else (strlenW m (p + 2) fuel).map fun n => n + 1

/-- The function `NdrConformantStringMarshall`; `fuel` bounds the length scan. -/
def NdrConformantStringMarshall (fuel : Nat) (pStubMsg : MIDL_STUB_MESSAGE) (pszMessage : Nat)
    (pFormat : PFORMAT_STRING) : Except Fault MIDL_STUB_MESSAGE :=
  let go (len esize : Nat) : Except Fault MIDL_STUB_MESSAGE :=
    if pStubMsg.BufferLength ≥ (len * esize + 13) % 4294967296 ∧ pStubMsg.Buffer ≠ 0 then
      let s1 := { pStubMsg with MaxCount := len, ActualCount := len, Offset := 0 }
      let s2 := WriteVariance (WriteConformance s1)
      .ok { s2 with
        wire := memcpy s2.wire s2.Buffer s2.mem pszMessage (len * esize % 4294967296)
        Buffer := s2.Buffer + len * esize % 4294967296 }
    else .error .assertion_failed
  if pFormat.byte 0 = RPC_FC_C_CSTRING then
    match strlen pStubMsg.mem pszMessage fuel with
    | some n => go ((n + 1) % 4294967296) 1
    | none => .error .out_of_fuel
  else if pFormat.byte 0 = RPC_FC_C_WSTRING then
    match strlenW pStubMsg.mem pszMessage fuel with
    | some n => go ((n + 1) % 4294967296) 2
    | none => .error .out_of_fuel
  else .ok pStubMsg

/-- The function `NdrConformantStringBufferSize`; `fuel` bounds the length scan. -/
def NdrConformantStringBufferSize (fuel : Nat) (pStubMsg : MIDL_STUB_MESSAGE) (pMemory : Nat)
    (pFormat : PFORMAT_STRING) : Except Fault MIDL_STUB_MESSAGE :=
  let s := SizeVariance (SizeConformance pStubMsg)
  if pFormat.byte 0 = RPC_FC_C_CSTRING then
    match strlen s.mem pMemory fuel with
    | some n =>
      .ok { s with BufferLength := (s.BufferLength + (n + 1 + BUFFER_PARANOIA)) % 4294967296 }
    | none => .error .out_of_fuel
  else if pFormat.byte 0 = RPC_FC_C_WSTRING then
    match strlenW s.mem pMemory fuel with
    | some n =>
      .ok { s with
        BufferLength := (s.BufferLength + (n * 2 + 2 + BUFFER_PARANOIA)) % 4294967296 }
    | none => .error .out_of_fuel
  else .ok s

/-- The function `NdrConformantStringMemorySize`. -/
def NdrConformantStringMemorySize (pStubMsg : MIDL_STUB_MESSAGE) (pFormat : PFORMAT_STRING) :
    Except Fault (MIDL_STUB_MESSAGE × Nat) :=
  let maxlen := NDR_LOCAL_UINT32_READ pStubMsg.NDR_LOCAL_IS_BIG_ENDIAN pStubMsg.wire pStubMsg.Buffer
  if pFormat.byte 0 = RPC_FC_C_CSTRING then .ok (pStubMsg, maxlen)
  else if pFormat.byte 0 = RPC_FC_C_WSTRING then .ok (pStubMsg, maxlen * 2 % 4294967296)
  else .ok (pStubMsg, 0)

/-- The function `NdrConformantStringUnmarshall`. -/
def NdrConformantStringUnmarshall (pStubMsg : MIDL_STUB_MESSAGE) (ppMemory : Nat)
    (pFormat : PFORMAT_STRING) (fMustAlloc : Bool) : Except Fault (MIDL_STUB_MESSAGE × Nat) :=
  let s1 := (ReadConformance pStubMsg none).1
  let s2 := (ReadVariance s1 none).1
  let esize : Nat :=
    if pFormat.byte 0 = RPC_FC_C_CSTRING then 1
    else if pFormat.byte 0 = RPC_FC_C_WSTRING then 2
    else 0
  let len := s2.ActualCount
  let r : MIDL_STUB_MESSAGE × Nat :=
    if fMustAlloc ∨ ppMemory = 0 then
      NdrAllocate s2 ((len * esize + BUFFER_PARANOIA) % 4294967296)
    else (s2, ppMemory)
  let s3 := r.1
  .ok ({ s3 with
      mem := memcpy s3.mem r.2 s3.wire s3.Buffer (len * esize % 4294967296)
      Buffer := s3.Buffer + len * esize % 4294967296 }, r.2)

/-- The stubs `NdrNonConformantStringMarshall` and `NdrNonConformantStringBufferSize`. -/
def NdrNonConformantStringMarshall (pStubMsg : MIDL_STUB_MESSAGE) (_pMemory : Nat)
    (_pFormat : PFORMAT_STRING) : Except Fault MIDL_STUB_MESSAGE := .ok pStubMsg

/-- The stub `NdrNonConformantStringUnmarshall`. -/
def NdrNonConformantStringUnmarshall (pStubMsg : MIDL_STUB_MESSAGE) (ppMemory : Nat)
    (_pFormat : PFORMAT_STRING) (_fMustAlloc : Bool) : Except Fault (MIDL_STUB_MESSAGE × Nat) :=
  .ok (pStubMsg, ppMemory)

/-! ## Base types -/

/-- The function `NdrBaseTypeMarshall`, on the type tag `*pFormat`.  `FLOAT` and `DOUBLE`
are assigned through a `float` and a `double` lvalue. -/
def NdrBaseTypeMarshallTag (pStubMsg : MIDL_STUB_MESSAGE) (pMemory : Nat) (tag : Nat) :
    Except Fault MIDL_STUB_MESSAGE :=
  if tag = RPC_FC_BYTE ∨ tag = RPC_FC_CHAR ∨ tag = RPC_FC_SMALL ∨ tag = RPC_FC_USMALL then
    .ok { pStubMsg with
      wire := store8 pStubMsg.wire pStubMsg.Buffer (load8 pStubMsg.mem pMemory)
      Buffer := pStubMsg.Buffer + 1 }
  else if tag = RPC_FC_WCHAR ∨ tag = RPC_FC_SHORT ∨ tag = RPC_FC_USHORT then
    let b := ALIGNED_LENGTH pStubMsg.Buffer 2
    .ok { pStubMsg with
      wire := store16 pStubMsg.wire b (load16 pStubMsg.mem pMemory)
      Buffer := b + 2 }
  else if tag = RPC_FC_LONG ∨ tag = RPC_FC_ULONG ∨ tag = RPC_FC_ERROR_STATUS_T
      ∨ tag = RPC_FC_ENUM32 then
    let b := ALIGNED_LENGTH pStubMsg.Buffer 4
    .ok { pStubMsg with
      wire := store32 pStubMsg.wire b (load32 pStubMsg.mem pMemory)
      Buffer := b + 4 }
  else if tag = RPC_FC_FLOAT then
    let b := ALIGNED_LENGTH pStubMsg.Buffer 4
    .ok { pStubMsg with
      wire := store32 pStubMsg.wire b
        (floatAssign pStubMsg.FLOATS_THROUGH_X87 (load32 pStubMsg.mem pMemory))
      Buffer := b + 4 }
  else if tag = RPC_FC_DOUBLE then
    let b := ALIGNED_LENGTH pStubMsg.Buffer 8
    .ok { pStubMsg with
      wire := store64 pStubMsg.wire b
        (doubleAssign pStubMsg.FLOATS_THROUGH_X87 (load64 pStubMsg.mem pMemory))
      Buffer := b + 8 }
  else if tag = RPC_FC_HYPER then
    let b := ALIGNED_LENGTH pStubMsg.Buffer 8
    .ok { pStubMsg with
      wire := store64 pStubMsg.wire b (load64 pStubMsg.mem pMemory)
      Buffer := b + 8 }
  else if tag = RPC_FC_ENUM16 then
    if load32 pStubMsg.mem pMemory > USHRT_MAX then .error .RPC_X_ENUM_VALUE_OUT_OF_RANGE
    else
      let b := ALIGNED_LENGTH pStubMsg.Buffer 2
      .ok { pStubMsg with
        wire := store16 pStubMsg.wire b (load32 pStubMsg.mem pMemory)
        Buffer := b + 2 }
  else .ok pStubMsg

/-- The function `NdrBaseTypeMarshall`. -/
def NdrBaseTypeMarshall (pStubMsg : MIDL_STUB_MESSAGE) (pMemory : Nat)
    (pFormat : PFORMAT_STRING) : Except Fault MIDL_STUB_MESSAGE :=
  NdrBaseTypeMarshallTag pStubMsg pMemory (pFormat.byte 0)

/-- The function `NdrBaseTypeMemorySize`, on the type tag `*pFormat`. -/
def NdrBaseTypeMemorySizeTag (pStubMsg : MIDL_STUB_MESSAGE) (tag : Nat) :
    MIDL_STUB_MESSAGE × Nat :=
  let adv (n : Nat) : MIDL_STUB_MESSAGE × Nat :=
    ({ pStubMsg with
      Buffer := pStubMsg.Buffer + n
      MemorySize := (pStubMsg.MemorySize + n) % 4294967296 }, n)
  if tag = RPC_FC_BYTE ∨ tag = RPC_FC_CHAR ∨ tag = RPC_FC_SMALL ∨ tag = RPC_FC_USMALL then adv 1
  else if tag = RPC_FC_WCHAR ∨ tag = RPC_FC_SHORT ∨ tag = RPC_FC_USHORT then adv 2
  else if tag = RPC_FC_LONG ∨ tag = RPC_FC_ULONG then adv 4
  else if tag = RPC_FC_FLOAT then adv 4
  else if tag = RPC_FC_DOUBLE then adv 8
  else if tag = RPC_FC_HYPER then adv 8
  else if tag = RPC_FC_ERROR_STATUS_T then adv 4
  else if tag = RPC_FC_ENUM16 ∨ tag = RPC_FC_ENUM32 then adv 4
  else (pStubMsg, 0)

/-- The function `NdrBaseTypeMemorySize`. -/
def NdrBaseTypeMemorySize (pStubMsg : MIDL_STUB_MESSAGE) (pFormat : PFORMAT_STRING) :
    Except Fault (MIDL_STUB_MESSAGE × Nat) :=
  .ok (NdrBaseTypeMemorySizeTag pStubMsg (pFormat.byte 0))

/-- The head of `NdrBaseTypeUnmarshall`: when `fMustAlloc` is set or `*ppMemory` is `NULL`,
the memory size of the type is requested from the allocator (the cursor moved by the size
computation is restored).  The result is the state and the destination `*ppMemory`. -/
def NdrBaseTypeUnmarshallAlloc (pStubMsg : MIDL_STUB_MESSAGE) (ppMemory : Nat) (tag : Nat)
    (fMustAlloc : Bool) : MIDL_STUB_MESSAGE × Nat :=
  if fMustAlloc ∨ ppMemory = 0 then
    let sz := NdrBaseTypeMemorySizeTag pStubMsg tag
    let a := NdrAllocate sz.1 sz.2
    ({ a.1 with Buffer := pStubMsg.Buffer }, a.2)
  else (pStubMsg, ppMemory)

/-- The switch of `NdrBaseTypeUnmarshall`: the value is moved from the wire to `p`, a
`FLOAT` and a `DOUBLE` through a `float` and a `double` lvalue. -/
def NdrBaseTypeUnmarshallCopy (s : MIDL_STUB_MESSAGE) (p : Nat) (tag : Nat) :
    Except Fault (MIDL_STUB_MESSAGE × Nat) :=
  if tag = RPC_FC_BYTE ∨ tag = RPC_FC_CHAR ∨ tag = RPC_FC_SMALL ∨ tag = RPC_FC_USMALL then
    .ok ({ s with mem := store8 s.mem p (load8 s.wire s.Buffer), Buffer := s.Buffer + 1 }, p)
  else if tag = RPC_FC_WCHAR ∨ tag = RPC_FC_SHORT ∨ tag = RPC_FC_USHORT then
    let b := ALIGNED_LENGTH s.Buffer 2
    .ok ({ s with mem := store16 s.mem p (load16 s.wire b), Buffer := b + 2 }, p)
  else if tag = RPC_FC_LONG ∨ tag = RPC_FC_ULONG ∨ tag = RPC_FC_ERROR_STATUS_T
      ∨ tag = RPC_FC_ENUM32 then
    let b := ALIGNED_LENGTH s.Buffer 4
    .ok ({ s with mem := store32 s.mem p (load32 s.wire b), Buffer := b + 4 }, p)
  else if tag = RPC_FC_FLOAT then
    let b := ALIGNED_LENGTH s.Buffer 4
    .ok ({ s with
      mem := store32 s.mem p (floatAssign s.FLOATS_THROUGH_X87 (load32 s.wire b))
      Buffer := b + 4 }, p)
  else if tag = RPC_FC_DOUBLE then
    let b := ALIGNED_LENGTH s.Buffer 8
    .ok ({ s with
      mem := store64 s.mem p (doubleAssign s.FLOATS_THROUGH_X87 (load64 s.wire b))
      Buffer := b + 8 }, p)
  else if tag = RPC_FC_HYPER then
    let b := ALIGNED_LENGTH s.Buffer 8
    .ok ({ s with mem := store64 s.mem p (load64 s.wire b), Buffer := b + 8 }, p)
  else if tag = RPC_FC_ENUM16 then
    let b := ALIGNED_LENGTH s.Buffer 2
    .ok ({ s with mem := store32 s.mem p (load16 s.wire b), Buffer := b + 2 }, p)
  else .ok (s, p)

/-- The function `NdrBaseTypeUnmarshall`, on the type tag `*pFormat`: the allocation head
followed by the switch. -/
def NdrBaseTypeUnmarshallTag (pStubMsg : MIDL_STUB_MESSAGE) (ppMemory : Nat) (tag : Nat)
    (fMustAlloc : Bool) : Except Fault (MIDL_STUB_MESSAGE × Nat) :=
  let d := NdrBaseTypeUnmarshallAlloc pStubMsg ppMemory tag fMustAlloc
  NdrBaseTypeUnmarshallCopy d.1 d.2 tag

/-- The function `NdrBaseTypeUnmarshall`. -/
def NdrBaseTypeUnmarshall (pStubMsg : MIDL_STUB_MESSAGE) (ppMemory : Nat)
    (pFormat : PFORMAT_STRING) (fMustAlloc : Bool) : Except Fault (MIDL_STUB_MESSAGE × Nat) :=
  NdrBaseTypeUnmarshallTag pStubMsg ppMemory (pFormat.byte 0) fMustAlloc

/-- The function `NdrBaseTypeBufferSize`, on the type tag `*pFormat`. -/
def NdrBaseTypeBufferSizeTag (pStubMsg : MIDL_STUB_MESSAGE) (_pMemory : Nat) (tag : Nat) :
    Except Fault MIDL_STUB_MESSAGE :=
  let sized (n : Nat) : Except Fault MIDL_STUB_MESSAGE :=
    .ok { pStubMsg with
      BufferLength := (ALIGN_LENGTH pStubMsg.BufferLength n + n) % 4294967296 }
  if tag = RPC_FC_BYTE ∨ tag = RPC_FC_CHAR ∨ tag = RPC_FC_SMALL ∨ tag = RPC_FC_USMALL then
    .ok { pStubMsg with BufferLength := (pStubMsg.BufferLength + 1) % 4294967296 }
  else if tag = RPC_FC_WCHAR ∨ tag = RPC_FC_SHORT ∨ tag = RPC_FC_USHORT ∨ tag = RPC_FC_ENUM16 then
    sized 2
  else if tag = RPC_FC_LONG ∨ tag = RPC_FC_ULONG ∨ tag = RPC_FC_ENUM32 then sized 4
  else if tag = RPC_FC_FLOAT then sized 4
  else if tag = RPC_FC_DOUBLE then sized 8
  else if tag = RPC_FC_HYPER then sized 8
  else if tag = RPC_FC_ERROR_STATUS_T then sized 4
  else .ok pStubMsg

/-- The function `NdrBaseTypeBufferSize`. -/
def NdrBaseTypeBufferSize (pStubMsg : MIDL_STUB_MESSAGE) (pMemory : Nat)
    (pFormat : PFORMAT_STRING) : Except Fault MIDL_STUB_MESSAGE :=
  NdrBaseTypeBufferSizeTag pStubMsg pMemory (pFormat.byte 0)

/-! ## Pointers -/

/-- Address arithmetic `ptr + ofs` with a signed offset. -/
def ptrAdd (ptr : Nat) (ofs : Int) : Nat := ((ptr : Int) + ofs).toNat

/-- The referent description `desc` computed at the head of every pointer operation:
the next format byte for a simple pointer, else the target of the signed relative offset. -/
def pointerDesc (pFormat : PFORMAT_STRING) : PFORMAT_STRING :=
  if pFormat.byte 1 &&& RPC_FC_P_SIMPLEPOINTER ≠ 0 then pFormat.add 2
  else (pFormat.add 2).add ((pFormat.add 2).SHORT 0)

/-- The function `PointerMarshall`. -/
def PointerMarshall (NdrMarshaller : Nat → Option NDR_MARSHALL) (pStubMsg : MIDL_STUB_MESSAGE)
    (Buffer Pointer : Nat) (pFormat : PFORMAT_STRING) : Except Fault MIDL_STUB_MESSAGE :=
  let type := pFormat.byte 0
  let attr := pFormat.byte 1
  let desc := pointerDesc pFormat
  let written : Except Fault MIDL_STUB_MESSAGE :=
    if type = RPC_FC_RP then .ok pStubMsg
    else if type = RPC_FC_UP ∨ type = RPC_FC_OP then
      .ok { pStubMsg with
        wire := NDR_LOCAL_UINT32_WRITE pStubMsg.NDR_LOCAL_IS_BIG_ENDIAN pStubMsg.wire Buffer
          Pointer }
    else .error .RPC_X_BAD_STUB_DATA
  match written with
  | .error e => .error e
  | .ok s =>
    if Pointer ≠ 0 then
      let referent := if attr &&& RPC_FC_P_DEREF ≠ 0 then load32 s.mem Pointer else Pointer
      match NdrMarshaller (desc.byte 0 &&& NDR_TABLE_MASK) with
      | some m => m s referent desc
      | none => .ok s
    else .ok s

/-- The function `PointerUnmarshall`; `pPointer` is the current `*pPointer`, the result
carries the final one. -/
def PointerUnmarshall (NdrUnmarshaller : Nat → Option NDR_UNMARSHALL)
    (pStubMsg : MIDL_STUB_MESSAGE) (Buffer pPointer : Nat) (pFormat : PFORMAT_STRING)
    (fMustAlloc : Bool) : Except Fault (MIDL_STUB_MESSAGE × Nat) :=
  let type := pFormat.byte 0
  let attr := pFormat.byte 1
  let desc := pointerDesc pFormat
  let id : Except Fault Nat :=
    if type = RPC_FC_RP then .ok 4294967295
    else if type = RPC_FC_UP ∨ type = RPC_FC_OP then
      .ok (NDR_LOCAL_UINT32_READ pStubMsg.NDR_LOCAL_IS_BIG_ENDIAN pStubMsg.wire Buffer)
    else .error .RPC_X_BAD_STUB_DATA
  match id with
  | .error e => .error e
  | .ok pointer_id =>
    if pointer_id ≠ 0 then
      if attr &&& RPC_FC_P_DEREF ≠ 0 then
        let a : MIDL_STUB_MESSAGE × Nat :=
          if pPointer = 0 ∨ fMustAlloc then NdrAllocate pStubMsg 4 else (pStubMsg, pPointer)
        match NdrUnmarshaller (desc.byte 0 &&& NDR_TABLE_MASK) with
        | some m =>
          match m a.1 (load32 a.1.mem a.2) desc fMustAlloc with
          | .ok (s, inner) => .ok ({ s with mem := store32 s.mem a.2 inner }, a.2)
          | .error e => .error e
        | none => .ok a
      else
        match NdrUnmarshaller (desc.byte 0 &&& NDR_TABLE_MASK) with
        | some m => m pStubMsg pPointer desc fMustAlloc
        | none => .ok (pStubMsg, pPointer)
    else .ok (pStubMsg, pPointer)

/-- The function `PointerBufferSize`. -/
def PointerBufferSize (NdrBufferSizer : Nat → Option NDR_BUFFERSIZE)
    (pStubMsg : MIDL_STUB_MESSAGE) (Pointer : Nat) (pFormat : PFORMAT_STRING) :
    Except Fault MIDL_STUB_MESSAGE :=
  let type := pFormat.byte 0
  let attr := pFormat.byte 1
  let desc := pointerDesc pFormat
  let sizeReferent : Except Fault MIDL_STUB_MESSAGE :=
    let referent := if attr &&& RPC_FC_P_DEREF ≠ 0 then load32 pStubMsg.mem Pointer else Pointer
    match NdrBufferSizer (desc.byte 0 &&& NDR_TABLE_MASK) with
    | some m => m pStubMsg referent desc
    | none => .ok pStubMsg
  if type = RPC_FC_RP then sizeReferent
  else if type = RPC_FC_OP ∨ type = RPC_FC_UP then
    if Pointer = 0 then .ok pStubMsg else sizeReferent
  else .error .RPC_X_BAD_STUB_DATA

/-- The header of a repeat group of an embedded-pointer layout: `(rep, stride, count)` and
the number of header bytes. -/
def repeatHeader (pStubMsg : MIDL_STUB_MESSAGE) (pFormat : PFORMAT_STRING) :
    Nat × Nat × Nat × Int :=
  if pFormat.byte 0 = RPC_FC_FIXED_REPEAT then
    (pFormat.WORD 2, pFormat.WORD 4, pFormat.WORD 8, 10)
  else if pFormat.byte 0 = RPC_FC_VARIABLE_REPEAT then
    (pStubMsg.MaxCount % 4294967296, pFormat.WORD 2, pFormat.WORD 6, 8)
  else (1, 0, 1, 2)

/-- The loop of `EmbeddedPointerMarshall` over the repeat groups, bounded by `fuel`. -/
def EmbeddedPointerMarshallLoop (NdrMarshaller : Nat → Option NDR_MARSHALL) (Mark pMemory : Nat) :
    Nat → MIDL_STUB_MESSAGE → PFORMAT_STRING → Except Fault MIDL_STUB_MESSAGE
  | 0, _, _ => .error .out_of_fuel
  | fuel + 1, pStubMsg, pFormat =>
    if pFormat.byte 0 = RPC_FC_END then .ok pStubMsg
    else
      let (rep, stride, count, hdr) := repeatHeader pStubMsg pFormat
      let body := pFormat.add hdr
      let r : Except Fault MIDL_STUB_MESSAGE := (List.range rep).foldlM (fun s i =>
        let membase := pMemory + i * stride % 4294967296
        let bufbase := Mark + i * stride % 4294967296
        (List.range count).foldlM (fun s u =>
          let info := body.add (8 * (u : Int))
          let memptr := ptrAdd membase (info.SHORT 0)
          let bufptr := ptrAdd bufbase (info.SHORT 2)
          PointerMarshall NdrMarshaller s bufptr (load32 s.mem memptr) (info.add 4)) s) pStubMsg
      match r with
      | .error e => .error e
      | .ok s =>
        EmbeddedPointerMarshallLoop NdrMarshaller Mark pMemory fuel s (body.add (8 * (count : Int)))

/-- The function `EmbeddedPointerMarshall`. -/
def EmbeddedPointerMarshall (NdrMarshaller : Nat → Option NDR_MARSHALL) (fuel : Nat)
    (pStubMsg : MIDL_STUB_MESSAGE) (pMemory : Nat) (pFormat : PFORMAT_STRING) :
    Except Fault MIDL_STUB_MESSAGE :=
  if pFormat.byte 0 ≠ RPC_FC_PP then .ok pStubMsg
  else EmbeddedPointerMarshallLoop NdrMarshaller pStubMsg.BufferMark pMemory fuel pStubMsg
    (pFormat.add 2)

/-- The loop of `EmbeddedPointerUnmarshall` over the repeat groups, bounded by `fuel`. -/
def EmbeddedPointerUnmarshallLoop (NdrUnmarshaller : Nat → Option NDR_UNMARSHALL)
    (Mark pMemory : Nat) (fMustAlloc : Bool) :
    Nat → MIDL_STUB_MESSAGE → PFORMAT_STRING → Except Fault MIDL_STUB_MESSAGE
  | 0, _, _ => .error .out_of_fuel
  | fuel + 1, pStubMsg, pFormat =>
    if pFormat.byte 0 = RPC_FC_END then .ok pStubMsg
    else
      let (rep, stride, count, hdr) := repeatHeader pStubMsg pFormat
      let body := pFormat.add hdr
      let r : Except Fault MIDL_STUB_MESSAGE := (List.range rep).foldlM (fun s i =>
        let membase := pMemory + i * stride % 4294967296
        let bufbase := Mark + i * stride % 4294967296
        (List.range count).foldlM (fun s u =>
          let info := body.add (8 * (u : Int))
          let memptr := ptrAdd membase (info.SHORT 0)
          let bufptr := ptrAdd bufbase (info.SHORT 2)
          let s0 := { s with mem := store32 s.mem memptr 0 }
          match PointerUnmarshall NdrUnmarshaller s0 bufptr 0 (info.add 4) fMustAlloc with
          | Except.ok (s1, p) => Except.ok { s1 with mem := store32 s1.mem memptr p }
          | Except.error e => Except.error e) s) pStubMsg
      match r with
      | .error e => .error e
      | .ok s =>
        EmbeddedPointerUnmarshallLoop NdrUnmarshaller Mark pMemory fMustAlloc fuel s
          (body.add (8 * (count : Int)))

/-- The function `EmbeddedPointerUnmarshall`; `ppMemory` is the current `*ppMemory`, which
the function only reads. -/
def EmbeddedPointerUnmarshall (NdrUnmarshaller : Nat → Option NDR_UNMARSHALL) (fuel : Nat)
    (pStubMsg : MIDL_STUB_MESSAGE) (ppMemory : Nat) (pFormat : PFORMAT_STRING)
    (fMustAlloc : Bool) : Except Fault MIDL_STUB_MESSAGE :=
  if pFormat.byte 0 ≠ RPC_FC_PP then .ok pStubMsg
  else EmbeddedPointerUnmarshallLoop NdrUnmarshaller pStubMsg.BufferMark ppMemory fMustAlloc fuel
    pStubMsg (pFormat.add 2)

/-- The loop of `EmbeddedPointerBufferSize` over the repeat groups, bounded by `fuel`. -/
def EmbeddedPointerBufferSizeLoop (NdrBufferSizer : Nat → Option NDR_BUFFERSIZE) (pMemory : Nat) :
    Nat → MIDL_STUB_MESSAGE → PFORMAT_STRING → Except Fault MIDL_STUB_MESSAGE
  | 0, _, _ => .error .out_of_fuel
  | fuel + 1, pStubMsg, pFormat =>
    if pFormat.byte 0 = RPC_FC_END then .ok pStubMsg
    else
      let (rep, stride, count, hdr) := repeatHeader pStubMsg pFormat
      let body := pFormat.add hdr
      let r : Except Fault MIDL_STUB_MESSAGE := (List.range rep).foldlM (fun s i =>
        let membase := pMemory + i * stride % 4294967296
        (List.range count).foldlM (fun s u =>
          let info := body.add (8 * (u : Int))
          let memptr := ptrAdd membase (info.SHORT 0)
          PointerBufferSize NdrBufferSizer s (load32 s.mem memptr) (info.add 4)) s) pStubMsg
      match r with
      | .error e => .error e
      | .ok s =>
        EmbeddedPointerBufferSizeLoop NdrBufferSizer pMemory fuel s (body.add (8 * (count : Int)))

/-- The function `EmbeddedPointerBufferSize`. -/
def EmbeddedPointerBufferSize (NdrBufferSizer : Nat → Option NDR_BUFFERSIZE) (fuel : Nat)
    (pStubMsg : MIDL_STUB_MESSAGE) (pMemory : Nat) (pFormat : PFORMAT_STRING) :
    Except Fault MIDL_STUB_MESSAGE :=
  if pStubMsg.IgnoreEmbeddedPointers then .ok pStubMsg
  else if pFormat.byte 0 ≠ RPC_FC_PP then .ok pStubMsg
  else EmbeddedPointerBufferSizeLoop NdrBufferSizer pMemory fuel pStubMsg (pFormat.add 2)

/-- The function `NdrPointerMarshall`. -/
def NdrPointerMarshall (NdrMarshaller : Nat → Option NDR_MARSHALL) (pStubMsg : MIDL_STUB_MESSAGE)
    (pMemory : Nat) (pFormat : PFORMAT_STRING) : Except Fault MIDL_STUB_MESSAGE :=
  if pFormat.byte 0 ≠ RPC_FC_RP then
    let b := ALIGNED_LENGTH pStubMsg.Buffer 4
    PointerMarshall NdrMarshaller { pStubMsg with Buffer := b + 4 } b pMemory pFormat
  else PointerMarshall NdrMarshaller pStubMsg pStubMsg.Buffer pMemory pFormat

/-- The function `NdrPointerUnmarshall`; `ppMemory` is the current `*ppMemory`. -/
def NdrPointerUnmarshall (NdrUnmarshaller : Nat → Option NDR_UNMARSHALL)
    (pStubMsg : MIDL_STUB_MESSAGE) (ppMemory : Nat) (pFormat : PFORMAT_STRING)
    (fMustAlloc : Bool) : Except Fault (MIDL_STUB_MESSAGE × Nat) :=
  if pFormat.byte 0 ≠ RPC_FC_RP then
    let b := ALIGNED_LENGTH pStubMsg.Buffer 4
    PointerUnmarshall NdrUnmarshaller { pStubMsg with Buffer := b + 4 } b ppMemory pFormat
      fMustAlloc
  else PointerUnmarshall NdrUnmarshaller pStubMsg pStubMsg.Buffer ppMemory pFormat fMustAlloc

/-- The function `NdrPointerBufferSize`. -/
def NdrPointerBufferSize (NdrBufferSizer : Nat → Option NDR_BUFFERSIZE)
    (pStubMsg : MIDL_STUB_MESSAGE) (pMemory : Nat) (pFormat : PFORMAT_STRING) :
    Except Fault MIDL_STUB_MESSAGE :=
  if pFormat.byte 0 ≠ RPC_FC_RP then
    PointerBufferSize NdrBufferSizer
      { pStubMsg with
        BufferLength := (ALIGN_LENGTH pStubMsg.BufferLength 4 + 4) % 4294967296 }
      pMemory pFormat
  else PointerBufferSize NdrBufferSizer pStubMsg pMemory pFormat

/-! ## Freeing pointers -/

/-- Signature of a dispatch-table free operation. -/
abbrev NDR_FREE := MIDL_STUB_MESSAGE → Nat → PFORMAT_STRING → Except Fault MIDL_STUB_MESSAGE

/-- The function `NdrFree`: one call of the injected deallocator. -/
def NdrFree (pStubMsg : MIDL_STUB_MESSAGE) (Pointer : Nat) : MIDL_STUB_MESSAGE :=
  { pStubMsg with freed := Pointer :: pStubMsg.freed }

/-- The function `PointerFree`. -/
def PointerFree (NdrFreer : Nat → Option NDR_FREE) (pStubMsg : MIDL_STUB_MESSAGE)
    (Pointer : Nat) (pFormat : PFORMAT_STRING) : Except Fault MIDL_STUB_MESSAGE :=
  let attr := pFormat.byte 1
  if attr &&& RPC_FC_P_DONTFREE ≠ 0 then .ok pStubMsg
  else
    let desc := pointerDesc pFormat
    if Pointer = 0 then .ok pStubMsg
    else
      let referent :=
        if attr &&& RPC_FC_P_DEREF ≠ 0 then load32 pStubMsg.mem Pointer else Pointer
      let r : Except Fault MIDL_STUB_MESSAGE :=
        match NdrFreer (desc.byte 0 &&& NDR_TABLE_MASK) with
        | some m => m pStubMsg referent desc
        | none => .ok pStubMsg
      match r with
      | .error e => .error e
      | .ok s =>
        let t := desc.byte 0
        if (t = RPC_FC_C_CSTRING ∨ t = RPC_FC_C_WSTRING) ∧ s.ReuseBuffer = true then .ok s
        else if t = RPC_FC_IP then .ok s
        else if attr &&& RPC_FC_P_ONSTACK ≠ 0 then .ok s
        else .ok (NdrFree s referent)

/-- The loop of `EmbeddedPointerFree` over the repeat groups, bounded by `fuel`. -/
def EmbeddedPointerFreeLoop (NdrFreer : Nat → Option NDR_FREE) (pMemory : Nat) :
    Nat → MIDL_STUB_MESSAGE → PFORMAT_STRING → Except Fault MIDL_STUB_MESSAGE
  | 0, _, _ => .error .out_of_fuel
  | fuel + 1, pStubMsg, pFormat =>
    if pFormat.byte 0 = RPC_FC_END then .ok pStubMsg
    else
      let (rep, stride, count, hdr) := repeatHeader pStubMsg pFormat
      let body := pFormat.add hdr
      let r : Except Fault MIDL_STUB_MESSAGE := (List.range rep).foldlM (fun s i =>
        let membase := pMemory + i * stride % 4294967296
        (List.range count).foldlM (fun s u =>
          let info := body.add (8 * (u : Int))
          let memptr := ptrAdd membase (info.SHORT 0)
          PointerFree NdrFreer s (load32 s.mem memptr) (info.add 4)) s) pStubMsg
      match r with
      | .error e => .error e
      | .ok s => EmbeddedPointerFreeLoop NdrFreer pMemory fuel s (body.add (8 * (count : Int)))

/-- The function `EmbeddedPointerFree`. -/
def EmbeddedPointerFree (NdrFreer : Nat → Option NDR_FREE) (fuel : Nat)
    (pStubMsg : MIDL_STUB_MESSAGE) (pMemory : Nat) (pFormat : PFORMAT_STRING) :
    Except Fault MIDL_STUB_MESSAGE :=
  if pFormat.byte 0 ≠ RPC_FC_PP then .ok pStubMsg
  else EmbeddedPointerFreeLoop NdrFreer pMemory fuel pStubMsg (pFormat.add 2)

/-- The function `NdrPointerFree`. -/
def NdrPointerFree (NdrFreer : Nat → Option NDR_FREE) (pStubMsg : MIDL_STUB_MESSAGE)
    (pMemory : Nat) (pFormat : PFORMAT_STRING) : Except Fault MIDL_STUB_MESSAGE :=
  PointerFree NdrFreer pStubMsg pMemory pFormat

/-- The function `NdrBaseTypeFree`: nothing to do. -/
def NdrBaseTypeFree (pStubMsg : MIDL_STUB_MESSAGE) (_pMemory : Nat)
    (_pFormat : PFORMAT_STRING) : Except Fault MIDL_STUB_MESSAGE := .ok pStubMsg

/-! ## Conformance and variance resolution -/

/-- Sign extension of an 8-bit pattern to a C `CHAR`. -/
def toCHAR (b : Nat) : Int := if b % 256 < 128 then (b % 256 : Nat) else (b % 256 : Nat) - 256

/-- The data-type switch of `ComputeConformanceOrVariance`: the integer of the tagged width
and signedness at `ptr`, as a `DWORD`; `none` for an unknown tag (the jump to
`done_conf_grab` that keeps `data = 0`). -/
def corrTypedLoad (mem : MEMORY) (dtype ptr : Nat) : Option Nat :=
  if dtype = RPC_FC_LONG ∨ dtype = RPC_FC_ULONG then some (load32 mem ptr)
  else if dtype = RPC_FC_SHORT then some (toDWORD (toSHORT (load16 mem ptr)))
  else if dtype = RPC_FC_USHORT then some (load16 mem ptr)
  else if dtype = RPC_FC_SMALL then some (toDWORD (toCHAR (load8 mem ptr)))
  else if dtype = RPC_FC_USMALL then some (load8 mem ptr)
  else none

/-- The switch at the label `done_conf_grab` of `ComputeConformanceOrVariance`: `data` is
stored through `pCount` only when the operator byte is zero. -/
def corrGrab (pFormat : PFORMAT_STRING) (data : Nat) : Option Nat :=
  if pFormat.byte 1 = 0 then some data else none

/-- The operator and data-type switches of `ComputeConformanceOrVariance`, entered with the
base pointer `ptr` chosen by the conformance type: the new state and the value stored
through `pCount`, if any. -/
def corrResolve (StubDesc : MIDL_STUB_DESC) (pStubMsg : MIDL_STUB_MESSAGE)
    (pFormat : PFORMAT_STRING) (ptr : Nat) : MIDL_STUB_MESSAGE × Option Nat :=
  let dtype := pFormat.byte 0 &&& 0xf
  let ofs := pFormat.SHORT 2
  if pFormat.byte 1 = RPC_FC_CALLBACK then
    let s1 := StubDesc.apfnExprEval ofs { pStubMsg with StackTop := ptr }
    ({ s1 with StackTop := pStubMsg.StackTop }, none)
  else
    let p1 :=
      if pFormat.byte 1 = RPC_FC_DEREFERENCE then load32 pStubMsg.mem (ptrAdd ptr ofs)
      else ptrAdd ptr ofs
    (pStubMsg, corrGrab pFormat ((corrTypedLoad pStubMsg.mem dtype p1).getD 0))

/-- The body of `ComputeConformanceOrVariance` up to the label `finish_conf`: the new state
and the value stored through `pCount`, or `none` on the paths that leave `*pCount`
untouched. -/
def ComputeConformanceOrVarianceCount (StubDesc : MIDL_STUB_DESC)
    (pStubMsg : MIDL_STUB_MESSAGE) (pMemory : Nat) (pFormat : PFORMAT_STRING) (dflt : Nat) :
    MIDL_STUB_MESSAGE × Option Nat :=
  let ofs := pFormat.SHORT 2
  if !IsConformanceOrVariancePresent pFormat then (pStubMsg, some dflt)
  else
    let ctype := pFormat.byte 0 &&& 0xf0
    if ctype = RPC_FC_NORMAL_CONFORMANCE then corrResolve StubDesc pStubMsg pFormat pMemory
    else if ctype = RPC_FC_POINTER_CONFORMANCE then
      corrResolve StubDesc pStubMsg pFormat pStubMsg.Memory
    else if ctype = RPC_FC_TOP_LEVEL_CONFORMANCE then
      if pStubMsg.StackTop ≠ 0 then corrResolve StubDesc pStubMsg pFormat pStubMsg.StackTop
      else (pStubMsg, none)
    else if ctype = RPC_FC_CONSTANT_CONFORMANCE then
      (pStubMsg, some (toDWORD ofs ||| (pFormat.byte 1 <<< 16)))
    else if ctype = RPC_FC_TOP_LEVEL_MULTID_CONFORMANCE then
      if pStubMsg.StackTop ≠ 0 then corrResolve StubDesc pStubMsg pFormat pStubMsg.StackTop
      else (pStubMsg, corrGrab pFormat 0)
    else corrResolve StubDesc pStubMsg pFormat 0

/-- The function `ComputeConformanceOrVariance`: the body, then the return at `finish_conf`
of the format cursor advanced by the descriptor width. -/
def ComputeConformanceOrVariance (StubDesc : MIDL_STUB_DESC) (pStubMsg : MIDL_STUB_MESSAGE)
    (pMemory : Nat) (pFormat : PFORMAT_STRING) (dflt : Nat) :
    MIDL_STUB_MESSAGE × Option Nat × PFORMAT_STRING :=
  let r := ComputeConformanceOrVarianceCount StubDesc pStubMsg pMemory pFormat dflt
  (r.1, r.2, pFormat.add (corrDescStep r.1))

/-- Modelled from the spec: `ComputeConformance` is declared in `ndr_misc.h`, which is not
part of the excerpt.  The resolver of section 4.2 applied to the conformance: the resolved
count becomes `MaxCount`, the result is the advanced format cursor. -/
def ComputeConformance (StubDesc : MIDL_STUB_DESC) (pStubMsg : MIDL_STUB_MESSAGE)
    (pMemory : Nat) (pFormat : PFORMAT_STRING) (dflt : Nat) :
    MIDL_STUB_MESSAGE × PFORMAT_STRING :=
  let r := ComputeConformanceOrVariance StubDesc pStubMsg pMemory pFormat dflt
  match r.2.1 with
  | some c => ({ r.1 with MaxCount := c }, r.2.2)
  | none => (r.1, r.2.2)

/-- Modelled from the spec: `ComputeVariance` is declared in `ndr_misc.h`, which is not part
of the excerpt.  The resolver of section 4.2 applied to the variance: it produces the pair
`(Offset, ActualCount)` with `Offset = 0` and the resolved count as `ActualCount`. -/
def ComputeVariance (StubDesc : MIDL_STUB_DESC) (pStubMsg : MIDL_STUB_MESSAGE)
    (pMemory : Nat) (pFormat : PFORMAT_STRING) (dflt : Nat) :
    MIDL_STUB_MESSAGE × PFORMAT_STRING :=
  let r := ComputeConformanceOrVariance StubDesc { pStubMsg with Offset := 0 } pMemory pFormat dflt
  match r.2.1 with
  | some c => ({ r.1 with ActualCount := c }, r.2.2)
  | none => (r.1, r.2.2)

/-! ## Conformant arrays -/

/-- The function `NdrConformantArrayMarshall`. -/
def NdrConformantArrayMarshall (NdrMarshaller : Nat → Option NDR_MARSHALL)
    (StubDesc : MIDL_STUB_DESC) (fuel : Nat) (pStubMsg : MIDL_STUB_MESSAGE) (pMemory : Nat)
    (pFormat : PFORMAT_STRING) : Except Fault MIDL_STUB_MESSAGE :=
  let esize := pFormat.WORD 2
  let alignment := (pFormat.byte 1 + 1) % 256
  let c := ComputeConformance StubDesc pStubMsg pMemory (pFormat.add 4) 0
  let size := c.1.MaxCount % 4294967296
  let s1 := WriteConformance c.1
  let b := ALIGNED_LENGTH s1.Buffer alignment
  let s2 := { s1 with
    wire := memcpy s1.wire b s1.mem pMemory (size * esize % 4294967296)
    BufferMark := b
    Buffer := b + size * esize % 4294967296 }
  EmbeddedPointerMarshall NdrMarshaller fuel s2 pMemory c.2

/-- The function `NdrConformantArrayUnmarshall`; `ppMemory` is the current `*ppMemory`. -/
def NdrConformantArrayUnmarshall (NdrUnmarshaller : Nat → Option NDR_UNMARSHALL) (fuel : Nat)
    (pStubMsg : MIDL_STUB_MESSAGE) (ppMemory : Nat) (pFormat : PFORMAT_STRING)
    (fMustAlloc : Bool) : Except Fault (MIDL_STUB_MESSAGE × Nat) :=
  let esize := pFormat.WORD 2
  let alignment := (pFormat.byte 1 + 1) % 256
  let c := ReadConformance pStubMsg (some (pFormat.add 4))
  let size := c.1.MaxCount % 4294967296
  let a : MIDL_STUB_MESSAGE × Nat :=
    if fMustAlloc ∨ ppMemory = 0 then NdrAllocate c.1 (size * esize % 4294967296)
    else (c.1, ppMemory)
  let s1 := a.1
  let b := ALIGNED_LENGTH s1.Buffer alignment
  let s2 := { s1 with
    mem := memcpy s1.mem a.2 s1.wire b (size * esize % 4294967296)
    BufferMark := b
    Buffer := b + size * esize % 4294967296 }
  match c.2 with
  | none => .error .null_format_dereference
  | some f =>
    match EmbeddedPointerUnmarshall NdrUnmarshaller fuel s2 a.2 f fMustAlloc with
    | .ok s3 => .ok (s3, a.2)
    | .error e => .error e

/-- The function `NdrConformantArrayBufferSize`. -/
def NdrConformantArrayBufferSize (NdrBufferSizer : Nat → Option NDR_BUFFERSIZE)
    (StubDesc : MIDL_STUB_DESC) (fuel : Nat) (pStubMsg : MIDL_STUB_MESSAGE) (pMemory : Nat)
    (pFormat : PFORMAT_STRING) : Except Fault MIDL_STUB_MESSAGE :=
  let esize := pFormat.WORD 2
  let alignment := (pFormat.byte 1 + 1) % 256
  let c := ComputeConformance StubDesc pStubMsg pMemory (pFormat.add 4) 0
  let size := c.1.MaxCount % 4294967296
  let s1 := SizeConformance c.1
  let s2 := { s1 with
    BufferLength :=
      (ALIGN_LENGTH s1.BufferLength alignment + size * esize % 4294967296) % 4294967296 }
  EmbeddedPointerBufferSize NdrBufferSizer fuel s2 pMemory c.2

/-- The function `NdrConformantArrayMemorySize`. -/
def NdrConformantArrayMemorySize (pStubMsg : MIDL_STUB_MESSAGE) (pFormat : PFORMAT_STRING) :
    Except Fault (MIDL_STUB_MESSAGE × Nat) :=
  let esize := pFormat.WORD 2
  let c := ReadConformance pStubMsg (some (pFormat.add 4))
  let s := { c.1 with Buffer := pStubMsg.Buffer }
  .ok (s, (s.MaxCount % 4294967296) * esize % 4294967296)

/-- The function `NdrConformantArrayFree`. -/
def NdrConformantArrayFree (NdrFreer : Nat → Option NDR_FREE) (fuel : Nat)
    (pStubMsg : MIDL_STUB_MESSAGE) (pMemory : Nat) (pFormat : PFORMAT_STRING) :
    Except Fault MIDL_STUB_MESSAGE :=
  EmbeddedPointerFree NdrFreer fuel pStubMsg pMemory pFormat

/-! ## Conformant varying arrays -/

/-- The function `NdrConformantVaryingArrayMarshall`. -/
def NdrConformantVaryingArrayMarshall (NdrMarshaller : Nat → Option NDR_MARSHALL)
    (StubDesc : MIDL_STUB_DESC) (fuel : Nat) (pStubMsg : MIDL_STUB_MESSAGE) (pMemory : Nat)
    (pFormat : PFORMAT_STRING) : Except Fault MIDL_STUB_MESSAGE :=
  let alignment := (pFormat.byte 1 + 1) % 256
  let esize := pFormat.WORD 2
  if pFormat.byte 0 ≠ RPC_FC_CVARRAY then .error .RPC_S_INTERNAL_ERROR
  else
    let c := ComputeConformance StubDesc pStubMsg pMemory (pFormat.add 4) 0
    let v := ComputeVariance StubDesc c.1 pMemory c.2 0
    let s1 := WriteVariance (WriteConformance v.1)
    let b := ALIGNED_LENGTH s1.Buffer alignment
    let bytes := (s1.ActualCount % 4294967296) * esize % 4294967296
    let s2 := { s1 with
      wire := memcpy s1.wire b s1.mem (pMemory + s1.Offset % 4294967296) bytes
      BufferMark := b
      Buffer := b + bytes }
    EmbeddedPointerMarshall NdrMarshaller fuel s2 pMemory v.2

/-- The function `NdrConformantVaryingArrayUnmarshall`; `ppMemory` is the current
`*ppMemory`. -/
def NdrConformantVaryingArrayUnmarshall (NdrUnmarshaller : Nat → Option NDR_UNMARSHALL)
    (fuel : Nat) (pStubMsg : MIDL_STUB_MESSAGE) (ppMemory : Nat) (pFormat : PFORMAT_STRING)
    (fMustAlloc : Bool) : Except Fault (MIDL_STUB_MESSAGE × Nat) :=
  let alignment := (pFormat.byte 1 + 1) % 256
  let esize := pFormat.WORD 2
  if pFormat.byte 0 ≠ RPC_FC_CVARRAY then .error .RPC_S_INTERNAL_ERROR
  else
    let c := ReadConformance pStubMsg (some pFormat)
    let v := ReadVariance c.1 c.2
    let s1 := { v.1 with Buffer := ALIGNED_LENGTH v.1.Buffer alignment }
    let a : MIDL_STUB_MESSAGE × Nat :=
      if ppMemory = 0 ∨ fMustAlloc then
        NdrAllocate s1 ((s1.MaxCount % 4294967296) * esize % 4294967296)
      else (s1, ppMemory)
    let bytes := (a.1.ActualCount % 4294967296) * esize % 4294967296
    let s2 := { a.1 with
      mem := memcpy a.1.mem (a.2 + a.1.Offset % 4294967296) a.1.wire a.1.Buffer bytes
      Buffer := a.1.Buffer + bytes }
    match v.2 with
    | none => .error .null_format_dereference
    | some f =>
      match EmbeddedPointerUnmarshall NdrUnmarshaller fuel s2 a.2 f fMustAlloc with
      | .ok s3 => .ok (s3, a.2)
      | .error e => .error e

/-! ## Conformant structures -/

/-- The function `NdrConformantStructMarshall`, reading the header `NDR_CSTRUCT_FORMAT`:
type, alignment, `memory_size` and the signed `offset_to_array_description` at byte 4. -/
def NdrConformantStructMarshall (NdrMarshaller : Nat → Option NDR_MARSHALL)
    (StubDesc : MIDL_STUB_DESC) (fuel : Nat) (pStubMsg : MIDL_STUB_MESSAGE) (pMemory : Nat)
    (pFormat : PFORMAT_STRING) : Except Fault MIDL_STUB_MESSAGE :=
  let type := pFormat.byte 0
  let memory_size := pFormat.WORD 2
  let offset_to_array_description := pFormat.SHORT 4
  if type ≠ RPC_FC_CPSTRUCT ∧ type ≠ RPC_FC_CSTRUCT then .error .RPC_S_INTERNAL_ERROR
  else
    let b := ALIGNED_LENGTH pStubMsg.Buffer (pFormat.byte 1 + 1)
    let s1 := { pStubMsg with
      wire := memcpy pStubMsg.wire b pStubMsg.mem pMemory memory_size
      Buffer := b + memory_size }
    let r : Except Fault MIDL_STUB_MESSAGE :=
      if offset_to_array_description ≠ 0 then
        NdrConformantArrayMarshall NdrMarshaller StubDesc fuel s1 (pMemory + memory_size)
          ((pFormat.add 4).add offset_to_array_description)
      else .ok s1
    match r with
    | .error e => .error e
    | .ok s2 =>
      if type = RPC_FC_CPSTRUCT then
        EmbeddedPointerMarshall NdrMarshaller fuel s2 pMemory (pFormat.add 6)
      else .ok s2

/-- The function `NdrConformantStructUnmarshall`; `ppMemory` is the current `*ppMemory`. -/
def NdrConformantStructUnmarshall (NdrUnmarshaller : Nat → Option NDR_UNMARSHALL) (fuel : Nat)
    (pStubMsg : MIDL_STUB_MESSAGE) (ppMemory : Nat) (pFormat : PFORMAT_STRING)
    (fMustAlloc : Bool) : Except Fault (MIDL_STUB_MESSAGE × Nat) :=
  let type := pFormat.byte 0
  let memory_size := pFormat.WORD 2
  let offset_to_array_description := pFormat.SHORT 4
  let pArrayFormat := (pFormat.add 4).add offset_to_array_description
  if type ≠ RPC_FC_CPSTRUCT ∧ type ≠ RPC_FC_CSTRUCT then .error .RPC_S_INTERNAL_ERROR
  else
    let s0 := { pStubMsg with Buffer := ALIGNED_LENGTH pStubMsg.Buffer (pFormat.byte 1 + 1) }
    let a : Except Fault (MIDL_STUB_MESSAGE × Nat) :=
      if ppMemory = 0 ∨ fMustAlloc then
        let sized : Except Fault (MIDL_STUB_MESSAGE × Nat) :=
          if offset_to_array_description ≠ 0 then
            let buffer := s0.Buffer
            match NdrConformantArrayMemorySize { s0 with Buffer := s0.Buffer + memory_size }
                pArrayFormat with
            | .error e => .error e
            | .ok (s, n) => .ok ({ s with Buffer := buffer }, (memory_size + n) % 4294967296)
          else .ok (s0, memory_size)
        match sized with
        | .error e => .error e
        | .ok (s, size) => .ok (NdrAllocate s size)
      else .ok (s0, ppMemory)
    match a with
    | .error e => .error e
    | .ok (s1, p) =>
      let s2 := { s1 with
        mem := memcpy s1.mem p s1.wire s1.Buffer memory_size
        Buffer := s1.Buffer + memory_size }
      let r : Except Fault MIDL_STUB_MESSAGE :=
        if offset_to_array_description ≠ 0 then
          match NdrConformantArrayUnmarshall NdrUnmarshaller fuel s2 (p + memory_size)
              pArrayFormat false with
          | .error e => .error e
          | .ok (s, _) => .ok s
        else .ok s2
      match r with
      | .error e => .error e
      | .ok s3 =>
        if type = RPC_FC_CPSTRUCT then
          match EmbeddedPointerUnmarshall NdrUnmarshaller fuel s3 p (pFormat.add 6)
              fMustAlloc with
          | .error e => .error e
          | .ok s4 => .ok (s4, p)
        else .ok (s3, p)

/-- The function `NdrConformantStructBufferSize`. -/
def NdrConformantStructBufferSize (NdrBufferSizer : Nat → Option NDR_BUFFERSIZE)
    (StubDesc : MIDL_STUB_DESC) (fuel : Nat) (pStubMsg : MIDL_STUB_MESSAGE) (pMemory : Nat)
    (pFormat : PFORMAT_STRING) : Except Fault MIDL_STUB_MESSAGE :=
  let type := pFormat.byte 0
  let memory_size := pFormat.WORD 2
  let offset_to_array_description := pFormat.SHORT 4
  if type ≠ RPC_FC_CPSTRUCT ∧ type ≠ RPC_FC_CSTRUCT then .error .RPC_S_INTERNAL_ERROR
  else
    let s1 := { pStubMsg with
      BufferLength :=
        (ALIGN_LENGTH pStubMsg.BufferLength (pFormat.byte 1 + 1) + memory_size) % 4294967296 }
    let r : Except Fault MIDL_STUB_MESSAGE :=
      if offset_to_array_description ≠ 0 then
        NdrConformantArrayBufferSize NdrBufferSizer StubDesc fuel s1 (pMemory + memory_size)
          ((pFormat.add 4).add offset_to_array_description)
      else .ok s1
    match r with
    | .error e => .error e
    | .ok s2 =>
      if type = RPC_FC_CPSTRUCT then
        EmbeddedPointerBufferSize NdrBufferSizer fuel s2 pMemory (pFormat.add 6)
      else .ok s2

/-! ## Complex structures -/

/-- The function `EmbeddedComplexSize`. -/
def EmbeddedComplexSize (pStubMsg : MIDL_STUB_MESSAGE) (pFormat : PFORMAT_STRING) : Nat :=
  let t := pFormat.byte 0
  if t = RPC_FC_STRUCT ∨ t = RPC_FC_PSTRUCT ∨ t = RPC_FC_CSTRUCT ∨ t = RPC_FC_BOGUS_STRUCT then
    pFormat.WORD 2
  else if t = RPC_FC_USER_MARSHAL then pFormat.WORD 4
  else if t = RPC_FC_NON_ENCAPSULATED_UNION then
    let f := (pFormat.add 2).add (corrDescStep pStubMsg)
    toDWORD ((f.add (f.SHORT 0)).SHORT 0)
  else 0

/-- The function `EmbeddedComplexMemorySize`. -/
def EmbeddedComplexMemorySize (NdrMemorySizer : Nat → Option NDR_MEMORYSIZE)
    (pStubMsg : MIDL_STUB_MESSAGE) (pFormat : PFORMAT_STRING) :
    Except Fault (MIDL_STUB_MESSAGE × Nat) :=
  match NdrMemorySizer (pFormat.byte 0 &&& NDR_TABLE_MASK) with
  | none => .ok (pStubMsg, 0)
  | some m => m pStubMsg pFormat

/-- The function `ComplexMarshall`: the walk of the field stream, bounded by `fuel`; the
result carries the final memory cursor.  A `NULL` pointer-description stream is `none`. -/
def ComplexMarshall (NdrMarshaller : Nat → Option NDR_MARSHALL) :
    Nat → MIDL_STUB_MESSAGE → Nat → PFORMAT_STRING → Option PFORMAT_STRING →
      Except Fault (MIDL_STUB_MESSAGE × Nat)
  | 0, _, _, _, _ => .error .out_of_fuel
  | fuel + 1, pStubMsg, pMemory, pFormat, pPointer =>
    let t := pFormat.byte 0
    if t = RPC_FC_END then .ok (pStubMsg, pMemory)
    else if t = RPC_FC_SHORT ∨ t = RPC_FC_USHORT then
      ComplexMarshall NdrMarshaller fuel
        { pStubMsg with
          wire := memcpy pStubMsg.wire pStubMsg.Buffer pStubMsg.mem pMemory 2
          Buffer := pStubMsg.Buffer + 2 }
        (pMemory + 2) (pFormat.add 1) pPointer
    else if t = RPC_FC_LONG ∨ t = RPC_FC_ULONG ∨ t = RPC_FC_ENUM32 then
      ComplexMarshall NdrMarshaller fuel
        { pStubMsg with
          wire := memcpy pStubMsg.wire pStubMsg.Buffer pStubMsg.mem pMemory 4
          Buffer := pStubMsg.Buffer + 4 }
        (pMemory + 4) (pFormat.add 1) pPointer
    else if t = RPC_FC_POINTER then
      match pPointer with
      | none => .error .null_format_dereference
      | some pp =>
        match NdrPointerMarshall NdrMarshaller pStubMsg (load32 pStubMsg.mem pMemory) pp with
        | .error e => .error e
        | .ok s =>
          ComplexMarshall NdrMarshaller fuel s (pMemory + 4) (pFormat.add 1) (some (pp.add 4))
    else if t = RPC_FC_ALIGNM4 then
      ComplexMarshall NdrMarshaller fuel pStubMsg (ALIGNED_LENGTH pMemory 4) (pFormat.add 1)
        pPointer
    else if t = RPC_FC_ALIGNM8 then
      ComplexMarshall NdrMarshaller fuel pStubMsg (ALIGNED_LENGTH pMemory 8) (pFormat.add 1)
        pPointer
    else if t = RPC_FC_STRUCTPAD2 then
      ComplexMarshall NdrMarshaller fuel pStubMsg (pMemory + 2) (pFormat.add 1) pPointer
    else if t = RPC_FC_EMBEDDED_COMPLEX then
      let pMemory1 := pMemory + pFormat.byte 1
      let f := pFormat.add 2
      let desc := f.add (f.SHORT 0)
      let size := EmbeddedComplexSize pStubMsg desc
      let r : Except Fault MIDL_STUB_MESSAGE :=
        match NdrMarshaller (desc.byte 0 &&& NDR_TABLE_MASK) with
        | some m => m pStubMsg pMemory1 desc
        | none => .ok pStubMsg
      match r with
      | .error e => .error e
      | .ok s => ComplexMarshall NdrMarshaller fuel s (pMemory1 + size) (f.add 2) pPointer
    else
      -- `RPC_FC_PAD` and the unhandled opcodes
      ComplexMarshall NdrMarshaller fuel pStubMsg pMemory (pFormat.add 1) pPointer

/-- The function `ComplexUnmarshall`: the mirrored walk, bounded by `fuel`. -/
def ComplexUnmarshall (NdrUnmarshaller : Nat → Option NDR_UNMARSHALL) (fMustAlloc : Bool) :
    Nat → MIDL_STUB_MESSAGE → Nat → PFORMAT_STRING → Option PFORMAT_STRING →
      Except Fault (MIDL_STUB_MESSAGE × Nat)
  | 0, _, _, _, _ => .error .out_of_fuel
  | fuel + 1, pStubMsg, pMemory, pFormat, pPointer =>
    let t := pFormat.byte 0
    if t = RPC_FC_END then .ok (pStubMsg, pMemory)
    else if t = RPC_FC_SHORT ∨ t = RPC_FC_USHORT then
      ComplexUnmarshall NdrUnmarshaller fMustAlloc fuel
        { pStubMsg with
          mem := memcpy pStubMsg.mem pMemory pStubMsg.wire pStubMsg.Buffer 2
          Buffer := pStubMsg.Buffer + 2 }
        (pMemory + 2) (pFormat.add 1) pPointer
    else if t = RPC_FC_LONG ∨ t = RPC_FC_ULONG ∨ t = RPC_FC_ENUM32 then
      ComplexUnmarshall NdrUnmarshaller fMustAlloc fuel
        { pStubMsg with
          mem := memcpy pStubMsg.mem pMemory pStubMsg.wire pStubMsg.Buffer 4
          Buffer := pStubMsg.Buffer + 4 }
        (pMemory + 4) (pFormat.add 1) pPointer
    else if t = RPC_FC_POINTER then
      let s0 := { pStubMsg with mem := store32 pStubMsg.mem pMemory 0 }
      match pPointer with
      | none => .error .null_format_dereference
      | some pp =>
        match NdrPointerUnmarshall NdrUnmarshaller s0 (load32 s0.mem pMemory) pp fMustAlloc with
        | .error e => .error e
        | .ok (s, p) =>
          ComplexUnmarshall NdrUnmarshaller fMustAlloc fuel
            { s with mem := store32 s.mem pMemory p } (pMemory + 4) (pFormat.add 1)
            (some (pp.add 4))
    else if t = RPC_FC_ALIGNM4 then
      ComplexUnmarshall NdrUnmarshaller fMustAlloc fuel pStubMsg (ALIGNED_LENGTH pMemory 4)
        (pFormat.add 1) pPointer
    else if t = RPC_FC_ALIGNM8 then
      ComplexUnmarshall NdrUnmarshaller fMustAlloc fuel pStubMsg (ALIGNED_LENGTH pMemory 8)
        (pFormat.add 1) pPointer
    else if t = RPC_FC_STRUCTPAD2 then
      ComplexUnmarshall NdrUnmarshaller fMustAlloc fuel pStubMsg (pMemory + 2) (pFormat.add 1)
        pPointer
    else if t = RPC_FC_EMBEDDED_COMPLEX then
      let pMemory1 := pMemory + pFormat.byte 1
      let f := pFormat.add 2
      let desc := f.add (f.SHORT 0)
      let size := EmbeddedComplexSize pStubMsg desc
      let s0 := { pStubMsg with mem := memset pStubMsg.mem pMemory1 0 size }
      let r : Except Fault (MIDL_STUB_MESSAGE × Nat) :=
        match NdrUnmarshaller (desc.byte 0 &&& NDR_TABLE_MASK) with
        | some m => m s0 pMemory1 desc fMustAlloc
        | none => .ok (s0, pMemory1)
      match r with
      | .error e => .error e
      | .ok (s, p) =>
        ComplexUnmarshall NdrUnmarshaller fMustAlloc fuel s (p + size) (f.add 2) pPointer
    else
      -- `RPC_FC_PAD` and the unhandled opcodes
      ComplexUnmarshall NdrUnmarshaller fMustAlloc fuel pStubMsg pMemory (pFormat.add 1) pPointer

/-- The loop of `ComplexStructMemorySize` over the field stream, bounded by `fuel`; `size` is
the running total. -/
def ComplexStructMemorySizeLoop (NdrMemorySizer : Nat → Option NDR_MEMORYSIZE) :
    Nat → MIDL_STUB_MESSAGE → PFORMAT_STRING → Nat → Except Fault (MIDL_STUB_MESSAGE × Nat)
  | 0, _, _, _ => .error .out_of_fuel
  | fuel + 1, pStubMsg, pFormat, size =>
    let t := pFormat.byte 0
    if t = RPC_FC_END then .ok (pStubMsg, size)
    else if t = RPC_FC_SHORT ∨ t = RPC_FC_USHORT then
      ComplexStructMemorySizeLoop NdrMemorySizer fuel
        { pStubMsg with Buffer := pStubMsg.Buffer + 2 } (pFormat.add 1) (size + 2)
    else if t = RPC_FC_LONG ∨ t = RPC_FC_ULONG then
      ComplexStructMemorySizeLoop NdrMemorySizer fuel
        { pStubMsg with Buffer := pStubMsg.Buffer + 4 } (pFormat.add 1) (size + 4)
    else if t = RPC_FC_POINTER then
      ComplexStructMemorySizeLoop NdrMemorySizer fuel
        { pStubMsg with Buffer := pStubMsg.Buffer + 4 } (pFormat.add 1) (size + 4)
    else if t = RPC_FC_ALIGNM4 then
      ComplexStructMemorySizeLoop NdrMemorySizer fuel
        { pStubMsg with Buffer := ALIGNED_LENGTH pStubMsg.Buffer 4 } (pFormat.add 1)
        (ALIGNED_LENGTH size 4)
    else if t = RPC_FC_ALIGNM8 then
      ComplexStructMemorySizeLoop NdrMemorySizer fuel
        { pStubMsg with Buffer := ALIGNED_LENGTH pStubMsg.Buffer 8 } (pFormat.add 1)
        (ALIGNED_LENGTH size 8)
    else if t = RPC_FC_STRUCTPAD2 then
      ComplexStructMemorySizeLoop NdrMemorySizer fuel
        { pStubMsg with Buffer := pStubMsg.Buffer + 2 } (pFormat.add 1) (size + 2)
    else if t = RPC_FC_EMBEDDED_COMPLEX then
      let f := pFormat.add 2
      let desc := f.add (f.SHORT 0)
      match EmbeddedComplexMemorySize NdrMemorySizer pStubMsg desc with
      | .error e => .error e
      | .ok (s, n) =>
        ComplexStructMemorySizeLoop NdrMemorySizer fuel s (f.add 2) (size + pFormat.byte 1 + n)
    else
      -- `RPC_FC_PAD` and the unhandled opcodes
      ComplexStructMemorySizeLoop NdrMemorySizer fuel pStubMsg (pFormat.add 1) size

/-- The function `ComplexStructMemorySize`: the dry run over the field stream. -/
def ComplexStructMemorySize (NdrMemorySizer : Nat → Option NDR_MEMORYSIZE) (fuel : Nat)
    (pStubMsg : MIDL_STUB_MESSAGE) (pFormat : PFORMAT_STRING) :
    Except Fault (MIDL_STUB_MESSAGE × Nat) :=
  ComplexStructMemorySizeLoop NdrMemorySizer fuel pStubMsg pFormat 0

/-- The function `ComplexBufferSize`: the walk of the field stream that adds up the buffer
space, bounded by `fuel`. -/
def ComplexBufferSize (NdrBufferSizer : Nat → Option NDR_BUFFERSIZE) :
    Nat → MIDL_STUB_MESSAGE → Nat → PFORMAT_STRING → Option PFORMAT_STRING →
      Except Fault (MIDL_STUB_MESSAGE × Nat)
  | 0, _, _, _, _ => .error .out_of_fuel
  | fuel + 1, pStubMsg, pMemory, pFormat, pPointer =>
    let t := pFormat.byte 0
    if t = RPC_FC_END then .ok (pStubMsg, pMemory)
    else if t = RPC_FC_SHORT ∨ t = RPC_FC_USHORT then
      ComplexBufferSize NdrBufferSizer fuel
        { pStubMsg with BufferLength := (pStubMsg.BufferLength + 2) % 4294967296 }
        (pMemory + 2) (pFormat.add 1) pPointer
    else if t = RPC_FC_LONG ∨ t = RPC_FC_ULONG ∨ t = RPC_FC_ENUM32 then
      ComplexBufferSize NdrBufferSizer fuel
        { pStubMsg with BufferLength := (pStubMsg.BufferLength + 4) % 4294967296 }
        (pMemory + 4) (pFormat.add 1) pPointer
    else if t = RPC_FC_POINTER then
      match pPointer with
      | none => .error .null_format_dereference
      | some pp =>
        match NdrPointerBufferSize NdrBufferSizer pStubMsg (load32 pStubMsg.mem pMemory)
            pp with
        | .error e => .error e
        | .ok s =>
          ComplexBufferSize NdrBufferSizer fuel s (pMemory + 4) (pFormat.add 1)
            (some (pp.add 4))
    else if t = RPC_FC_ALIGNM4 then
      ComplexBufferSize NdrBufferSizer fuel pStubMsg (ALIGNED_LENGTH pMemory 4) (pFormat.add 1)
        pPointer
    else if t = RPC_FC_ALIGNM8 then
      ComplexBufferSize NdrBufferSizer fuel pStubMsg (ALIGNED_LENGTH pMemory 8) (pFormat.add 1)
        pPointer
    else if t = RPC_FC_STRUCTPAD2 then
      ComplexBufferSize NdrBufferSizer fuel pStubMsg (pMemory + 2) (pFormat.add 1) pPointer
    else if t = RPC_FC_EMBEDDED_COMPLEX then
      let pMemory1 := pMemory + pFormat.byte 1
      let f := pFormat.add 2
      let desc := f.add (f.SHORT 0)
      let size := EmbeddedComplexSize pStubMsg desc
      let r : Except Fault MIDL_STUB_MESSAGE :=
        match NdrBufferSizer (desc.byte 0 &&& NDR_TABLE_MASK) with
        | some m => m pStubMsg pMemory1 desc
        | none => .ok pStubMsg
      match r with
      | .error e => .error e
      | .ok s => ComplexBufferSize NdrBufferSizer fuel s (pMemory1 + size) (f.add 2) pPointer
    else
      -- `RPC_FC_PAD` and the unhandled opcodes
      ComplexBufferSize NdrBufferSizer fuel pStubMsg pMemory (pFormat.add 1) pPointer

/-- The function `ComplexFree`: the walk of the field stream that frees the pointer fields,
bounded by `fuel`. -/
def ComplexFree (NdrFreer : Nat → Option NDR_FREE) :
    Nat → MIDL_STUB_MESSAGE → Nat → PFORMAT_STRING → Option PFORMAT_STRING →
      Except Fault (MIDL_STUB_MESSAGE × Nat)
  | 0, _, _, _, _ => .error .out_of_fuel
  | fuel + 1, pStubMsg, pMemory, pFormat, pPointer =>
    let t := pFormat.byte 0
    if t = RPC_FC_END then .ok (pStubMsg, pMemory)
    else if t = RPC_FC_SHORT ∨ t = RPC_FC_USHORT then
      ComplexFree NdrFreer fuel pStubMsg (pMemory + 2) (pFormat.add 1) pPointer
    else if t = RPC_FC_LONG ∨ t = RPC_FC_ULONG ∨ t = RPC_FC_ENUM32 then
      ComplexFree NdrFreer fuel pStubMsg (pMemory + 4) (pFormat.add 1) pPointer
    else if t = RPC_FC_POINTER then
      match pPointer with
      | none => .error .null_format_dereference
      | some pp =>
        match NdrPointerFree NdrFreer pStubMsg (load32 pStubMsg.mem pMemory) pp with
        | .error e => .error e
        | .ok s => ComplexFree NdrFreer fuel s (pMemory + 4) (pFormat.add 1) (some (pp.add 4))
    else if t = RPC_FC_ALIGNM4 then
      ComplexFree NdrFreer fuel pStubMsg (ALIGNED_LENGTH pMemory 4) (pFormat.add 1) pPointer
    else if t = RPC_FC_ALIGNM8 then
      ComplexFree NdrFreer fuel pStubMsg (ALIGNED_LENGTH pMemory 8) (pFormat.add 1) pPointer
    else if t = RPC_FC_STRUCTPAD2 then
      ComplexFree NdrFreer fuel pStubMsg (pMemory + 2) (pFormat.add 1) pPointer
    else if t = RPC_FC_EMBEDDED_COMPLEX then
      let pMemory1 := pMemory + pFormat.byte 1
      let f := pFormat.add 2
      let desc := f.add (f.SHORT 0)
      let size := EmbeddedComplexSize pStubMsg desc
      let r : Except Fault MIDL_STUB_MESSAGE :=
        match NdrFreer (desc.byte 0 &&& NDR_TABLE_MASK) with
        | some m => m pStubMsg pMemory1 desc
        | none => .ok pStubMsg
      match r with
      | .error e => .error e
      | .ok s => ComplexFree NdrFreer fuel s (pMemory1 + size) (f.add 2) pPointer
    else
      -- `RPC_FC_PAD` and the unhandled opcodes
      ComplexFree NdrFreer fuel pStubMsg pMemory (pFormat.add 1) pPointer

/-- The header words of a complex structure description at `pFormat + 4` and `pFormat + 6`:
the conformant-array and pointer-layout descriptions, `none` for a zero word. -/
def complexStructHeader (pFormat : PFORMAT_STRING) :
    Option PFORMAT_STRING × Option PFORMAT_STRING :=
  let f4 := pFormat.add 4
  let f6 := f4.add 2
  (if f4.WORD 0 ≠ 0 then some (f4.add (f4.WORD 0)) else none,
   if f6.WORD 0 ≠ 0 then some (f6.add (f6.WORD 0)) else none)

/-- The function `NdrComplexStructMarshall`. -/
def NdrComplexStructMarshall (NdrMarshaller : Nat → Option NDR_MARSHALL)
    (StubDesc : MIDL_STUB_DESC) (fuel : Nat) (pStubMsg : MIDL_STUB_MESSAGE) (pMemory : Nat)
    (pFormat : PFORMAT_STRING) : Except Fault MIDL_STUB_MESSAGE :=
  let OldMemory := pStubMsg.Memory
  let s0 := { pStubMsg with
    Buffer := ALIGNED_LENGTH pStubMsg.Buffer (pFormat.byte 1 + 1)
    Memory := pMemory }
  let conf_array := (complexStructHeader pFormat).1
  let pointer_desc := (complexStructHeader pFormat).2
  match ComplexMarshall NdrMarshaller fuel s0 pMemory (pFormat.add 8) pointer_desc with
  | .error e => .error e
  | .ok (s1, _) =>
    let r : Except Fault MIDL_STUB_MESSAGE :=
      match conf_array with
      | some ca => NdrConformantArrayMarshall NdrMarshaller StubDesc fuel s1 pMemory ca
      | none => .ok s1
    match r with
    | .error e => .error e
    | .ok s2 => .ok { s2 with Memory := OldMemory }

/-- The function `NdrComplexStructUnmarshall`; `ppMemory` is the current `*ppMemory`. -/
def NdrComplexStructUnmarshall (NdrUnmarshaller : Nat → Option NDR_UNMARSHALL) (fuel : Nat)
    (pStubMsg : MIDL_STUB_MESSAGE) (ppMemory : Nat) (pFormat : PFORMAT_STRING)
    (fMustAlloc : Bool) : Except Fault (MIDL_STUB_MESSAGE × Nat) :=
  let size := pFormat.WORD 2
  let s0 := { pStubMsg with Buffer := ALIGNED_LENGTH pStubMsg.Buffer (pFormat.byte 1 + 1) }
  let a : MIDL_STUB_MESSAGE × Nat :=
    if fMustAlloc ∨ ppMemory = 0 then
      let r := NdrAllocate s0 size
      ({ r.1 with mem := memset r.1.mem r.2 0 size }, r.2)
    else (s0, ppMemory)
  let conf_array := (complexStructHeader pFormat).1
  let pointer_desc := (complexStructHeader pFormat).2
  match ComplexUnmarshall NdrUnmarshaller fMustAlloc fuel a.1 a.2 (pFormat.add 8) pointer_desc with
  | .error e => .error e
  | .ok (s1, pMemory) =>
    match conf_array with
    | some ca =>
      match NdrConformantArrayUnmarshall NdrUnmarshaller fuel s1 pMemory ca fMustAlloc with
      | .error e => .error e
      | .ok (s2, _) => .ok (s2, a.2)
    | none => .ok (s1, a.2)

/-- The function `NdrComplexStructBufferSize`. -/
def NdrComplexStructBufferSize (NdrBufferSizer : Nat → Option NDR_BUFFERSIZE)
    (StubDesc : MIDL_STUB_DESC) (fuel : Nat) (pStubMsg : MIDL_STUB_MESSAGE) (pMemory : Nat)
    (pFormat : PFORMAT_STRING) : Except Fault MIDL_STUB_MESSAGE :=
  let OldMemory := pStubMsg.Memory
  let s0 := { pStubMsg with
    BufferLength := ALIGN_LENGTH pStubMsg.BufferLength (pFormat.byte 1 + 1)
    Memory := pMemory }
  let conf_array := (complexStructHeader pFormat).1
  let pointer_desc := (complexStructHeader pFormat).2
  match ComplexBufferSize NdrBufferSizer fuel s0 pMemory (pFormat.add 8) pointer_desc with
  | .error e => .error e
  | .ok (s1, p) =>
    let r : Except Fault MIDL_STUB_MESSAGE :=
      match conf_array with
      | some ca => NdrConformantArrayBufferSize NdrBufferSizer StubDesc fuel s1 p ca
      | none => .ok s1
    match r with
    | .error e => .error e
    | .ok s2 => .ok { s2 with Memory := OldMemory }

/-- The function `NdrComplexStructFree`. -/
def NdrComplexStructFree (NdrFreer : Nat → Option NDR_FREE) (fuel : Nat)
    (pStubMsg : MIDL_STUB_MESSAGE) (pMemory : Nat) (pFormat : PFORMAT_STRING) :
    Except Fault MIDL_STUB_MESSAGE :=
  let OldMemory := pStubMsg.Memory
  let s0 := { pStubMsg with Memory := pMemory }
  let conf_array := (complexStructHeader pFormat).1
  let pointer_desc := (complexStructHeader pFormat).2
  match ComplexFree NdrFreer fuel s0 pMemory (pFormat.add 8) pointer_desc with
  | .error e => .error e
  | .ok (s1, p) =>
    let r : Except Fault MIDL_STUB_MESSAGE :=
      match conf_array with
      | some ca => NdrConformantArrayFree NdrFreer fuel s1 p ca
      | none => .ok s1
    match r with
    | .error e => .error e
    | .ok s2 => .ok { s2 with Memory := OldMemory }

/-! ## Complex arrays -/

/-- The element loop of `NdrComplexArrayMarshall`: `count` calls of `ComplexMarshall`, each
continuing at the memory cursor the previous one returned. -/
def ComplexMarshallElements (NdrMarshaller : Nat → Option NDR_MARSHALL) (fuel : Nat)
    (pFormat : PFORMAT_STRING) :
    Nat → MIDL_STUB_MESSAGE → Nat → Except Fault (MIDL_STUB_MESSAGE × Nat)
  | 0, pStubMsg, pMemory => .ok (pStubMsg, pMemory)
  | count + 1, pStubMsg, pMemory =>
    match ComplexMarshall NdrMarshaller fuel pStubMsg pMemory pFormat none with
    | .error e => .error e
    | .ok (s, p) => ComplexMarshallElements NdrMarshaller fuel pFormat count s p

/-- The element loop of `NdrComplexArrayUnmarshall`. -/
def ComplexUnmarshallElements (NdrUnmarshaller : Nat → Option NDR_UNMARSHALL)
    (fMustAlloc : Bool) (fuel : Nat) (pFormat : PFORMAT_STRING) :
    Nat → MIDL_STUB_MESSAGE → Nat → Except Fault (MIDL_STUB_MESSAGE × Nat)
  | 0, pStubMsg, pMemory => .ok (pStubMsg, pMemory)
  | count + 1, pStubMsg, pMemory =>
    match ComplexUnmarshall NdrUnmarshaller fMustAlloc fuel pStubMsg pMemory pFormat none with
    | .error e => .error e
    | .ok (s, p) => ComplexUnmarshallElements NdrUnmarshaller fMustAlloc fuel pFormat count s p

/-- The function `NdrComplexArrayMarshall`. -/
def NdrComplexArrayMarshall (NdrMarshaller : Nat → Option NDR_MARSHALL)
    (StubDesc : MIDL_STUB_DESC) (fuel : Nat) (pStubMsg : MIDL_STUB_MESSAGE) (pMemory : Nat)
    (pFormat : PFORMAT_STRING) : Except Fault MIDL_STUB_MESSAGE :=
  if pFormat.byte 0 ≠ RPC_FC_BOGUS_ARRAY then .error .RPC_S_INTERNAL_ERROR
  else
    let alignment := (pFormat.byte 1 + 1) % 256
    let dflt := pFormat.WORD 2
    let c := ComputeConformance StubDesc pStubMsg pMemory (pFormat.add 4) dflt
    let variance_present := IsConformanceOrVariancePresent c.2
    let v := ComputeVariance StubDesc c.1 pMemory c.2 c.1.MaxCount
    let s1 := WriteConformance v.1
    let s2 := if variance_present then WriteVariance s1 else s1
    let s3 := { s2 with Buffer := ALIGNED_LENGTH s2.Buffer alignment }
    let count := s3.ActualCount % 4294967296
    match ComplexMarshallElements NdrMarshaller fuel v.2 count s3 pMemory with
    | .error e => .error e
    | .ok (s4, _) => .ok s4

/-- The function `NdrComplexArrayUnmarshall`; `ppMemory` is the current `*ppMemory`. -/
def NdrComplexArrayUnmarshall (NdrUnmarshaller : Nat → Option NDR_UNMARSHALL)
    (NdrMemorySizer : Nat → Option NDR_MEMORYSIZE) (fuel : Nat) (pStubMsg : MIDL_STUB_MESSAGE)
    (ppMemory : Nat) (pFormat : PFORMAT_STRING) (fMustAlloc : Bool) :
    Except Fault (MIDL_STUB_MESSAGE × Nat) :=
  if pFormat.byte 0 ≠ RPC_FC_BOGUS_ARRAY then .error .RPC_S_INTERNAL_ERROR
  else
    let alignment := (pFormat.byte 1 + 1) % 256
    let c := ReadConformance pStubMsg (some (pFormat.add 4))
    let v := ReadVariance c.1 c.2
    match v.2 with
    | none => .error .null_format_dereference
    | some f =>
      match ComplexStructMemorySize NdrMemorySizer fuel v.1 f with
      | .error e => .error e
      | .ok (m, esize) =>
        let s1 := { m with Buffer := v.1.Buffer }
        let bytes := (s1.MaxCount % 4294967296) * (esize % 4294967296) % 4294967296
        let a : MIDL_STUB_MESSAGE × Nat :=
          if fMustAlloc ∨ ppMemory = 0 then
            let r := NdrAllocate s1 bytes
            ({ r.1 with mem := memset r.1.mem r.2 0 bytes }, r.2)
          else (s1, ppMemory)
        let s2 := { a.1 with Buffer := ALIGNED_LENGTH a.1.Buffer alignment }
        let count := s2.ActualCount % 4294967296
        match ComplexUnmarshallElements NdrUnmarshaller fMustAlloc fuel f count s2 a.2 with
        | .error e => .error e
        | .ok (s3, _) => .ok (s3, a.2)

/-! ## Non-encapsulated unions -/

/-- The arm scan of `get_arm_offset_from_union_arm_selector`: at most `n` entries are
compared; the result tells whether an entry matched (the loop left by `break`) and the format
cursor reached. -/
def armScan (discriminant : Nat) : Nat → PFORMAT_STRING → Bool × PFORMAT_STRING
  | 0, pFormat => (false, pFormat)
  | n + 1, pFormat =>
    if discriminant = pFormat.ULONG 0 then (true, pFormat.add 4)
    else armScan discriminant n (pFormat.add 6)

/-- The function `get_arm_offset_from_union_arm_selector`; `NULL` is `none`. -/
def get_arm_offset_from_union_arm_selector (_pStubMsg : MIDL_STUB_MESSAGE) (discriminant : Nat)
    (pFormat : PFORMAT_STRING) : Option PFORMAT_STRING :=
  let num_arms := pFormat.WORD 0 &&& 0x0fff
  let r := armScan discriminant num_arms (pFormat.add 2)
  let type := r.2.WORD 0
  if !r.1 then
    if type = 0xffff then none
    else if type = 0 then none
    else some r.2
  else some r.2

/-- The function `get_non_encapsulated_union_arm`.  The local `value` is read although the
resolver has paths that do not store it; such a read ends the modelled call. -/
def get_non_encapsulated_union_arm (StubDesc : MIDL_STUB_DESC) (pStubMsg : MIDL_STUB_MESSAGE)
    (pMemory : Nat) (pFormat : PFORMAT_STRING) :
    Except Fault (MIDL_STUB_MESSAGE × Option PFORMAT_STRING) :=
  let r := ComputeConformanceOrVariance StubDesc pStubMsg pMemory pFormat 0
  match r.2.1 with
  | none => .error .uninitialized_read
  | some value =>
    let f := (r.2.2.add (r.2.2.SHORT 0)).add 2
    .ok (r.1, get_arm_offset_from_union_arm_selector r.1 value f)

/-- The function `get_conformance_address`; `NULL` is `0`. -/
def get_conformance_address (_pStubMsg : MIDL_STUB_MESSAGE) (pMemory : Nat)
    (pFormat : PFORMAT_STRING) : Nat :=
  let ofs := pFormat.SHORT 2
  if pFormat.byte 0 &&& 0xf0 = RPC_FC_NORMAL_CONFORMANCE then
    if pFormat.byte 1 ≠ 0 then 0 else ptrAdd pMemory ofs
  else 0

/-- The test of the union operations for a pointer description. -/
def isPointerTag (t : Nat) : Bool :=
  t = RPC_FC_RP || t = RPC_FC_UP || t = RPC_FC_OP || t = RPC_FC_FP

/-- The function `NdrNonEncapsulatedUnionMarshall`. -/
def NdrNonEncapsulatedUnionMarshall (NdrMarshaller : Nat → Option NDR_MARSHALL)
    (StubDesc : MIDL_STUB_DESC) (pStubMsg : MIDL_STUB_MESSAGE) (pMemory : Nat)
    (pFormat : PFORMAT_STRING) : Except Fault MIDL_STUB_MESSAGE :=
  let f1 := pFormat.add 1
  let discriminant := get_conformance_address pStubMsg pMemory (f1.add 1)
  match NdrBaseTypeMarshall pStubMsg discriminant f1 with
  | .error e => .error e
  | .ok s1 =>
    match get_non_encapsulated_union_arm StubDesc s1 pMemory (f1.add 1) with
    | .error e => .error e
    | .ok (s2, none) => .ok s2
    | .ok (s2, some arm) =>
      let type := arm.WORD 0
      if type &&& 0xff00 = 0x8000 then NdrBaseTypeMarshallTag s2 pMemory (type % 256)
      else
        let desc := arm.add (arm.SHORT 0)
        match NdrMarshaller (desc.byte 0 &&& NDR_TABLE_MASK) with
        | some m =>
          if isPointerTag (desc.byte 0) then
            PointerMarshall NdrMarshaller { s2 with Buffer := s2.Buffer + 4 } s2.Buffer
              (load32 s2.mem pMemory) desc
          else m s2 pMemory desc
        | none => .ok s2

/-- The function `unmarshall_discriminant`: the discriminant read, the new state and the
advanced format cursor. -/
def unmarshall_discriminant (pStubMsg : MIDL_STUB_MESSAGE) (pFormat : PFORMAT_STRING) :
    Nat × MIDL_STUB_MESSAGE × PFORMAT_STRING :=
  let t := pFormat.byte 0
  let next := (pFormat.add 1).add (corrDescStep pStubMsg)
  if t = RPC_FC_BYTE ∨ t = RPC_FC_CHAR ∨ t = RPC_FC_SMALL ∨ t = RPC_FC_USMALL then
    (load8 pStubMsg.wire pStubMsg.Buffer, { pStubMsg with Buffer := pStubMsg.Buffer + 1 }, next)
  else if t = RPC_FC_WCHAR ∨ t = RPC_FC_SHORT ∨ t = RPC_FC_USHORT then
    let b := ALIGNED_LENGTH pStubMsg.Buffer 2
    (load16 pStubMsg.wire b, { pStubMsg with Buffer := b + 2 }, next)
  else if t = RPC_FC_LONG ∨ t = RPC_FC_ULONG then
    let b := ALIGNED_LENGTH pStubMsg.Buffer 4
    (load32 pStubMsg.wire b, { pStubMsg with Buffer := b + 4 }, next)
  else (0, pStubMsg, next)

/-- The function `NdrNonEncapsulatedUnionUnmarshall`; `ppMemory` is the current
`*ppMemory`. -/
def NdrNonEncapsulatedUnionUnmarshall (NdrUnmarshaller : Nat → Option NDR_UNMARSHALL)
    (pStubMsg : MIDL_STUB_MESSAGE) (ppMemory : Nat) (pFormat : PFORMAT_STRING)
    (fMustAlloc : Bool) : Except Fault (MIDL_STUB_MESSAGE × Nat) :=
  let d := unmarshall_discriminant pStubMsg (pFormat.add 1)
  let s1 := d.2.1
  let f := d.2.2.add (d.2.2.SHORT 0)
  let size := f.WORD 0
  match get_arm_offset_from_union_arm_selector s1 d.1 (f.add 2) with
  | none => .ok (s1, ppMemory)
  | some arm =>
    let a : MIDL_STUB_MESSAGE × Nat :=
      if ppMemory = 0 ∨ fMustAlloc then NdrAllocate s1 size else (s1, ppMemory)
    let type := arm.WORD 0
    if type &&& 0xff00 = 0x8000 then NdrBaseTypeUnmarshallTag a.1 a.2 (type % 256) fMustAlloc
    else
      let desc := arm.add (arm.SHORT 0)
      match NdrUnmarshaller (desc.byte 0 &&& NDR_TABLE_MASK) with
      | some m =>
        if isPointerTag (desc.byte 0) then
          let s2 := { a.1 with mem := store32 a.1.mem a.2 0 }
          let b := ALIGNED_LENGTH s2.Buffer 4
          match PointerUnmarshall NdrUnmarshaller { s2 with Buffer := b + 4 } b
              (load32 s2.mem a.2) desc fMustAlloc with
          | .error e => .error e
          | .ok (s3, p) => .ok ({ s3 with mem := store32 s3.mem a.2 p }, a.2)
        else m a.1 a.2 desc fMustAlloc
      | none => .ok a

/-- The function `NdrNonEncapsulatedUnionBufferSize`. -/
def NdrNonEncapsulatedUnionBufferSize (NdrBufferSizer : Nat → Option NDR_BUFFERSIZE)
    (StubDesc : MIDL_STUB_DESC) (pStubMsg : MIDL_STUB_MESSAGE) (pMemory : Nat)
    (pFormat : PFORMAT_STRING) : Except Fault MIDL_STUB_MESSAGE :=
  let f1 := pFormat.add 1
  match NdrBaseTypeBufferSize pStubMsg pMemory f1 with
  | .error e => .error e
  | .ok s1 =>
    match get_non_encapsulated_union_arm StubDesc s1 pMemory (f1.add 1) with
    | .error e => .error e
    | .ok (s2, none) => .ok s2
    | .ok (s2, some arm) =>
      let type := arm.WORD 0
      if type &&& 0xff00 = 0x8000 then NdrBaseTypeBufferSizeTag s2 pMemory (type % 256)
      else
        let desc := arm.add (arm.SHORT 0)
        match NdrBufferSizer (desc.byte 0 &&& NDR_TABLE_MASK) with
        | some m =>
          if isPointerTag (desc.byte 0) then
            PointerBufferSize NdrBufferSizer
              { s2 with BufferLength := (ALIGN_LENGTH s2.BufferLength 4 + 4) % 4294967296 }
              (load32 s2.mem pMemory) desc
          else m s2 pMemory desc
        | none => .ok s2

/-! ## Dispatch tables -/

/-- The function `NdrComplexStructMemorySize`. -/
def NdrComplexStructMemorySize (NdrMemorySizer : Nat → Option NDR_MEMORYSIZE) (fuel : Nat)
    (pStubMsg : MIDL_STUB_MESSAGE) (pFormat : PFORMAT_STRING) :
    Except Fault (MIDL_STUB_MESSAGE × Nat) :=
  let size := pFormat.WORD 2
  let s0 := { pStubMsg with Buffer := ALIGNED_LENGTH pStubMsg.Buffer (pFormat.byte 1 + 1) }
  let conf_array := (complexStructHeader pFormat).1
  match ComplexStructMemorySize NdrMemorySizer fuel s0 (pFormat.add 8) with
  | .error e => .error e
  | .ok (s1, _) =>
    match conf_array with
    | some ca =>
      match NdrConformantArrayMemorySize s1 ca with
      | .error e => .error e
      | .ok (s2, _) => .ok (s2, size)
    | none => .ok (s1, size)

/-- The slots of `NdrMarshaller`, `NdrUnmarshaller` and `NdrBufferSizer` that hold an
operation. -/
def tablePopulated (i : Nat) : Bool :=
  (1 ≤ i && i ≤ 0x22) || i = 0x25 || i = 0x26 || i = 0x2a || i = 0x2b || i = 0x2d || i = 0x2e
    || i = 0x2f || i = 0x34

/-- The slots of `NdrMemorySizer` that hold an operation. -/
def memorySizerPopulated (i : Nat) : Bool :=
  (1 ≤ i && i ≤ 0x16) || i = 0x1a || i = 0x1b || i = 0x21 || i = 0x22 || i = 0x25 || i = 0x26
    || i = 0x2f || i = 0x34

/-- The table `NdrMarshaller`, tied by `fuel`: the operations reached through a slot consult
the table one level down.  Slots of shapes that are not embedded here end the modelled call
with `not_modelled`. -/
def NdrMarshaller (StubDesc : MIDL_STUB_DESC) : Nat → Nat → Option NDR_MARSHALL
  | 0, i => if tablePopulated i then some (fun _ _ _ => .error .out_of_fuel) else none
  | fuel + 1, i =>
    if 1 ≤ i ∧ i ≤ 0x10 then some NdrBaseTypeMarshall
    else if 0x11 ≤ i ∧ i ≤ 0x14 then some (NdrPointerMarshall (NdrMarshaller StubDesc fuel))
    else if i = 0x1a then
      some (NdrComplexStructMarshall (NdrMarshaller StubDesc fuel) StubDesc fuel)
    else if i = 0x1b then
      some (NdrConformantArrayMarshall (NdrMarshaller StubDesc fuel) StubDesc fuel)
    else if i = 0x21 then
      some (NdrComplexArrayMarshall (NdrMarshaller StubDesc fuel) StubDesc fuel)
    else if i = 0x22 ∨ i = 0x25 then some (NdrConformantStringMarshall fuel)
    else if i = 0x26 then some NdrNonConformantStringMarshall
    else if i = 0x2b then
      some (NdrNonEncapsulatedUnionMarshall (NdrMarshaller StubDesc fuel) StubDesc)
    else if i = 0x2a ∨ i = 0x2d ∨ i = 0x2e then some (fun s _ _ => .ok s)
    else if tablePopulated i then some (fun _ _ _ => .error .not_modelled)
    else none

/-- The table `NdrMemorySizer`, tied by `fuel`. -/
def NdrMemorySizer : Nat → Nat → Option NDR_MEMORYSIZE
  | 0, i => if memorySizerPopulated i then some (fun _ _ => .error .out_of_fuel) else none
  | fuel + 1, i =>
    if 1 ≤ i ∧ i ≤ 0x10 then some NdrBaseTypeMemorySize
    else if i = 0x1a then some (NdrComplexStructMemorySize (NdrMemorySizer fuel) fuel)
    else if i = 0x1b then some NdrConformantArrayMemorySize
    else if i = 0x22 ∨ i = 0x25 then some NdrConformantStringMemorySize
    else if i = 0x26 then some (fun s _ => .ok (s, 0))
    else if memorySizerPopulated i then some (fun _ _ => .error .not_modelled)
    else none

/-- The table `NdrUnmarshaller`, tied by `fuel`. -/
def NdrUnmarshaller : Nat → Nat → Option NDR_UNMARSHALL
  | 0, i => if tablePopulated i then some (fun _ _ _ _ => .error .out_of_fuel) else none
  | fuel + 1, i =>
    if 1 ≤ i ∧ i ≤ 0x10 then some NdrBaseTypeUnmarshall
    else if 0x11 ≤ i ∧ i ≤ 0x14 then some (NdrPointerUnmarshall (NdrUnmarshaller fuel))
    else if i = 0x1a then some (NdrComplexStructUnmarshall (NdrUnmarshaller fuel) fuel)
    else if i = 0x1b then some (NdrConformantArrayUnmarshall (NdrUnmarshaller fuel) fuel)
    else if i = 0x21 then
      some (NdrComplexArrayUnmarshall (NdrUnmarshaller fuel) (NdrMemorySizer fuel) fuel)
    else if i = 0x22 ∨ i = 0x25 then some NdrConformantStringUnmarshall
    else if i = 0x26 then some NdrNonConformantStringUnmarshall
    else if i = 0x2b then some (NdrNonEncapsulatedUnionUnmarshall (NdrUnmarshaller fuel))
    else if i = 0x2a ∨ i = 0x2d ∨ i = 0x2e then some (fun s p _ _ => .ok (s, p))
    else if tablePopulated i then some (fun _ _ _ _ => .error .not_modelled)
    else none

/-- The table `NdrBufferSizer`, tied by `fuel`; its initialiser fills the same slots as that of
`NdrMarshaller`. -/
def NdrBufferSizer (StubDesc : MIDL_STUB_DESC) : Nat → Nat → Option NDR_BUFFERSIZE
  | 0, i => if tablePopulated i then some (fun _ _ _ => .error .out_of_fuel) else none
  | fuel + 1, i =>
    if 1 ≤ i ∧ i ≤ 0x10 then some NdrBaseTypeBufferSize
    else if 0x11 ≤ i ∧ i ≤ 0x14 then some (NdrPointerBufferSize (NdrBufferSizer StubDesc fuel))
    else if i = 0x17 ∨ i = 0x18 then
      some (NdrConformantStructBufferSize (NdrBufferSizer StubDesc fuel) StubDesc fuel)
    else if i = 0x1a then
      some (NdrComplexStructBufferSize (NdrBufferSizer StubDesc fuel) StubDesc fuel)
    else if i = 0x1b then
      some (NdrConformantArrayBufferSize (NdrBufferSizer StubDesc fuel) StubDesc fuel)
    else if i = 0x22 ∨ i = 0x25 then some (NdrConformantStringBufferSize fuel)
    else if i = 0x26 then some NdrNonConformantStringMarshall
    else if i = 0x2b then
      some (NdrNonEncapsulatedUnionBufferSize (NdrBufferSizer StubDesc fuel) StubDesc)
    else if i = 0x2a ∨ i = 0x2d ∨ i = 0x2e then some (fun s _ _ => .ok s)
    else if tablePopulated i then some (fun _ _ _ => .error .not_modelled)
    else none

/-- The slots of `NdrFreer` that hold an operation: those of `NdrMarshaller` without the three
string slots `0x22`, `0x25` and `0x26`, which the initialiser of `NdrFreer` leaves `0`. -/
def freerPopulated (i : Nat) : Bool :=
  (1 ≤ i && i ≤ 0x21) || i = 0x2a || i = 0x2b || i = 0x2d || i = 0x2e || i = 0x2f || i = 0x34

/-- The table `NdrFreer`, tied by `fuel`. -/
def NdrFreer : Nat → Nat → Option NDR_FREE
  | 0, i => if freerPopulated i then some (fun _ _ _ => .error .out_of_fuel) else none
  | fuel + 1, i =>
    if 1 ≤ i ∧ i ≤ 0x10 then some NdrBaseTypeFree
    else if 0x11 ≤ i ∧ i ≤ 0x14 then some (NdrPointerFree (NdrFreer fuel))
    else if i = 0x17 ∨ i = 0x18 ∨ i = 0x19 then some (fun s _ _ => .ok s)
    else if i = 0x1a then some (NdrComplexStructFree (NdrFreer fuel) fuel)
    else if i = 0x1b then some (NdrConformantArrayFree (NdrFreer fuel) fuel)
    else if i = 0x2a ∨ i = 0x2d ∨ i = 0x2e then some (fun s _ _ => .ok s)
    else if freerPopulated i then some (fun _ _ _ => .error .not_modelled)
    else none

/-! ## Server-side USER handles (`server/user.c`)

An entry pointer `struct user_handle *` is `none` for `NULL` and `some i` for `&handles[i]`. -/

/-- The structure `struct user_handle`: object pointer, object type (0 if free) and
generation counter, the last two `unsigned short`. -/
structure user_handle where
  ptr : Nat
  type : Nat
  generation : Nat
  deriving DecidableEq, Repr

/-- The file-scope variables `handles`, `freelist`, `nb_handles` and `allocated_handles`. -/
structure user_handles where
  handles : Nat → user_handle
  freelist : Option Nat
  nb_handles : Nat
  allocated_handles : Nat

/-- The macro `FIRST_HANDLE`: handle value for the first table entry. -/
def FIRST_HANDLE : Nat := 32
/-- The macro `LAST_HANDLE`. -/
def LAST_HANDLE : Nat := 65536 - 16
/-- The macro `MAX_HANDLES`. -/
def MAX_HANDLES : Nat := LAST_HANDLE - FIRST_HANDLE

/-- An entry pointer stored in the `void *` cell `ptr` of a free entry: `NULL` is 0, the
pointer to entry `i` is represented by `i + 1`. -/
def entry_as_ptr : Option Nat → Nat
  | none => 0
  | some i => i + 1

/-- The entry pointer read back from a `void *` cell. -/
def ptr_as_entry (p : Nat) : Option Nat := if p = 0 then none else some (p - 1)

/-- The function `handle_to_entry`. -/
def handle_to_entry (t : user_handles) (handle : Nat) : Option Nat :=
  let index : Int := ((handle &&& 0xffff : Nat) : Int) - (FIRST_HANDLE : Int)
  if index < 0 ∨ index ≥ (t.nb_handles : Int) then none
  else if (t.handles index.toNat).type = 0 then none
  else if handle >>> 16 ≠ 0 ∧ handle >>> 16 ≠ (t.handles index.toNat).generation then none
  else some index.toNat

/-- The function `entry_to_handle`, a 32-bit `user_handle_t`. -/
def entry_to_handle (t : user_handles) (index : Nat) : Nat :=
  (index + FIRST_HANDLE + ((t.handles index).generation <<< 16)) % 4294967296

/-- The function `alloc_user_entry`; `realloc_ok` tells whether `realloc` succeeds when the
array has to grow. -/
def alloc_user_entry (realloc_ok : Bool) (t : user_handles) : user_handles × Option Nat :=
  match t.freelist with
  | some i => ({ t with freelist := ptr_as_entry (t.handles i).ptr }, some i)
  | none =>
    let take (u : user_handles) : user_handles × Option Nat :=
      ({ u with
          handles := fun j =>
            if j = u.nb_handles then { u.handles j with generation := 0 } else u.handles j
          nb_handles := u.nb_handles + 1 },
        some u.nb_handles)
    if t.nb_handles ≥ t.allocated_handles then
      let growth := max 32 (t.allocated_handles / 2)
      let new_size := min (t.allocated_handles + growth) MAX_HANDLES
      if new_size ≤ t.allocated_handles then (t, none)
      else if !realloc_ok then (t, none)
      else take { t with allocated_handles := new_size }
    else take t

/-- The function `free_user_entry`: the entry goes to the head of the free list; the result
carries the object pointer it held. -/
def free_user_entry (t : user_handles) (i : Nat) : user_handles × Nat :=
  ({ t with
      handles := fun j =>
        if j = i then { t.handles j with ptr := entry_as_ptr t.freelist, type := 0 }
        else t.handles j
      freelist := some i },
    (t.handles i).ptr)

/-- The function `alloc_user_handle`; 0 is returned when no entry could be obtained. -/
def alloc_user_handle (realloc_ok : Bool) (t : user_handles) (ptr type : Nat) :
    user_handles × Nat :=
  match alloc_user_entry realloc_ok t with
  | (t1, none) => (t1, 0)
  | (t1, some i) =>
    let g := ((t1.handles i).generation + 1) % 65536
    let t2 := { t1 with
      handles := fun j =>
        if j = i then
          { ptr := ptr, type := type % 65536, generation := if g ≥ 0xffff then 1 else g }
        else t1.handles j }
    (t2, entry_to_handle t2 i)

/-- The function `get_user_object`; `NULL` is 0. -/
def get_user_object (t : user_handles) (handle type : Nat) : Nat :=
  match handle_to_entry t handle with
  | none => 0
  | some i => if (t.handles i).type ≠ type then 0 else (t.handles i).ptr

/-- The function `get_user_full_handle`. -/
def get_user_full_handle (t : user_handles) (handle : Nat) : Nat :=
  if handle >>> 16 ≠ 0 then handle
  else
    match handle_to_entry t handle with
    | none => handle
    | some i => entry_to_handle t i

/-- The function `free_user_handle`: the object pointer, or `none` when the call fails with
`STATUS_INVALID_HANDLE`. -/
def free_user_handle (t : user_handles) (handle : Nat) : user_handles × Option Nat :=
  match handle_to_entry t handle with
  | none => (t, none)
  | some i => ((free_user_entry t i).1, some (free_user_entry t i).2)

/-- The loop of `next_user_handle`: the scan of the `n` entries from index `i` on for the
first one of the given type (any entry when `type` is 0). -/
def next_user_handle_scan (t : user_handles) (type : Nat) : Nat → Nat → Option Nat
  | 0, _ => none
  | n + 1, i =>
    if type = 0 ∨ (t.handles i).type = type then some i
    else next_user_handle_scan t type n (i + 1)

/-- The function `next_user_handle`: the final `*handle` and the pointer returned. -/
def next_user_handle (t : user_handles) (handle type : Nat) : Nat × Nat :=
  let start : Option Nat :=
    if handle = 0 then some 0
    else (handle_to_entry t handle).map fun i => i + 1
  match start with
  | none => (handle, 0)
  | some i =>
    match next_user_handle_scan t type (t.nb_handles - i) i with
    | some j => (entry_to_handle t j, (t.handles j).ptr)
    | none => (handle, 0)

/-- The caller's loop over `next_user_handle`: starting from `handle`, the calls are repeated
until one returns `NULL`; the list holds the handle and the pointer of each call before it.
At most `n` calls are made. -/
def next_user_handle_iterate (t : user_handles) (type : Nat) : Nat → Nat → List (Nat × Nat)
  | 0, _ => []
  | n + 1, handle =>
    let r := next_user_handle t handle type
    if r.2 = 0 then [] else r :: next_user_handle_iterate t type n r.1

/-! ## Input predicates and readings used by the statements -/

/-- At `p` starts a NUL-terminated narrow string of `n` characters. -/
def IsCString (m : MEMORY) (p n : Nat) : Prop :=
  (∀ i, i < n → load8 m (p + i) ≠ 0) ∧ load8 m (p + n) = 0

instance (m : MEMORY) (p n : Nat) : Decidable (IsCString m p n) := by
  unfold IsCString; infer_instance

/-- At `p` starts a NUL-terminated wide string of `n` 16-bit characters. -/
def IsWString (m : MEMORY) (p n : Nat) : Prop :=
  (∀ i, i < n → load16 m (p + 2 * i) ≠ 0) ∧ load16 m (p + 2 * n) = 0

instance (m : MEMORY) (p n : Nat) : Decidable (IsWString m p n) := by
  unfold IsWString; infer_instance

/-- The little-endian integer held by the `size` bytes at `a`, for the sizes 1, 2, 4, 8. -/
def loadValue (m : MEMORY) (a size : Nat) : Nat :=
  if size = 1 then load8 m a
  else if size = 2 then load16 m a
  else if size = 4 then load32 m a
  else if size = 8 then load64 m a
  else 0

/-- The bit image an assignment through an lvalue of the base type `tag` delivers for the bit
image `v` it reads: `floatAssign` for `RPC_FC_FLOAT`, `doubleAssign` for `RPC_FC_DOUBLE`, and
`v` itself for every integer type. -/
def baseTypeAssign (x87 : Bool) (tag v : Nat) : Nat :=
  if tag = RPC_FC_FLOAT then floatAssign x87 v
  else if tag = RPC_FC_DOUBLE then doubleAssign x87 v
  else v

/-- The four bytes of a 32-bit word in the byte order of the build option. -/
def uint32Bytes (be : Bool) (v : Nat) : List Nat :=
  if be then [v / 16777216 % 256, v / 65536 % 256, v / 256 % 256, v % 256]
  else [v % 256, v / 256 % 256, v / 65536 % 256, v / 16777216 % 256]

/-- The cells `w a, …, w (a + k - 1)`. -/
def cells (w : MEMORY) (a k : Nat) : List Nat := (List.range k).map fun i => w (a + i)

/-- A memory holding the bytes `l` from address `base` on, and zero elsewhere. -/
def memOfList (base : Nat) (l : List Nat) : MEMORY :=
  fun a => if base ≤ a then l.getD (a - base) 0 else 0

/-- A stub message with the given cursor, length, wire and memory; the allocator hands out
address `4096` plus the number of bytes requested so far. -/
def mkStubMsg (Buffer BufferLength : Nat) (wire mem : MEMORY) : MIDL_STUB_MESSAGE :=
  { Buffer := Buffer, BufferMark := 0, BufferLength := BufferLength, MemorySize := 0,
    Memory := 0, MaxCount := 0, Offset := 0, ActualCount := 0, StackTop := 0,
    fHasNewCorrDesc := false, ReuseBuffer := false, IgnoreEmbeddedPointers := false,
    pfnAllocate := fun log _ => 4096 + log.sum, allocated := [], freed := [],
    wire := wire, mem := mem, NDR_LOCAL_IS_BIG_ENDIAN := false,
    FLOATS_THROUGH_X87 := true }

/-- A field stream of `k` plain opcodes closed by `RPC_FC_END`: none of the first `k` bytes is
`RPC_FC_END`, `RPC_FC_POINTER` or `RPC_FC_EMBEDDED_COMPLEX`, so the walk of the stream calls no
other shape. -/
def PlainLayout (f : PFORMAT_STRING) (k : Nat) : Prop :=
  (∀ i : Nat, i < k →
    f.byte i ≠ RPC_FC_END ∧ f.byte i ≠ RPC_FC_POINTER ∧ f.byte i ≠ RPC_FC_EMBEDDED_COMPLEX) ∧
  f.byte k = RPC_FC_END

instance (f : PFORMAT_STRING) (k : Nat) : Decidable (PlainLayout f k) := by
  unfold PlainLayout; infer_instance

/-- The opcode `t` is none of the `case` labels of the `switch` in `ComplexMarshall`,
`ComplexUnmarshall`, `ComplexBufferSize` and `ComplexFree`, and does not end the walk. -/
def UnhandledOpcode (t : Nat) : Prop :=
  t ≠ RPC_FC_END ∧ t ≠ RPC_FC_SHORT ∧ t ≠ RPC_FC_USHORT ∧ t ≠ RPC_FC_LONG ∧ t ≠ RPC_FC_ULONG ∧
  t ≠ RPC_FC_ENUM32 ∧ t ≠ RPC_FC_POINTER ∧ t ≠ RPC_FC_ALIGNM4 ∧ t ≠ RPC_FC_ALIGNM8 ∧
  t ≠ RPC_FC_STRUCTPAD2 ∧ t ≠ RPC_FC_EMBEDDED_COMPLEX ∧ t ≠ RPC_FC_PAD

instance (t : Nat) : Decidable (UnhandledOpcode t) := by
  unfold UnhandledOpcode; infer_instance

/-- The tag `t` is none of the `case` labels of the `switch` in `NdrBaseTypeMarshall`. -/
def UnhandledBaseType (t : Nat) : Prop :=
  t ≠ RPC_FC_BYTE ∧ t ≠ RPC_FC_CHAR ∧ t ≠ RPC_FC_SMALL ∧ t ≠ RPC_FC_USMALL ∧ t ≠ RPC_FC_WCHAR ∧
  t ≠ RPC_FC_SHORT ∧ t ≠ RPC_FC_USHORT ∧ t ≠ RPC_FC_LONG ∧ t ≠ RPC_FC_ULONG ∧
  t ≠ RPC_FC_ERROR_STATUS_T ∧ t ≠ RPC_FC_ENUM32 ∧ t ≠ RPC_FC_FLOAT ∧ t ≠ RPC_FC_DOUBLE ∧
  t ≠ RPC_FC_HYPER ∧ t ≠ RPC_FC_ENUM16

instance (t : Nat) : Decidable (UnhandledBaseType t) := by
  unfold UnhandledBaseType; infer_instance

/-- A field stream of `k` fields closed by `RPC_FC_END`, each of them one of `SHORT`, `USHORT`,
`LONG`, `ULONG`, `ENUM32`, `POINTER`, `STRUCTPAD2` and `PAD`. -/
def FieldLayout (f : PFORMAT_STRING) (k : Nat) : Prop :=
  (∀ i : Nat, i < k →
    f.byte i = RPC_FC_SHORT ∨ f.byte i = RPC_FC_USHORT ∨ f.byte i = RPC_FC_LONG ∨
    f.byte i = RPC_FC_ULONG ∨ f.byte i = RPC_FC_ENUM32 ∨ f.byte i = RPC_FC_POINTER ∨
    f.byte i = RPC_FC_STRUCTPAD2 ∨ f.byte i = RPC_FC_PAD) ∧
  f.byte k = RPC_FC_END

instance (f : PFORMAT_STRING) (k : Nat) : Decidable (FieldLayout f k) := by
  unfold FieldLayout; infer_instance

/-- The number of bytes equal to `t` among the first `k` bytes of a field stream. -/
def countOpcode (t : Nat) (f : PFORMAT_STRING) : Nat → Nat
  | 0 => 0
  | k + 1 => (if f.byte 0 = t then 1 else 0) + countOpcode t (f.add 1) k

/-- The head of the free list, if any, is an entry of the table. -/
def freelist_in_table (t : user_handles) : Bool :=
  match t.freelist with
  | some i => decide (i < t.nb_handles)
  | none => true

/-- A well-formed handle table: the counters are ordered and bounded by `MAX_HANDLES`, the
head of the free list is an entry of the table, and the `unsigned short` fields of the entries
in use hold 16-bit values. -/
def user_handles_ok (t : user_handles) : Prop :=
  t.nb_handles ≤ t.allocated_handles ∧ t.allocated_handles ≤ MAX_HANDLES ∧
  freelist_in_table t = true ∧
  ∀ i : Nat, i < t.nb_handles →
    (t.handles i).type < 65536 ∧ (t.handles i).generation < 65536

instance (t : user_handles) : Decidable (user_handles_ok t) := by
  unfold user_handles_ok; infer_instance

/-- Two runs in succession of the buffer-size operation `op`, the second started in the state
the first returned: both return normally, each run takes the running length `L` to `next L`,
neither changes the cursor, the memory or the buffer, and the two runs add the same amount
when both start from a multiple of `A`.  The amount a run adds is the difference of the 32-bit
lengths after and before it, taken modulo `2^32` as the subtraction of two `unsigned long`
does; where neither run wraps the length, the plain differences are equal. -/
def RunsTwice (op : MIDL_STUB_MESSAGE → Except Fault MIDL_STUB_MESSAGE) (s : MIDL_STUB_MESSAGE)
    (next : Nat → Nat) (A : Nat) : Prop :=
  ∃ s1 s2, op s = .ok s1 ∧ op s1 = .ok s2 ∧
    s1.BufferLength = next s.BufferLength ∧ s2.BufferLength = next s1.BufferLength ∧
    s1.Buffer = s.Buffer ∧ s2.Buffer = s.Buffer ∧ s1.mem = s.mem ∧ s2.mem = s.mem ∧
    s1.wire = s.wire ∧ s2.wire = s.wire ∧
    (A ∣ s.BufferLength → A ∣ s1.BufferLength →
      ((s2.BufferLength : Int) - s1.BufferLength) % 4294967296 =
          ((s1.BufferLength : Int) - s.BufferLength) % 4294967296 ∧
        (s.BufferLength ≤ s1.BufferLength → s1.BufferLength ≤ s2.BufferLength →
          s2.BufferLength - s1.BufferLength = s1.BufferLength - s.BufferLength))

/-- A stub descriptor whose expression-evaluation callbacks do nothing. -/
def noExprEval : MIDL_STUB_DESC := { apfnExprEval := fun _ s => s }

/-! ## A complex array of structures holding a string pointer

The description of `struct { char *s; } a[1]`: a complex array with the constant conformance 1
and no variance, whose element is a complex structure with one unique pointer to a conformant
string. -/

/-- The format string: the array at offset 0, the structure at offset 18, the pointer
description at offset 28. -/
def nestedArrayFormat : PFORMAT_STRING :=
  PFORMAT_STRING.ofList
    [0x21, 0x03, 0x00, 0x00,  0x40, 0x00, 0x01, 0x00,  0xff, 0xff, 0xff, 0xff,
     0x4c, 0x00, 0x04, 0x00,  0x5b, 0x00,
     0x1a, 0x03, 0x04, 0x00,  0x00, 0x00,  0x04, 0x00,  0x36, 0x5b,
     0x12, 0x08, 0x22, 0x5c]

/-- The sender's memory: the array at address 200 holds the pointer 300, the string "ab" is
at address 300. -/
def nestedMem : MEMORY := memOfList 200 ([44, 1, 0, 0] ++ List.replicate 96 0 ++ [97, 98, 0])

/-- The run of `NdrComplexArrayMarshall` on that array, from buffer offset 16. -/
def nestedMarshalled : Except Fault MIDL_STUB_MESSAGE :=
  NdrComplexArrayMarshall (NdrMarshaller noExprEval 5) noExprEval 5
    (mkStubMsg 16 64 (fun _ => 0) nestedMem) 200 nestedArrayFormat

/-- The run of `NdrComplexArrayUnmarshall` on the bytes `nestedMarshalled` produced, from the
same buffer offset, with `fMustAlloc` set. -/
def nestedUnmarshalled : Except Fault (MIDL_STUB_MESSAGE × Nat) :=
  match nestedMarshalled with
  | .ok s1 =>
    NdrComplexArrayUnmarshall (NdrUnmarshaller 5) (NdrMemorySizer 5) 5
      (mkStubMsg 16 64 s1.wire (fun _ => 0)) 0 nestedArrayFormat true
  | .error e => .error e

/-! ## Sample inputs -/

/-- The description of a conformant narrow string. -/
def cstringFormat : PFORMAT_STRING := PFORMAT_STRING.ofList [0x22, 0x5c]

/-- A memory holding the string "hello" at address 100. -/
def helloMem : MEMORY := memOfList 100 [104, 101, 108, 108, 111, 0]

/-- A sender at the 4-aligned buffer offset 8 with 64 bytes of buffer, holding "hello". -/
def helloMsg : MIDL_STUB_MESSAGE := mkStubMsg 8 64 (fun _ => 0) helloMem

/-- The description of a 32-bit integer. -/
def longFormat : PFORMAT_STRING := PFORMAT_STRING.ofList [0x08]

/-- A memory holding the 32-bit value `0x12345678` at address 100, followed by a `NULL`
pointer. -/
def longMem : MEMORY := memOfList 100 [0x78, 0x56, 0x34, 0x12, 0, 0, 0, 0]

/-- A sender whose cursor stands at the odd buffer offset 5. -/
def oddMsg : MIDL_STUB_MESSAGE := mkStubMsg 5 64 (fun _ => 0) longMem

/-- A sender at the 4-aligned buffer offset 8 over `longMem`. -/
def longMsg : MIDL_STUB_MESSAGE := mkStubMsg 8 64 (fun _ => 0) longMem

/-- The description of a unique pointer to a 32-bit integer. -/
def upFormat : PFORMAT_STRING := PFORMAT_STRING.ofList [0x12, 0x08, 0x08, 0x5c]

/-- The description of a ref pointer to a 32-bit integer. -/
def rpFormat : PFORMAT_STRING := PFORMAT_STRING.ofList [0x11, 0x08, 0x08, 0x5c]

/-- The description of `struct { int32 a; int32 *b; }`: a complex structure of size 8 with
the field stream `LONG, POINTER, END` and, at offset 12, a unique pointer to a 32-bit
integer. -/
def structFormat : PFORMAT_STRING :=
  PFORMAT_STRING.ofList
    [0x1a, 0x03, 0x08, 0x00,  0x00, 0x00,  0x06, 0x00,  0x08, 0x36, 0x5b, 0x5c,
     0x12, 0x08, 0x08, 0x5c]

/-- The description of a conformant array of 16-bit integers with element alignment 2 and the
constant conformance 3. -/
def shortArrayFormat : PFORMAT_STRING :=
  PFORMAT_STRING.ofList [0x1b, 0x01, 0x02, 0x00,  0x40, 0x00, 0x03, 0x00,  0x06, 0x5b]

/-- A sender at buffer offset 8 holding the three 16-bit values 1, 2, 3 at address 100. -/
def shortArrayMsg : MIDL_STUB_MESSAGE :=
  mkStubMsg 8 64 (fun _ => 0) (memOfList 100 [1, 0, 2, 0, 3, 0])

/-- The description of a complex array with the constant conformance 2, no variance, and the
plain element layout `LONG, SHORT, STRUCTPAD2`. -/
def plainArrayFormat : PFORMAT_STRING :=
  PFORMAT_STRING.ofList
    [0x21, 0x03, 0x00, 0x00,  0x40, 0x00, 0x02, 0x00,  0xff, 0xff, 0xff, 0xff,
     0x08, 0x06, 0x3e, 0x5b]

/-- A sender at buffer offset 8 holding two such elements at address 100. -/
def plainArrayMsg : MIDL_STUB_MESSAGE :=
  mkStubMsg 8 64 (fun _ => 0)
    (memOfList 100 [1, 0, 0, 0, 2, 0, 0, 0,  3, 0, 0, 0, 4, 0, 0, 0])

/-- The description of a non-encapsulated union switched on the 32-bit integer stored 4 bytes
before it, with the single arm 1 and the default word 0. -/
def unionFormat : PFORMAT_STRING :=
  PFORMAT_STRING.ofList
    [0x2b, 0x08,  0x08, 0x00, 0xfc, 0xff,  0x02, 0x00,
     0x04, 0x00,  0x01, 0x00,  0x01, 0x00, 0x00, 0x00, 0x08, 0x80,  0x00, 0x00]

/-- A stub message at buffer offset 8 whose memory holds the discriminant 7 at address 96 and
whose buffer holds the discriminant 7 at offset 8. -/
def unionMsg : MIDL_STUB_MESSAGE :=
  mkStubMsg 8 64 (memOfList 8 [7, 0, 0, 0]) (memOfList 96 [7, 0, 0, 0, 0, 0, 0, 0])

/-- The description of a non-encapsulated union like `unionFormat`, with the default word
`0xFFFF`: the union has no default arm. -/
def unionNoDefaultFormat : PFORMAT_STRING :=
  PFORMAT_STRING.ofList
    [0x2b, 0x08,  0x08, 0x00, 0xfc, 0xff,  0x02, 0x00,
     0x04, 0x00,  0x01, 0x00,  0x01, 0x00, 0x00, 0x00, 0x08, 0x80,  0xff, 0xff]

/-- The description of a `float`. -/
def floatFormat : PFORMAT_STRING := PFORMAT_STRING.ofList [0x0a]

/-- A sender at the buffer offset 8 whose memory holds the bytes `01 00 a0 7f` at address 100:
the signalling NaN `0x7fa00001`. -/
def signallingNaNMsg : MIDL_STUB_MESSAGE :=
  mkStubMsg 8 64 (fun _ => 0) (memOfList 100 [0x01, 0x00, 0xa0, 0x7f])

/-- The description of a 16-bit enumeration. -/
def enum16Format : PFORMAT_STRING := PFORMAT_STRING.ofList [0x0d]

/-- A stub message at the odd buffer offset 5 whose memory holds the 32-bit value `0x1234` at
address 100 and whose buffer holds the bytes `cd ab` at offset 6. -/
def enum16Msg : MIDL_STUB_MESSAGE :=
  mkStubMsg 5 64 (memOfList 6 [0xcd, 0xab]) (memOfList 100 [0x34, 0x12, 0, 0])

/-- A stub message whose memory holds the 32-bit value `0x10000` at address 100. -/
def enum16BigMsg : MIDL_STUB_MESSAGE :=
  mkStubMsg 5 64 (fun _ => 0) (memOfList 100 [0, 0, 1, 0])

/-- A receiver at buffer offset 5 whose buffer holds zero bytes only, so that the pointer ID
at offset 8 is zero; its memory holds the 32-bit value `0x12345678` at address 100. -/
def zeroIdMsg : MIDL_STUB_MESSAGE := mkStubMsg 5 64 (fun _ => 0) longMem

/-- A field stream with one pointer field. -/
def pointerFieldFormat : PFORMAT_STRING := PFORMAT_STRING.ofList [0x36, 0x5b]

/-- A correlation descriptor that is absent: the sentinel `0xFFFFFFFF`. -/
def absentDesc : PFORMAT_STRING := PFORMAT_STRING.ofList [0xff, 0xff, 0xff, 0xff]

/-- A constant-conformance descriptor embedding `0x125634`. -/
def constDesc : PFORMAT_STRING := PFORMAT_STRING.ofList [0x40, 0x12, 0x34, 0x56]

/-- A constant-conformance descriptor embedding `0x008000`. -/
def constHighDesc : PFORMAT_STRING := PFORMAT_STRING.ofList [0x40, 0x00, 0x00, 0x80]

/-- A normal-conformance descriptor: a `SHORT` at offset -4, no operator. -/
def normalShortDesc : PFORMAT_STRING := PFORMAT_STRING.ofList [0x06, 0x00, 0xfc, 0xff]

/-- A normal-conformance descriptor: a `LONG` behind the pointer at offset 0, with the
operator `RPC_FC_DEREFERENCE`. -/
def derefDesc : PFORMAT_STRING := PFORMAT_STRING.ofList [0x08, 0x54, 0x00, 0x00]

/-- A stub message with `MaxCount = 99` and `ActualCount = 98` whose memory holds the 16-bit
value `0xfffe` at address 96, the pointer 200 at address 100 and the 32-bit value 5 at address
200. -/
def corrMsg : MIDL_STUB_MESSAGE :=
  { mkStubMsg 8 64 (fun _ => 0)
      (memOfList 96 ([0xfe, 0xff, 0, 0, 200, 0, 0, 0] ++ List.replicate 96 0 ++ [5, 0, 0, 0]))
    with MaxCount := 99, ActualCount := 98 }

/-- A stub message over `longMem` with the running buffer length 1. -/
def sizingMsg : MIDL_STUB_MESSAGE := mkStubMsg 8 1 (fun _ => 0) longMem

/-- The description of a conformant array of 16-bit integers with element alignment 2 and the
constant conformance 2. -/
def shortPairFormat : PFORMAT_STRING :=
  PFORMAT_STRING.ofList [0x1b, 0x01, 0x02, 0x00,  0x40, 0x00, 0x02, 0x00,  0x06, 0x5b]

/-- A state differs from `s` in the running length and in `MaxCount` only. -/
def SameButLength (x s : MIDL_STUB_MESSAGE) : Prop :=
  { x with BufferLength := 0, MaxCount := 0 } = { s with BufferLength := 0, MaxCount := 0 }

/-- The description `shortArrayFormat` with the first byte replaced by the tag of a base type
(`RPC_FC_LONG`). -/
def wrongTagArrayFormat : PFORMAT_STRING :=
  PFORMAT_STRING.ofList [0x08, 0x01, 0x02, 0x00,  0x40, 0x00, 0x03, 0x00,  0x06, 0x5b]

/-- The description of a unique pointer to a narrow conformant string. -/
def upStringFormat : PFORMAT_STRING := PFORMAT_STRING.ofList [0x12, 0x08, 0x22, 0x5c]

/-- The state `helloMsg` with `ReuseBuffer` set. -/
def reuseMsg : MIDL_STUB_MESSAGE := { helloMsg with ReuseBuffer := true }

/-- A field stream of three opcodes no walker handles (`RPC_FC_BYTE`, `RPC_FC_HYPER`, `0x77`),
closed by `RPC_FC_END`. -/
def unknownFieldsFormat : PFORMAT_STRING := PFORMAT_STRING.ofList [0x01, 0x0b, 0x77, 0x5b]

/-- A format byte that is no base-type tag. -/
def unknownTagFormat : PFORMAT_STRING := PFORMAT_STRING.ofList [0x77]

/-- The header of a complex structure description whose conformant-array word at byte 4 is
`0xFFF8`, the 16-bit pattern of -8, and whose pointer-layout word is 0. -/
def negOffsetStructFormat : PFORMAT_STRING :=
  PFORMAT_STRING.ofList [0x1a, 0x03, 0x08, 0x00,  0xf8, 0xff,  0x00, 0x00,  0x08, 0x5b]

/-- The description of a unique pointer whose referent offset word at byte 2 is `0xFFFC`, the
16-bit pattern of -4. -/
def negOffsetPointerFormat : PFORMAT_STRING :=
  PFORMAT_STRING.ofList [0x12, 0x00, 0xfc, 0xff]

/-- The description of a non-encapsulated union switched on the signed 16-bit integer stored 4
bytes before it, with the single arm -1 (case value `0xFFFFFFFF`, a 32-bit integer) and the
default word 0. -/
def shortUnionFormat : PFORMAT_STRING :=
  PFORMAT_STRING.ofList
    [0x2b, 0x06,  0x06, 0x00, 0xfc, 0xff,  0x02, 0x00,
     0x04, 0x00,  0x01, 0x00,  0xff, 0xff, 0xff, 0xff, 0x08, 0x80,  0x00, 0x00]

/-- A sender at buffer offset 8 whose memory holds the discriminant -1 at address 96 and the
arm value `0x12345678` at address 100. -/
def shortUnionMsg : MIDL_STUB_MESSAGE :=
  mkStubMsg 8 64 (fun _ => 0) (memOfList 96 [0xff, 0xff, 0, 0, 0x78, 0x56, 0x34, 0x12])

/-- A receiver at buffer offset 8 whose buffer holds the 8 bytes the marshaller produces from
`shortUnionMsg`: the discriminant `ff ff`, two bytes of padding and the arm value. -/
def shortUnionReceiver : MIDL_STUB_MESSAGE :=
  mkStubMsg 8 64 (memOfList 8 [0xff, 0xff, 0, 0, 0x78, 0x56, 0x34, 0x12]) (fun _ => 0)

/-- The description of `struct { int32 n; int16 a[n]; }`: a conformant structure of alignment
4 with 4 bytes of fixed body; 4 bytes after the offset field at byte 4, the description of a
conformant array of 16-bit integers whose count is the 32-bit integer 4 bytes before it. -/
def cstructFormat : PFORMAT_STRING :=
  PFORMAT_STRING.ofList
    [0x17, 0x03, 0x04, 0x00,  0x04, 0x00,  0x08, 0x5b,
     0x1b, 0x01, 0x02, 0x00,  0x08, 0x00, 0xfc, 0xff,  0x06, 0x5b]

/-- A receiver at buffer offset 5 whose buffer holds, from offset 8, the fixed body `n = 3`,
the conformance 3 and the three 16-bit values 1, 2, 3. -/
def cstructMsg : MIDL_STUB_MESSAGE :=
  mkStubMsg 5 64 (memOfList 8 [3, 0, 0, 0,  3, 0, 0, 0,  1, 0, 2, 0, 3, 0]) (fun _ => 0)

/-- The description of a complex array with the conformance on the wire, no variance, and
elements of the single field `ENUM32`. -/
def enumArrayFormat : PFORMAT_STRING :=
  PFORMAT_STRING.ofList
    [0x21, 0x03, 0x00, 0x00,  0x08, 0x00, 0xfc, 0xff,  0xff, 0xff, 0xff, 0xff,  0x0e, 0x5b]

/-- A receiver at buffer offset 8 whose buffer holds the conformance 2 and the two 32-bit
values 1 and 2. -/
def enumArrayMsg : MIDL_STUB_MESSAGE :=
  mkStubMsg 8 64 (memOfList 8 [2, 0, 0, 0,  1, 0, 0, 0,  2, 0, 0, 0]) (fun _ => 0)

/-- The handle table before the first allocation. -/
def emptyHandles : user_handles :=
  { handles := fun _ => { ptr := 0, type := 0, generation := 0 }, freelist := none,
    nb_handles := 0, allocated_handles := 0 }

/-- The handle table after `alloc_user_handle(0x5000, 1)`, `alloc_user_handle(0x6000, 2)` and
`alloc_user_handle(0x7000, 1)` from the empty table. -/
def threeHandles : user_handles :=
  (alloc_user_handle true
    (alloc_user_handle true (alloc_user_handle true emptyHandles 0x5000 1).1 0x6000 2).1
    0x7000 1).1

/-- The handle table after `alloc_user_handle(NULL, 1)` and `alloc_user_handle(0x7000, 1)`
from the empty table. -/
def nullObjectHandles : user_handles :=
  (alloc_user_handle true (alloc_user_handle true emptyHandles 0 1).1 0x7000 1).1

/-- The table `threeHandles` after `free_user_handle(0x10021)`, the handle of its second
entry. -/
def freedHandles : user_handles := (free_user_handle threeHandles 0x10021).1

/-- The description of `struct { int32 n; int16 a[n]; }`: a complex structure of size 4 with
the field stream `LONG, END` and, at offset 10, a conformant array of 16-bit integers whose
conformance is the 32-bit integer at the start of the structure (`pStubMsg->Memory`). -/
def trailingArrayFormat : PFORMAT_STRING :=
  PFORMAT_STRING.ofList
    [0x1a, 0x03, 0x04, 0x00,  0x06, 0x00,  0x00, 0x00,  0x08, 0x5b,
     0x1b, 0x01, 0x02, 0x00,  0x18, 0x00, 0x00, 0x00,  0x06, 0x5b]

/-- A sender at buffer offset 8 holding such a structure at address 100: `n = 3` and the
elements 1, 2, 3. -/
def trailingArrayMsg : MIDL_STUB_MESSAGE :=
  mkStubMsg 8 64 (fun _ => 0) (memOfList 100 [3, 0, 0, 0,  1, 0, 2, 0, 3, 0])

/-- The description of a conformant varying array of unique pointers to 32-bit integers:
constant conformance 1, constant variance 1, and from offset 12 the embedded-pointer layout
with one variable-repeat group of one pointer per element. -/
def pointerCVArrayFormat : PFORMAT_STRING :=
  PFORMAT_STRING.ofList
    [0x1c, 0x03, 0x04, 0x00,  0x40, 0x00, 0x01, 0x00,  0x40, 0x00, 0x01, 0x00,
     0x4b, 0x5c,  0x48, 0x49, 0x04, 0x00, 0x00, 0x00, 0x01, 0x00,
     0x00, 0x00, 0x00, 0x00, 0x12, 0x08, 0x08, 0x5c,  0x5b,  0x08, 0x5b]

/-- A sender at buffer offset 8 holding such an array at address 100: one pointer, to the
32-bit value `0x12345678` at address 200. -/
def pointerCVArrayMsg : MIDL_STUB_MESSAGE :=
  mkStubMsg 8 64 (fun _ => 0)
    (fun a => if a < 200 then memOfList 100 [200, 0, 0, 0] a
      else memOfList 200 [0x78, 0x56, 0x34, 0x12] a)

/-- A receiver at buffer offset 8 holding what the marshaller writes for `pointerCVArrayMsg`:
the words 1, 0, 1, the pointer cell and the referent. -/
def pointerCVArrayReceiver : MIDL_STUB_MESSAGE :=
  mkStubMsg 8 64
    (memOfList 8 [1, 0, 0, 0,  0, 0, 0, 0,  1, 0, 0, 0,  200, 0, 0, 0,  0x78, 0x56, 0x34, 0x12])
    (fun _ => 0)

/-- The description of `struct { int16 a; int32 b; }`: a complex structure of alignment 4 and
size 8 with the field stream `SHORT, ALIGNM4, LONG, END`. -/
def shortLongStructFormat : PFORMAT_STRING :=
  PFORMAT_STRING.ofList
    [0x1a, 0x03, 0x08, 0x00,  0x00, 0x00,  0x00, 0x00,  0x06, 0x38, 0x08, 0x5b]

/-- A sender at buffer offset 8 holding such a structure at address 100: `a = 0x1122`, two
bytes of padding, `b = 0x12345678`. -/
def shortLongStructMsg : MIDL_STUB_MESSAGE :=
  mkStubMsg 8 64 (fun _ => 0) (memOfList 100 [0x22, 0x11, 0, 0,  0x78, 0x56, 0x34, 0x12])

/-- One variable-repeat group marked `RPC_FC_VARIABLE_OFFSET`, of stride 4 and one unique
pointer to a 32-bit integer per repetition, followed by the end of the layout. -/
def variableOffsetGroup : PFORMAT_STRING :=
  PFORMAT_STRING.ofList
    [0x48, 0x4a, 0x04, 0x00, 0x00, 0x00, 0x01, 0x00,
     0x00, 0x00, 0x00, 0x00, 0x12, 0x08, 0x08, 0x5c,  0x5b]

/-- The same group marked `RPC_FC_FIXED_OFFSET`. -/
def fixedOffsetGroup : PFORMAT_STRING :=
  PFORMAT_STRING.ofList
    [0x48, 0x49, 0x04, 0x00, 0x00, 0x00, 0x01, 0x00,
     0x00, 0x00, 0x00, 0x00, 0x12, 0x08, 0x08, 0x5c,  0x5b]

/-- A sender whose array of three pointers at address 100 points to the 32-bit values `0x11`,
`0x22`, `0x33` at addresses 200, 204, 208; the array data starts at buffer offset 8
(`BufferMark`), the cursor is at 16, and the resolved `MaxCount` is 2 with `Offset` 1. -/
def pointerTripleMsg : MIDL_STUB_MESSAGE :=
  { mkStubMsg 16 64 (fun _ => 0)
      (fun a => if a < 200 then memOfList 100 [200, 0, 0, 0,  204, 0, 0, 0,  208, 0, 0, 0] a
        else memOfList 200 [0x11, 0, 0, 0,  0x22, 0, 0, 0,  0x33, 0, 0, 0] a) with
    BufferMark := 8, MaxCount := 2, Offset := 1 }

/-- An arm table of three arms with the case values 5, 7 and 7 again, and the default word
`0x8008`. -/
def threeArmTable : PFORMAT_STRING :=
  PFORMAT_STRING.ofList
    [0x03, 0x00,  0x05, 0x00, 0x00, 0x00, 0x08, 0x80,  0x07, 0x00, 0x00, 0x00, 0x06, 0x80,
     0x07, 0x00, 0x00, 0x00, 0x08, 0x80,  0x08, 0x80]

/-- The description of a conformant varying array of 32-bit integers (element size 4,
alignment 4) with conformance and variance descriptors and no embedded-pointer layout. -/
def longCVArrayFormat : PFORMAT_STRING :=
  PFORMAT_STRING.ofList
    [0x1c, 0x03, 0x04, 0x00,  0x08, 0x00, 0xf8, 0xff,  0x08, 0x00, 0xfc, 0xff,  0x08, 0x5b]

/-- A receiver at buffer offset 8 whose buffer holds `MaxCount = 1`, `Offset = 0`,
`ActualCount = 5` and five 32-bit elements. -/
def overlongCVArrayReceiver : MIDL_STUB_MESSAGE :=
  mkStubMsg 8 64
    (memOfList 8 [1, 0, 0, 0,  0, 0, 0, 0,  5, 0, 0, 0,
      0x11, 0, 0, 0,  0x22, 0, 0, 0,  0x33, 0, 0, 0,  0x44, 0, 0, 0,  0x55, 0, 0, 0])
    (fun _ => 0)

/-- A call of the handle interface of `server/user.c`: `alloc_user_handle(ptr, type)`, with
the outcome of `realloc` should the array have to grow, or `free_user_handle(handle)`. -/
inductive user_call where
  | alloc (realloc_ok : Bool) (ptr type : Nat)
  | free (handle : Nat)

/-- The handle table after one call. -/
def run_user_call (t : user_handles) : user_call → user_handles
  | .alloc realloc_ok ptr type => (alloc_user_handle realloc_ok t ptr type).1
  | .free handle => (free_user_handle t handle).1

/-- The handle table reached from the empty table by a sequence of calls. -/
def run_user_calls (calls : List user_call) : user_handles :=
  calls.foldl run_user_call emptyHandles

/-- The entries `l` are the free list of the table starting at `head`: each is an entry of
the table of type 0 whose `ptr` links to the next, and the last link is `NULL`. -/
def free_chain (t : user_handles) : Option Nat → List Nat → Prop
  | head, [] => head = none
  | head, j :: l =>
    head = some j ∧ j < t.nb_handles ∧ (t.handles j).type = 0 ∧
      free_chain t (ptr_as_entry (t.handles j).ptr) l

/-- The invariant of the handle table: the counters are ordered and bounded, every entry in
use has a generation between 1 and `0xFFFE` and a 16-bit type, and the free list is a chain of
distinct entries of the table. -/
def user_handles_inv (t : user_handles) : Prop :=
  t.nb_handles ≤ t.allocated_handles ∧ t.allocated_handles ≤ MAX_HANDLES ∧
  (∀ i : Nat, i < t.nb_handles →
    1 ≤ (t.handles i).generation ∧ (t.handles i).generation ≤ 0xFFFE ∧
      (t.handles i).type < 65536) ∧
  ∃ l : List Nat, l.Nodup ∧ free_chain t t.freelist l

/-! # Properties -/

/-! ## Memory and alignment lemmas -/

theorem load8_store8 (m : MEMORY) (a v x : Nat) :
    load8 (store8 m a v) x = if x = a then v % 256 else load8 m x := by
  unfold load8 store8
  split <;> simp

theorem load8_lt (m : MEMORY) (a : Nat) : load8 m a < 256 := by
  unfold load8; omega

theorem load16_store16 (m : MEMORY) (a v : Nat) : load16 (store16 m a v) a = v % 65536 := by
  simp only [load16, store16, load8_store8]
  simp
  omega

theorem load32_store32 (m : MEMORY) (a v : Nat) : load32 (store32 m a v) a = v % 4294967296 := by
  simp only [load32, store32, load8_store8]
  simp
  omega

theorem store32_out (m : MEMORY) (a v x : Nat) (h : x < a ∨ a + 4 ≤ x) :
    store32 m a v x = m x := by
  have h1 : x ≠ a := by omega
  have h2 : x ≠ a + 1 := by omega
  have h3 : x ≠ a + 2 := by omega
  have h4 : x ≠ a + 3 := by omega
  simp [store32, store8, h1, h2, h3, h4]

theorem store16_out (m : MEMORY) (a v x : Nat) (h : x < a ∨ a + 2 ≤ x) :
    store16 m a v x = m x := by
  have h1 : x ≠ a := by omega
  have h2 : x ≠ a + 1 := by omega
  simp [store16, store8, h1, h2]

theorem load32_congr (m1 m2 : MEMORY) (a : Nat) (h : ∀ i, i < 4 → m1 (a + i) = m2 (a + i)) :
    load32 m1 a = load32 m2 a := by
  have h0 := h 0 (by omega)
  have h1 := h 1 (by omega)
  have h2 := h 2 (by omega)
  have h3 := h 3 (by omega)
  simp only [Nat.add_zero] at h0
  simp only [load32, load8, h0, h1, h2, h3]

theorem load32_store32_out (m : MEMORY) (a v x : Nat) (h : x + 4 ≤ a ∨ a + 4 ≤ x) :
    load32 (store32 m a v) x = load32 m x := by
  apply load32_congr
  intro i hi
  exact store32_out m a v (x + i) (by omega)

theorem load64_store64 (m : MEMORY) (a v : Nat) :
    load64 (store64 m a v) a = v % 18446744073709551616 := by
  unfold load64 store64
  rw [load32_store32_out _ _ _ _ (by omega), load32_store32, load32_store32]
  omega

theorem store64_out (m : MEMORY) (a v x : Nat) (h : x < a ∨ a + 8 ≤ x) :
    store64 m a v x = m x := by
  unfold store64
  rw [store32_out _ _ _ _ (by omega), store32_out _ _ _ _ (by omega)]

theorem load16_lt (m : MEMORY) (a : Nat) : load16 m a < 65536 := by
  have h0 := load8_lt m a
  have h1 := load8_lt m (a + 1)
  unfold load16; omega

theorem load32_lt (m : MEMORY) (a : Nat) : load32 m a < 4294967296 := by
  have h0 := load8_lt m a
  have h1 := load8_lt m (a + 1)
  have h2 := load8_lt m (a + 2)
  have h3 := load8_lt m (a + 3)
  unfold load32; omega

theorem load64_lt (m : MEMORY) (a : Nat) : load64 m a < 18446744073709551616 := by
  have h0 := load32_lt m a
  have h1 := load32_lt m (a + 4)
  unfold load64; omega

theorem memcpy_in (dst src : MEMORY) (d s n i : Nat) (h : i < n) :
    memcpy dst d src s n (d + i) = src (s + i) := by
  unfold memcpy
  rw [if_pos (by omega)]
  congr 1
  omega

theorem memcpy_out (dst src : MEMORY) (d s n x : Nat) (h : x < d ∨ d + n ≤ x) :
    memcpy dst d src s n x = dst x := by
  unfold memcpy
  rw [if_neg (by omega)]

theorem ALIGNED_LENGTH_pow2 (x k : Nat) :
    ALIGNED_LENGTH x (2 ^ k) = (x + 2 ^ k - 1) / 2 ^ k * 2 ^ k := by
  unfold ALIGNED_LENGTH
  have hp : 0 < 2 ^ k := Nat.pow_pos (by norm_num)
  rw [if_neg (by omega), Nat.and_pow_two_sub_one_eq_mod]
  have := Nat.div_add_mod (x + 2 ^ k - 1) (2 ^ k)
  have h2 : (x + 2 ^ k - 1) / 2 ^ k * 2 ^ k = 2 ^ k * ((x + 2 ^ k - 1) / 2 ^ k) :=
    Nat.mul_comm _ _
  omega

theorem ALIGNED_LENGTH_1 (x : Nat) : ALIGNED_LENGTH x 1 = x := by
  simpa using ALIGNED_LENGTH_pow2 x 0

theorem ALIGNED_LENGTH_2 (x : Nat) : ALIGNED_LENGTH x 2 = (x + 1) / 2 * 2 := by
  simpa using ALIGNED_LENGTH_pow2 x 1

theorem ALIGNED_LENGTH_4 (x : Nat) : ALIGNED_LENGTH x 4 = (x + 3) / 4 * 4 := by
  simpa using ALIGNED_LENGTH_pow2 x 2

theorem ALIGNED_LENGTH_8 (x : Nat) : ALIGNED_LENGTH x 8 = (x + 7) / 8 * 8 := by
  simpa using ALIGNED_LENGTH_pow2 x 3

theorem ALIGN_LENGTH_pow2 (x k : Nat) :
    ALIGN_LENGTH x (2 ^ k) = (x + 2 ^ k - 1) % 4294967296 / 2 ^ k * 2 ^ k := by
  unfold ALIGN_LENGTH
  have hp : 0 < 2 ^ k := Nat.pow_pos (by norm_num)
  rw [if_neg (by omega), Nat.and_pow_two_sub_one_eq_mod]
  have := Nat.div_add_mod ((x + 2 ^ k - 1) % 4294967296) (2 ^ k)
  have h2 : (x + 2 ^ k - 1) % 4294967296 / 2 ^ k * 2 ^ k =
      2 ^ k * ((x + 2 ^ k - 1) % 4294967296 / 2 ^ k) := Nat.mul_comm _ _
  omega

theorem ALIGN_LENGTH_1 (x : Nat) : ALIGN_LENGTH x 1 = x % 4294967296 := by
  simpa using ALIGN_LENGTH_pow2 x 0

theorem ALIGN_LENGTH_2 (x : Nat) : ALIGN_LENGTH x 2 = (x + 1) % 4294967296 / 2 * 2 := by
  simpa using ALIGN_LENGTH_pow2 x 1

theorem ALIGN_LENGTH_4 (x : Nat) : ALIGN_LENGTH x 4 = (x + 3) % 4294967296 / 4 * 4 := by
  simpa using ALIGN_LENGTH_pow2 x 2

theorem ALIGN_LENGTH_8 (x : Nat) : ALIGN_LENGTH x 8 = (x + 7) % 4294967296 / 8 * 8 := by
  simpa using ALIGN_LENGTH_pow2 x 3

theorem ALIGN_LENGTH_eq (x A : Nat) (hA : A = 1 ∨ A = 2 ∨ A = 4 ∨ A = 8) :
    ALIGN_LENGTH x A = ALIGNED_LENGTH x A % 4294967296 := by
  rcases hA with rfl | rfl | rfl | rfl
  · rw [ALIGN_LENGTH_1, ALIGNED_LENGTH_1]
  · rw [ALIGN_LENGTH_2, ALIGNED_LENGTH_2]; omega
  · rw [ALIGN_LENGTH_4, ALIGNED_LENGTH_4]; omega
  · rw [ALIGN_LENGTH_8, ALIGNED_LENGTH_8]; omega

theorem ALIGNED_LENGTH_4_of_aligned (x : Nat) (h : x % 4 = 0) : ALIGNED_LENGTH x 4 = x := by
  rw [ALIGNED_LENGTH_4]; omega

theorem ALIGNED_LENGTH_4_idem (x : Nat) :
    ALIGNED_LENGTH (ALIGNED_LENGTH x 4 + 4) 4 = ALIGNED_LENGTH x 4 + 4 := by
  rw [ALIGNED_LENGTH_4 x, ALIGNED_LENGTH_4]; omega

theorem ALIGNED_LENGTH_4_ge (x : Nat) : x ≤ ALIGNED_LENGTH x 4 := by
  rw [ALIGNED_LENGTH_4]; omega

theorem ALIGNED_LENGTH_least (o sz : Nat) (h : sz = 2 ∨ sz = 4 ∨ sz = 8) :
    sz ∣ ALIGNED_LENGTH o sz ∧ o ≤ ALIGNED_LENGTH o sz ∧
      ∀ c, sz ∣ c → o ≤ c → ALIGNED_LENGTH o sz ≤ c := by
  rcases h with rfl | rfl | rfl
  · rw [ALIGNED_LENGTH_2]
    refine ⟨⟨_, Nat.mul_comm _ _⟩, by omega, ?_⟩
    rintro c ⟨k, rfl⟩ hc
    omega
  · rw [ALIGNED_LENGTH_4]
    refine ⟨⟨_, Nat.mul_comm _ _⟩, by omega, ?_⟩
    rintro c ⟨k, rfl⟩ hc
    omega
  · rw [ALIGNED_LENGTH_8]
    refine ⟨⟨_, Nat.mul_comm _ _⟩, by omega, ?_⟩
    rintro c ⟨k, rfl⟩ hc
    omega

/-! ## Format cursors -/

namespace PFORMAT_STRING

theorem add_add (p : PFORMAT_STRING) (a b : Int) : (p.add a).add b = p.add (a + b) := by
  simp [add, Int.add_assoc]

theorem byte_add (p : PFORMAT_STRING) (a k : Int) : (p.add a).byte k = p.byte (a + k) := by
  simp [add, byte, Int.add_assoc]

theorem WORD_add (p : PFORMAT_STRING) (a k : Int) : (p.add a).WORD k = p.WORD (a + k) := by
  simp [WORD, byte_add, Int.add_assoc]

theorem SHORT_add (p : PFORMAT_STRING) (a k : Int) : (p.add a).SHORT k = p.SHORT (a + k) := by
  simp [SHORT, WORD_add]

theorem ULONG_add (p : PFORMAT_STRING) (a k : Int) : (p.add a).ULONG k = p.ULONG (a + k) := by
  simp [ULONG, WORD_add, Int.add_assoc]

end PFORMAT_STRING

/-! ## Wire words -/

theorem NDR_LOCAL_UINT32_READ_WRITE (be : Bool) (w : MEMORY) (a v : Nat) :
    NDR_LOCAL_UINT32_READ be (NDR_LOCAL_UINT32_WRITE be w a v) a = v % 4294967296 := by
  cases be
  · simp [NDR_LOCAL_UINT32_READ, NDR_LOCAL_UINT32_WRITE, LITTLE_ENDIAN_UINT32_READ,
      LITTLE_ENDIAN_UINT32_WRITE, load8_store8]
    omega
  · simp [NDR_LOCAL_UINT32_READ, NDR_LOCAL_UINT32_WRITE, BIG_ENDIAN_UINT32_READ,
      BIG_ENDIAN_UINT32_WRITE, load8_store8]
    omega

theorem NDR_LOCAL_UINT32_WRITE_out (be : Bool) (w : MEMORY) (a v x : Nat)
    (h : x < a ∨ a + 4 ≤ x) : NDR_LOCAL_UINT32_WRITE be w a v x = w x := by
  have h1 : x ≠ a := by omega
  have h2 : x ≠ a + 1 := by omega
  have h3 : x ≠ a + 2 := by omega
  have h4 : x ≠ a + 3 := by omega
  cases be <;>
    simp [NDR_LOCAL_UINT32_WRITE, LITTLE_ENDIAN_UINT32_WRITE, BIG_ENDIAN_UINT32_WRITE, store8,
      h1, h2, h3, h4]

theorem NDR_LOCAL_UINT32_READ_congr (be : Bool) (w1 w2 : MEMORY) (a : Nat)
    (h : ∀ i, i < 4 → w1 (a + i) = w2 (a + i)) :
    NDR_LOCAL_UINT32_READ be w1 a = NDR_LOCAL_UINT32_READ be w2 a := by
  have h0 := h 0 (by omega)
  have h1 := h 1 (by omega)
  have h2 := h 2 (by omega)
  have h3 := h 3 (by omega)
  simp only [Nat.add_zero] at h0
  cases be <;>
    simp [NDR_LOCAL_UINT32_READ, LITTLE_ENDIAN_UINT32_READ, BIG_ENDIAN_UINT32_READ, load8,
      h0, h1, h2, h3]

theorem cells_NDR_LOCAL_UINT32_WRITE (be : Bool) (w : MEMORY) (a v : Nat) :
    cells (NDR_LOCAL_UINT32_WRITE be w a v) a 4 = uint32Bytes be v := by
  cases be <;>
    simp [cells, uint32Bytes, NDR_LOCAL_UINT32_WRITE, LITTLE_ENDIAN_UINT32_WRITE,
      BIG_ENDIAN_UINT32_WRITE, store8, List.range_succ]

theorem cells_congr (w1 w2 : MEMORY) (a k : Nat) (h : ∀ i, i < k → w1 (a + i) = w2 (a + i)) :
    cells w1 a k = cells w2 a k := by
  unfold cells
  apply List.map_congr_left
  intro i hi
  exact h i (List.mem_range.mp hi)

/-! ## String length -/

theorem strlen_of_IsCString (m : MEMORY) (n : Nat) :
    ∀ (p fuel : Nat), IsCString m p n → n < fuel → strlen m p fuel = some n := by
  induction n with
  | zero =>
    intro p fuel h hf
    obtain ⟨k, rfl⟩ : ∃ k, fuel = k + 1 := ⟨fuel - 1, by omega⟩
    have h0 : load8 m p = 0 := by simpa using h.2
    simp [strlen, h0]
  | succ n ih =>
    intro p fuel h hf
    obtain ⟨k, rfl⟩ : ∃ k, fuel = k + 1 := ⟨fuel - 1, by omega⟩
    have h0 : load8 m p ≠ 0 := by simpa using h.1 0 (by omega)
    have hrec : IsCString m (p + 1) n := by
      refine ⟨fun i hi => ?_, ?_⟩
      · have := h.1 (i + 1) (by omega)
        rwa [show p + (i + 1) = p + 1 + i by omega] at this
      · have := h.2
        rwa [show p + (n + 1) = p + 1 + n by omega] at this
    simp [strlen, h0, ih (p + 1) k hrec (by omega)]

theorem strlenW_of_IsWString (m : MEMORY) (n : Nat) :
    ∀ (p fuel : Nat), IsWString m p n → n < fuel → strlenW m p fuel = some n := by
  induction n with
  | zero =>
    intro p fuel h hf
    obtain ⟨k, rfl⟩ : ∃ k, fuel = k + 1 := ⟨fuel - 1, by omega⟩
    have h0 : load16 m p = 0 := by simpa using h.2
    simp [strlenW, h0]
  | succ n ih =>
    intro p fuel h hf
    obtain ⟨k, rfl⟩ : ∃ k, fuel = k + 1 := ⟨fuel - 1, by omega⟩
    have h0 : load16 m p ≠ 0 := by simpa using h.1 0 (by omega)
    have hrec : IsWString m (p + 2) n := by
      refine ⟨fun i hi => ?_, ?_⟩
      · have := h.1 (i + 1) (by omega)
        rwa [show p + 2 * (i + 1) = p + 2 + 2 * i by omega] at this
      · have := h.2
        rwa [show p + 2 * (n + 1) = p + 2 + 2 * n by omega] at this
    simp [strlenW, h0, ih (p + 2) k hrec (by omega)]

/-- C2: a narrow string of `n` characters marshalled from a 4-aligned cursor gives the words
`len`, `0`, `len` (`len = n + 1`) in local byte order, then the `len` string bytes, and
advances `Buffer` by `12 + len`; no other wire cell and no memory cell changes. -/
theorem NdrConformantStringMarshall_cstring_layout
    (fuel : Nat) (s : MIDL_STUB_MESSAGE) (psz : Nat) (pFormat : PFORMAT_STRING) (n : Nat)
    (hfmt : pFormat.byte 0 = RPC_FC_C_CSTRING) (hstr : IsCString s.mem psz n)
    (hfuel : n < fuel) (hfit : n + 1 < 4294967296)
    (halign : s.Buffer % 4 = 0) (hbuf : s.Buffer ≠ 0) (hlen : s.BufferLength ≥ (n + 1) + 13) :
    ∃ s1, NdrConformantStringMarshall fuel s psz pFormat = .ok s1 ∧
      s1.Buffer = s.Buffer + 12 + (n + 1) ∧
      cells s1.wire s.Buffer 4 = uint32Bytes s.NDR_LOCAL_IS_BIG_ENDIAN (n + 1) ∧
      cells s1.wire (s.Buffer + 4) 4 = uint32Bytes s.NDR_LOCAL_IS_BIG_ENDIAN 0 ∧
      cells s1.wire (s.Buffer + 8) 4 = uint32Bytes s.NDR_LOCAL_IS_BIG_ENDIAN (n + 1) ∧
      (∀ i, i < n + 1 → s1.wire (s.Buffer + 12 + i) = s.mem (psz + i)) ∧
      (∀ a, a < s.Buffer ∨ s.Buffer + 12 + (n + 1) ≤ a → s1.wire a = s.wire a) ∧
      s1.mem = s.mem := by
  have hs := strlen_of_IsCString s.mem n psz fuel hstr hfuel
  have hmod : (n + 1) % 4294967296 = n + 1 := Nat.mod_eq_of_lt hfit
  have hcond : s.BufferLength ≥ ((n + 1) * 1 + 13) % 4294967296 ∧ s.Buffer ≠ 0 := by
    refine ⟨?_, hbuf⟩
    have := Nat.mod_le ((n + 1) * 1 + 13) 4294967296
    omega
  have hal : ALIGNED_LENGTH s.Buffer 4 = s.Buffer := ALIGNED_LENGTH_4_of_aligned _ halign
  have hal2 : ALIGNED_LENGTH (s.Buffer + 4) 4 = s.Buffer + 4 :=
    ALIGNED_LENGTH_4_of_aligned _ (by omega)
  simp only [NdrConformantStringMarshall, hfmt, hs, hmod, if_true]
  rw [if_pos hcond]
  refine ⟨_, rfl, ?_, ?_, ?_, ?_, ?_, ?_, ?_⟩
  · simp only [WriteVariance, WriteConformance, hal, hal2, Nat.mul_one, hmod]
  · simp only [WriteVariance, WriteConformance, hal, hal2, Nat.mul_one, hmod]
    rw [← cells_NDR_LOCAL_UINT32_WRITE s.NDR_LOCAL_IS_BIG_ENDIAN s.wire s.Buffer (n + 1)]
    apply cells_congr
    intro i hi
    rw [memcpy_out _ _ _ _ _ _ (by omega), NDR_LOCAL_UINT32_WRITE_out _ _ _ _ _ (by omega),
      NDR_LOCAL_UINT32_WRITE_out _ _ _ _ _ (by omega)]
  · simp only [WriteVariance, WriteConformance, hal, hal2, Nat.mul_one, hmod]
    rw [← cells_NDR_LOCAL_UINT32_WRITE s.NDR_LOCAL_IS_BIG_ENDIAN
      (NDR_LOCAL_UINT32_WRITE s.NDR_LOCAL_IS_BIG_ENDIAN s.wire s.Buffer (n + 1)) (s.Buffer + 4) 0]
    apply cells_congr
    intro i hi
    rw [memcpy_out _ _ _ _ _ _ (by omega), NDR_LOCAL_UINT32_WRITE_out _ _ _ _ _ (by omega)]
  · simp only [WriteVariance, WriteConformance, hal, hal2, Nat.mul_one, hmod]
    rw [← cells_NDR_LOCAL_UINT32_WRITE s.NDR_LOCAL_IS_BIG_ENDIAN
      (NDR_LOCAL_UINT32_WRITE s.NDR_LOCAL_IS_BIG_ENDIAN
        (NDR_LOCAL_UINT32_WRITE s.NDR_LOCAL_IS_BIG_ENDIAN s.wire s.Buffer (n + 1))
        (s.Buffer + 4) 0) (s.Buffer + 4 + 4) (n + 1)]
    apply cells_congr
    intro i hi
    rw [memcpy_out _ _ _ _ _ _ (by omega)]
  · intro i hi
    simp only [WriteVariance, WriteConformance, hal, hal2, Nat.mul_one, hmod]
    rw [show s.Buffer + 12 + i = s.Buffer + 4 + 8 + i by omega, memcpy_in _ _ _ _ _ _ hi]
  · intro a ha
    simp only [WriteVariance, WriteConformance, hal, hal2, Nat.mul_one, hmod]
    rw [memcpy_out _ _ _ _ _ _ (by omega), NDR_LOCAL_UINT32_WRITE_out _ _ _ _ _ (by omega),
      NDR_LOCAL_UINT32_WRITE_out _ _ _ _ _ (by omega),
      NDR_LOCAL_UINT32_WRITE_out _ _ _ _ _ (by omega)]
  · simp only [WriteVariance, WriteConformance]

/-- The unmarshaller applied to a marshalled string: shared by the narrow and the wide case.
`len` is the character count with terminator, `esize` the character size selected by the
format, `B` the aligned start of the header. -/
theorem NdrConformantStringUnmarshall_of_marshalled
    (r : MIDL_STUB_MESSAGE) (src : MEMORY) (psz : Nat) (pFormat : PFORMAT_STRING)
    (len esize : Nat) (w0 : MEMORY) (ppMemory : Nat) (fMustAlloc : Bool)
    (hes : (if pFormat.byte 0 = RPC_FC_C_CSTRING then 1
      else if pFormat.byte 0 = RPC_FC_C_WSTRING then 2 else 0) = esize)
    (hl : len < 4294967296) (hfit : len * esize < 4294967296)
    (hw : r.wire = memcpy
      (NDR_LOCAL_UINT32_WRITE r.NDR_LOCAL_IS_BIG_ENDIAN
        (NDR_LOCAL_UINT32_WRITE r.NDR_LOCAL_IS_BIG_ENDIAN
          (NDR_LOCAL_UINT32_WRITE r.NDR_LOCAL_IS_BIG_ENDIAN w0 (ALIGNED_LENGTH r.Buffer 4) len)
          (ALIGNED_LENGTH r.Buffer 4 + 4) 0) (ALIGNED_LENGTH r.Buffer 4 + 4 + 4) len)
      (ALIGNED_LENGTH r.Buffer 4 + 4 + 8) src psz (len * esize)) :
    ∃ r1 q, NdrConformantStringUnmarshall r ppMemory pFormat fMustAlloc = .ok (r1, q) ∧
      (∀ i, i < len * esize → r1.mem (q + i) = src (psz + i)) ∧
      r1.Buffer = ALIGNED_LENGTH r.Buffer 4 + 4 + 8 + len * esize := by
  have hact : NDR_LOCAL_UINT32_READ r.NDR_LOCAL_IS_BIG_ENDIAN r.wire
      (ALIGNED_LENGTH r.Buffer 4 + 4 + 4) = len := by
    rw [hw, NDR_LOCAL_UINT32_READ_congr _ _ _ _ (fun i hi => memcpy_out _ _ _ _ _ _ (by omega)),
      NDR_LOCAL_UINT32_READ_WRITE, Nat.mod_eq_of_lt hl]
  have hm : len * esize % 4294967296 = len * esize := Nat.mod_eq_of_lt hfit
  simp only [NdrConformantStringUnmarshall, ReadConformance, ReadVariance, NdrAllocate,
    ALIGNED_LENGTH_4_idem, hes, hact, hm, Bool.false_eq_true, if_false]
  refine ⟨_, _, rfl, ?_, ?_⟩
  · intro i hi
    simp only []
    rw [memcpy_in _ _ _ _ _ _ hi]
    split <;> simp only [] <;> rw [hw, memcpy_in _ _ _ _ _ _ hi]
  · split <;> simp only []

/-- C1: for a narrow or wide NUL-terminated string and any starting cursor, unmarshalling
what `NdrConformantStringMarshall` wrote yields memory whose first `len * esize` bytes are
the original string, and leaves the cursor where the marshaller stopped. -/
theorem NdrConformantString_roundtrip
    (fuel : Nat) (s : MIDL_STUB_MESSAGE) (psz : Nat) (pFormat : PFORMAT_STRING) (n esize : Nat)
    (hstr : (pFormat.byte 0 = RPC_FC_C_CSTRING ∧ esize = 1 ∧ IsCString s.mem psz n) ∨
      (pFormat.byte 0 = RPC_FC_C_WSTRING ∧ esize = 2 ∧ IsWString s.mem psz n))
    (hfuel : n < fuel) (hfit : (n + 1) * esize < 4294967296)
    (hlen : s.BufferLength ≥ (n + 1) * esize + 13) (hbuf : s.Buffer ≠ 0) :
    ∃ s1, NdrConformantStringMarshall fuel s psz pFormat = .ok s1 ∧
      ∀ (r : MIDL_STUB_MESSAGE) (ppMemory : Nat) (fMustAlloc : Bool),
        r.wire = s1.wire → r.Buffer = s.Buffer →
        r.NDR_LOCAL_IS_BIG_ENDIAN = s.NDR_LOCAL_IS_BIG_ENDIAN →
        ∃ r1 q, NdrConformantStringUnmarshall r ppMemory pFormat fMustAlloc = .ok (r1, q) ∧
          (∀ i, i < (n + 1) * esize → r1.mem (q + i) = s.mem (psz + i)) ∧
          r1.Buffer = s1.Buffer := by
  have hcond : s.BufferLength ≥ ((n + 1) * esize + 13) % 4294967296 ∧ s.Buffer ≠ 0 := by
    refine ⟨?_, hbuf⟩
    have := Nat.mod_le ((n + 1) * esize + 13) 4294967296
    omega
  have hm : (n + 1) * esize % 4294967296 = (n + 1) * esize := Nat.mod_eq_of_lt hfit
  have hne : RPC_FC_C_WSTRING ≠ RPC_FC_C_CSTRING := by decide
  rcases hstr with ⟨hf, he, hs⟩ | ⟨hf, he, hs⟩
  · subst he
    have hl : n + 1 < 4294967296 := by omega
    have hmod : (n + 1) % 4294967296 = n + 1 := Nat.mod_eq_of_lt hl
    have hsl := strlen_of_IsCString s.mem n psz fuel hs hfuel
    simp only [NdrConformantStringMarshall, hf, hsl, hmod, if_true]
    rw [if_pos hcond]
    refine ⟨_, rfl, ?_⟩
    intro r ppMemory fMustAlloc hw hb hbe
    have h := NdrConformantStringUnmarshall_of_marshalled r s.mem psz pFormat (n + 1) 1 s.wire
      ppMemory fMustAlloc (by simp [hf]) hl hfit
      (by rw [hw, hb, hbe]; simp only [WriteVariance, WriteConformance, ALIGNED_LENGTH_4_idem, hm])
    obtain ⟨r1, q, h1, h2, h3⟩ := h
    refine ⟨r1, q, h1, h2, ?_⟩
    rw [h3, hb]
    simp only [WriteVariance, WriteConformance, ALIGNED_LENGTH_4_idem, hm]
  · subst he
    have hl : n + 1 < 4294967296 := by omega
    have hmod : (n + 1) % 4294967296 = n + 1 := Nat.mod_eq_of_lt hl
    have hsl := strlenW_of_IsWString s.mem n psz fuel hs hfuel
    simp only [NdrConformantStringMarshall, hf, hsl, hmod, if_true, hne, if_false]
    rw [if_pos hcond]
    refine ⟨_, rfl, ?_⟩
    intro r ppMemory fMustAlloc hw hb hbe
    have h := NdrConformantStringUnmarshall_of_marshalled r s.mem psz pFormat (n + 1) 2 s.wire
      ppMemory fMustAlloc (by simp [hf, hne]) hl hfit
      (by rw [hw, hb, hbe]; simp only [WriteVariance, WriteConformance, ALIGNED_LENGTH_4_idem, hm])
    obtain ⟨r1, q, h1, h2, h3⟩ := h
    refine ⟨r1, q, h1, h2, ?_⟩
    rw [h3, hb]
    simp only [WriteVariance, WriteConformance, ALIGNED_LENGTH_4_idem, hm]

/-! ## Base types -/

theorem load8_store8_same (m : MEMORY) (a v : Nat) : load8 (store8 m a v) a = v % 256 := by
  rw [load8_store8, if_pos rfl]

theorem load8_mod (m : MEMORY) (a : Nat) : load8 m a % 256 = load8 m a :=
  Nat.mod_eq_of_lt (load8_lt m a)

theorem load16_mod (m : MEMORY) (a : Nat) : load16 m a % 65536 = load16 m a :=
  Nat.mod_eq_of_lt (load16_lt m a)

theorem load32_mod (m : MEMORY) (a : Nat) : load32 m a % 4294967296 = load32 m a :=
  Nat.mod_eq_of_lt (load32_lt m a)

theorem load64_mod (m : MEMORY) (a : Nat) : load64 m a % 18446744073709551616 = load64 m a :=
  Nat.mod_eq_of_lt (load64_lt m a)

theorem NdrBaseTypeMarshallTag_byte (s : MIDL_STUB_MESSAGE) (p tag : Nat)
    (h : tag = RPC_FC_BYTE ∨ tag = RPC_FC_CHAR ∨ tag = RPC_FC_SMALL ∨ tag = RPC_FC_USMALL) :
    NdrBaseTypeMarshallTag s p tag = .ok { s with
      wire := store8 s.wire s.Buffer (load8 s.mem p), Buffer := s.Buffer + 1 } := by
  unfold NdrBaseTypeMarshallTag
  rw [if_pos h]

theorem NdrBaseTypeMarshallTag_short (s : MIDL_STUB_MESSAGE) (p tag : Nat)
    (h : tag = RPC_FC_WCHAR ∨ tag = RPC_FC_SHORT ∨ tag = RPC_FC_USHORT) :
    NdrBaseTypeMarshallTag s p tag = .ok { s with
      wire := store16 s.wire (ALIGNED_LENGTH s.Buffer 2) (load16 s.mem p)
      Buffer := ALIGNED_LENGTH s.Buffer 2 + 2 } := by
  unfold NdrBaseTypeMarshallTag
  rw [if_neg (by rcases h with rfl | rfl | rfl <;> decide), if_pos h]

theorem floatAssign_lt (x87 : Bool) (v : Nat) (h : v < 4294967296) :
    floatAssign x87 v < 4294967296 := by
  unfold floatAssign
  split_ifs with hq
  · omega
  · exact h

theorem doubleAssign_lt (x87 : Bool) (v : Nat) (h : v < 18446744073709551616) :
    doubleAssign x87 v < 18446744073709551616 := by
  unfold doubleAssign
  split_ifs with hq
  · omega
  · exact h

theorem NdrBaseTypeMarshallTag_long (s : MIDL_STUB_MESSAGE) (p tag : Nat)
    (h : tag = RPC_FC_LONG ∨ tag = RPC_FC_ULONG ∨ tag = RPC_FC_ERROR_STATUS_T
      ∨ tag = RPC_FC_ENUM32) :
    NdrBaseTypeMarshallTag s p tag = .ok { s with
      wire := store32 s.wire (ALIGNED_LENGTH s.Buffer 4) (load32 s.mem p)
      Buffer := ALIGNED_LENGTH s.Buffer 4 + 4 } := by
  unfold NdrBaseTypeMarshallTag
  rcases h with rfl | rfl | rfl | rfl <;> simp [RPC_FC_BYTE, RPC_FC_CHAR, RPC_FC_SMALL,
    RPC_FC_USMALL, RPC_FC_WCHAR, RPC_FC_SHORT, RPC_FC_USHORT, RPC_FC_LONG, RPC_FC_ULONG,
    RPC_FC_ERROR_STATUS_T, RPC_FC_ENUM32]

theorem NdrBaseTypeMarshallTag_float (s : MIDL_STUB_MESSAGE) (p : Nat) :
    NdrBaseTypeMarshallTag s p RPC_FC_FLOAT = .ok { s with
      wire := store32 s.wire (ALIGNED_LENGTH s.Buffer 4)
        (floatAssign s.FLOATS_THROUGH_X87 (load32 s.mem p))
      Buffer := ALIGNED_LENGTH s.Buffer 4 + 4 } := by
  unfold NdrBaseTypeMarshallTag
  simp [RPC_FC_BYTE, RPC_FC_CHAR, RPC_FC_SMALL,
    RPC_FC_USMALL, RPC_FC_WCHAR, RPC_FC_SHORT, RPC_FC_USHORT, RPC_FC_LONG, RPC_FC_ULONG,
    RPC_FC_ERROR_STATUS_T, RPC_FC_ENUM32, RPC_FC_FLOAT]

theorem NdrBaseTypeMarshallTag_double (s : MIDL_STUB_MESSAGE) (p : Nat) :
    NdrBaseTypeMarshallTag s p RPC_FC_DOUBLE = .ok { s with
      wire := store64 s.wire (ALIGNED_LENGTH s.Buffer 8)
        (doubleAssign s.FLOATS_THROUGH_X87 (load64 s.mem p))
      Buffer := ALIGNED_LENGTH s.Buffer 8 + 8 } := by
  unfold NdrBaseTypeMarshallTag
  simp [RPC_FC_BYTE, RPC_FC_CHAR, RPC_FC_SMALL,
    RPC_FC_USMALL, RPC_FC_WCHAR, RPC_FC_SHORT, RPC_FC_USHORT, RPC_FC_LONG, RPC_FC_ULONG,
    RPC_FC_ERROR_STATUS_T, RPC_FC_ENUM32, RPC_FC_FLOAT, RPC_FC_DOUBLE]

theorem NdrBaseTypeMarshallTag_hyper (s : MIDL_STUB_MESSAGE) (p : Nat) :
    NdrBaseTypeMarshallTag s p RPC_FC_HYPER = .ok { s with
      wire := store64 s.wire (ALIGNED_LENGTH s.Buffer 8) (load64 s.mem p)
      Buffer := ALIGNED_LENGTH s.Buffer 8 + 8 } := by
  unfold NdrBaseTypeMarshallTag
  simp [RPC_FC_BYTE, RPC_FC_CHAR, RPC_FC_SMALL,
    RPC_FC_USMALL, RPC_FC_WCHAR, RPC_FC_SHORT, RPC_FC_USHORT, RPC_FC_LONG, RPC_FC_ULONG,
    RPC_FC_ERROR_STATUS_T, RPC_FC_ENUM32, RPC_FC_FLOAT, RPC_FC_DOUBLE, RPC_FC_HYPER]

theorem NdrBaseTypeMarshallTag_enum16 (s : MIDL_STUB_MESSAGE) (p : Nat) :
    NdrBaseTypeMarshallTag s p RPC_FC_ENUM16 =
      if load32 s.mem p > USHRT_MAX then .error .RPC_X_ENUM_VALUE_OUT_OF_RANGE
      else .ok { s with
        wire := store16 s.wire (ALIGNED_LENGTH s.Buffer 2) (load32 s.mem p)
        Buffer := ALIGNED_LENGTH s.Buffer 2 + 2 } := by
  unfold NdrBaseTypeMarshallTag
  simp [RPC_FC_BYTE, RPC_FC_CHAR, RPC_FC_SMALL,
    RPC_FC_USMALL, RPC_FC_WCHAR, RPC_FC_SHORT, RPC_FC_USHORT, RPC_FC_LONG, RPC_FC_ULONG,
    RPC_FC_ERROR_STATUS_T, RPC_FC_ENUM32, RPC_FC_FLOAT, RPC_FC_DOUBLE, RPC_FC_HYPER,
    RPC_FC_ENUM16]

theorem NdrBaseTypeUnmarshallCopy_byte (s : MIDL_STUB_MESSAGE) (p tag : Nat)
    (h : tag = RPC_FC_BYTE ∨ tag = RPC_FC_CHAR ∨ tag = RPC_FC_SMALL ∨ tag = RPC_FC_USMALL) :
    NdrBaseTypeUnmarshallCopy s p tag = .ok ({ s with
      mem := store8 s.mem p (load8 s.wire s.Buffer), Buffer := s.Buffer + 1 }, p) := by
  unfold NdrBaseTypeUnmarshallCopy
  rw [if_pos h]

theorem NdrBaseTypeUnmarshallCopy_short (s : MIDL_STUB_MESSAGE) (p tag : Nat)
    (h : tag = RPC_FC_WCHAR ∨ tag = RPC_FC_SHORT ∨ tag = RPC_FC_USHORT) :
    NdrBaseTypeUnmarshallCopy s p tag = .ok ({ s with
      mem := store16 s.mem p (load16 s.wire (ALIGNED_LENGTH s.Buffer 2))
      Buffer := ALIGNED_LENGTH s.Buffer 2 + 2 }, p) := by
  unfold NdrBaseTypeUnmarshallCopy
  rw [if_neg (by rcases h with rfl | rfl | rfl <;> decide), if_pos h]

theorem NdrBaseTypeUnmarshallCopy_long (s : MIDL_STUB_MESSAGE) (p tag : Nat)
    (h : tag = RPC_FC_LONG ∨ tag = RPC_FC_ULONG ∨ tag = RPC_FC_ERROR_STATUS_T
      ∨ tag = RPC_FC_ENUM32) :
    NdrBaseTypeUnmarshallCopy s p tag = .ok ({ s with
      mem := store32 s.mem p (load32 s.wire (ALIGNED_LENGTH s.Buffer 4))
      Buffer := ALIGNED_LENGTH s.Buffer 4 + 4 }, p) := by
  unfold NdrBaseTypeUnmarshallCopy
  rcases h with rfl | rfl | rfl | rfl <;> simp [RPC_FC_BYTE, RPC_FC_CHAR, RPC_FC_SMALL,
    RPC_FC_USMALL, RPC_FC_WCHAR, RPC_FC_SHORT, RPC_FC_USHORT, RPC_FC_LONG, RPC_FC_ULONG,
    RPC_FC_ERROR_STATUS_T, RPC_FC_ENUM32]

theorem NdrBaseTypeUnmarshallCopy_float (s : MIDL_STUB_MESSAGE) (p : Nat) :
    NdrBaseTypeUnmarshallCopy s p RPC_FC_FLOAT = .ok ({ s with
      mem := store32 s.mem p
        (floatAssign s.FLOATS_THROUGH_X87 (load32 s.wire (ALIGNED_LENGTH s.Buffer 4)))
      Buffer := ALIGNED_LENGTH s.Buffer 4 + 4 }, p) := by
  unfold NdrBaseTypeUnmarshallCopy
  simp [RPC_FC_BYTE, RPC_FC_CHAR, RPC_FC_SMALL,
    RPC_FC_USMALL, RPC_FC_WCHAR, RPC_FC_SHORT, RPC_FC_USHORT, RPC_FC_LONG, RPC_FC_ULONG,
    RPC_FC_ERROR_STATUS_T, RPC_FC_ENUM32, RPC_FC_FLOAT]

theorem NdrBaseTypeUnmarshallCopy_double (s : MIDL_STUB_MESSAGE) (p : Nat) :
    NdrBaseTypeUnmarshallCopy s p RPC_FC_DOUBLE = .ok ({ s with
      mem := store64 s.mem p
        (doubleAssign s.FLOATS_THROUGH_X87 (load64 s.wire (ALIGNED_LENGTH s.Buffer 8)))
      Buffer := ALIGNED_LENGTH s.Buffer 8 + 8 }, p) := by
  unfold NdrBaseTypeUnmarshallCopy
  simp [RPC_FC_BYTE, RPC_FC_CHAR, RPC_FC_SMALL,
    RPC_FC_USMALL, RPC_FC_WCHAR, RPC_FC_SHORT, RPC_FC_USHORT, RPC_FC_LONG, RPC_FC_ULONG,
    RPC_FC_ERROR_STATUS_T, RPC_FC_ENUM32, RPC_FC_FLOAT, RPC_FC_DOUBLE]

theorem NdrBaseTypeUnmarshallCopy_hyper (s : MIDL_STUB_MESSAGE) (p : Nat) :
    NdrBaseTypeUnmarshallCopy s p RPC_FC_HYPER = .ok ({ s with
      mem := store64 s.mem p (load64 s.wire (ALIGNED_LENGTH s.Buffer 8))
      Buffer := ALIGNED_LENGTH s.Buffer 8 + 8 }, p) := by
  unfold NdrBaseTypeUnmarshallCopy
  simp [RPC_FC_BYTE, RPC_FC_CHAR, RPC_FC_SMALL,
    RPC_FC_USMALL, RPC_FC_WCHAR, RPC_FC_SHORT, RPC_FC_USHORT, RPC_FC_LONG, RPC_FC_ULONG,
    RPC_FC_ERROR_STATUS_T, RPC_FC_ENUM32, RPC_FC_FLOAT, RPC_FC_DOUBLE, RPC_FC_HYPER]

theorem NdrBaseTypeUnmarshallCopy_enum16 (s : MIDL_STUB_MESSAGE) (p : Nat) :
    NdrBaseTypeUnmarshallCopy s p RPC_FC_ENUM16 = .ok ({ s with
      mem := store32 s.mem p (load16 s.wire (ALIGNED_LENGTH s.Buffer 2))
      Buffer := ALIGNED_LENGTH s.Buffer 2 + 2 }, p) := by
  unfold NdrBaseTypeUnmarshallCopy
  simp [RPC_FC_BYTE, RPC_FC_CHAR, RPC_FC_SMALL,
    RPC_FC_USMALL, RPC_FC_WCHAR, RPC_FC_SHORT, RPC_FC_USHORT, RPC_FC_LONG, RPC_FC_ULONG,
    RPC_FC_ERROR_STATUS_T, RPC_FC_ENUM32, RPC_FC_FLOAT, RPC_FC_DOUBLE, RPC_FC_HYPER,
    RPC_FC_ENUM16]

theorem NdrBaseTypeMemorySizeTag_wire (r : MIDL_STUB_MESSAGE) (tag : Nat) :
    (NdrBaseTypeMemorySizeTag r tag).1.wire = r.wire := by
  unfold NdrBaseTypeMemorySizeTag
  simp only []
  repeat' split
  all_goals rfl

theorem NdrBaseTypeMemorySizeTag_x87 (r : MIDL_STUB_MESSAGE) (tag : Nat) :
    (NdrBaseTypeMemorySizeTag r tag).1.FLOATS_THROUGH_X87 = r.FLOATS_THROUGH_X87 := by
  unfold NdrBaseTypeMemorySizeTag
  simp only []
  repeat' split
  all_goals rfl

theorem NdrBaseTypeUnmarshallAlloc_x87 (r : MIDL_STUB_MESSAGE) (ppMemory tag : Nat)
    (fMustAlloc : Bool) :
    (NdrBaseTypeUnmarshallAlloc r ppMemory tag fMustAlloc).1.FLOATS_THROUGH_X87 =
      r.FLOATS_THROUGH_X87 := by
  unfold NdrBaseTypeUnmarshallAlloc
  split
  · simp only [NdrAllocate, NdrBaseTypeMemorySizeTag_x87]
  · rfl

theorem NdrBaseTypeUnmarshallAlloc_wire (r : MIDL_STUB_MESSAGE) (ppMemory tag : Nat)
    (fMustAlloc : Bool) : (NdrBaseTypeUnmarshallAlloc r ppMemory tag fMustAlloc).1.wire = r.wire := by
  unfold NdrBaseTypeUnmarshallAlloc
  split
  · simp only [NdrAllocate, NdrBaseTypeMemorySizeTag_wire]
  · rfl

theorem NdrBaseTypeUnmarshallAlloc_Buffer (r : MIDL_STUB_MESSAGE) (ppMemory tag : Nat)
    (fMustAlloc : Bool) :
    (NdrBaseTypeUnmarshallAlloc r ppMemory tag fMustAlloc).1.Buffer = r.Buffer := by
  unfold NdrBaseTypeUnmarshallAlloc
  split <;> rfl

theorem NdrBaseTypeMemorySizeTag_size (r : MIDL_STUB_MESSAGE) (tag : Nat) :
    (NdrBaseTypeMemorySizeTag r tag).2 =
      if tag = RPC_FC_BYTE ∨ tag = RPC_FC_CHAR ∨ tag = RPC_FC_SMALL ∨ tag = RPC_FC_USMALL then 1
      else if tag = RPC_FC_WCHAR ∨ tag = RPC_FC_SHORT ∨ tag = RPC_FC_USHORT then 2
      else if tag = RPC_FC_LONG ∨ tag = RPC_FC_ULONG then 4
      else if tag = RPC_FC_FLOAT then 4
      else if tag = RPC_FC_DOUBLE then 8
      else if tag = RPC_FC_HYPER then 8
      else if tag = RPC_FC_ERROR_STATUS_T then 4
      else if tag = RPC_FC_ENUM16 ∨ tag = RPC_FC_ENUM32 then 4
      else 0 := by
  unfold NdrBaseTypeMemorySizeTag
  simp only []
  repeat' split
  all_goals rfl

/-- C3: for every integer base-type tag (and `ENUM16` values up to `0xFFFF`), every value
and every starting cursor, unmarshalling what `NdrBaseTypeMarshall` wrote stores the
original value (read with the memory width of the type), and both operations leave the
cursor at the same offset. -/
theorem NdrBaseType_roundtrip
    (s : MIDL_STUB_MESSAGE) (pMemory : Nat) (pFormat : PFORMAT_STRING)
    (htag : pFormat.byte 0 ∈ [RPC_FC_BYTE, RPC_FC_CHAR, RPC_FC_SMALL, RPC_FC_USMALL,
      RPC_FC_WCHAR, RPC_FC_SHORT, RPC_FC_USHORT, RPC_FC_LONG, RPC_FC_ULONG,
      RPC_FC_ERROR_STATUS_T, RPC_FC_ENUM32, RPC_FC_HYPER, RPC_FC_ENUM16])
    (henum : pFormat.byte 0 = RPC_FC_ENUM16 → load32 s.mem pMemory ≤ 0xFFFF) :
    ∃ s1, NdrBaseTypeMarshall s pMemory pFormat = .ok s1 ∧
      ∀ (r : MIDL_STUB_MESSAGE) (ppMemory : Nat) (fMustAlloc : Bool),
        r.wire = s1.wire → r.Buffer = s.Buffer →
        ∃ r1 q, NdrBaseTypeUnmarshall r ppMemory pFormat fMustAlloc = .ok (r1, q) ∧
          loadValue r1.mem q (NdrBaseTypeMemorySizeTag r (pFormat.byte 0)).2 =
            loadValue s.mem pMemory (NdrBaseTypeMemorySizeTag s (pFormat.byte 0)).2 ∧
          r1.Buffer = s1.Buffer := by
  simp only [List.mem_cons, List.mem_singleton, List.not_mem_nil, or_false] at htag
  unfold NdrBaseTypeMarshall NdrBaseTypeUnmarshall NdrBaseTypeUnmarshallTag
  generalize pFormat.byte 0 = tag at htag henum ⊢
  have hc1 : (tag = RPC_FC_BYTE ∨ tag = RPC_FC_CHAR ∨ tag = RPC_FC_SMALL ∨ tag = RPC_FC_USMALL) ∨
      (tag = RPC_FC_WCHAR ∨ tag = RPC_FC_SHORT ∨ tag = RPC_FC_USHORT) ∨
      (tag = RPC_FC_LONG ∨ tag = RPC_FC_ULONG ∨ tag = RPC_FC_ERROR_STATUS_T ∨
        tag = RPC_FC_ENUM32) ∨ tag = RPC_FC_HYPER ∨ tag = RPC_FC_ENUM16 := by tauto
  clear htag
  rcases hc1 with h | h | h | h | h
  · -- one-byte types
    rw [NdrBaseTypeMarshallTag_byte s pMemory tag h]
    refine ⟨_, rfl, ?_⟩
    intro r ppMemory fMustAlloc hw hb
    rw [NdrBaseTypeUnmarshallCopy_byte _ _ tag h]
    refine ⟨_, _, rfl, ?_, ?_⟩
    · have hsz : ∀ x : MIDL_STUB_MESSAGE, (NdrBaseTypeMemorySizeTag x tag).2 = 1 := by
        intro x
        rw [NdrBaseTypeMemorySizeTag_size]
        rcases h with rfl | rfl | rfl | rfl <;> decide
      simp only [hsz, loadValue, NdrBaseTypeUnmarshallAlloc_wire,
        NdrBaseTypeUnmarshallAlloc_Buffer, hw, hb]
      simp [load8_store8_same, load8_mod]
    · simp only [NdrBaseTypeUnmarshallAlloc_Buffer, hb]
  · -- two-byte types
    rw [NdrBaseTypeMarshallTag_short s pMemory tag h]
    refine ⟨_, rfl, ?_⟩
    intro r ppMemory fMustAlloc hw hb
    rw [NdrBaseTypeUnmarshallCopy_short _ _ tag h]
    refine ⟨_, _, rfl, ?_, ?_⟩
    · have hsz : ∀ x : MIDL_STUB_MESSAGE, (NdrBaseTypeMemorySizeTag x tag).2 = 2 := by
        intro x
        rw [NdrBaseTypeMemorySizeTag_size]
        rcases h with rfl | rfl | rfl <;> decide
      simp only [hsz, loadValue, NdrBaseTypeUnmarshallAlloc_wire,
        NdrBaseTypeUnmarshallAlloc_Buffer, hw, hb]
      simp [load16_store16, load16_mod]
    · simp only [NdrBaseTypeUnmarshallAlloc_Buffer, hb]
  · -- four-byte types
    rw [NdrBaseTypeMarshallTag_long s pMemory tag h]
    refine ⟨_, rfl, ?_⟩
    intro r ppMemory fMustAlloc hw hb
    rw [NdrBaseTypeUnmarshallCopy_long _ _ tag h]
    refine ⟨_, _, rfl, ?_, ?_⟩
    · have hsz : ∀ x : MIDL_STUB_MESSAGE, (NdrBaseTypeMemorySizeTag x tag).2 = 4 := by
        intro x
        rw [NdrBaseTypeMemorySizeTag_size]
        rcases h with rfl | rfl | rfl | rfl <;> decide
      simp only [hsz, loadValue, NdrBaseTypeUnmarshallAlloc_wire,
        NdrBaseTypeUnmarshallAlloc_Buffer, hw, hb]
      simp [load32_store32, load32_mod]
    · simp only [NdrBaseTypeUnmarshallAlloc_Buffer, hb]
  · -- HYPER
    subst h
    rw [NdrBaseTypeMarshallTag_hyper s pMemory]
    refine ⟨_, rfl, ?_⟩
    intro r ppMemory fMustAlloc hw hb
    rw [NdrBaseTypeUnmarshallCopy_hyper]
    refine ⟨_, _, rfl, ?_, ?_⟩
    · have hsz : ∀ x : MIDL_STUB_MESSAGE, (NdrBaseTypeMemorySizeTag x RPC_FC_HYPER).2 = 8 := by
        intro x
        rw [NdrBaseTypeMemorySizeTag_size]
        decide
      simp only [hsz, loadValue, NdrBaseTypeUnmarshallAlloc_wire,
        NdrBaseTypeUnmarshallAlloc_Buffer, hw, hb]
      simp [load64_store64, load64_mod]
    · simp only [NdrBaseTypeUnmarshallAlloc_Buffer, hb]
  · -- ENUM16: two bytes on the wire, four in memory
    subst h
    have he : ¬ load32 s.mem pMemory > USHRT_MAX := by
      have := henum rfl
      unfold USHRT_MAX; omega
    rw [NdrBaseTypeMarshallTag_enum16, if_neg he]
    refine ⟨_, rfl, ?_⟩
    intro r ppMemory fMustAlloc hw hb
    rw [NdrBaseTypeUnmarshallCopy_enum16]
    refine ⟨_, _, rfl, ?_, ?_⟩
    · have hsz : ∀ x : MIDL_STUB_MESSAGE, (NdrBaseTypeMemorySizeTag x RPC_FC_ENUM16).2 = 4 := by
        intro x
        rw [NdrBaseTypeMemorySizeTag_size]
        decide
      have hv : load32 s.mem pMemory % 65536 = load32 s.mem pMemory := by
        have := henum rfl
        omega
      simp only [hsz, loadValue, NdrBaseTypeUnmarshallAlloc_wire,
        NdrBaseTypeUnmarshallAlloc_Buffer, hw, hb]
      simp [load16_store16, load32_store32, hv, load32_mod]
    · simp only [NdrBaseTypeUnmarshallAlloc_Buffer, hb]

/-- C9: for a base type of wire size `sz` in {2, 4, 8} and any cursor `o = s.Buffer`,
`NdrBaseTypeMarshall` writes the value at the least multiple `b` of `sz` that is at least
`o` and touches no other wire cell, `NdrBaseTypeUnmarshall` reads the value at that same `b`,
and both leave the cursor at `b + sz`, never before `o`.  The value that arrives is the value
read, passed through the assignment of its type: unchanged for the integer types, and
`floatAssign` or `doubleAssign` of it for `FLOAT` and `DOUBLE`. -/
theorem NdrBaseType_natural_alignment
    (s : MIDL_STUB_MESSAGE) (pMemory : Nat) (pFormat : PFORMAT_STRING) (sz : Nat)
    (hsz : (sz = 2 ∧ pFormat.byte 0 ∈ [RPC_FC_WCHAR, RPC_FC_SHORT, RPC_FC_USHORT, RPC_FC_ENUM16])
      ∨ (sz = 4 ∧ pFormat.byte 0 ∈ [RPC_FC_LONG, RPC_FC_ULONG, RPC_FC_ERROR_STATUS_T,
          RPC_FC_ENUM32, RPC_FC_FLOAT])
      ∨ (sz = 8 ∧ pFormat.byte 0 ∈ [RPC_FC_HYPER, RPC_FC_DOUBLE]))
    (henum : pFormat.byte 0 = RPC_FC_ENUM16 → load32 s.mem pMemory ≤ 0xFFFF) :
    ∃ b, (sz ∣ b ∧ s.Buffer ≤ b ∧ ∀ c, sz ∣ c → s.Buffer ≤ c → b ≤ c) ∧
      (∃ s1, NdrBaseTypeMarshall s pMemory pFormat = .ok s1 ∧
        loadValue s1.wire b sz =
          baseTypeAssign s.FLOATS_THROUGH_X87 (pFormat.byte 0)
            (loadValue s.mem pMemory (NdrBaseTypeMemorySizeTag s (pFormat.byte 0)).2) ∧
        (∀ a, a < b ∨ b + sz ≤ a → s1.wire a = s.wire a) ∧
        s1.Buffer = b + sz ∧ s.Buffer ≤ s1.Buffer) ∧
      (∀ (ppMemory : Nat) (fMustAlloc : Bool),
        ∃ r1 q, NdrBaseTypeUnmarshall s ppMemory pFormat fMustAlloc = .ok (r1, q) ∧
          loadValue r1.mem q (NdrBaseTypeMemorySizeTag s (pFormat.byte 0)).2 =
            baseTypeAssign s.FLOATS_THROUGH_X87 (pFormat.byte 0) (loadValue s.wire b sz) ∧
          r1.Buffer = b + sz ∧ s.Buffer ≤ r1.Buffer) := by
  simp only [List.mem_cons, List.mem_singleton, List.not_mem_nil, or_false] at hsz
  unfold NdrBaseTypeMarshall NdrBaseTypeUnmarshall NdrBaseTypeUnmarshallTag
  generalize pFormat.byte 0 = tag at hsz henum ⊢
  have hcases : (sz = 2 ∧ (tag = RPC_FC_WCHAR ∨ tag = RPC_FC_SHORT ∨ tag = RPC_FC_USHORT)) ∨
      (sz = 2 ∧ tag = RPC_FC_ENUM16) ∨
      (sz = 4 ∧ (tag = RPC_FC_LONG ∨ tag = RPC_FC_ULONG ∨ tag = RPC_FC_ERROR_STATUS_T
        ∨ tag = RPC_FC_ENUM32)) ∨
      (sz = 8 ∧ tag = RPC_FC_HYPER) ∨ (sz = 4 ∧ tag = RPC_FC_FLOAT) ∨
      (sz = 8 ∧ tag = RPC_FC_DOUBLE) := by tauto
  clear hsz
  rcases hcases with ⟨rfl, h⟩ | ⟨rfl, h⟩ | ⟨rfl, h⟩ | ⟨rfl, h⟩ | ⟨rfl, h⟩ | ⟨rfl, h⟩
  · refine ⟨ALIGNED_LENGTH s.Buffer 2, ALIGNED_LENGTH_least _ _ (by simp), ?_, ?_⟩
    · rw [NdrBaseTypeMarshallTag_short s pMemory tag h]
      have hm : (NdrBaseTypeMemorySizeTag s tag).2 = 2 := by
        rw [NdrBaseTypeMemorySizeTag_size]
        rcases h with rfl | rfl | rfl <;> decide
      have hid : ∀ v, baseTypeAssign s.FLOATS_THROUGH_X87 tag v = v := by
        intro v
        unfold baseTypeAssign
        rw [if_neg (by rcases h with rfl | rfl | rfl <;> decide),
          if_neg (by rcases h with rfl | rfl | rfl <;> decide)]
      refine ⟨_, rfl, ?_, ?_, rfl, ?_⟩
      · simp [hm, hid, loadValue, load16_store16, load16_mod]
      · intro a ha
        exact store16_out _ _ _ _ ha
      · have := (ALIGNED_LENGTH_least s.Buffer 2 (by simp)).2.1
        simp only []
        omega
    · intro ppMemory fMustAlloc
      rw [NdrBaseTypeUnmarshallCopy_short _ _ tag h]
      have hm : (NdrBaseTypeMemorySizeTag s tag).2 = 2 := by
        rw [NdrBaseTypeMemorySizeTag_size]
        rcases h with rfl | rfl | rfl <;> decide
      have hid : ∀ v, baseTypeAssign s.FLOATS_THROUGH_X87 tag v = v := by
        intro v
        unfold baseTypeAssign
        rw [if_neg (by rcases h with rfl | rfl | rfl <;> decide),
          if_neg (by rcases h with rfl | rfl | rfl <;> decide)]
      refine ⟨_, _, rfl, ?_, ?_, ?_⟩
      · simp [hm, hid, loadValue, load16_store16, load16_mod, NdrBaseTypeUnmarshallAlloc_wire,
          NdrBaseTypeUnmarshallAlloc_Buffer]
      · simp only [NdrBaseTypeUnmarshallAlloc_Buffer]
      · have := (ALIGNED_LENGTH_least s.Buffer 2 (by simp)).2.1
        simp only [NdrBaseTypeUnmarshallAlloc_Buffer]
        omega
  · subst h
    have he : ¬ load32 s.mem pMemory > USHRT_MAX := by
      have := henum rfl
      unfold USHRT_MAX; omega
    have hv : load32 s.mem pMemory % 65536 = load32 s.mem pMemory := by
      have := henum rfl
      omega
    have hm : (NdrBaseTypeMemorySizeTag s RPC_FC_ENUM16).2 = 4 := by
      rw [NdrBaseTypeMemorySizeTag_size]; decide
    have hid : ∀ v, baseTypeAssign s.FLOATS_THROUGH_X87 RPC_FC_ENUM16 v = v := by
      intro v
      unfold baseTypeAssign
      rw [if_neg (by decide), if_neg (by decide)]
    refine ⟨ALIGNED_LENGTH s.Buffer 2, ALIGNED_LENGTH_least _ _ (by simp), ?_, ?_⟩
    · rw [NdrBaseTypeMarshallTag_enum16, if_neg he]
      refine ⟨_, rfl, ?_, ?_, rfl, ?_⟩
      · simp [hm, hid, loadValue, load16_store16, hv]
      · intro a ha
        exact store16_out _ _ _ _ ha
      · have := (ALIGNED_LENGTH_least s.Buffer 2 (by simp)).2.1
        simp only []
        omega
    · intro ppMemory fMustAlloc
      rw [NdrBaseTypeUnmarshallCopy_enum16]
      refine ⟨_, _, rfl, ?_, ?_, ?_⟩
      · simp [hm, hid, loadValue, load32_store32, load16_mod, NdrBaseTypeUnmarshallAlloc_wire,
          NdrBaseTypeUnmarshallAlloc_Buffer]
        have := load16_lt s.wire (ALIGNED_LENGTH s.Buffer 2)
        omega
      · simp only [NdrBaseTypeUnmarshallAlloc_Buffer]
      · have := (ALIGNED_LENGTH_least s.Buffer 2 (by simp)).2.1
        simp only [NdrBaseTypeUnmarshallAlloc_Buffer]
        omega
  · refine ⟨ALIGNED_LENGTH s.Buffer 4, ALIGNED_LENGTH_least _ _ (by simp), ?_, ?_⟩
    · rw [NdrBaseTypeMarshallTag_long s pMemory tag h]
      have hm : (NdrBaseTypeMemorySizeTag s tag).2 = 4 := by
        rw [NdrBaseTypeMemorySizeTag_size]
        rcases h with rfl | rfl | rfl | rfl <;> decide
      have hid : ∀ v, baseTypeAssign s.FLOATS_THROUGH_X87 tag v = v := by
        intro v
        unfold baseTypeAssign
        rw [if_neg (by rcases h with rfl | rfl | rfl | rfl <;> decide),
          if_neg (by rcases h with rfl | rfl | rfl | rfl <;> decide)]
      refine ⟨_, rfl, ?_, ?_, rfl, ?_⟩
      · simp [hm, hid, loadValue, load32_store32, load32_mod]
      · intro a ha
        exact store32_out _ _ _ _ ha
      · have := (ALIGNED_LENGTH_least s.Buffer 4 (by simp)).2.1
        simp only []
        omega
    · intro ppMemory fMustAlloc
      rw [NdrBaseTypeUnmarshallCopy_long _ _ tag h]
      have hm : (NdrBaseTypeMemorySizeTag s tag).2 = 4 := by
        rw [NdrBaseTypeMemorySizeTag_size]
        rcases h with rfl | rfl | rfl | rfl <;> decide
      have hid : ∀ v, baseTypeAssign s.FLOATS_THROUGH_X87 tag v = v := by
        intro v
        unfold baseTypeAssign
        rw [if_neg (by rcases h with rfl | rfl | rfl | rfl <;> decide),
          if_neg (by rcases h with rfl | rfl | rfl | rfl <;> decide)]
      refine ⟨_, _, rfl, ?_, ?_, ?_⟩
      · simp [hm, hid, loadValue, load32_store32, load32_mod, NdrBaseTypeUnmarshallAlloc_wire,
          NdrBaseTypeUnmarshallAlloc_Buffer]
      · simp only [NdrBaseTypeUnmarshallAlloc_Buffer]
      · have := (ALIGNED_LENGTH_least s.Buffer 4 (by simp)).2.1
        simp only [NdrBaseTypeUnmarshallAlloc_Buffer]
        omega
  · subst h
    have hm : (NdrBaseTypeMemorySizeTag s RPC_FC_HYPER).2 = 8 := by
      rw [NdrBaseTypeMemorySizeTag_size]; decide
    have hid : ∀ v, baseTypeAssign s.FLOATS_THROUGH_X87 RPC_FC_HYPER v = v := by
      intro v
      unfold baseTypeAssign
      rw [if_neg (by decide), if_neg (by decide)]
    refine ⟨ALIGNED_LENGTH s.Buffer 8, ALIGNED_LENGTH_least _ _ (by simp), ?_, ?_⟩
    · rw [NdrBaseTypeMarshallTag_hyper s pMemory]
      refine ⟨_, rfl, ?_, ?_, rfl, ?_⟩
      · simp [hm, hid, loadValue, load64_store64, load64_mod]
      · intro a ha
        exact store64_out _ _ _ _ ha
      · have := (ALIGNED_LENGTH_least s.Buffer 8 (by simp)).2.1
        simp only []
        omega
    · intro ppMemory fMustAlloc
      rw [NdrBaseTypeUnmarshallCopy_hyper]
      refine ⟨_, _, rfl, ?_, ?_, ?_⟩
      · simp [hm, hid, loadValue, load64_store64, load64_mod, NdrBaseTypeUnmarshallAlloc_wire,
          NdrBaseTypeUnmarshallAlloc_Buffer]
      · simp only [NdrBaseTypeUnmarshallAlloc_Buffer]
      · have := (ALIGNED_LENGTH_least s.Buffer 8 (by simp)).2.1
        simp only [NdrBaseTypeUnmarshallAlloc_Buffer]
        omega
  · subst h
    have hm : (NdrBaseTypeMemorySizeTag s RPC_FC_FLOAT).2 = 4 := by
      rw [NdrBaseTypeMemorySizeTag_size]; decide
    have hid : ∀ v, baseTypeAssign s.FLOATS_THROUGH_X87 RPC_FC_FLOAT v =
        floatAssign s.FLOATS_THROUGH_X87 v := by
      intro v
      unfold baseTypeAssign
      rw [if_pos rfl]
    have hlt : ∀ (w : MEMORY) (a : Nat),
        floatAssign s.FLOATS_THROUGH_X87 (load32 w a) % 4294967296 =
          floatAssign s.FLOATS_THROUGH_X87 (load32 w a) :=
      fun w a => Nat.mod_eq_of_lt (floatAssign_lt _ _ (load32_lt w a))
    refine ⟨ALIGNED_LENGTH s.Buffer 4, ALIGNED_LENGTH_least _ _ (by simp), ?_, ?_⟩
    · rw [NdrBaseTypeMarshallTag_float s pMemory]
      refine ⟨_, rfl, ?_, ?_, rfl, ?_⟩
      · simp [hm, hid, hlt, loadValue, load32_store32]
      · intro a ha
        exact store32_out _ _ _ _ ha
      · have := (ALIGNED_LENGTH_least s.Buffer 4 (by simp)).2.1
        simp only []
        omega
    · intro ppMemory fMustAlloc
      rw [NdrBaseTypeUnmarshallCopy_float]
      refine ⟨_, _, rfl, ?_, ?_, ?_⟩
      · simp [hm, hid, hlt, loadValue, load32_store32, NdrBaseTypeUnmarshallAlloc_wire,
          NdrBaseTypeUnmarshallAlloc_Buffer, NdrBaseTypeUnmarshallAlloc_x87]
      · simp only [NdrBaseTypeUnmarshallAlloc_Buffer]
      · have := (ALIGNED_LENGTH_least s.Buffer 4 (by simp)).2.1
        simp only [NdrBaseTypeUnmarshallAlloc_Buffer]
        omega
  · subst h
    have hm : (NdrBaseTypeMemorySizeTag s RPC_FC_DOUBLE).2 = 8 := by
      rw [NdrBaseTypeMemorySizeTag_size]; decide
    have hid : ∀ v, baseTypeAssign s.FLOATS_THROUGH_X87 RPC_FC_DOUBLE v =
        doubleAssign s.FLOATS_THROUGH_X87 v := by
      intro v
      unfold baseTypeAssign
      rw [if_neg (by decide), if_pos rfl]
    have hlt : ∀ (w : MEMORY) (a : Nat),
        doubleAssign s.FLOATS_THROUGH_X87 (load64 w a) % 18446744073709551616 =
          doubleAssign s.FLOATS_THROUGH_X87 (load64 w a) :=
      fun w a => Nat.mod_eq_of_lt (doubleAssign_lt _ _ (load64_lt w a))
    refine ⟨ALIGNED_LENGTH s.Buffer 8, ALIGNED_LENGTH_least _ _ (by simp), ?_, ?_⟩
    · rw [NdrBaseTypeMarshallTag_double s pMemory]
      refine ⟨_, rfl, ?_, ?_, rfl, ?_⟩
      · simp [hm, hid, hlt, loadValue, load64_store64]
      · intro a ha
        exact store64_out _ _ _ _ ha
      · have := (ALIGNED_LENGTH_least s.Buffer 8 (by simp)).2.1
        simp only []
        omega
    · intro ppMemory fMustAlloc
      rw [NdrBaseTypeUnmarshallCopy_double]
      refine ⟨_, _, rfl, ?_, ?_, ?_⟩
      · simp [hm, hid, hlt, loadValue, load64_store64, NdrBaseTypeUnmarshallAlloc_wire,
          NdrBaseTypeUnmarshallAlloc_Buffer, NdrBaseTypeUnmarshallAlloc_x87]
      · simp only [NdrBaseTypeUnmarshallAlloc_Buffer]
      · have := (ALIGNED_LENGTH_least s.Buffer 8 (by simp)).2.1
        simp only [NdrBaseTypeUnmarshallAlloc_Buffer]
        omega

/-- A `float` holding the signalling NaN `0x7fa00001` marshalled from the buffer offset 8 and
unmarshalled from a buffer holding it: where the value travels through an x87 register the
bytes `01 00 e0 7f` arrive, where the four bytes are moved the bytes `01 00 a0 7f` arrive. -/
theorem NdrBaseType_float_signalling_NaN :
    (∃ s1, NdrBaseTypeMarshall signallingNaNMsg 100 floatFormat = .ok s1 ∧
      cells s1.wire 8 4 = [0x01, 0x00, 0xe0, 0x7f] ∧ s1.Buffer = 12) ∧
    (∃ s1, NdrBaseTypeMarshall { signallingNaNMsg with FLOATS_THROUGH_X87 := false } 100
        floatFormat = .ok s1 ∧
      cells s1.wire 8 4 = [0x01, 0x00, 0xa0, 0x7f] ∧ s1.Buffer = 12) ∧
    (∃ r1 q, NdrBaseTypeUnmarshall
        { signallingNaNMsg with wire := memOfList 8 [0x01, 0x00, 0xa0, 0x7f] } 200 floatFormat
        false = .ok (r1, q) ∧
      q = 200 ∧ cells r1.mem 200 4 = [0x01, 0x00, 0xe0, 0x7f] ∧ r1.Buffer = 12) :=
  ⟨⟨_, rfl, by decide, by decide⟩, ⟨_, rfl, by decide, by decide⟩,
    ⟨_, _, rfl, by decide, by decide, by decide⟩⟩

/-! ## Pointers -/

theorem cells_zero_word (be : Bool) (w : MEMORY) (b : Nat) :
    cells (NDR_LOCAL_UINT32_WRITE be w b 0) b 4 = [0, 0, 0, 0] := by
  rw [cells_NDR_LOCAL_UINT32_WRITE]
  cases be <;> simp [uint32Bytes]

theorem NdrPointerMarshall_null (NdrMarshaller : Nat → Option NDR_MARSHALL)
    (s : MIDL_STUB_MESSAGE) (pFormat : PFORMAT_STRING)
    (htype : pFormat.byte 0 = RPC_FC_UP ∨ pFormat.byte 0 = RPC_FC_OP) :
    NdrPointerMarshall NdrMarshaller s 0 pFormat = .ok { s with
      Buffer := ALIGNED_LENGTH s.Buffer 4 + 4
      wire := NDR_LOCAL_UINT32_WRITE s.NDR_LOCAL_IS_BIG_ENDIAN s.wire
        (ALIGNED_LENGTH s.Buffer 4) 0 } := by
  have hne : pFormat.byte 0 ≠ RPC_FC_RP := by
    rcases htype with h | h <;> rw [h] <;> decide
  simp only [NdrPointerMarshall, PointerMarshall, hne, htype, ne_eq, not_false_eq_true,
    if_true, if_false, not_true_eq_false]

theorem NdrPointerUnmarshall_null_id (NdrUnmarshaller : Nat → Option NDR_UNMARSHALL)
    (r : MIDL_STUB_MESSAGE) (ppMemory : Nat) (pFormat : PFORMAT_STRING) (fMustAlloc : Bool)
    (htype : pFormat.byte 0 = RPC_FC_UP ∨ pFormat.byte 0 = RPC_FC_OP)
    (hid : NDR_LOCAL_UINT32_READ r.NDR_LOCAL_IS_BIG_ENDIAN r.wire (ALIGNED_LENGTH r.Buffer 4)
      = 0) :
    NdrPointerUnmarshall NdrUnmarshaller r ppMemory pFormat fMustAlloc =
      .ok ({ r with Buffer := ALIGNED_LENGTH r.Buffer 4 + 4 }, ppMemory) := by
  have hne : pFormat.byte 0 ≠ RPC_FC_RP := by
    rcases htype with h | h <;> rw [h] <;> decide
  simp only [NdrPointerUnmarshall, PointerUnmarshall, hne, htype, ne_eq, not_false_eq_true,
    if_true, if_false, not_true_eq_false, hid]

/-- C4: a `NULL` unique or object pointer.  From any cursor `NdrPointerMarshall` rounds the
cursor up to a multiple of 4, writes four zero bytes there and nothing else, and stops 4
bytes further; the result is the same for every dispatch table, so no referent marshaller
runs.  `NdrPointerUnmarshall` on that buffer consumes the same 4 bytes and changes nothing
else, for every dispatch table. -/
theorem NdrPointer_null_unique_or_object
    (NdrMarshaller : Nat → Option NDR_MARSHALL) (NdrUnmarshaller : Nat → Option NDR_UNMARSHALL)
    (s : MIDL_STUB_MESSAGE) (pFormat : PFORMAT_STRING)
    (htype : pFormat.byte 0 = RPC_FC_UP ∨ pFormat.byte 0 = RPC_FC_OP) :
    (4 ∣ ALIGNED_LENGTH s.Buffer 4 ∧ s.Buffer ≤ ALIGNED_LENGTH s.Buffer 4 ∧
      ∀ c, 4 ∣ c → s.Buffer ≤ c → ALIGNED_LENGTH s.Buffer 4 ≤ c) ∧
    NdrPointerMarshall NdrMarshaller s 0 pFormat = .ok { s with
      Buffer := ALIGNED_LENGTH s.Buffer 4 + 4
      wire := NDR_LOCAL_UINT32_WRITE s.NDR_LOCAL_IS_BIG_ENDIAN s.wire
        (ALIGNED_LENGTH s.Buffer 4) 0 } ∧
    cells (NDR_LOCAL_UINT32_WRITE s.NDR_LOCAL_IS_BIG_ENDIAN s.wire (ALIGNED_LENGTH s.Buffer 4) 0)
      (ALIGNED_LENGTH s.Buffer 4) 4 = [0, 0, 0, 0] ∧
    (∀ a, a < ALIGNED_LENGTH s.Buffer 4 ∨ ALIGNED_LENGTH s.Buffer 4 + 4 ≤ a →
      NDR_LOCAL_UINT32_WRITE s.NDR_LOCAL_IS_BIG_ENDIAN s.wire (ALIGNED_LENGTH s.Buffer 4) 0 a
        = s.wire a) ∧
    ∀ (r : MIDL_STUB_MESSAGE) (ppMemory : Nat) (fMustAlloc : Bool),
      r.wire = NDR_LOCAL_UINT32_WRITE s.NDR_LOCAL_IS_BIG_ENDIAN s.wire
        (ALIGNED_LENGTH s.Buffer 4) 0 →
      r.Buffer = s.Buffer → r.NDR_LOCAL_IS_BIG_ENDIAN = s.NDR_LOCAL_IS_BIG_ENDIAN →
      NdrPointerUnmarshall NdrUnmarshaller r ppMemory pFormat fMustAlloc =
        .ok ({ r with Buffer := ALIGNED_LENGTH s.Buffer 4 + 4 }, ppMemory) := by
  refine ⟨ALIGNED_LENGTH_least _ _ (by simp), NdrPointerMarshall_null _ _ _ htype,
    cells_zero_word _ _ _, ?_, ?_⟩
  · intro a ha
    exact NDR_LOCAL_UINT32_WRITE_out _ _ _ _ _ ha
  · intro r ppMemory fMustAlloc hw hb hbe
    rw [NdrPointerUnmarshall_null_id _ _ _ _ _ htype
      (by rw [hw, hb, hbe, NDR_LOCAL_UINT32_READ_WRITE]), hb]

/-- C5: a ref pointer carries no pointer ID.  With `desc` the referent description and `m`
the referent operation found in the dispatch table, `NdrPointerMarshall` (for a non-`NULL`
pointer), `NdrPointerUnmarshall` and `NdrPointerBufferSize` return exactly what `m` returns
when started in the state of the call: no alignment, no ID word written, read or counted.
With the dereference attribute the unmarshaller first provides the pointer cell; the referent
operation still starts at the same cursor on the same wire, and the cursor it leaves is the
cursor of the call.  A `NULL` ref pointer is marshalled as nothing at all. -/
theorem NdrPointer_ref_no_id
    (NdrMarshaller : Nat → Option NDR_MARSHALL) (NdrUnmarshaller : Nat → Option NDR_UNMARSHALL)
    (NdrBufferSizer : Nat → Option NDR_BUFFERSIZE)
    (s : MIDL_STUB_MESSAGE) (Pointer : Nat) (pFormat : PFORMAT_STRING) (fMustAlloc : Bool)
    (htype : pFormat.byte 0 = RPC_FC_RP) :
    (Pointer ≠ 0 →
      NdrPointerMarshall NdrMarshaller s Pointer pFormat =
        match NdrMarshaller ((pointerDesc pFormat).byte 0 &&& NDR_TABLE_MASK) with
        | some m =>
          m s (if pFormat.byte 1 &&& RPC_FC_P_DEREF ≠ 0 then load32 s.mem Pointer else Pointer)
            (pointerDesc pFormat)
        | none => .ok s) ∧
    (Pointer = 0 → NdrPointerMarshall NdrMarshaller s Pointer pFormat = .ok s) ∧
    (pFormat.byte 1 &&& RPC_FC_P_DEREF = 0 →
      NdrPointerUnmarshall NdrUnmarshaller s Pointer pFormat fMustAlloc =
        match NdrUnmarshaller ((pointerDesc pFormat).byte 0 &&& NDR_TABLE_MASK) with
        | some m => m s Pointer (pointerDesc pFormat) fMustAlloc
        | none => .ok (s, Pointer)) ∧
    (∃ (s0 : MIDL_STUB_MESSAGE) (p0 : Nat), s0.Buffer = s.Buffer ∧ s0.wire = s.wire ∧
      (NdrPointerUnmarshall NdrUnmarshaller s Pointer pFormat fMustAlloc).map
          (fun (x : MIDL_STUB_MESSAGE × Nat) => x.1.Buffer) =
        (match NdrUnmarshaller ((pointerDesc pFormat).byte 0 &&& NDR_TABLE_MASK) with
          | some m => m s0 p0 (pointerDesc pFormat) fMustAlloc
          | none => .ok (s0, p0)).map (fun (x : MIDL_STUB_MESSAGE × Nat) => x.1.Buffer)) ∧
    NdrPointerBufferSize NdrBufferSizer s Pointer pFormat =
      match NdrBufferSizer ((pointerDesc pFormat).byte 0 &&& NDR_TABLE_MASK) with
      | some m =>
        m s (if pFormat.byte 1 &&& RPC_FC_P_DEREF ≠ 0 then load32 s.mem Pointer else Pointer)
          (pointerDesc pFormat)
      | none => .ok s := by
  refine ⟨?_, ?_, ?_, ?_, ?_⟩
  · intro hp
    simp only [NdrPointerMarshall, PointerMarshall, htype, ne_eq, not_true_eq_false, if_false,
      if_true, hp, not_false_eq_true]
  · intro hp
    simp only [NdrPointerMarshall, PointerMarshall, htype, ne_eq, not_true_eq_false, if_false,
      if_true, hp]
  · intro hd
    simp only [NdrPointerUnmarshall, PointerUnmarshall, htype, ne_eq, not_true_eq_false,
      if_false, if_true, hd]
    simp
  · by_cases hd : pFormat.byte 1 &&& RPC_FC_P_DEREF = 0
    · refine ⟨s, Pointer, rfl, rfl, ?_⟩
      simp only [NdrPointerUnmarshall, PointerUnmarshall, htype, ne_eq, not_true_eq_false,
        if_false, if_true, hd]
      simp
    · refine ⟨(if Pointer = 0 ∨ fMustAlloc = true then NdrAllocate s 4 else (s, Pointer)).1,
        load32 (if Pointer = 0 ∨ fMustAlloc = true then NdrAllocate s 4 else (s, Pointer)).1.mem
          (if Pointer = 0 ∨ fMustAlloc = true then NdrAllocate s 4 else (s, Pointer)).2,
        ?_, ?_, ?_⟩
      · split <;> rfl
      · split <;> rfl
      · simp only [NdrPointerUnmarshall, PointerUnmarshall, htype, ne_eq, not_true_eq_false,
          if_false, if_true, hd, not_false_eq_true]
        simp only [show (4294967295 : Nat) = 0 ↔ False by simp, if_false]
        cases NdrUnmarshaller ((pointerDesc pFormat).byte 0 &&& NDR_TABLE_MASK) with
        | none => simp [Except.map]
        | some m =>
          simp only []
          cases m (if Pointer = 0 ∨ fMustAlloc = true then NdrAllocate s 4 else (s, Pointer)).1
            (load32 (if Pointer = 0 ∨ fMustAlloc = true then NdrAllocate s 4
              else (s, Pointer)).1.mem
              (if Pointer = 0 ∨ fMustAlloc = true then NdrAllocate s 4 else (s, Pointer)).2)
            (pointerDesc pFormat) fMustAlloc with
          | error e => simp [Except.map]
          | ok x => simp [Except.map]
  · simp only [NdrPointerBufferSize, PointerBufferSize, htype, ne_eq, not_true_eq_false,
      if_false, if_true]

/-! ## Complex structures -/



/-- C6: the structure `{ int32 a; int32* b }` with `b == NULL`, described by the field stream
`LONG, POINTER, END` and a unique-pointer description.  From a 4-aligned cursor
`NdrComplexStructMarshall` writes the 4 bytes of `a`, then the zero pointer ID, 8 bytes in
all and nothing else; `NdrComplexStructUnmarshall` on these bytes yields the same `a` and
`b == NULL` and stops at the same cursor. -/
theorem NdrComplexStruct_long_null_pointer
    (NdrMarshaller : Nat → Option NDR_MARSHALL) (NdrUnmarshaller : Nat → Option NDR_UNMARSHALL)
    (StubDesc : MIDL_STUB_DESC) (fuel : Nat) (s : MIDL_STUB_MESSAGE) (pMemory : Nat)
    (pFormat pp : PFORMAT_STRING)
    (hhdr : complexStructHeader pFormat = (none, some pp))
    (hup : pp.byte 0 = RPC_FC_UP)
    (h8 : pFormat.byte 8 = RPC_FC_LONG) (h9 : pFormat.byte 9 = RPC_FC_POINTER)
    (h10 : pFormat.byte 10 = RPC_FC_END)
    (hfuel : 3 ≤ fuel)
    (halign : s.Buffer % 4 = 0)
    (hsalign : ALIGNED_LENGTH s.Buffer (pFormat.byte 1 + 1) = s.Buffer)
    (hb : load32 s.mem (pMemory + 4) = 0) :
    ∃ s1, NdrComplexStructMarshall NdrMarshaller StubDesc fuel s pMemory pFormat = .ok s1 ∧
      s1.Buffer = s.Buffer + 8 ∧
      (∀ i, i < 4 → s1.wire (s.Buffer + i) = s.mem (pMemory + i)) ∧
      cells s1.wire (s.Buffer + 4) 4 = [0, 0, 0, 0] ∧
      (∀ a, a < s.Buffer ∨ s.Buffer + 8 ≤ a → s1.wire a = s.wire a) ∧
      ∀ (r : MIDL_STUB_MESSAGE) (ppMemory : Nat) (fMustAlloc : Bool),
        r.wire = s1.wire → r.Buffer = s.Buffer →
        r.NDR_LOCAL_IS_BIG_ENDIAN = s.NDR_LOCAL_IS_BIG_ENDIAN →
        ∃ r1 q, NdrComplexStructUnmarshall NdrUnmarshaller fuel r ppMemory pFormat fMustAlloc
            = .ok (r1, q) ∧
          (∀ i, i < 4 → r1.mem (q + i) = s.mem (pMemory + i)) ∧
          load32 r1.mem (q + 4) = 0 ∧
          r1.Buffer = s1.Buffer := by
  obtain ⟨k, rfl⟩ : ∃ k, fuel = k + 3 := ⟨fuel - 3, by omega⟩
  have hal4 : ALIGNED_LENGTH (s.Buffer + 4) 4 = s.Buffer + 4 :=
    ALIGNED_LENGTH_4_of_aligned _ (by omega)
  have hc1 : RPC_FC_LONG ≠ RPC_FC_END := by decide
  have hc2 : ¬ (RPC_FC_LONG = RPC_FC_SHORT ∨ RPC_FC_LONG = RPC_FC_USHORT) := by decide
  have hc3 : RPC_FC_POINTER ≠ RPC_FC_END := by decide
  have hc4 : ¬ (RPC_FC_POINTER = RPC_FC_SHORT ∨ RPC_FC_POINTER = RPC_FC_USHORT) := by decide
  have hc5 : ¬ (RPC_FC_POINTER = RPC_FC_LONG ∨ RPC_FC_POINTER = RPC_FC_ULONG
    ∨ RPC_FC_POINTER = RPC_FC_ENUM32) := by decide
  have hm : NdrComplexStructMarshall NdrMarshaller StubDesc (k + 3) s pMemory pFormat =
      .ok { s with
        Buffer := s.Buffer + 4 + 4
        wire := NDR_LOCAL_UINT32_WRITE s.NDR_LOCAL_IS_BIG_ENDIAN
          (memcpy s.wire s.Buffer s.mem pMemory 4) (s.Buffer + 4) 0 } := by
    simp only [NdrComplexStructMarshall, hhdr, hsalign, ComplexMarshall,
      PFORMAT_STRING.byte_add, PFORMAT_STRING.add_add, Int.reduceAdd, h8, h9, h10, hc1, hc2,
      hc3, hc4, hc5, if_true, if_false, true_or, hb,
      NdrPointerMarshall_null NdrMarshaller _ pp (Or.inl hup), hal4]
  refine ⟨_, hm, ?_, ?_, ?_, ?_, ?_⟩
  · simp only []
  · intro i hi
    simp only []
    rw [NDR_LOCAL_UINT32_WRITE_out _ _ _ _ _ (by omega), memcpy_in _ _ _ _ _ _ hi]
  · exact cells_zero_word _ _ _
  · intro a ha
    simp only []
    rw [NDR_LOCAL_UINT32_WRITE_out _ _ _ _ _ (by omega), memcpy_out _ _ _ _ _ _ (by omega)]
  · intro r ppMemory fMustAlloc hw hbuf hbe
    simp only [] at hw
    have hid : NDR_LOCAL_UINT32_READ r.NDR_LOCAL_IS_BIG_ENDIAN r.wire (s.Buffer + 4) = 0 := by
      rw [hw, hbe, NDR_LOCAL_UINT32_READ_WRITE]
    have hsal : ALIGNED_LENGTH r.Buffer (pFormat.byte 1 + 1) = s.Buffer := by rw [hbuf, hsalign]
    by_cases hc : fMustAlloc = true ∨ ppMemory = 0
    · simp only [NdrComplexStructUnmarshall, hhdr, hsal, hc, if_true, NdrAllocate,
        ComplexUnmarshall, PFORMAT_STRING.byte_add, PFORMAT_STRING.add_add, Int.reduceAdd, h8, h9,
        h10, hc1, hc2, hc3, hc4, hc5, if_false, true_or]
      rw [NdrPointerUnmarshall_null_id NdrUnmarshaller _ _ pp _ (Or.inl hup)
        (by simp only [hal4]; exact hid)]
      simp only [hal4]
      refine ⟨_, _, rfl, ?_, ?_, ?_⟩
      · intro i hi
        simp only []
        rw [store32_out _ _ _ _ (by omega), store32_out _ _ _ _ (by omega),
          memcpy_in _ _ _ _ _ _ hi, hw, NDR_LOCAL_UINT32_WRITE_out _ _ _ _ _ (by omega),
          memcpy_in _ _ _ _ _ _ hi]
      · simp only [load32_store32, Nat.zero_mod]
      · simp only []
    · simp only [NdrComplexStructUnmarshall, hhdr, hsal, hc, if_false, NdrAllocate,
        ComplexUnmarshall, PFORMAT_STRING.byte_add, PFORMAT_STRING.add_add, Int.reduceAdd, h8, h9,
        h10, hc1, hc2, hc3, hc4, hc5, if_true, true_or]
      rw [NdrPointerUnmarshall_null_id NdrUnmarshaller _ _ pp _ (Or.inl hup)
        (by simp only [hal4]; exact hid)]
      simp only [hal4]
      refine ⟨_, _, rfl, ?_, ?_, ?_⟩
      · intro i hi
        simp only []
        rw [store32_out _ _ _ _ (by omega), store32_out _ _ _ _ (by omega),
          memcpy_in _ _ _ _ _ _ hi, hw, NDR_LOCAL_UINT32_WRITE_out _ _ _ _ _ (by omega),
          memcpy_in _ _ _ _ _ _ hi]
      · simp only [load32_store32, Nat.zero_mod]
      · simp only []

/-! ## Conformance resolution and conformant arrays -/

theorem ComputeConformance_cursor (StubDesc : MIDL_STUB_DESC)
    (s : MIDL_STUB_MESSAGE) (pMemory : Nat) (pFormat : PFORMAT_STRING) (dflt : Nat) :
    (ComputeConformance StubDesc s pMemory pFormat dflt).2 =
      pFormat.add (corrDescStep (ComputeConformance StubDesc s pMemory pFormat dflt).1) := by
  unfold ComputeConformance ComputeConformanceOrVariance
  simp only []
  split <;> rfl

theorem ALIGNED_LENGTH_least_1248 (o A : Nat) (h : A = 1 ∨ A = 2 ∨ A = 4 ∨ A = 8) :
    A ∣ ALIGNED_LENGTH o A ∧ o ≤ ALIGNED_LENGTH o A ∧
      ∀ c, A ∣ c → o ≤ c → ALIGNED_LENGTH o A ≤ c := by
  rcases h with rfl | h
  · rw [ALIGNED_LENGTH_1]
    exact ⟨Nat.one_dvd _, Nat.le_refl _, fun c _ hc => hc⟩
  · exact ALIGNED_LENGTH_least o A h

/-- C7: a conformant array without embedded pointers, with resolved conformance `n`, element
size `esize` and declared alignment `A` in {1, 2, 4, 8}.  From a 4-aligned cursor
`NdrConformantArrayMarshall` writes the 4-byte count `n`, leaves the padding up to the next
multiple `b` of `A` untouched, then writes the `n * esize` element bytes.
`NdrConformantArrayUnmarshall` with `fMustAlloc` makes one allocator request, of exactly
`n * esize` bytes, and reproduces the elements there. -/
theorem NdrConformantArray_layout_and_allocation
    (NdrMarshaller : Nat → Option NDR_MARSHALL) (NdrUnmarshaller : Nat → Option NDR_UNMARSHALL)
    (StubDesc : MIDL_STUB_DESC) (fuel : Nat) (s : MIDL_STUB_MESSAGE) (pMemory : Nat)
    (pFormat : PFORMAT_STRING) (n A : Nat)
    (hconf : (ComputeConformance StubDesc s pMemory (pFormat.add 4) 0).1
      = { s with MaxCount := n })
    (hnopp : ((pFormat.add 4).add (corrDescStep s)).byte 0 ≠ RPC_FC_PP)
    (hA : pFormat.byte 1 + 1 = A) (hA' : A = 1 ∨ A = 2 ∨ A = 4 ∨ A = 8)
    (hn : n < 4294967296) (hfit : n * pFormat.WORD 2 < 4294967296)
    (halign : s.Buffer % 4 = 0) :
    (A ∣ ALIGNED_LENGTH (s.Buffer + 4) A ∧ s.Buffer + 4 ≤ ALIGNED_LENGTH (s.Buffer + 4) A ∧
      ∀ c, A ∣ c → s.Buffer + 4 ≤ c → ALIGNED_LENGTH (s.Buffer + 4) A ≤ c) ∧
    ∃ s1, NdrConformantArrayMarshall NdrMarshaller StubDesc fuel s pMemory pFormat = .ok s1 ∧
      cells s1.wire s.Buffer 4 = uint32Bytes s.NDR_LOCAL_IS_BIG_ENDIAN n ∧
      (∀ i, i < n * pFormat.WORD 2 →
        s1.wire (ALIGNED_LENGTH (s.Buffer + 4) A + i) = s.mem (pMemory + i)) ∧
      (∀ a, a < s.Buffer ∨ (s.Buffer + 4 ≤ a ∧ a < ALIGNED_LENGTH (s.Buffer + 4) A) ∨
        ALIGNED_LENGTH (s.Buffer + 4) A + n * pFormat.WORD 2 ≤ a → s1.wire a = s.wire a) ∧
      s1.Buffer = ALIGNED_LENGTH (s.Buffer + 4) A + n * pFormat.WORD 2 ∧
      ∀ (r : MIDL_STUB_MESSAGE) (ppMemory : Nat),
        r.wire = s1.wire → r.Buffer = s.Buffer →
        r.NDR_LOCAL_IS_BIG_ENDIAN = s.NDR_LOCAL_IS_BIG_ENDIAN →
        r.fHasNewCorrDesc = s.fHasNewCorrDesc →
        ∃ r1 q, NdrConformantArrayUnmarshall NdrUnmarshaller fuel r ppMemory pFormat true
            = .ok (r1, q) ∧
          r1.allocated = n * pFormat.WORD 2 :: r.allocated ∧
          q = r.pfnAllocate r.allocated (n * pFormat.WORD 2) ∧
          (∀ i, i < n * pFormat.WORD 2 → r1.mem (q + i) = s.mem (pMemory + i)) ∧
          r1.Buffer = s1.Buffer := by
  have hleast := ALIGNED_LENGTH_least_1248 (s.Buffer + 4) A hA'
  have hc : ComputeConformance StubDesc s pMemory (pFormat.add 4) 0 =
      ({ s with MaxCount := n }, (pFormat.add 4).add (corrDescStep s)) :=
    Prod.ext hconf (by rw [ComputeConformance_cursor, hconf]; rfl)
  have hal : ALIGNED_LENGTH s.Buffer 4 = s.Buffer := ALIGNED_LENGTH_4_of_aligned _ halign
  have hAm : (pFormat.byte 1 + 1) % 256 = A := by
    rw [hA]; rcases hA' with rfl | rfl | rfl | rfl <;> rfl
  have hnm : n % 4294967296 = n := Nat.mod_eq_of_lt hn
  have hpm : n * pFormat.WORD 2 % 4294967296 = n * pFormat.WORD 2 := Nat.mod_eq_of_lt hfit
  refine ⟨hleast, ?_⟩
  have hm : NdrConformantArrayMarshall NdrMarshaller StubDesc fuel s pMemory pFormat =
      .ok { s with
        MaxCount := n
        wire := memcpy (NDR_LOCAL_UINT32_WRITE s.NDR_LOCAL_IS_BIG_ENDIAN s.wire s.Buffer n)
          (ALIGNED_LENGTH (s.Buffer + 4) A) s.mem pMemory (n * pFormat.WORD 2)
        BufferMark := ALIGNED_LENGTH (s.Buffer + 4) A
        Buffer := ALIGNED_LENGTH (s.Buffer + 4) A + n * pFormat.WORD 2 } := by
    simp only [NdrConformantArrayMarshall, hc, WriteConformance, hal, hAm, hnm, hpm,
      EmbeddedPointerMarshall, hnopp, ne_eq, not_false_eq_true, if_true]
  refine ⟨_, hm, ?_, ?_, ?_, rfl, ?_⟩
  · simp only []
    rw [← cells_NDR_LOCAL_UINT32_WRITE s.NDR_LOCAL_IS_BIG_ENDIAN s.wire s.Buffer n]
    apply cells_congr
    intro i hi
    rw [memcpy_out _ _ _ _ _ _ (by omega)]
  · intro i hi
    simp only []
    rw [memcpy_in _ _ _ _ _ _ hi]
  · intro a ha
    simp only []
    rw [memcpy_out _ _ _ _ _ _ (by omega), NDR_LOCAL_UINT32_WRITE_out _ _ _ _ _ (by omega)]
  · intro r ppMemory hw hb hbe hcorr
    simp only [] at hw
    have hcnt : NDR_LOCAL_UINT32_READ r.NDR_LOCAL_IS_BIG_ENDIAN r.wire s.Buffer = n := by
      rw [hw, hbe, NDR_LOCAL_UINT32_READ_congr _ _ _ _
        (fun i hi => memcpy_out _ _ _ _ _ _ (by omega)), NDR_LOCAL_UINT32_READ_WRITE, hnm]
    have hstep : corrDescStep r = corrDescStep s := by
      unfold corrDescStep; rw [hcorr]
    simp only [NdrConformantArrayUnmarshall, ReadConformance, hb, hal, hcnt, hAm, hnm, hpm,
      true_or, if_true, NdrAllocate, Option.map_some', hstep, EmbeddedPointerUnmarshall, hnopp,
      ne_eq, not_false_eq_true]
    refine ⟨_, _, rfl, rfl, rfl, ?_, rfl⟩
    intro i hi
    simp only []
    rw [memcpy_in _ _ _ _ _ _ hi, hw, memcpy_in _ _ _ _ _ _ hi]

/-! ## Non-encapsulated unions -/

theorem armScan_no_match (d : Nat) :
    ∀ (n : Nat) (f : PFORMAT_STRING), (∀ i : Nat, i < n → f.ULONG (6 * (i : Int)) ≠ d) →
      armScan d n f = (false, f.add (6 * (n : Int))) := by
  intro n
  induction n with
  | zero =>
    intro f _
    simp [armScan, PFORMAT_STRING.add]
  | succ n ih =>
    intro f h
    have h0 : d ≠ f.ULONG 0 := by
      have := h 0 (by omega)
      simpa using this.symm
    have hrec : ∀ i : Nat, i < n → (f.add 6).ULONG (6 * (i : Int)) ≠ d := by
      intro i hi
      have := h (i + 1) (by omega)
      rw [PFORMAT_STRING.ULONG_add]
      rwa [show (6 : Int) * ((i + 1 : Nat) : Int) = 6 + 6 * (i : Int) by push_cast; ring] at this
    rw [armScan, if_neg h0, ih (f.add 6) hrec, PFORMAT_STRING.add_add]
    congr 2
    push_cast
    ring

theorem get_arm_offset_default_none (x : MIDL_STUB_MESSAGE) (d : Nat) (arms : PFORMAT_STRING)
    (hnomatch : ∀ i : Nat, i < (arms.WORD 0 &&& 0x0fff) → arms.ULONG (2 + 6 * (i : Int)) ≠ d)
    (hdefault : arms.WORD (2 + 6 * ((arms.WORD 0 &&& 0x0fff : Nat) : Int)) = 0) :
    get_arm_offset_from_union_arm_selector x d arms = none := by
  unfold get_arm_offset_from_union_arm_selector
  have h := armScan_no_match d (arms.WORD 0 &&& 0x0fff) (arms.add 2)
    (fun i hi => by rw [PFORMAT_STRING.ULONG_add]; exact hnomatch i hi)
  simp only [h, PFORMAT_STRING.WORD_add, PFORMAT_STRING.add_add, Int.add_zero, hdefault]
  simp

theorem corrResolve_some (StubDesc : MIDL_STUB_DESC) (s x : MIDL_STUB_MESSAGE)
    (f : PFORMAT_STRING) (ptr d : Nat) (hmem : x.mem = s.mem)
    (h : (corrResolve StubDesc s f ptr).2 = some d) :
    corrResolve StubDesc x f ptr = (x, some d) := by
  unfold corrResolve at h ⊢
  by_cases hcb : f.byte 1 = RPC_FC_CALLBACK
  · rw [if_pos hcb] at h
    simp at h
  · rw [if_neg hcb] at h ⊢
    simp only [hmem]
    simp only [] at h
    rw [h]

theorem ComputeConformanceOrVarianceCount_some (StubDesc : MIDL_STUB_DESC)
    (s x : MIDL_STUB_MESSAGE) (pMemory : Nat) (f : PFORMAT_STRING) (dflt d : Nat)
    (hmem : x.mem = s.mem) (hM : x.Memory = s.Memory) (hS : x.StackTop = s.StackTop)
    (h : (ComputeConformanceOrVarianceCount StubDesc s pMemory f dflt).2 = some d) :
    ComputeConformanceOrVarianceCount StubDesc x pMemory f dflt = (x, some d) := by
  unfold ComputeConformanceOrVarianceCount at h ⊢
  simp only [hM, hS] at h ⊢
  split_ifs at h ⊢
  all_goals first
    | exact corrResolve_some StubDesc s x f _ d hmem h
    | (simp only [] at h; rw [h])

theorem NdrBaseTypeMarshallTag_frame (s s1 : MIDL_STUB_MESSAGE) (p tag : Nat)
    (h : NdrBaseTypeMarshallTag s p tag = .ok s1) :
    s1.mem = s.mem ∧ s1.Memory = s.Memory ∧ s1.StackTop = s.StackTop ∧
      s1.fHasNewCorrDesc = s.fHasNewCorrDesc := by
  unfold NdrBaseTypeMarshallTag at h
  split_ifs at h
  all_goals (simp only [Except.ok.injEq] at h; subst h; exact ⟨rfl, rfl, rfl, rfl⟩)

theorem NdrBaseTypeBufferSizeTag_frame (s s1 : MIDL_STUB_MESSAGE) (p tag : Nat)
    (h : NdrBaseTypeBufferSizeTag s p tag = .ok s1) :
    s1.mem = s.mem ∧ s1.Memory = s.Memory ∧ s1.StackTop = s.StackTop ∧
      s1.fHasNewCorrDesc = s.fHasNewCorrDesc := by
  unfold NdrBaseTypeBufferSizeTag at h
  simp only [] at h
  split_ifs at h
  all_goals (simp only [Except.ok.injEq] at h; subst h; exact ⟨rfl, rfl, rfl, rfl⟩)

theorem unmarshall_discriminant_frame (s : MIDL_STUB_MESSAGE) (f : PFORMAT_STRING) :
    (unmarshall_discriminant s f).2.2 = (f.add 1).add (corrDescStep s) := by
  unfold unmarshall_discriminant
  simp only []
  split_ifs <;> rfl

/-- C10: a non-encapsulated union whose discriminant matches no declared arm and whose
default word is 0.  `arms` is the arm table (count word, entries, default word).  The
marshaller returns exactly what marshalling the discriminant returns, the unmarshaller
returns the state reached after reading the discriminant (nothing further consumed, no
allocation, `*ppMemory` untouched), and the buffer sizer returns exactly what sizing the
discriminant returns, for every dispatch table. -/
theorem NdrNonEncapsulatedUnion_default_no_type
    (NdrMarshaller : Nat → Option NDR_MARSHALL) (NdrUnmarshaller : Nat → Option NDR_UNMARSHALL)
    (NdrBufferSizer : Nat → Option NDR_BUFFERSIZE) (StubDesc : MIDL_STUB_DESC)
    (s : MIDL_STUB_MESSAGE) (pMemory ppMemory : Nat) (pFormat arms : PFORMAT_STRING)
    (fMustAlloc : Bool) (dm : Nat)
    (harms : arms = (((pFormat.add 2).add (corrDescStep s)).add
      (((pFormat.add 2).add (corrDescStep s)).SHORT 0)).add 2)
    (hdefault : arms.WORD (2 + 6 * ((arms.WORD 0 &&& 0x0fff : Nat) : Int)) = 0)
    (hdm : (ComputeConformanceOrVarianceCount StubDesc s pMemory (pFormat.add 2) 0).2 = some dm)
    (hnm : ∀ i : Nat, i < (arms.WORD 0 &&& 0x0fff) → arms.ULONG (2 + 6 * (i : Int)) ≠ dm)
    (hnu : ∀ i : Nat, i < (arms.WORD 0 &&& 0x0fff) →
      arms.ULONG (2 + 6 * (i : Int)) ≠ (unmarshall_discriminant s (pFormat.add 1)).1) :
    NdrNonEncapsulatedUnionMarshall NdrMarshaller StubDesc s pMemory pFormat =
      NdrBaseTypeMarshall s (get_conformance_address s pMemory (pFormat.add 2)) (pFormat.add 1) ∧
    NdrNonEncapsulatedUnionUnmarshall NdrUnmarshaller s ppMemory pFormat fMustAlloc =
      .ok ((unmarshall_discriminant s (pFormat.add 1)).2.1, ppMemory) ∧
    NdrNonEncapsulatedUnionBufferSize NdrBufferSizer StubDesc s pMemory pFormat =
      NdrBaseTypeBufferSize s pMemory (pFormat.add 1) := by
  have h11 : (pFormat.add 1).add 1 = pFormat.add 2 := by
    rw [PFORMAT_STRING.add_add]; rfl
  refine ⟨?_, ?_, ?_⟩
  · unfold NdrNonEncapsulatedUnionMarshall
    simp only [h11]
    cases hbt : NdrBaseTypeMarshall s (get_conformance_address s pMemory (pFormat.add 2))
        (pFormat.add 1) with
    | error e => rfl
    | ok s1 =>
      obtain ⟨h1, h2, h3, h4⟩ := NdrBaseTypeMarshallTag_frame s s1 _ _ hbt
      have hc := ComputeConformanceOrVarianceCount_some StubDesc s s1 pMemory (pFormat.add 2) 0 dm
        h1 h2 h3 hdm
      have hstep : corrDescStep s1 = corrDescStep s := by unfold corrDescStep; rw [h4]
      simp only [get_non_encapsulated_union_arm, ComputeConformanceOrVariance, hc, hstep,
        ← harms, get_arm_offset_default_none s1 dm arms hnm hdefault]
  · unfold NdrNonEncapsulatedUnionUnmarshall
    simp only [unmarshall_discriminant_frame, h11, ← harms,
      get_arm_offset_default_none _ _ arms hnu hdefault]
  · unfold NdrNonEncapsulatedUnionBufferSize
    simp only [h11]
    cases hbt : NdrBaseTypeBufferSize s pMemory (pFormat.add 1) with
    | error e => rfl
    | ok s1 =>
      obtain ⟨h1, h2, h3, h4⟩ := NdrBaseTypeBufferSizeTag_frame s s1 _ _ hbt
      have hc := ComputeConformanceOrVarianceCount_some StubDesc s s1 pMemory (pFormat.add 2) 0 dm
        h1 h2 h3 hdm
      have hstep : corrDescStep s1 = corrDescStep s := by unfold corrDescStep; rw [h4]
      simp only [get_non_encapsulated_union_arm, ComputeConformanceOrVariance, hc, hstep,
        ← harms, get_arm_offset_default_none s1 dm arms hnm hdefault]

/-! ## Complex arrays -/

theorem PlainLayout_tail (f : PFORMAT_STRING) (k : Nat) (h : PlainLayout f (k + 1)) :
    PlainLayout (f.add 1) k := by
  obtain ⟨h1, h2⟩ := h
  refine ⟨fun i hi => ?_, ?_⟩
  · have := h1 (i + 1) (by omega)
    simp only [PFORMAT_STRING.byte_add]
    have e : (1 : Int) + (i : Int) = ((i + 1 : Nat) : Int) := by push_cast; ring
    rw [e]; exact this
  · simp only [PFORMAT_STRING.byte_add]
    have e : (1 : Int) + (k : Int) = ((k + 1 : Nat) : Int) := by push_cast; ring
    rw [e]; exact h2

theorem PlainLayout_head (f : PFORMAT_STRING) (k : Nat) (h : PlainLayout f (k + 1)) :
    f.byte 0 ≠ RPC_FC_END ∧ f.byte 0 ≠ RPC_FC_POINTER ∧ f.byte 0 ≠ RPC_FC_EMBEDDED_COMPLEX := by
  have := h.1 0 (by omega)
  simpa using this

theorem PlainLayout_zero (f : PFORMAT_STRING) (h : PlainLayout f 0) : f.byte 0 = RPC_FC_END := by
  have := h.2
  simpa using this

/-- The walk of a plain field stream: `ComplexMarshall` and `ComplexUnmarshall` both succeed
and advance the buffer cursor by the same amount `d`, which depends on the stream only; the
marshaller leaves the buffer below its cursor alone, the unmarshaller leaves the conformance
and variance fields alone. -/
theorem Complex_plain_walk (tblM : Nat → Option NDR_MARSHALL)
    (tblU : Nat → Option NDR_UNMARSHALL) :
    ∀ (k : Nat) (f : PFORMAT_STRING), PlainLayout f k → ∃ d : Nat,
      (∀ (fuel : Nat) (s : MIDL_STUB_MESSAGE) (p : Nat), k < fuel →
        ∃ (s1 : MIDL_STUB_MESSAGE) (p1 : Nat),
          ComplexMarshall tblM fuel s p f none = .ok (s1, p1) ∧
          s1.Buffer = s.Buffer + d ∧ (∀ a, a < s.Buffer → s1.wire a = s.wire a)) ∧
      (∀ (fMustAlloc : Bool) (fuel : Nat) (r : MIDL_STUB_MESSAGE) (p : Nat), k < fuel →
        ∃ (r1 : MIDL_STUB_MESSAGE) (p1 : Nat),
          ComplexUnmarshall tblU fMustAlloc fuel r p f none = .ok (r1, p1) ∧
          r1.Buffer = r.Buffer + d ∧ r1.MaxCount = r.MaxCount ∧
          r1.ActualCount = r.ActualCount ∧ r1.Offset = r.Offset) := by
  intro k
  induction k with
  | zero =>
    intro f hf
    have h0 := PlainLayout_zero f hf
    refine ⟨0, ?_, ?_⟩
    · intro fuel s p hfuel
      obtain ⟨fuel, rfl⟩ : ∃ n, fuel = n + 1 := ⟨fuel - 1, by omega⟩
      exact ⟨s, p, by simp only [ComplexMarshall, h0, if_true], rfl, fun _ _ => rfl⟩
    · intro fMustAlloc fuel r p hfuel
      obtain ⟨fuel, rfl⟩ : ∃ n, fuel = n + 1 := ⟨fuel - 1, by omega⟩
      exact ⟨r, p, by simp only [ComplexUnmarshall, h0, if_true], rfl, rfl, rfl, rfl⟩
  | succ k ih =>
    intro f hf
    obtain ⟨hE, hP, hC⟩ := PlainLayout_head f k hf
    obtain ⟨d, hM, hU⟩ := ih (f.add 1) (PlainLayout_tail f k hf)
    by_cases h2 : f.byte 0 = RPC_FC_SHORT ∨ f.byte 0 = RPC_FC_USHORT
    · refine ⟨2 + d, ?_, ?_⟩
      · intro fuel s p hfuel
        obtain ⟨fuel, rfl⟩ : ∃ n, fuel = n + 1 := ⟨fuel - 1, by omega⟩
        obtain ⟨s1, p1, e, hb, hw⟩ := hM fuel
          { s with wire := memcpy s.wire s.Buffer s.mem p 2, Buffer := s.Buffer + 2 } (p + 2)
          (by omega)
        refine ⟨s1, p1, ?_, ?_, ?_⟩
        · simp only [ComplexMarshall, hE, h2, if_true, if_false]
          exact e
        · rw [hb]; simp only []; omega
        · intro a ha
          rw [hw a (by simp only []; omega)]
          simp only []
          rw [memcpy_out _ _ _ _ _ _ (by omega)]
      · intro fMustAlloc fuel r p hfuel
        obtain ⟨fuel, rfl⟩ : ∃ n, fuel = n + 1 := ⟨fuel - 1, by omega⟩
        obtain ⟨r1, p1, e, hb, h1, h3, h4⟩ := hU fMustAlloc fuel
          { r with mem := memcpy r.mem p r.wire r.Buffer 2, Buffer := r.Buffer + 2 } (p + 2)
          (by omega)
        refine ⟨r1, p1, ?_, ?_, h1, h3, h4⟩
        · simp only [ComplexUnmarshall, hE, h2, if_true, if_false]
          exact e
        · rw [hb]; simp only []; omega
    · by_cases h4 : f.byte 0 = RPC_FC_LONG ∨ f.byte 0 = RPC_FC_ULONG ∨ f.byte 0 = RPC_FC_ENUM32
      · refine ⟨4 + d, ?_, ?_⟩
        · intro fuel s p hfuel
          obtain ⟨fuel, rfl⟩ : ∃ n, fuel = n + 1 := ⟨fuel - 1, by omega⟩
          obtain ⟨s1, p1, e, hb, hw⟩ := hM fuel
            { s with wire := memcpy s.wire s.Buffer s.mem p 4, Buffer := s.Buffer + 4 } (p + 4)
            (by omega)
          refine ⟨s1, p1, ?_, ?_, ?_⟩
          · simp only [ComplexMarshall, hE, h2, h4, if_true, if_false]
            exact e
          · rw [hb]; simp only []; omega
          · intro a ha
            rw [hw a (by simp only []; omega)]
            simp only []
            rw [memcpy_out _ _ _ _ _ _ (by omega)]
        · intro fMustAlloc fuel r p hfuel
          obtain ⟨fuel, rfl⟩ : ∃ n, fuel = n + 1 := ⟨fuel - 1, by omega⟩
          obtain ⟨r1, p1, e, hb, h1, h3, h5⟩ := hU fMustAlloc fuel
            { r with mem := memcpy r.mem p r.wire r.Buffer 4, Buffer := r.Buffer + 4 } (p + 4)
            (by omega)
          refine ⟨r1, p1, ?_, ?_, h1, h3, h5⟩
          · simp only [ComplexUnmarshall, hE, h2, h4, if_true, if_false]
            exact e
          · rw [hb]; simp only []; omega
      · refine ⟨d, ?_, ?_⟩
        · intro fuel s p hfuel
          obtain ⟨fuel, rfl⟩ : ∃ n, fuel = n + 1 := ⟨fuel - 1, by omega⟩
          simp only [ComplexMarshall, hE, hP, hC, h2, h4, if_false]
          split_ifs
          · exact hM fuel s _ (by omega)
          · exact hM fuel s _ (by omega)
          · exact hM fuel s _ (by omega)
          · exact hM fuel s _ (by omega)
        · intro fMustAlloc fuel r p hfuel
          obtain ⟨fuel, rfl⟩ : ∃ n, fuel = n + 1 := ⟨fuel - 1, by omega⟩
          simp only [ComplexUnmarshall, hE, hP, hC, h2, h4, if_false]
          split_ifs
          · exact hU fMustAlloc fuel r _ (by omega)
          · exact hU fMustAlloc fuel r _ (by omega)
          · exact hU fMustAlloc fuel r _ (by omega)
          · exact hU fMustAlloc fuel r _ (by omega)

/-- The dry run of a plain field stream succeeds and changes the buffer cursor only. -/
theorem ComplexStructMemorySizeLoop_plain (tbl : Nat → Option NDR_MEMORYSIZE) :
    ∀ (k : Nat) (f : PFORMAT_STRING), PlainLayout f k →
      ∀ (fuel : Nat) (s : MIDL_STUB_MESSAGE) (size : Nat), k < fuel →
        ∃ (m : MIDL_STUB_MESSAGE) (sz : Nat),
          ComplexStructMemorySizeLoop tbl fuel s f size = .ok (m, sz) ∧
          ∀ x, { m with Buffer := x } = { s with Buffer := x } := by
  intro k
  induction k with
  | zero =>
    intro f hf fuel s size hfuel
    have h0 := PlainLayout_zero f hf
    obtain ⟨fuel, rfl⟩ : ∃ n, fuel = n + 1 := ⟨fuel - 1, by omega⟩
    exact ⟨s, size, by simp only [ComplexStructMemorySizeLoop, h0, if_true], fun _ => rfl⟩
  | succ k ih =>
    intro f hf fuel s size hfuel
    obtain ⟨hE, hP, hC⟩ := PlainLayout_head f k hf
    have ih1 := ih (f.add 1) (PlainLayout_tail f k hf)
    obtain ⟨fuel, rfl⟩ : ∃ n, fuel = n + 1 := ⟨fuel - 1, by omega⟩
    simp only [ComplexStructMemorySizeLoop, hE, hP, hC, if_false]
    split_ifs
    all_goals
      first
      | exact ih1 fuel s _ (by omega)
      | (obtain ⟨m, sz, e, hm⟩ := ih1 fuel { s with Buffer := s.Buffer + 2 } (size + 2) (by omega)
         exact ⟨m, sz, e, hm⟩)
      | (obtain ⟨m, sz, e, hm⟩ := ih1 fuel { s with Buffer := s.Buffer + 4 } (size + 4) (by omega)
         exact ⟨m, sz, e, hm⟩)
      | (obtain ⟨m, sz, e, hm⟩ := ih1 fuel { s with Buffer := ALIGNED_LENGTH s.Buffer 4 }
           (ALIGNED_LENGTH size 4) (by omega)
         exact ⟨m, sz, e, hm⟩)
      | (obtain ⟨m, sz, e, hm⟩ := ih1 fuel { s with Buffer := ALIGNED_LENGTH s.Buffer 8 }
           (ALIGNED_LENGTH size 8) (by omega)
         exact ⟨m, sz, e, hm⟩)

theorem ComplexMarshallElements_walk (tblM : Nat → Option NDR_MARSHALL) (fuel : Nat)
    (f : PFORMAT_STRING) (d : Nat)
    (hM : ∀ (s : MIDL_STUB_MESSAGE) (p : Nat), ∃ (s1 : MIDL_STUB_MESSAGE) (p1 : Nat),
      ComplexMarshall tblM fuel s p f none = .ok (s1, p1) ∧
      s1.Buffer = s.Buffer + d ∧ (∀ a, a < s.Buffer → s1.wire a = s.wire a)) :
    ∀ (count : Nat) (s : MIDL_STUB_MESSAGE) (p : Nat),
      ∃ (s1 : MIDL_STUB_MESSAGE) (p1 : Nat),
        ComplexMarshallElements tblM fuel f count s p = .ok (s1, p1) ∧
        s1.Buffer = s.Buffer + count * d ∧ (∀ a, a < s.Buffer → s1.wire a = s.wire a) := by
  intro count
  induction count with
  | zero =>
    intro s p
    exact ⟨s, p, rfl, by omega, fun _ _ => rfl⟩
  | succ count ih =>
    intro s p
    obtain ⟨s1, p1, e, hb, hw⟩ := hM s p
    obtain ⟨s2, p2, e2, hb2, hw2⟩ := ih s1 p1
    refine ⟨s2, p2, ?_, ?_, ?_⟩
    · simp only [ComplexMarshallElements, e]
      exact e2
    · rw [hb2, hb, Nat.succ_mul]; omega
    · intro a ha
      rw [hw2 a (by omega), hw a ha]

theorem ComplexUnmarshallElements_walk (tblU : Nat → Option NDR_UNMARSHALL) (fMustAlloc : Bool)
    (fuel : Nat) (f : PFORMAT_STRING) (d : Nat)
    (hU : ∀ (r : MIDL_STUB_MESSAGE) (p : Nat), ∃ (r1 : MIDL_STUB_MESSAGE) (p1 : Nat),
      ComplexUnmarshall tblU fMustAlloc fuel r p f none = .ok (r1, p1) ∧
      r1.Buffer = r.Buffer + d ∧ r1.MaxCount = r.MaxCount ∧
      r1.ActualCount = r.ActualCount ∧ r1.Offset = r.Offset) :
    ∀ (count : Nat) (r : MIDL_STUB_MESSAGE) (p : Nat),
      ∃ (r1 : MIDL_STUB_MESSAGE) (p1 : Nat),
        ComplexUnmarshallElements tblU fMustAlloc fuel f count r p = .ok (r1, p1) ∧
        r1.Buffer = r.Buffer + count * d ∧ r1.MaxCount = r.MaxCount ∧
        r1.ActualCount = r.ActualCount ∧ r1.Offset = r.Offset := by
  intro count
  induction count with
  | zero =>
    intro r p
    exact ⟨r, p, rfl, by omega, rfl, rfl, rfl⟩
  | succ count ih =>
    intro r p
    obtain ⟨r1, p1, e, hb, h1, h2, h3⟩ := hU r p
    obtain ⟨r2, p2, e2, hb2, h4, h5, h6⟩ := ih r1 p1
    refine ⟨r2, p2, ?_, ?_, h4.trans h1, h5.trans h2, h6.trans h3⟩
    · simp only [ComplexUnmarshallElements, e]
      exact e2
    · rw [hb2, hb, Nat.succ_mul]; omega

theorem ComputeVariance_absent (StubDesc : MIDL_STUB_DESC) (s : MIDL_STUB_MESSAGE)
    (pMemory : Nat) (f : PFORMAT_STRING) (dflt : Nat)
    (h : IsConformanceOrVariancePresent f = false) :
    ComputeVariance StubDesc s pMemory f dflt =
      ({ s with Offset := 0, ActualCount := dflt }, f.add (corrDescStep s)) := by
  simp only [ComputeVariance, ComputeConformanceOrVariance, ComputeConformanceOrVarianceCount, h,
    Bool.not_false, if_true]
  rfl

theorem ALIGNED_LENGTH_ge (x A : Nat) (h : A ≠ 0) : x ≤ ALIGNED_LENGTH x A := by
  unfold ALIGNED_LENGTH
  rw [if_neg h]
  have := @Nat.and_le_right (x + A - 1) (A - 1)
  omega

theorem ComplexUnmarshallElements_ok (tblU : Nat → Option NDR_UNMARSHALL) (fMustAlloc : Bool)
    (fuel : Nat) (f : PFORMAT_STRING) (d : Nat)
    (hU : ∀ (r : MIDL_STUB_MESSAGE) (p : Nat), ∃ (r1 : MIDL_STUB_MESSAGE) (p1 : Nat),
      ComplexUnmarshall tblU fMustAlloc fuel r p f none = .ok (r1, p1) ∧
      r1.Buffer = r.Buffer + d ∧ r1.MaxCount = r.MaxCount ∧
      r1.ActualCount = r.ActualCount ∧ r1.Offset = r.Offset)
    (count : Nat) (r : MIDL_STUB_MESSAGE) (p : Nat) (x : Except Fault (MIDL_STUB_MESSAGE × Nat))
    (hx : ComplexUnmarshallElements tblU fMustAlloc fuel f count r p = x) :
    ∃ (r1 : MIDL_STUB_MESSAGE) (p1 : Nat), x = .ok (r1, p1) ∧
      r1.Buffer = r.Buffer + count * d ∧ r1.MaxCount = r.MaxCount ∧
      r1.ActualCount = r.ActualCount ∧ r1.Offset = r.Offset := by
  subst hx
  exact ComplexUnmarshallElements_walk tblU fMustAlloc fuel f d hU count r p

/-- The run of `NdrComplexArrayUnmarshall` over a plain element layout, in terms of the state
`ReadConformance` and `ReadVariance` leave. -/
theorem NdrComplexArrayUnmarshall_plain (tblU : Nat → Option NDR_UNMARSHALL)
    (tblMS : Nat → Option NDR_MEMORYSIZE) (fuel : Nat) (r : MIDL_STUB_MESSAGE) (ppMemory : Nat)
    (pFormat : PFORMAT_STRING) (fMustAlloc : Bool) (k d : Nat) (f : PFORMAT_STRING)
    (V : MIDL_STUB_MESSAGE)
    (hfmt : pFormat.byte 0 = RPC_FC_BOGUS_ARRAY)
    (hV : ReadVariance (ReadConformance r (some (pFormat.add 4))).1
      (ReadConformance r (some (pFormat.add 4))).2 = (V, some f))
    (hplain : PlainLayout f k) (hfuel : k < fuel)
    (hU : ∀ (r : MIDL_STUB_MESSAGE) (p : Nat), ∃ (r1 : MIDL_STUB_MESSAGE) (p1 : Nat),
      ComplexUnmarshall tblU fMustAlloc fuel r p f none = .ok (r1, p1) ∧
      r1.Buffer = r.Buffer + d ∧ r1.MaxCount = r.MaxCount ∧
      r1.ActualCount = r.ActualCount ∧ r1.Offset = r.Offset) :
    ∃ r1 q, NdrComplexArrayUnmarshall tblU tblMS fuel r ppMemory pFormat fMustAlloc
        = .ok (r1, q) ∧
      r1.MaxCount = V.MaxCount ∧ r1.ActualCount = V.ActualCount ∧ r1.Offset = V.Offset ∧
      r1.Buffer = ALIGNED_LENGTH V.Buffer ((pFormat.byte 1 + 1) % 256)
        + V.ActualCount % 4294967296 * d := by
  obtain ⟨m, sz, em, hmx⟩ := ComplexStructMemorySizeLoop_plain tblMS k f hplain fuel V 0 hfuel
  have hs1 : { m with Buffer := V.Buffer } = V := hmx V.Buffer
  unfold NdrComplexArrayUnmarshall
  rw [if_neg (by simp [hfmt])]
  simp only [hV, ComplexStructMemorySize, em, hs1]
  by_cases hcond : fMustAlloc = true ∨ ppMemory = 0
  · simp only [hcond, if_true, NdrAllocate]
    split
    · rename_i e heq
      obtain ⟨r1, p1, hx, -⟩ := ComplexUnmarshallElements_ok tblU fMustAlloc fuel f d hU _ _ _ _ heq
      cases hx
    · rename_i s3 x heq
      obtain ⟨r1, p1, hx, h1, h2, h3, h4⟩ :=
        ComplexUnmarshallElements_ok tblU fMustAlloc fuel f d hU _ _ _ _ heq
      cases hx
      exact ⟨_, _, rfl, h2, h3, h4, h1⟩
  · simp only [hcond, if_false]
    split
    · rename_i e heq
      obtain ⟨r1, p1, hx, -⟩ := ComplexUnmarshallElements_ok tblU fMustAlloc fuel f d hU _ _ _ _ heq
      cases hx
    · rename_i s3 x heq
      obtain ⟨r1, p1, hx, h1, h2, h3, h4⟩ :=
        ComplexUnmarshallElements_ok tblU fMustAlloc fuel f d hU _ _ _ _ heq
      cases hx
      exact ⟨_, _, rfl, h2, h3, h4, h1⟩

/-- C8: a complex array whose variance descriptor is absent, with resolved conformance `n`.
`NdrComplexArrayMarshall` is the element loop started right after the 4-byte conformance word
and the padding to the declared alignment: the header is the conformance only, no variance
words are written.  When the element layout is a plain field stream of `k` opcodes, one that
processes no nested shape, the marshaller succeeds, and `NdrComplexArrayUnmarshall` on its
output ends with `MaxCount = n`, `ActualCount = MaxCount`, `Offset = 0` and the buffer cursor
where the marshaller stopped, so no variance words are read. -/
theorem NdrComplexArray_absent_variance
    (tblM : Nat → Option NDR_MARSHALL) (tblU : Nat → Option NDR_UNMARSHALL)
    (tblMS : Nat → Option NDR_MEMORYSIZE) (StubDesc : MIDL_STUB_DESC) (fuel : Nat)
    (s : MIDL_STUB_MESSAGE) (pMemory : Nat) (pFormat : PFORMAT_STRING) (n : Nat)
    (hfmt : pFormat.byte 0 = RPC_FC_BOGUS_ARRAY)
    (hconf : (ComputeConformance StubDesc s pMemory (pFormat.add 4) (pFormat.WORD 2)).1
      = { s with MaxCount := n })
    (habsent : IsConformanceOrVariancePresent ((pFormat.add 4).add (corrDescStep s)) = false)
    (hn : n < 4294967296) :
    NdrComplexArrayMarshall tblM StubDesc fuel s pMemory pFormat =
      (ComplexMarshallElements tblM fuel
        (((pFormat.add 4).add (corrDescStep s)).add (corrDescStep s)) n
        { s with
          MaxCount := n, Offset := 0, ActualCount := n
          wire := NDR_LOCAL_UINT32_WRITE s.NDR_LOCAL_IS_BIG_ENDIAN s.wire
            (ALIGNED_LENGTH s.Buffer 4) n
          Buffer := ALIGNED_LENGTH (ALIGNED_LENGTH s.Buffer 4 + 4) ((pFormat.byte 1 + 1) % 256) }
        pMemory).map Prod.fst ∧
    ∀ k : Nat, PlainLayout (((pFormat.add 4).add (corrDescStep s)).add (corrDescStep s)) k →
      k < fuel → (pFormat.byte 1 + 1) % 256 ≠ 0 →
      ∃ s1, NdrComplexArrayMarshall tblM StubDesc fuel s pMemory pFormat = .ok s1 ∧
        cells s1.wire (ALIGNED_LENGTH s.Buffer 4) 4 = uint32Bytes s.NDR_LOCAL_IS_BIG_ENDIAN n ∧
        (∀ a, a < ALIGNED_LENGTH s.Buffer 4 ∨ (ALIGNED_LENGTH s.Buffer 4 + 4 ≤ a ∧
            a < ALIGNED_LENGTH (ALIGNED_LENGTH s.Buffer 4 + 4) ((pFormat.byte 1 + 1) % 256)) →
          s1.wire a = s.wire a) ∧
        ALIGNED_LENGTH (ALIGNED_LENGTH s.Buffer 4 + 4) ((pFormat.byte 1 + 1) % 256)
          ≤ s1.Buffer ∧
        ∀ (r : MIDL_STUB_MESSAGE) (ppMemory : Nat) (fMustAlloc : Bool),
          r.wire = s1.wire → r.Buffer = s.Buffer →
          r.NDR_LOCAL_IS_BIG_ENDIAN = s.NDR_LOCAL_IS_BIG_ENDIAN →
          r.fHasNewCorrDesc = s.fHasNewCorrDesc →
          ∃ r1 q, NdrComplexArrayUnmarshall tblU tblMS fuel r ppMemory pFormat fMustAlloc
              = .ok (r1, q) ∧
            r1.MaxCount = n ∧ r1.ActualCount = r1.MaxCount ∧ r1.Offset = 0 ∧
            r1.Buffer = s1.Buffer := by
  have hRV : ∀ r : MIDL_STUB_MESSAGE, r.Buffer = s.Buffer →
      r.fHasNewCorrDesc = s.fHasNewCorrDesc →
      NDR_LOCAL_UINT32_READ r.NDR_LOCAL_IS_BIG_ENDIAN r.wire (ALIGNED_LENGTH s.Buffer 4) = n →
      ReadVariance (ReadConformance r (some (pFormat.add 4))).1
          (ReadConformance r (some (pFormat.add 4))).2 =
        ({ r with
            MaxCount := n, Buffer := ALIGNED_LENGTH s.Buffer 4 + 4, Offset := 0,
            ActualCount := n },
          some (((pFormat.add 4).add (corrDescStep s)).add (corrDescStep s))) := by
    intro r hbuf hcorr hcnt
    have hstep : corrDescStep r = corrDescStep s := by
      unfold corrDescStep; rw [hcorr]
    simp only [ReadConformance, ReadVariance, Option.map_some', hbuf, hcnt, hstep, habsent,
      Bool.not_false, if_true]
    simp only [corrDescStep, hcorr]
  set f := ((pFormat.add 4).add (corrDescStep s)).add (corrDescStep s) with hf
  set b := ALIGNED_LENGTH s.Buffer 4 with hb
  set A := (pFormat.byte 1 + 1) % 256 with hAdef
  have hc : ComputeConformance StubDesc s pMemory (pFormat.add 4) (pFormat.WORD 2) =
      ({ s with MaxCount := n }, (pFormat.add 4).add (corrDescStep s)) :=
    Prod.ext hconf (by rw [ComputeConformance_cursor, hconf]; rfl)
  have hv := ComputeVariance_absent StubDesc { s with MaxCount := n } pMemory
    ((pFormat.add 4).add (corrDescStep s)) n habsent
  have hnm : n % 4294967296 = n := Nat.mod_eq_of_lt hn
  have hm : NdrComplexArrayMarshall tblM StubDesc fuel s pMemory pFormat =
      (ComplexMarshallElements tblM fuel f n
        { s with
          MaxCount := n, Offset := 0, ActualCount := n
          wire := NDR_LOCAL_UINT32_WRITE s.NDR_LOCAL_IS_BIG_ENDIAN s.wire b n
          Buffer := ALIGNED_LENGTH (b + 4) A } pMemory).map Prod.fst := by
    simp only [NdrComplexArrayMarshall, hfmt, ne_eq, not_true_eq_false, if_false, hc, hv, habsent,
      WriteConformance, hnm, Bool.false_eq_true]
    change (match ComplexMarshallElements tblM fuel f n _ pMemory with
      | .error e => _ | .ok (s4, _) => _) = _
    generalize ComplexMarshallElements tblM fuel f n _ pMemory = x
    rcases x with e | ⟨s4, p4⟩ <;> rfl
  refine ⟨hm, ?_⟩
  intro k hplain hfuel hA
  have hge : b + 4 ≤ ALIGNED_LENGTH (b + 4) A := ALIGNED_LENGTH_ge _ _ hA
  obtain ⟨d, hM, hU⟩ := Complex_plain_walk tblM tblU k f hplain
  obtain ⟨s4, p4, e4, hb4, hw4⟩ := ComplexMarshallElements_walk tblM fuel f d
    (fun s p => hM fuel s p hfuel) n
    { s with
      MaxCount := n, Offset := 0, ActualCount := n
      wire := NDR_LOCAL_UINT32_WRITE s.NDR_LOCAL_IS_BIG_ENDIAN s.wire b n
      Buffer := ALIGNED_LENGTH (b + 4) A } pMemory
  refine ⟨s4, ?_, ?_, ?_, ?_, ?_⟩
  · rw [hm, e4]; rfl
  · rw [← cells_NDR_LOCAL_UINT32_WRITE s.NDR_LOCAL_IS_BIG_ENDIAN s.wire b n]
    apply cells_congr
    intro i hi
    exact hw4 _ (by simp only []; omega)
  · intro a ha
    rw [hw4 a (by simp only []; omega)]
    simp only []
    rw [NDR_LOCAL_UINT32_WRITE_out _ _ _ _ _ (by omega)]
  · rw [hb4]; simp only []; omega
  · intro r ppMemory fMustAlloc hw hbuf hbe hcorr
    have hcnt : NDR_LOCAL_UINT32_READ r.NDR_LOCAL_IS_BIG_ENDIAN r.wire b = n := by
      rw [hw, hbe, NDR_LOCAL_UINT32_READ_congr _ _ _ _
        (fun i hi => hw4 _ (by simp only []; omega))]
      simp only []
      rw [NDR_LOCAL_UINT32_READ_WRITE, hnm]
    obtain ⟨r1, q, e, h1, h2, h3, h4⟩ := NdrComplexArrayUnmarshall_plain tblU tblMS fuel r
      ppMemory pFormat fMustAlloc k d f _ hfmt (hRV r hbuf hcorr hcnt) hplain hfuel
      (fun r p => hU fMustAlloc fuel r p hfuel)
    refine ⟨r1, q, e, h1, ?_, h3, ?_⟩
    · rw [h2, h1]
    · rw [h4, hb4]
      simp only [hnm]

/-! ## The properties at sample inputs -/

/-- The round trip of the narrow string "hello" from buffer offset 8. -/
theorem NdrConformantString_roundtrip_witness :
    (cstringFormat.byte 0 = RPC_FC_C_CSTRING ∧ IsCString helloMsg.mem 100 5 ∧
      helloMsg.BufferLength ≥ (5 + 1) * 1 + 13 ∧ helloMsg.Buffer ≠ 0) ∧
    ∃ s1, NdrConformantStringMarshall 6 helloMsg 100 cstringFormat = .ok s1 ∧
      ∃ r1 q, NdrConformantStringUnmarshall (mkStubMsg 8 64 s1.wire (fun _ => 0)) 0
          cstringFormat true = .ok (r1, q) ∧
        (∀ i, i < (5 + 1) * 1 → r1.mem (q + i) = helloMsg.mem (100 + i)) ∧
        r1.Buffer = s1.Buffer := by
  refine ⟨⟨by decide, by decide, by decide, by decide⟩, ?_⟩
  obtain ⟨s1, h1, h2⟩ := NdrConformantString_roundtrip 6 helloMsg 100 cstringFormat 5 1
    (Or.inl ⟨by decide, rfl, by decide⟩) (by decide) (by decide) (by decide) (by decide)
  exact ⟨s1, h1, h2 (mkStubMsg 8 64 s1.wire (fun _ => 0)) 0 true rfl rfl rfl⟩

/-- The string "hello" marshalled from buffer offset 8: the words 6, 0, 6, then the 6 string
bytes, 18 bytes in all. -/
theorem NdrConformantStringMarshall_cstring_layout_witness :
    (cstringFormat.byte 0 = RPC_FC_C_CSTRING ∧ IsCString helloMsg.mem 100 5 ∧
      helloMsg.Buffer % 4 = 0 ∧ helloMsg.Buffer ≠ 0 ∧ helloMsg.BufferLength ≥ (5 + 1) + 13) ∧
    ∃ s1, NdrConformantStringMarshall 6 helloMsg 100 cstringFormat = .ok s1 ∧
      s1.Buffer = 8 + 18 ∧
      cells s1.wire 8 4 = [6, 0, 0, 0] ∧
      cells s1.wire 12 4 = [0, 0, 0, 0] ∧
      cells s1.wire 16 4 = [6, 0, 0, 0] ∧
      (∀ i, i < 6 → s1.wire (20 + i) = helloMem (100 + i)) := by
  refine ⟨⟨by decide, by decide, by decide, by decide, by decide⟩, ?_⟩
  obtain ⟨s1, h1, h2, h3, h4, h5, h6, -⟩ := NdrConformantStringMarshall_cstring_layout 6
    helloMsg 100 cstringFormat 5 (by decide) (by decide) (by decide) (by decide) (by decide)
    (by decide) (by decide)
  exact ⟨s1, h1, h2, h3, h4, h5, h6⟩

/-- The round trip of the 32-bit value `0x12345678` from the odd buffer offset 5. -/
theorem NdrBaseType_roundtrip_witness :
    longFormat.byte 0 = RPC_FC_LONG ∧
    ∃ s1, NdrBaseTypeMarshall oddMsg 100 longFormat = .ok s1 ∧
      ∃ r1 q, NdrBaseTypeUnmarshall (mkStubMsg 5 64 s1.wire (fun _ => 0)) 0 longFormat true
          = .ok (r1, q) ∧
        loadValue r1.mem q 4 = 0x12345678 ∧ r1.Buffer = s1.Buffer := by
  refine ⟨by decide, ?_⟩
  obtain ⟨s1, h1, h2⟩ := NdrBaseType_roundtrip oddMsg 100 longFormat (by decide)
    (fun h => absurd h (by decide))
  obtain ⟨r1, q, h3, h4, h5⟩ := h2 (mkStubMsg 5 64 s1.wire (fun _ => 0)) 0 true rfl rfl
  exact ⟨s1, h1, r1, q, h3, h4.trans (by decide), h5⟩

/-- A `NULL` unique pointer marshalled from buffer offset 5: four zero bytes at offset 8, then
the same 4 bytes consumed. -/
theorem NdrPointer_null_unique_or_object_witness :
    upFormat.byte 0 = RPC_FC_UP ∧
    ∃ s1, NdrPointerMarshall (NdrMarshaller noExprEval 3) oddMsg 0 upFormat = .ok s1 ∧
      s1.Buffer = 12 ∧ cells s1.wire 8 4 = [0, 0, 0, 0] ∧
      NdrPointerUnmarshall (NdrUnmarshaller 3) (mkStubMsg 5 64 s1.wire (fun _ => 0)) 77
          upFormat false =
        .ok ({ mkStubMsg 5 64 s1.wire (fun _ => 0) with Buffer := 12 }, 77) := by
  have h := NdrPointer_null_unique_or_object (NdrMarshaller noExprEval 3) (NdrUnmarshaller 3)
    oddMsg upFormat (Or.inl (by decide))
  exact ⟨by decide, _, h.2.1, rfl, h.2.2.1, h.2.2.2.2 _ 77 false rfl rfl rfl⟩

/-- A ref pointer to a 32-bit integer with the tables of the engine: each operation is the
base-type operation on the referent. -/
theorem NdrPointer_ref_no_id_witness :
    rpFormat.byte 0 = RPC_FC_RP ∧
    NdrPointerMarshall (NdrMarshaller noExprEval 3) oddMsg 100 rpFormat =
      NdrBaseTypeMarshall oddMsg 100 (pointerDesc rpFormat) ∧
    NdrPointerUnmarshall (NdrUnmarshaller 3) oddMsg 100 rpFormat false =
      NdrBaseTypeUnmarshall oddMsg 100 (pointerDesc rpFormat) false ∧
    NdrPointerBufferSize (fun _ => some NdrBaseTypeBufferSize) oddMsg 100 rpFormat =
      NdrBaseTypeBufferSize oddMsg 100 (pointerDesc rpFormat) := by
  have h := NdrPointer_ref_no_id (NdrMarshaller noExprEval 3) (NdrUnmarshaller 3)
    (fun _ => some NdrBaseTypeBufferSize) oddMsg 100 rpFormat false (by decide)
  exact ⟨by decide, h.1 (by decide), h.2.2.1 (by decide), h.2.2.2.2⟩

/-- The structure with `a = 0x12345678` and `b = NULL` marshalled from buffer offset 8 and
unmarshalled again. -/
theorem NdrComplexStruct_long_null_pointer_witness :
    (complexStructHeader structFormat = (none, some (structFormat.add 12)) ∧
      (structFormat.add 12).byte 0 = RPC_FC_UP ∧ structFormat.byte 8 = RPC_FC_LONG ∧
      structFormat.byte 9 = RPC_FC_POINTER ∧ structFormat.byte 10 = RPC_FC_END ∧
      longMsg.Buffer % 4 = 0 ∧ load32 longMsg.mem (100 + 4) = 0) ∧
    ∃ s1, NdrComplexStructMarshall (NdrMarshaller noExprEval 3) noExprEval 3 longMsg 100
        structFormat = .ok s1 ∧
      s1.Buffer = 8 + 8 ∧
      (∀ i, i < 4 → s1.wire (8 + i) = longMem (100 + i)) ∧
      cells s1.wire (8 + 4) 4 = [0, 0, 0, 0] ∧
      ∃ r1 q, NdrComplexStructUnmarshall (NdrUnmarshaller 3) 3
          (mkStubMsg 8 64 s1.wire (fun _ => 0)) 0 structFormat true = .ok (r1, q) ∧
        (∀ i, i < 4 → r1.mem (q + i) = longMem (100 + i)) ∧
        load32 r1.mem (q + 4) = 0 ∧ r1.Buffer = s1.Buffer := by
  have hh : complexStructHeader structFormat = (none, some (structFormat.add 12)) := by
    simp [complexStructHeader, structFormat, PFORMAT_STRING.ofList, PFORMAT_STRING.add,
      PFORMAT_STRING.WORD, PFORMAT_STRING.byte]
  refine ⟨⟨hh, by decide, by decide, by decide, by decide, by decide, by decide⟩, ?_⟩
  obtain ⟨s1, h1, h2, h3, h4, -, h6⟩ := NdrComplexStruct_long_null_pointer
    (NdrMarshaller noExprEval 3) (NdrUnmarshaller 3) noExprEval 3 longMsg 100 structFormat
    (structFormat.add 12) hh (by decide) (by decide) (by decide) (by decide) (by decide)
    (by decide) (by decide) (by decide)
  exact ⟨s1, h1, h2, h3, h4, h6 (mkStubMsg 8 64 s1.wire (fun _ => 0)) 0 true rfl rfl rfl⟩

/-- The conformant array of the three 16-bit values 1, 2, 3 marshalled from buffer offset 8:
4 + 6 = 10 bytes, and one allocation of 6 bytes on the way back. -/
theorem NdrConformantArray_layout_and_allocation_witness :
    ((ComputeConformance noExprEval shortArrayMsg 100 (shortArrayFormat.add 4) 0).1
        = { shortArrayMsg with MaxCount := 3 } ∧
      shortArrayFormat.byte 1 + 1 = 2 ∧ shortArrayFormat.WORD 2 = 2 ∧
      shortArrayMsg.Buffer % 4 = 0) ∧
    ∃ s1, NdrConformantArrayMarshall (NdrMarshaller noExprEval 3) noExprEval 3 shortArrayMsg
        100 shortArrayFormat = .ok s1 ∧
      cells s1.wire 8 4 = [3, 0, 0, 0] ∧ s1.Buffer = 8 + 10 ∧
      cells s1.wire 12 6 = [1, 0, 2, 0, 3, 0] ∧
      ∃ r1 q, NdrConformantArrayUnmarshall (NdrUnmarshaller 3) 3
          (mkStubMsg 8 64 s1.wire (fun _ => 0)) 0 shortArrayFormat true = .ok (r1, q) ∧
        r1.allocated = [6] ∧ cells r1.mem q 6 = [1, 0, 2, 0, 3, 0] := by
  have hc : (ComputeConformance noExprEval shortArrayMsg 100 (shortArrayFormat.add 4) 0).1
      = { shortArrayMsg with MaxCount := 3 } := rfl
  refine ⟨⟨hc, by decide, by decide, by decide⟩, ?_⟩
  obtain ⟨-, s1, h1, h2, h3, -, h5, h6⟩ := NdrConformantArray_layout_and_allocation
    (NdrMarshaller noExprEval 3) (NdrUnmarshaller 3) noExprEval 3 shortArrayMsg 100
    shortArrayFormat 3 2 hc (by decide) (by decide) (by decide) (by decide) (by decide)
    (by decide)
  obtain ⟨r1, q, h7, h8, -, h10, -⟩ := h6 (mkStubMsg 8 64 s1.wire (fun _ => 0)) 0 rfl rfl
    rfl rfl
  refine ⟨s1, h1, h2, h5, ?_, r1, q, h7, h8, ?_⟩
  · have e0 := h3 0 (by decide)
    have e1 := h3 1 (by decide)
    have e2 := h3 2 (by decide)
    have e3 := h3 3 (by decide)
    have e4 := h3 4 (by decide)
    have e5 := h3 5 (by decide)
    simp only [cells, List.range, List.range.loop, List.map]
    exact congrArg₂ _ e0 (congrArg₂ _ e1 (congrArg₂ _ e2 (congrArg₂ _ e3 (congrArg₂ _ e4
      (congrArg₂ _ e5 rfl)))))
  · have e0 := h10 0 (by decide)
    have e1 := h10 1 (by decide)
    have e2 := h10 2 (by decide)
    have e3 := h10 3 (by decide)
    have e4 := h10 4 (by decide)
    have e5 := h10 5 (by decide)
    simp only [cells, List.range, List.range.loop, List.map]
    exact congrArg₂ _ e0 (congrArg₂ _ e1 (congrArg₂ _ e2 (congrArg₂ _ e3 (congrArg₂ _ e4
      (congrArg₂ _ e5 rfl)))))

/-- A complex array of two plain elements without variance, marshalled from buffer offset 8
and unmarshalled again. -/
theorem NdrComplexArray_absent_variance_witness :
    (plainArrayFormat.byte 0 = RPC_FC_BOGUS_ARRAY ∧
      (ComputeConformance noExprEval plainArrayMsg 100 (plainArrayFormat.add 4)
        (plainArrayFormat.WORD 2)).1 = { plainArrayMsg with MaxCount := 2 } ∧
      IsConformanceOrVariancePresent ((plainArrayFormat.add 4).add 4) = false ∧
      PlainLayout (((plainArrayFormat.add 4).add 4).add 4) 3) ∧
    ∃ s1, NdrComplexArrayMarshall (NdrMarshaller noExprEval 4) noExprEval 4 plainArrayMsg 100
        plainArrayFormat = .ok s1 ∧
      cells s1.wire 8 4 = [2, 0, 0, 0] ∧
      ∃ r1 q, NdrComplexArrayUnmarshall (NdrUnmarshaller 4) (NdrMemorySizer 4) 4
          (mkStubMsg 8 64 s1.wire (fun _ => 0)) 0 plainArrayFormat true = .ok (r1, q) ∧
        r1.MaxCount = 2 ∧ r1.ActualCount = r1.MaxCount ∧ r1.Offset = 0 ∧
        r1.Buffer = s1.Buffer := by
  have hc : (ComputeConformance noExprEval plainArrayMsg 100 (plainArrayFormat.add 4)
      (plainArrayFormat.WORD 2)).1 = { plainArrayMsg with MaxCount := 2 } := rfl
  refine ⟨⟨by decide, hc, by decide, by decide⟩, ?_⟩
  obtain ⟨-, h⟩ := NdrComplexArray_absent_variance
    (NdrMarshaller noExprEval 4) (NdrUnmarshaller 4) (NdrMemorySizer 4) noExprEval 4
    plainArrayMsg 100 plainArrayFormat 2 (by decide) hc (by decide) (by decide)
  obtain ⟨s1, h1, h2, -, -, h5⟩ := h 3 (by decide) (by decide) (by decide)
  exact ⟨s1, h1, h2, h5 (mkStubMsg 8 64 s1.wire (fun _ => 0)) 0 true rfl rfl rfl rfl⟩

/-- C8, as stated: a complex array with absent variance and the conformance 1 whose element
is a structure holding a pointer to the conformant string "ab".  Marshalling and
unmarshalling both succeed, and `NdrComplexArrayUnmarshall` ends with `MaxCount = 3`, the
conformance of the string, not with the conformance 1 of the array. -/
theorem NdrComplexArray_nested_shape_overwrites_MaxCount :
    nestedArrayFormat.byte 0 = RPC_FC_BOGUS_ARRAY ∧
    IsConformanceOrVariancePresent ((nestedArrayFormat.add 4).add 4) = false ∧
    (ComputeConformance noExprEval (mkStubMsg 16 64 (fun _ => 0) nestedMem) 200
      (nestedArrayFormat.add 4) (nestedArrayFormat.WORD 2)).1.MaxCount = 1 ∧
    ∃ s1 r1 q,
      NdrComplexArrayMarshall (NdrMarshaller noExprEval 5) noExprEval 5
        (mkStubMsg 16 64 (fun _ => 0) nestedMem) 200 nestedArrayFormat = .ok s1 ∧
      cells s1.wire 16 4 = [1, 0, 0, 0] ∧
      NdrComplexArrayUnmarshall (NdrUnmarshaller 5) (NdrMemorySizer 5) 5
        (mkStubMsg 16 64 s1.wire (fun _ => 0)) 0 nestedArrayFormat true = .ok (r1, q) ∧
      r1.MaxCount = 3 ∧ r1.MaxCount ≠ 1 := by
  refine ⟨by decide, by decide, by decide, ?_⟩
  have hu : nestedUnmarshalled.toOption.map (fun x => x.1.MaxCount) = some 3 := by decide
  have hm : nestedMarshalled.toOption.map (fun x => cells x.wire 16 4) = some [1, 0, 0, 0] := by
    decide
  unfold nestedUnmarshalled at hu
  unfold nestedMarshalled at hu hm
  cases hM : NdrComplexArrayMarshall (NdrMarshaller noExprEval 5) noExprEval 5
      (mkStubMsg 16 64 (fun _ => 0) nestedMem) 200 nestedArrayFormat with
  | error e =>
    rw [hM] at hm
    cases hm
  | ok s1 =>
    rw [hM] at hu hm
    simp only [] at hu
    cases hU : NdrComplexArrayUnmarshall (NdrUnmarshaller 5) (NdrMemorySizer 5) 5
        (mkStubMsg 16 64 s1.wire (fun _ => 0)) 0 nestedArrayFormat true with
    | error e =>
      rw [hU] at hu
      cases hu
    | ok x =>
      rw [hU] at hu
      obtain ⟨r1, q⟩ := x
      have h3 : r1.MaxCount = 3 := by
        simpa [Except.toOption] using hu
      have hc : cells s1.wire 16 4 = [1, 0, 0, 0] := by
        simpa [Except.toOption] using hm
      exact ⟨s1, r1, q, rfl, hc, hU, h3, by rw [h3]; decide⟩

/-- A 32-bit value marshalled and unmarshalled from the odd buffer offset 5: both at offset 8.
A `float` holding the signalling NaN `0x7fa00001` marshalled from offset 8 on the x87 build:
at offset 8, as `0x7fe00001`. -/
theorem NdrBaseType_natural_alignment_witness :
    longFormat.byte 0 = RPC_FC_LONG ∧ oddMsg.Buffer = 5 ∧
    (∃ s1, NdrBaseTypeMarshall oddMsg 100 longFormat = .ok s1 ∧
      loadValue s1.wire 8 4 = 0x12345678 ∧ s1.Buffer = 8 + 4) ∧
    (∃ r1 q, NdrBaseTypeUnmarshall oddMsg 0 longFormat true = .ok (r1, q) ∧
      loadValue r1.mem q 4 = loadValue oddMsg.wire 8 4 ∧ r1.Buffer = 8 + 4) ∧
    floatFormat.byte 0 = RPC_FC_FLOAT ∧
    ∃ s2, NdrBaseTypeMarshall signallingNaNMsg 100 floatFormat = .ok s2 ∧
      loadValue signallingNaNMsg.mem 100 4 = 0x7fa00001 ∧
      loadValue s2.wire 8 4 = 0x7fe00001 ∧ s2.Buffer = 8 + 4 := by
  obtain ⟨b, ⟨hb1, hb2, hb3⟩, ⟨s1, h1, h2, -, h4, -⟩, hU⟩ :=
    NdrBaseType_natural_alignment oddMsg 100 longFormat 4
      (Or.inr (Or.inl ⟨rfl, by decide⟩)) (fun h => absurd h (by decide))
  have hb : b = 8 := by
    have h8 := hb3 8 (by decide) (by decide)
    have h5 : 5 ≤ b := hb2
    omega
  subst hb
  obtain ⟨r1, q, h5, h6, h7, -⟩ := hU 0 true
  obtain ⟨c, ⟨-, hc2, hc3⟩, ⟨s2, k1, k2, -, k4, -⟩, -⟩ :=
    NdrBaseType_natural_alignment signallingNaNMsg 100 floatFormat 4
      (Or.inr (Or.inl ⟨rfl, by decide⟩)) (fun h => absurd h (by decide))
  have hc : c = 8 := by
    have h8 := hc3 8 (by decide) (by decide)
    have h5 : 8 ≤ c := hc2
    omega
  subst hc
  exact ⟨by decide, rfl, ⟨s1, h1, h2.trans (by decide), h4⟩, ⟨r1, q, h5, h6.trans (by decide), h7⟩,
    by decide, s2, k1, by decide, k2.trans (by decide), k4⟩

/-- A union with the discriminant 7, the single arm 1 and the default word 0: only the 4
bytes of the discriminant are written, consumed and counted. -/
theorem NdrNonEncapsulatedUnion_default_no_type_witness :
    ((unionFormat.add 10).WORD (2 + 6 * (((unionFormat.add 10).WORD 0 &&& 0x0fff : Nat) : Int))
        = 0 ∧
      (ComputeConformanceOrVarianceCount noExprEval unionMsg 100 (unionFormat.add 2) 0).2
        = some 7 ∧
      (unmarshall_discriminant unionMsg (unionFormat.add 1)).1 = 7 ∧
      (unionFormat.add 10).ULONG 2 = 1) ∧
    (NdrNonEncapsulatedUnionMarshall (NdrMarshaller noExprEval 3) noExprEval unionMsg 100
        unionFormat).toOption.map (fun x => x.Buffer) = some (8 + 4) ∧
    (NdrNonEncapsulatedUnionUnmarshall (NdrUnmarshaller 3) unionMsg 0 unionFormat true
      ).toOption.map (fun x => (x.1.Buffer, x.1.allocated, x.2)) = some (8 + 4, [], 0) ∧
    (NdrNonEncapsulatedUnionBufferSize (fun _ => some NdrBaseTypeBufferSize) noExprEval
        unionMsg 100 unionFormat).toOption.map (fun x => x.BufferLength) = some (64 + 4) := by
  have harms : unionFormat.add 10 = (((unionFormat.add 2).add (corrDescStep unionMsg)).add
      (((unionFormat.add 2).add (corrDescStep unionMsg)).SHORT 0)).add 2 := by
    simp [unionFormat, unionMsg, mkStubMsg, corrDescStep, PFORMAT_STRING.ofList,
      PFORMAT_STRING.add, PFORMAT_STRING.SHORT, PFORMAT_STRING.WORD, PFORMAT_STRING.byte, toSHORT]
  have h := NdrNonEncapsulatedUnion_default_no_type (NdrMarshaller noExprEval 3)
    (NdrUnmarshaller 3) (fun _ => some NdrBaseTypeBufferSize) noExprEval unionMsg 100 0
    unionFormat (unionFormat.add 10) true 7 harms (by decide) (by decide) (by decide)
    (by decide)
  refine ⟨⟨by decide, by decide, by decide, by decide⟩, ?_, ?_, ?_⟩
  · rw [h.1]; decide
  · rw [h.2.1]; decide
  · rw [h.2.2]; decide

/-! ## Unions without a default arm -/

theorem Except_ok_of_toOption_map {α β : Type} (x : Except Fault α) (f : α → β) (b : β)
    (h : x.toOption.map f = some b) : ∃ a, x = .ok a ∧ f a = b := by
  cases x with
  | error e => simp [Except.toOption] at h
  | ok a => exact ⟨a, rfl, by simpa [Except.toOption] using h⟩

theorem get_arm_offset_undefined_none (x : MIDL_STUB_MESSAGE) (d : Nat) (arms : PFORMAT_STRING)
    (hnomatch : ∀ i : Nat, i < (arms.WORD 0 &&& 0x0fff) → arms.ULONG (2 + 6 * (i : Int)) ≠ d)
    (hdefault : arms.WORD (2 + 6 * ((arms.WORD 0 &&& 0x0fff : Nat) : Int)) = 0xffff) :
    get_arm_offset_from_union_arm_selector x d arms = none := by
  unfold get_arm_offset_from_union_arm_selector
  have h := armScan_no_match d (arms.WORD 0 &&& 0x0fff) (arms.add 2)
    (fun i hi => by rw [PFORMAT_STRING.ULONG_add]; exact hnomatch i hi)
  simp only [h, PFORMAT_STRING.WORD_add, PFORMAT_STRING.add_add, Int.add_zero, hdefault]
  simp

/-- The three union operations when the arm selector returns `NULL`: each is its discriminant
step alone. -/
theorem NdrNonEncapsulatedUnion_no_arm
    (NdrMarshaller : Nat → Option NDR_MARSHALL) (NdrUnmarshaller : Nat → Option NDR_UNMARSHALL)
    (NdrBufferSizer : Nat → Option NDR_BUFFERSIZE) (StubDesc : MIDL_STUB_DESC)
    (s : MIDL_STUB_MESSAGE) (pMemory ppMemory : Nat) (pFormat arms : PFORMAT_STRING)
    (fMustAlloc : Bool) (dm : Nat)
    (harms : arms = (((pFormat.add 2).add (corrDescStep s)).add
      (((pFormat.add 2).add (corrDescStep s)).SHORT 0)).add 2)
    (hdm : (ComputeConformanceOrVarianceCount StubDesc s pMemory (pFormat.add 2) 0).2 = some dm)
    (hm : ∀ x : MIDL_STUB_MESSAGE, get_arm_offset_from_union_arm_selector x dm arms = none)
    (hu : ∀ x : MIDL_STUB_MESSAGE, get_arm_offset_from_union_arm_selector x
      (unmarshall_discriminant s (pFormat.add 1)).1 arms = none) :
    NdrNonEncapsulatedUnionMarshall NdrMarshaller StubDesc s pMemory pFormat =
      NdrBaseTypeMarshall s (get_conformance_address s pMemory (pFormat.add 2)) (pFormat.add 1) ∧
    NdrNonEncapsulatedUnionUnmarshall NdrUnmarshaller s ppMemory pFormat fMustAlloc =
      .ok ((unmarshall_discriminant s (pFormat.add 1)).2.1, ppMemory) ∧
    NdrNonEncapsulatedUnionBufferSize NdrBufferSizer StubDesc s pMemory pFormat =
      NdrBaseTypeBufferSize s pMemory (pFormat.add 1) := by
  have h11 : (pFormat.add 1).add 1 = pFormat.add 2 := by
    rw [PFORMAT_STRING.add_add]; rfl
  refine ⟨?_, ?_, ?_⟩
  · unfold NdrNonEncapsulatedUnionMarshall
    simp only [h11]
    cases hbt : NdrBaseTypeMarshall s (get_conformance_address s pMemory (pFormat.add 2))
        (pFormat.add 1) with
    | error e => rfl
    | ok s1 =>
      obtain ⟨h1, h2, h3, h4⟩ := NdrBaseTypeMarshallTag_frame s s1 _ _ hbt
      have hc := ComputeConformanceOrVarianceCount_some StubDesc s s1 pMemory (pFormat.add 2) 0 dm
        h1 h2 h3 hdm
      have hstep : corrDescStep s1 = corrDescStep s := by unfold corrDescStep; rw [h4]
      simp only [get_non_encapsulated_union_arm, ComputeConformanceOrVariance, hc, hstep,
        ← harms, hm s1]
  · unfold NdrNonEncapsulatedUnionUnmarshall
    simp only [unmarshall_discriminant_frame, h11, ← harms, hu]
  · unfold NdrNonEncapsulatedUnionBufferSize
    simp only [h11]
    cases hbt : NdrBaseTypeBufferSize s pMemory (pFormat.add 1) with
    | error e => rfl
    | ok s1 =>
      obtain ⟨h1, h2, h3, h4⟩ := NdrBaseTypeBufferSizeTag_frame s s1 _ _ hbt
      have hc := ComputeConformanceOrVarianceCount_some StubDesc s s1 pMemory (pFormat.add 2) 0 dm
        h1 h2 h3 hdm
      have hstep : corrDescStep s1 = corrDescStep s := by unfold corrDescStep; rw [h4]
      simp only [get_non_encapsulated_union_arm, ComputeConformanceOrVariance, hc, hstep,
        ← harms, hm s1]

/-- C11: a non-encapsulated union whose discriminant matches no declared arm and whose default
word is the sentinel `0xFFFF`.  No fault is raised for the missing arm: the arm selector
returns `NULL`, the marshaller returns exactly what marshalling the discriminant returns, and
the unmarshaller returns normally in the state reached after reading the discriminant, for
every dispatch table. -/
theorem NdrNonEncapsulatedUnion_undefined_default_returns
    (NdrMarshaller : Nat → Option NDR_MARSHALL) (NdrUnmarshaller : Nat → Option NDR_UNMARSHALL)
    (StubDesc : MIDL_STUB_DESC)
    (s : MIDL_STUB_MESSAGE) (pMemory ppMemory : Nat) (pFormat arms : PFORMAT_STRING)
    (fMustAlloc : Bool) (dm : Nat)
    (harms : arms = (((pFormat.add 2).add (corrDescStep s)).add
      (((pFormat.add 2).add (corrDescStep s)).SHORT 0)).add 2)
    (hdefault : arms.WORD (2 + 6 * ((arms.WORD 0 &&& 0x0fff : Nat) : Int)) = 0xffff)
    (hdm : (ComputeConformanceOrVarianceCount StubDesc s pMemory (pFormat.add 2) 0).2 = some dm)
    (hnm : ∀ i : Nat, i < (arms.WORD 0 &&& 0x0fff) → arms.ULONG (2 + 6 * (i : Int)) ≠ dm)
    (hnu : ∀ i : Nat, i < (arms.WORD 0 &&& 0x0fff) →
      arms.ULONG (2 + 6 * (i : Int)) ≠ (unmarshall_discriminant s (pFormat.add 1)).1) :
    (∀ x : MIDL_STUB_MESSAGE, get_arm_offset_from_union_arm_selector x dm arms = none) ∧
    NdrNonEncapsulatedUnionMarshall NdrMarshaller StubDesc s pMemory pFormat =
      NdrBaseTypeMarshall s (get_conformance_address s pMemory (pFormat.add 2)) (pFormat.add 1) ∧
    NdrNonEncapsulatedUnionUnmarshall NdrUnmarshaller s ppMemory pFormat fMustAlloc =
      .ok ((unmarshall_discriminant s (pFormat.add 1)).2.1, ppMemory) := by
  have hm := fun x => get_arm_offset_undefined_none x dm arms hnm hdefault
  have hu := fun x => get_arm_offset_undefined_none x _ arms hnu hdefault
  have h := NdrNonEncapsulatedUnion_no_arm NdrMarshaller NdrUnmarshaller (fun _ => none)
    StubDesc s pMemory ppMemory pFormat arms fMustAlloc dm harms hdm hm hu
  exact ⟨hm, h.1, h.2.1⟩

/-- A union with the discriminant 7, the single arm 1 and the default word `0xFFFF`: the
marshaller and the unmarshaller both return normally, four bytes past the start. -/
theorem NdrNonEncapsulatedUnion_undefined_default_returns_witness :
    ((unionNoDefaultFormat.add 10).WORD
        (2 + 6 * (((unionNoDefaultFormat.add 10).WORD 0 &&& 0x0fff : Nat) : Int)) = 0xffff ∧
      (ComputeConformanceOrVarianceCount noExprEval unionMsg 100 (unionNoDefaultFormat.add 2)
        0).2 = some 7 ∧
      (unmarshall_discriminant unionMsg (unionNoDefaultFormat.add 1)).1 = 7 ∧
      (unionNoDefaultFormat.add 10).ULONG 2 = 1) ∧
    (∃ s1, NdrNonEncapsulatedUnionMarshall (NdrMarshaller noExprEval 3) noExprEval unionMsg 100
        unionNoDefaultFormat = .ok s1 ∧ s1.Buffer = 8 + 4) ∧
    ∃ r1, NdrNonEncapsulatedUnionUnmarshall (NdrUnmarshaller 3) unionMsg 0
        unionNoDefaultFormat true = .ok (r1, 0) ∧ r1.Buffer = 8 + 4 := by
  have harms : unionNoDefaultFormat.add 10 =
      (((unionNoDefaultFormat.add 2).add (corrDescStep unionMsg)).add
        (((unionNoDefaultFormat.add 2).add (corrDescStep unionMsg)).SHORT 0)).add 2 := by
    simp [unionNoDefaultFormat, unionMsg, mkStubMsg, corrDescStep, PFORMAT_STRING.ofList,
      PFORMAT_STRING.add, PFORMAT_STRING.SHORT, PFORMAT_STRING.WORD, PFORMAT_STRING.byte, toSHORT]
  have h := NdrNonEncapsulatedUnion_undefined_default_returns (NdrMarshaller noExprEval 3)
    (NdrUnmarshaller 3) noExprEval unionMsg 100 0 unionNoDefaultFormat
    (unionNoDefaultFormat.add 10) true 7 harms (by decide) (by decide) (by decide) (by decide)
  refine ⟨⟨by decide, by decide, by decide, by decide⟩, ?_, ?_⟩
  · rw [h.2.1]
    obtain ⟨a, ha, hb⟩ := Except_ok_of_toOption_map
      (NdrBaseTypeMarshall unionMsg
        (get_conformance_address unionMsg 100 (unionNoDefaultFormat.add 2))
        (unionNoDefaultFormat.add 1)) (fun x => x.Buffer) (8 + 4) (by decide)
    exact ⟨a, ha, hb⟩
  · rw [h.2.2]
    exact ⟨_, rfl, rfl⟩

/-! ## 16-bit enumerations -/

theorem NdrBaseTypeMemorySizeTag_mem (r : MIDL_STUB_MESSAGE) (tag : Nat) :
    (NdrBaseTypeMemorySizeTag r tag).1.mem = r.mem := by
  unfold NdrBaseTypeMemorySizeTag
  simp only []
  repeat' split
  all_goals rfl

theorem NdrBaseTypeUnmarshallAlloc_mem (r : MIDL_STUB_MESSAGE) (ppMemory tag : Nat)
    (fMustAlloc : Bool) : (NdrBaseTypeUnmarshallAlloc r ppMemory tag fMustAlloc).1.mem = r.mem := by
  unfold NdrBaseTypeUnmarshallAlloc
  split
  · simp only [NdrAllocate, NdrBaseTypeMemorySizeTag_mem]
  · rfl

/-- C13: the tag `RPC_FC_ENUM16`.  `NdrBaseTypeMarshall` raises
`RPC_X_ENUM_VALUE_OUT_OF_RANGE` exactly when the 32-bit value in memory exceeds `0xFFFF`;
otherwise it writes the low 16 bits at the 2-aligned cursor `b`, touches no other wire cell
and stops at `b + 2`.  `NdrBaseTypeUnmarshall` reads the 16-bit word at `b`, stores it
zero-extended as a 32-bit value at the destination, changes no other memory cell and stops at
`b + 2`. -/
theorem NdrBaseType_enum16_width
    (s : MIDL_STUB_MESSAGE) (pMemory : Nat) (pFormat : PFORMAT_STRING)
    (htag : pFormat.byte 0 = RPC_FC_ENUM16) :
    (NdrBaseTypeMarshall s pMemory pFormat = .error .RPC_X_ENUM_VALUE_OUT_OF_RANGE ↔
      load32 s.mem pMemory > 0xFFFF) ∧
    (load32 s.mem pMemory ≤ 0xFFFF →
      ∃ s1, NdrBaseTypeMarshall s pMemory pFormat = .ok s1 ∧
        s1.Buffer = ALIGNED_LENGTH s.Buffer 2 + 2 ∧
        load16 s1.wire (ALIGNED_LENGTH s.Buffer 2) = load32 s.mem pMemory % 65536 ∧
        (∀ a, a < ALIGNED_LENGTH s.Buffer 2 ∨ ALIGNED_LENGTH s.Buffer 2 + 2 ≤ a →
          s1.wire a = s.wire a) ∧
        s1.mem = s.mem) ∧
    ∀ (ppMemory : Nat) (fMustAlloc : Bool),
      ∃ r1 q, NdrBaseTypeUnmarshall s ppMemory pFormat fMustAlloc = .ok (r1, q) ∧
        r1.Buffer = ALIGNED_LENGTH s.Buffer 2 + 2 ∧
        load32 r1.mem q = load16 s.wire (ALIGNED_LENGTH s.Buffer 2) ∧
        (∀ a, a < q ∨ q + 4 ≤ a → r1.mem a = s.mem a) ∧
        r1.wire = s.wire := by
  unfold NdrBaseTypeMarshall NdrBaseTypeUnmarshall NdrBaseTypeUnmarshallTag
  rw [htag, NdrBaseTypeMarshallTag_enum16]
  refine ⟨?_, ?_, ?_⟩
  · by_cases h : load32 s.mem pMemory > USHRT_MAX
    · rw [if_pos h]
      exact ⟨fun _ => h, fun _ => rfl⟩
    · rw [if_neg h]
      constructor
      · intro e; cases e
      · intro h'; exact absurd h' h
  · intro h
    have h' : ¬ load32 s.mem pMemory > USHRT_MAX := by
      have : USHRT_MAX = 0xFFFF := rfl
      omega
    rw [if_neg h']
    refine ⟨_, rfl, rfl, ?_, ?_, rfl⟩
    · simp only []
      rw [load16_store16]
    · intro a ha
      simp only []
      rw [store16_out _ _ _ _ ha]
  · intro ppMemory fMustAlloc
    rw [NdrBaseTypeUnmarshallCopy_enum16]
    refine ⟨_, _, rfl, ?_, ?_, ?_, ?_⟩
    · simp only [NdrBaseTypeUnmarshallAlloc_Buffer]
    · simp only [NdrBaseTypeUnmarshallAlloc_Buffer, NdrBaseTypeUnmarshallAlloc_wire]
      rw [load32_store32]
      have := load16_lt s.wire (ALIGNED_LENGTH s.Buffer 2)
      omega
    · intro a ha
      simp only []
      rw [store32_out _ _ _ _ ha, NdrBaseTypeUnmarshallAlloc_mem]
    · simp only [NdrBaseTypeUnmarshallAlloc_wire]

/-- The enumeration value `0x1234` from the odd buffer offset 5: two bytes at offset 6; the
value `0x10000` is refused; the wire word `0xabcd` is stored as `0x0000abcd`. -/
theorem NdrBaseType_enum16_width_witness :
    enum16Format.byte 0 = RPC_FC_ENUM16 ∧
    NdrBaseTypeMarshall enum16BigMsg 100 enum16Format = .error .RPC_X_ENUM_VALUE_OUT_OF_RANGE ∧
    (∃ s1, NdrBaseTypeMarshall enum16Msg 100 enum16Format = .ok s1 ∧ s1.Buffer = 6 + 2 ∧
      load16 s1.wire 6 = 0x1234) ∧
    ∃ r1 q, NdrBaseTypeUnmarshall enum16Msg 0 enum16Format true = .ok (r1, q) ∧
      r1.Buffer = 6 + 2 ∧ load32 r1.mem q = 0xabcd := by
  have hb := NdrBaseType_enum16_width enum16BigMsg 100 enum16Format (by decide)
  have h := NdrBaseType_enum16_width enum16Msg 100 enum16Format (by decide)
  obtain ⟨s1, h1, h2, h3, -⟩ := h.2.1 (by decide)
  obtain ⟨r1, q, h4, h5, h6, -⟩ := h.2.2 0 true
  exact ⟨by decide, hb.1.2 (by decide), ⟨s1, h1, h2, h3.trans (by decide)⟩,
    r1, q, h4, h5, h6.trans (by decide)⟩

/-! ## A zero pointer ID on the way in -/

/-- C14: a unique or object pointer whose 4-byte ID on the wire is zero.
`NdrPointerUnmarshall` consumes the ID and returns `*ppMemory` as it found it, whatever it
held; so `*ppMemory` is `NULL` afterwards when it was `NULL` before.  `ComplexUnmarshall`
stores `NULL` in the cell of a pointer field before it calls `NdrPointerUnmarshall`, so that
the field ends `NULL` whatever the memory held. -/
theorem NdrPointerUnmarshall_zero_id_keeps_pointer
    (NdrUnmarshaller : Nat → Option NDR_UNMARSHALL)
    (r : MIDL_STUB_MESSAGE) (ppMemory : Nat) (pFormat : PFORMAT_STRING) (fMustAlloc : Bool)
    (htype : pFormat.byte 0 = RPC_FC_UP ∨ pFormat.byte 0 = RPC_FC_OP)
    (hid : NDR_LOCAL_UINT32_READ r.NDR_LOCAL_IS_BIG_ENDIAN r.wire (ALIGNED_LENGTH r.Buffer 4)
      = 0) :
    NdrPointerUnmarshall NdrUnmarshaller r ppMemory pFormat fMustAlloc =
      .ok ({ r with Buffer := ALIGNED_LENGTH r.Buffer 4 + 4 }, ppMemory) ∧
    (ppMemory = 0 →
      NdrPointerUnmarshall NdrUnmarshaller r ppMemory pFormat fMustAlloc =
        .ok ({ r with Buffer := ALIGNED_LENGTH r.Buffer 4 + 4 }, 0)) ∧
    ∀ (fuel pMemory : Nat) (f : PFORMAT_STRING),
      f.byte 0 = RPC_FC_POINTER → f.byte 1 = RPC_FC_END → 2 ≤ fuel →
      ∃ r1, ComplexUnmarshall NdrUnmarshaller fMustAlloc fuel r pMemory f (some pFormat)
          = .ok (r1, pMemory + 4) ∧
        load32 r1.mem pMemory = 0 ∧ r1.Buffer = ALIGNED_LENGTH r.Buffer 4 + 4 := by
  have h := NdrPointerUnmarshall_null_id NdrUnmarshaller r ppMemory pFormat fMustAlloc htype hid
  refine ⟨h, ?_, ?_⟩
  · intro h0
    rw [h, h0]
  · intro fuel pMemory f h0 h1 hfuel
    obtain ⟨k, rfl⟩ : ∃ k, fuel = k + 2 := ⟨fuel - 2, by omega⟩
    have hc3 : RPC_FC_POINTER ≠ RPC_FC_END := by decide
    have hc4 : ¬ (RPC_FC_POINTER = RPC_FC_SHORT ∨ RPC_FC_POINTER = RPC_FC_USHORT) := by decide
    have hc5 : ¬ (RPC_FC_POINTER = RPC_FC_LONG ∨ RPC_FC_POINTER = RPC_FC_ULONG
      ∨ RPC_FC_POINTER = RPC_FC_ENUM32) := by decide
    simp only [ComplexUnmarshall, h0, hc3, hc4, hc5, if_false, if_true,
      PFORMAT_STRING.byte_add, Int.reduceAdd, Int.add_zero, h1]
    rw [NdrPointerUnmarshall_null_id NdrUnmarshaller { r with mem := store32 r.mem pMemory 0 } _
      pFormat _ htype hid]
    refine ⟨_, rfl, ?_, rfl⟩
    simp only [load32_store32, Nat.zero_mod]

/-- A zero pointer ID read from buffer offset 5 with the cell holding 77 before: 77 stays; a
pointer field of a structure holding `0x12345678` before ends `NULL`. -/
theorem NdrPointerUnmarshall_zero_id_keeps_pointer_witness :
    (upFormat.byte 0 = RPC_FC_UP ∧
      NDR_LOCAL_UINT32_READ zeroIdMsg.NDR_LOCAL_IS_BIG_ENDIAN zeroIdMsg.wire
        (ALIGNED_LENGTH zeroIdMsg.Buffer 4) = 0 ∧ load32 zeroIdMsg.mem 100 = 0x12345678) ∧
    NdrPointerUnmarshall (NdrUnmarshaller 3) zeroIdMsg 77 upFormat false =
      .ok ({ zeroIdMsg with Buffer := 8 + 4 }, 77) ∧
    ∃ r1, ComplexUnmarshall (NdrUnmarshaller 3) false 2 zeroIdMsg 100 pointerFieldFormat
        (some upFormat) = .ok (r1, 100 + 4) ∧ load32 r1.mem 100 = 0 := by
  have h := NdrPointerUnmarshall_zero_id_keeps_pointer (NdrUnmarshaller 3) zeroIdMsg 77 upFormat
    false (Or.inl (by decide)) (by decide)
  obtain ⟨r1, h1, h2, -⟩ := h.2.2 2 100 pointerFieldFormat (by decide) (by decide) (by decide)
  exact ⟨⟨by decide, by decide, by decide⟩, h.1, r1, h1, h2⟩

/-- C14, as stated: a unique pointer whose ID on the wire is zero, unmarshalled with
`*ppMemory` holding the address 77.  `NdrPointerUnmarshall` returns normally and `*ppMemory`
is still 77, not `NULL`. -/
theorem NdrPointerUnmarshall_zero_id_not_nulled :
    upFormat.byte 0 = RPC_FC_UP ∧
    NDR_LOCAL_UINT32_READ zeroIdMsg.NDR_LOCAL_IS_BIG_ENDIAN zeroIdMsg.wire
      (ALIGNED_LENGTH zeroIdMsg.Buffer 4) = 0 ∧
    ∃ r1 q, NdrPointerUnmarshall (NdrUnmarshaller 3) zeroIdMsg 77 upFormat false = .ok (r1, q) ∧
      q = 77 ∧ q ≠ 0 :=
  ⟨by decide, by decide, _, _, rfl, rfl, by decide⟩

/-! ## The conformance and variance resolver -/

theorem PFORMAT_STRING.byte_lt (f : PFORMAT_STRING) (k : Int) : f.byte k < 256 := by
  unfold PFORMAT_STRING.byte
  exact Nat.mod_lt _ (by decide)

theorem PFORMAT_STRING.WORD_lt (f : PFORMAT_STRING) (k : Int) : f.WORD k < 65536 := by
  unfold PFORMAT_STRING.WORD
  have h0 := f.byte_lt k
  have h1 := f.byte_lt (k + 1)
  omega

theorem PFORMAT_STRING.ULONG_eq (f : PFORMAT_STRING) :
    f.ULONG 0 = f.byte 0 + 256 * f.byte 1 + 65536 * (f.byte 2 + 256 * f.byte 3) := by
  simp only [PFORMAT_STRING.ULONG, PFORMAT_STRING.WORD]
  norm_num

theorem IsConformanceOrVariancePresent_of_byte (f : PFORMAT_STRING)
    (h : f.byte 0 ≠ 255 ∨ f.byte 1 ≠ 255) : IsConformanceOrVariancePresent f = true := by
  unfold IsConformanceOrVariancePresent
  rw [bne_iff_ne, PFORMAT_STRING.ULONG_eq]
  have h0 := f.byte_lt 0
  have h1 := f.byte_lt 1
  have h2 := f.byte_lt 2
  have h3 := f.byte_lt 3
  omega

theorem IsConformanceOrVariancePresent_of_type (f : PFORMAT_STRING)
    (h : f.byte 0 &&& 0xf0 ≠ 0xf0) : IsConformanceOrVariancePresent f = true := by
  apply IsConformanceOrVariancePresent_of_byte
  left
  intro h0
  rw [h0] at h
  exact h (by decide)

/-- C15: a descriptor whose first four bytes are the sentinel `0xFFFFFFFF`.
`ComputeConformanceOrVariance` stores the default `dflt` as the count and returns the stub
message exactly as it received it; the same holds with any other memory content, any other
`pMemory`, `Memory` and `StackTop`, so none of them is read. -/
theorem ComputeConformanceOrVariance_absent_default
    (StubDesc : MIDL_STUB_DESC) (s : MIDL_STUB_MESSAGE) (pMemory : Nat)
    (pFormat : PFORMAT_STRING) (dflt : Nat)
    (habsent : pFormat.ULONG 0 = 4294967295) :
    ComputeConformanceOrVariance StubDesc s pMemory pFormat dflt =
      (s, some dflt, pFormat.add (if s.fHasNewCorrDesc then 6 else 4)) ∧
    ∀ (m : MEMORY) (p M T : Nat),
      ComputeConformanceOrVariance StubDesc { s with mem := m, Memory := M, StackTop := T } p
          pFormat dflt =
        ({ s with mem := m, Memory := M, StackTop := T }, some dflt,
          pFormat.add (if s.fHasNewCorrDesc then 6 else 4)) := by
  have h : ∀ (x : MIDL_STUB_MESSAGE) (p : Nat),
      ComputeConformanceOrVariance StubDesc x p pFormat dflt =
        (x, some dflt, pFormat.add (if x.fHasNewCorrDesc then 6 else 4)) := by
    intro x p
    simp [ComputeConformanceOrVariance, ComputeConformanceOrVarianceCount,
      IsConformanceOrVariancePresent, habsent, corrDescStep]
  exact ⟨h s pMemory, fun m p M T => h _ p⟩

theorem or_high_word (b : Nat) (hb : b < 256) : 2 ^ 16 * 65535 ||| 2 ^ 16 * b = 2 ^ 16 * 65535 := by
  apply Nat.eq_of_testBit_eq
  intro i
  rw [Nat.testBit_or]
  by_cases hi : i < 16
  · have e1 : (2 ^ 16 * b).testBit i = false := by
      rw [Nat.mul_comm, ← Nat.shiftLeft_eq, Nat.testBit_shiftLeft]
      simp
      omega
    rw [e1, Bool.or_false]
  · by_cases hi2 : i < 32
    · have e2 : (2 ^ 16 * 65535).testBit i = true := by
        have : i ∈ List.range 32 := List.mem_range.mpr hi2
        revert hi
        revert this
        revert i
        decide
      rw [e2, Bool.true_or]
    · have e1 : (2 ^ 16 * b).testBit i = false := by
        apply Nat.testBit_lt_two_pow
        calc 2 ^ 16 * b < 2 ^ 16 * 2 ^ 16 := by omega
          _ = 2 ^ 32 := by norm_num
          _ ≤ 2 ^ i := Nat.pow_le_pow_right (by decide) (by omega)
      rw [e1, Bool.or_false]

theorem constant_count (w b : Nat) (hw : w < 65536) (hb : b < 256) :
    toDWORD (toSHORT w) ||| (b <<< 16) =
      if w < 32768 then b * 65536 + w else 4294901760 + w := by
  have hm : w % 65536 = w := Nat.mod_eq_of_lt hw
  rw [Nat.shiftLeft_eq]
  by_cases h : w < 32768
  · have e : toDWORD (toSHORT w) = w := by
      unfold toDWORD toSHORT
      rw [hm, if_pos h]
      omega
    rw [e, if_pos h, Nat.or_comm, Nat.mul_comm b (2 ^ 16), ← Nat.mul_add_lt_is_or hw b]
  · have e : toDWORD (toSHORT w) = 2 ^ 16 * 65535 + w := by
      unfold toDWORD toSHORT
      rw [hm, if_neg h]
      omega
    rw [e, if_neg h, Nat.mul_add_lt_is_or hw 65535, Nat.or_comm (2 ^ 16 * 65535) w,
      Nat.or_assoc, Nat.mul_comm b (2 ^ 16), or_high_word b hb, Nat.or_comm,
      ← Nat.mul_add_lt_is_or hw 65535]

/-- C16: a descriptor of constant conformance type.  `ComputeConformanceOrVariance` leaves the
stub message alone and reads no memory; the count it stores is the embedded constant
`byte 1 * 2^16 + word` when the word at bytes 2-3 is below `0x8000`.  When the word is
`0x8000` or more, the word is sign-extended before it is combined with byte 1, and the count
is `0xFFFF0000 + word` whatever byte 1 holds. -/
theorem ComputeConformanceOrVariance_constant
    (StubDesc : MIDL_STUB_DESC) (s : MIDL_STUB_MESSAGE) (pMemory : Nat)
    (pFormat : PFORMAT_STRING) (dflt : Nat)
    (htype : pFormat.byte 0 &&& 0xf0 = RPC_FC_CONSTANT_CONFORMANCE) :
    ComputeConformanceOrVariance StubDesc s pMemory pFormat dflt =
      (s,
        some (if pFormat.WORD 2 < 0x8000 then pFormat.byte 1 * 65536 + pFormat.WORD 2
          else 0xFFFF0000 + pFormat.WORD 2),
        pFormat.add (if s.fHasNewCorrDesc then 6 else 4)) := by
  have hp := IsConformanceOrVariancePresent_of_type pFormat (by rw [htype]; decide)
  have h1 : RPC_FC_CONSTANT_CONFORMANCE ≠ RPC_FC_NORMAL_CONFORMANCE := by decide
  have h2 : RPC_FC_CONSTANT_CONFORMANCE ≠ RPC_FC_POINTER_CONFORMANCE := by decide
  have h3 : RPC_FC_CONSTANT_CONFORMANCE ≠ RPC_FC_TOP_LEVEL_CONFORMANCE := by decide
  simp only [ComputeConformanceOrVariance, ComputeConformanceOrVarianceCount, hp, htype,
    Bool.not_true, Bool.false_eq_true, if_false, h1, h2, h3, if_true, PFORMAT_STRING.SHORT,
    constant_count _ _ (pFormat.WORD_lt 2) (pFormat.byte_lt 1), corrDescStep]

theorem ptrAdd_toSHORT (p w : Nat) (hw : w < 65536) :
    ptrAdd p (toSHORT w) = if w < 32768 then p + w else p + w - 65536 := by
  unfold ptrAdd toSHORT
  rw [Nat.mod_eq_of_lt hw]
  split <;> omega

theorem toDWORD_toSHORT (x : Nat) (hx : x < 65536) :
    toDWORD (toSHORT x) = if x < 32768 then x else 4294901760 + x := by
  unfold toDWORD toSHORT
  rw [Nat.mod_eq_of_lt hx]
  split <;> omega

theorem toDWORD_toCHAR (x : Nat) (hx : x < 256) :
    toDWORD (toCHAR x) = if x < 128 then x else 4294967040 + x := by
  unfold toDWORD toCHAR
  rw [Nat.mod_eq_of_lt hx]
  split <;> omega

/-- C17: a descriptor of normal conformance type with no operator.  With `a` the address
`pMemory + ofs`, `ofs` the signed 16-bit word at descriptor bytes 2-3,
`ComputeConformanceOrVariance` leaves the stub message alone and stores as count the integer
at `a` of the width and signedness of the type nibble: 32 bits for `LONG` and `ULONG`, 16 bits
sign-extended for `SHORT` and zero-extended for `USHORT`, 8 bits sign-extended for `SMALL` and
zero-extended for `USMALL`. -/
theorem ComputeConformanceOrVariance_normal_typed
    (StubDesc : MIDL_STUB_DESC) (s : MIDL_STUB_MESSAGE) (pMemory : Nat)
    (pFormat : PFORMAT_STRING) (dflt a : Nat)
    (htype : pFormat.byte 0 &&& 0xf0 = RPC_FC_NORMAL_CONFORMANCE)
    (hop : pFormat.byte 1 = 0)
    (ha : a = if pFormat.WORD 2 < 0x8000 then pMemory + pFormat.WORD 2
      else pMemory + pFormat.WORD 2 - 0x10000) :
    ∃ v, ComputeConformanceOrVariance StubDesc s pMemory pFormat dflt =
        (s, some v, pFormat.add (if s.fHasNewCorrDesc then 6 else 4)) ∧
      (pFormat.byte 0 &&& 0xf = RPC_FC_LONG ∨ pFormat.byte 0 &&& 0xf = RPC_FC_ULONG →
        v = load32 s.mem a) ∧
      (pFormat.byte 0 &&& 0xf = RPC_FC_SHORT →
        v = if load16 s.mem a < 0x8000 then load16 s.mem a else 0xFFFF0000 + load16 s.mem a) ∧
      (pFormat.byte 0 &&& 0xf = RPC_FC_USHORT → v = load16 s.mem a) ∧
      (pFormat.byte 0 &&& 0xf = RPC_FC_SMALL →
        v = if load8 s.mem a < 0x80 then load8 s.mem a else 0xFFFFFF00 + load8 s.mem a) ∧
      (pFormat.byte 0 &&& 0xf = RPC_FC_USMALL → v = load8 s.mem a) := by
  have hp := IsConformanceOrVariancePresent_of_type pFormat (by rw [htype]; decide)
  have hcb : (0 : Nat) ≠ RPC_FC_CALLBACK := by decide
  have hdr : (0 : Nat) ≠ RPC_FC_DEREFERENCE := by decide
  have hadr : ptrAdd pMemory (pFormat.SHORT 2) = a := by
    rw [ha, PFORMAT_STRING.SHORT, ptrAdd_toSHORT _ _ (pFormat.WORD_lt 2)]
  have hres : ComputeConformanceOrVariance StubDesc s pMemory pFormat dflt =
      (s, some ((corrTypedLoad s.mem (pFormat.byte 0 &&& 0xf) a).getD 0),
        pFormat.add (if s.fHasNewCorrDesc then 6 else 4)) := by
    simp only [ComputeConformanceOrVariance, ComputeConformanceOrVarianceCount, hp, htype,
      Bool.not_true, Bool.false_eq_true, if_false, if_true, corrResolve, hop, hcb, hdr,
      corrGrab, hadr, corrDescStep]
  refine ⟨_, hres, ?_, ?_, ?_, ?_, ?_⟩
  · intro h
    rcases h with h | h <;> rw [h] <;> simp [corrTypedLoad, RPC_FC_LONG, RPC_FC_ULONG]
  · intro h
    rw [h]
    simp [corrTypedLoad, RPC_FC_LONG, RPC_FC_ULONG, RPC_FC_SHORT,
      toDWORD_toSHORT _ (load16_lt s.mem a)]
  · intro h
    rw [h]
    simp [corrTypedLoad, RPC_FC_LONG, RPC_FC_ULONG, RPC_FC_SHORT, RPC_FC_USHORT]
  · intro h
    rw [h]
    simp [corrTypedLoad, RPC_FC_LONG, RPC_FC_ULONG, RPC_FC_SHORT, RPC_FC_USHORT, RPC_FC_SMALL,
      toDWORD_toCHAR _ (load8_lt s.mem a)]
  · intro h
    rw [h]
    simp [corrTypedLoad, RPC_FC_LONG, RPC_FC_ULONG, RPC_FC_SHORT, RPC_FC_USHORT, RPC_FC_SMALL,
      RPC_FC_USMALL]

theorem corrResolve_dereference (StubDesc : MIDL_STUB_DESC) (s : MIDL_STUB_MESSAGE)
    (f : PFORMAT_STRING) (ptr : Nat) (hop : f.byte 1 = RPC_FC_DEREFERENCE) :
    corrResolve StubDesc s f ptr = (s, none) := by
  have h1 : RPC_FC_DEREFERENCE ≠ RPC_FC_CALLBACK := by decide
  have h2 : RPC_FC_DEREFERENCE ≠ 0 := by decide
  simp only [corrResolve, hop, h1, if_false, corrGrab, h2]

/-- C18: a descriptor carrying the operator `RPC_FC_DEREFERENCE` (and not of constant type,
where byte 1 is part of the constant).  `ComputeConformanceOrVariance` stores no count at
all: it returns the stub message as it received it and leaves `*pCount` untouched, so
`ComputeConformance` leaves `MaxCount` as it was and `ComputeVariance` leaves `ActualCount`
as it was, whatever integer the extra indirection reaches. -/
theorem ComputeConformanceOrVariance_dereference_stores_nothing
    (StubDesc : MIDL_STUB_DESC) (s : MIDL_STUB_MESSAGE) (pMemory : Nat)
    (pFormat : PFORMAT_STRING) (dflt : Nat)
    (hop : pFormat.byte 1 = RPC_FC_DEREFERENCE)
    (htype : pFormat.byte 0 &&& 0xf0 ≠ RPC_FC_CONSTANT_CONFORMANCE) :
    ComputeConformanceOrVariance StubDesc s pMemory pFormat dflt =
      (s, none, pFormat.add (if s.fHasNewCorrDesc then 6 else 4)) ∧
    ComputeConformance StubDesc s pMemory pFormat dflt =
      (s, pFormat.add (if s.fHasNewCorrDesc then 6 else 4)) ∧
    ComputeVariance StubDesc s pMemory pFormat dflt =
      ({ s with Offset := 0 }, pFormat.add (if s.fHasNewCorrDesc then 6 else 4)) := by
  have hp := IsConformanceOrVariancePresent_of_byte pFormat
    (Or.inr (by rw [hop]; decide))
  have h2 : RPC_FC_DEREFERENCE ≠ 0 := by decide
  have hcnt : ∀ x : MIDL_STUB_MESSAGE,
      ComputeConformanceOrVarianceCount StubDesc x pMemory pFormat dflt = (x, none) := by
    intro x
    simp only [ComputeConformanceOrVarianceCount, hp, Bool.not_true, Bool.false_eq_true,
      if_false, htype, corrResolve_dereference StubDesc x pFormat _ hop, corrGrab, hop, h2]
    split_ifs <;> rfl
  have h : ∀ x : MIDL_STUB_MESSAGE,
      ComputeConformanceOrVariance StubDesc x pMemory pFormat dflt =
        (x, none, pFormat.add (if x.fHasNewCorrDesc then 6 else 4)) := by
    intro x
    simp only [ComputeConformanceOrVariance, hcnt, corrDescStep]
  refine ⟨h s, ?_, ?_⟩
  · simp only [ComputeConformance, h]
  · simp only [ComputeVariance, h]

theorem corrResolve_flag (StubDesc : MIDL_STUB_DESC) (s : MIDL_STUB_MESSAGE)
    (f : PFORMAT_STRING) (ptr : Nat)
    (h : f.byte 1 ≠ RPC_FC_CALLBACK ∨
      ∀ (i : Int) (x : MIDL_STUB_MESSAGE),
        (StubDesc.apfnExprEval i x).fHasNewCorrDesc = x.fHasNewCorrDesc) :
    (corrResolve StubDesc s f ptr).1.fHasNewCorrDesc = s.fHasNewCorrDesc := by
  unfold corrResolve
  by_cases hcb : f.byte 1 = RPC_FC_CALLBACK
  · rcases h with h | h
    · exact absurd hcb h
    · simp only [hcb, if_true, h]
  · simp only [hcb, if_false]

theorem ComputeConformanceOrVarianceCount_flag (StubDesc : MIDL_STUB_DESC)
    (s : MIDL_STUB_MESSAGE) (pMemory : Nat) (f : PFORMAT_STRING) (dflt : Nat)
    (h : f.byte 1 ≠ RPC_FC_CALLBACK ∨
      ∀ (i : Int) (x : MIDL_STUB_MESSAGE),
        (StubDesc.apfnExprEval i x).fHasNewCorrDesc = x.fHasNewCorrDesc) :
    (ComputeConformanceOrVarianceCount StubDesc s pMemory f dflt).1.fHasNewCorrDesc
      = s.fHasNewCorrDesc := by
  unfold ComputeConformanceOrVarianceCount
  simp only []
  split_ifs
  all_goals first
    | rfl
    | exact corrResolve_flag StubDesc s f _ h

/-- C19: the format cursor returned by the correlation readers.
`ComputeConformanceOrVariance` returns the cursor advanced by 6 when `fHasNewCorrDesc` is set
at its return and by 4 otherwise, on every path and whatever the descriptor holds; the flag at
the return is the flag of the call on every path but the callback, and on the callback path
too when the expression evaluators leave the flag alone.  `ReadConformance` and `ReadVariance`
advance a cursor by 6 when the flag is set and by 4 otherwise. -/
theorem correlation_cursor_step
    (StubDesc : MIDL_STUB_DESC) (s : MIDL_STUB_MESSAGE) (pMemory : Nat)
    (pFormat : PFORMAT_STRING) (dflt : Nat) :
    (ComputeConformanceOrVariance StubDesc s pMemory pFormat dflt).2.2 =
      pFormat.add
        (if (ComputeConformanceOrVariance StubDesc s pMemory pFormat dflt).1.fHasNewCorrDesc
          then 6 else 4) ∧
    (pFormat.byte 1 ≠ RPC_FC_CALLBACK ∨
        (∀ (i : Int) (x : MIDL_STUB_MESSAGE),
          (StubDesc.apfnExprEval i x).fHasNewCorrDesc = x.fHasNewCorrDesc) →
      (ComputeConformanceOrVariance StubDesc s pMemory pFormat dflt).2.2 =
        pFormat.add (if s.fHasNewCorrDesc then 6 else 4)) ∧
    (ReadConformance s (some pFormat)).2 =
      some (pFormat.add (if s.fHasNewCorrDesc then 6 else 4)) ∧
    (ReadVariance s (some pFormat)).2 =
      some (pFormat.add (if s.fHasNewCorrDesc then 6 else 4)) := by
  refine ⟨rfl, ?_, rfl, rfl⟩
  intro h
  have hf := ComputeConformanceOrVarianceCount_flag StubDesc s pMemory pFormat dflt h
  simp only [ComputeConformanceOrVariance, corrDescStep, hf]

/-! ## A `NULL` ref pointer -/

/-- C20: a ref pointer (`RPC_FC_RP`) with a `NULL` pointer value.  `PointerMarshall` and
`NdrPointerMarshall` raise no fault: they return normally, with the stub message as they
received it, for every dispatch table; nothing is written and no referent marshaller runs. -/
theorem PointerMarshall_ref_null_returns
    (NdrMarshaller : Nat → Option NDR_MARSHALL) (s : MIDL_STUB_MESSAGE) (Buffer : Nat)
    (pFormat : PFORMAT_STRING)
    (htype : pFormat.byte 0 = RPC_FC_RP) :
    PointerMarshall NdrMarshaller s Buffer 0 pFormat = .ok s ∧
    NdrPointerMarshall NdrMarshaller s 0 pFormat = .ok s := by
  have h : ∀ b, PointerMarshall NdrMarshaller s b 0 pFormat = .ok s := by
    intro b
    simp only [PointerMarshall, htype, if_true, ne_eq, not_true_eq_false, if_false]
  refine ⟨h Buffer, ?_⟩
  simp only [NdrPointerMarshall, htype, ne_eq, not_true_eq_false, if_false, h]

/-- The absent descriptor with the default 7: the count is 7 and nothing else changes. -/
theorem ComputeConformanceOrVariance_absent_default_witness :
    absentDesc.ULONG 0 = 4294967295 ∧
    ComputeConformanceOrVariance noExprEval corrMsg 100 absentDesc 7 =
      (corrMsg, some 7, absentDesc.add 4) :=
  ⟨by decide,
    (ComputeConformanceOrVariance_absent_default noExprEval corrMsg 100 absentDesc 7
      (by decide)).1⟩

/-- The constant descriptors `40 12 34 56` and `40 00 00 80`: the first yields `0x125634`,
the second `0xFFFF8000`, not `0x8000`. -/
theorem ComputeConformanceOrVariance_constant_witness :
    (constDesc.byte 0 &&& 0xf0 = RPC_FC_CONSTANT_CONFORMANCE ∧
      constHighDesc.byte 0 &&& 0xf0 = RPC_FC_CONSTANT_CONFORMANCE ∧
      constHighDesc.byte 1 * 65536 + constHighDesc.WORD 2 = 0x8000) ∧
    (ComputeConformanceOrVariance noExprEval corrMsg 100 constDesc 0).2.1 = some 0x125634 ∧
    (ComputeConformanceOrVariance noExprEval corrMsg 100 constHighDesc 0).2.1
      = some 0xFFFF8000 ∧
    (ComputeConformance noExprEval corrMsg 100 constHighDesc 0).1.MaxCount = 0xFFFF8000 := by
  have h1 := ComputeConformanceOrVariance_constant noExprEval corrMsg 100 constDesc 0
    (by decide)
  have h2 := ComputeConformanceOrVariance_constant noExprEval corrMsg 100 constHighDesc 0
    (by decide)
  refine ⟨⟨by decide, by decide, by decide⟩, ?_, ?_, ?_⟩
  · rw [h1]; decide
  · rw [h2]; decide
  · simp only [ComputeConformance, h2]
    decide

/-- The descriptor of a `SHORT` at offset -4 with `0xfffe` stored there: the count is the
sign-extended `0xFFFFFFFE`. -/
theorem ComputeConformanceOrVariance_normal_typed_witness :
    (normalShortDesc.byte 0 &&& 0xf0 = RPC_FC_NORMAL_CONFORMANCE ∧
      normalShortDesc.byte 1 = 0 ∧ normalShortDesc.byte 0 &&& 0xf = RPC_FC_SHORT ∧
      load16 corrMsg.mem 96 = 0xfffe) ∧
    ComputeConformanceOrVariance noExprEval corrMsg 100 normalShortDesc 0 =
      (corrMsg, some 0xFFFFFFFE, normalShortDesc.add 4) := by
  obtain ⟨v, h, -, hs, -⟩ := ComputeConformanceOrVariance_normal_typed noExprEval corrMsg 100
    normalShortDesc 0 96 (by decide) (by decide) (by decide)
  have hv : v = 0xFFFFFFFE := (hs (by decide)).trans (by decide)
  subst hv
  exact ⟨⟨by decide, by decide, by decide, by decide⟩, h⟩

/-- The descriptor of a `LONG` behind the pointer at offset 0, with 5 stored behind the
pointer and `MaxCount = 99` before the call: `MaxCount` is still 99 afterwards. -/
theorem ComputeConformanceOrVariance_dereference_stores_nothing_witness :
    (derefDesc.byte 1 = RPC_FC_DEREFERENCE ∧
      derefDesc.byte 0 &&& 0xf0 = RPC_FC_NORMAL_CONFORMANCE ∧
      load32 corrMsg.mem (load32 corrMsg.mem 100) = 5 ∧ corrMsg.MaxCount = 99) ∧
    (ComputeConformanceOrVariance noExprEval corrMsg 100 derefDesc 0).2.1 = none ∧
    (ComputeConformance noExprEval corrMsg 100 derefDesc 0).1.MaxCount = 99 ∧
    (ComputeVariance noExprEval corrMsg 100 derefDesc 0).1.ActualCount = 98 := by
  have h := ComputeConformanceOrVariance_dereference_stores_nothing noExprEval corrMsg 100
    derefDesc 0 (by decide) (by decide)
  refine ⟨⟨by decide, by decide, by decide, by decide⟩, ?_, ?_, ?_⟩
  · rw [h.1]
  · rw [h.2.1]; rfl
  · rw [h.2.2]; rfl

/-- A `NULL` ref pointer marshalled from buffer offset 5: the stub message comes back
unchanged. -/
theorem PointerMarshall_ref_null_returns_witness :
    rpFormat.byte 0 = RPC_FC_RP ∧
    PointerMarshall (NdrMarshaller noExprEval 3) oddMsg 5 0 rpFormat = .ok oddMsg ∧
    NdrPointerMarshall (NdrMarshaller noExprEval 3) oddMsg 0 rpFormat = .ok oddMsg :=
  ⟨by decide, PointerMarshall_ref_null_returns (NdrMarshaller noExprEval 3) oddMsg 5 rpFormat
    (by decide)⟩

/-- C20, as stated: a ref pointer with a `NULL` pointer value.  `PointerMarshall` and
`NdrPointerMarshall` return normally: no fault is raised. -/
theorem PointerMarshall_ref_null_no_fault :
    rpFormat.byte 0 = RPC_FC_RP ∧
    (∃ s1, PointerMarshall (NdrMarshaller noExprEval 3) oddMsg 5 0 rpFormat = .ok s1) ∧
    ∃ s1, NdrPointerMarshall (NdrMarshaller noExprEval 3) oddMsg 0 rpFormat = .ok s1 :=
  ⟨by decide, ⟨_, rfl⟩, ⟨_, rfl⟩⟩

/-! ## The buffer-size pass -/

theorem NdrBaseTypeBufferSizeTag_eq (tag : Nat) :
    ∃ A sz, (A = 1 ∨ A = 2 ∨ A = 4 ∨ A = 8) ∧ (sz = A ∨ sz = 0 ∧ A = 1) ∧
      ∀ (x : MIDL_STUB_MESSAGE) (p : Nat), x.BufferLength < 4294967296 →
        NdrBaseTypeBufferSizeTag x p tag =
          .ok { x with BufferLength := (ALIGN_LENGTH x.BufferLength A + sz) % 4294967296 } := by
  unfold NdrBaseTypeBufferSizeTag
  simp only []
  split_ifs
  · refine ⟨1, 1, by simp, by simp, fun x p hx => ?_⟩
    have h : (ALIGN_LENGTH x.BufferLength 1 + 1) % 4294967296 =
        (x.BufferLength + 1) % 4294967296 := by
      rw [ALIGN_LENGTH_1]; omega
    rw [h]
  · exact ⟨2, 2, by simp, by simp, fun x p _ => rfl⟩
  · exact ⟨4, 4, by simp, by simp, fun x p _ => rfl⟩
  · exact ⟨4, 4, by simp, by simp, fun x p _ => rfl⟩
  · exact ⟨8, 8, by simp, by simp, fun x p _ => rfl⟩
  · exact ⟨8, 8, by simp, by simp, fun x p _ => rfl⟩
  · exact ⟨4, 4, by simp, by simp, fun x p _ => rfl⟩
  · refine ⟨1, 0, by simp, by simp, fun x p hx => ?_⟩
    have h : (ALIGN_LENGTH x.BufferLength 1 + 0) % 4294967296 = x.BufferLength := by
      rw [ALIGN_LENGTH_1]; omega
    rw [h]

theorem RunsTwice_of_eq (op : MIDL_STUB_MESSAGE → Except Fault MIDL_STUB_MESSAGE)
    (s : MIDL_STUB_MESSAGE) (next : Nat → Nat) (A : Nat) (s1 s2 : MIDL_STUB_MESSAGE)
    (h1 : op s = .ok s1) (h2 : op s1 = .ok s2)
    (e1 : SameButLength s1 s) (e2 : SameButLength s2 s)
    (b1 : s1.BufferLength = next s.BufferLength) (b2 : s2.BufferLength = next s1.BufferLength)
    (hd : A ∣ s.BufferLength → A ∣ next s.BufferLength →
      ((next (next s.BufferLength) : Int) - next s.BufferLength) % 4294967296 =
          ((next s.BufferLength : Int) - s.BufferLength) % 4294967296 ∧
        (s.BufferLength ≤ next s.BufferLength →
          next s.BufferLength ≤ next (next s.BufferLength) →
          next (next s.BufferLength) - next s.BufferLength =
            next s.BufferLength - s.BufferLength)) :
    RunsTwice op s next A := by
  refine ⟨s1, s2, h1, h2, b1, b2, ?_, ?_, ?_, ?_, ?_, ?_, ?_⟩
  · have := congrArg MIDL_STUB_MESSAGE.Buffer e1; exact this
  · have := congrArg MIDL_STUB_MESSAGE.Buffer e2; exact this
  · have := congrArg MIDL_STUB_MESSAGE.mem e1; exact this
  · have := congrArg MIDL_STUB_MESSAGE.mem e2; exact this
  · have := congrArg MIDL_STUB_MESSAGE.wire e1; exact this
  · have := congrArg MIDL_STUB_MESSAGE.wire e2; exact this
  · intro ha hb
    rw [b2, b1]
    rw [b1] at hb
    exact hd ha hb

theorem SameButLength_refl (s : MIDL_STUB_MESSAGE) : SameButLength s s := rfl

theorem SameButLength_step (x s : MIDL_STUB_MESSAGE) (L M : Nat) (h : SameButLength x s) :
    SameButLength { x with BufferLength := L, MaxCount := M } s := h

theorem SameButLength_length (x s : MIDL_STUB_MESSAGE) (L : Nat) (h : SameButLength x s) :
    SameButLength { x with BufferLength := L } s := by
  unfold SameButLength at h ⊢
  rw [← h]

theorem NdrConformantStringBufferSize_step (fuel n : Nat) (s x : MIDL_STUB_MESSAGE)
    (psz : Nat) (pFormat : PFORMAT_STRING)
    (hstr : pFormat.byte 0 = RPC_FC_C_CSTRING ∧ IsCString s.mem psz n ∨
      pFormat.byte 0 = RPC_FC_C_WSTRING ∧ IsWString s.mem psz n)
    (hfuel : n < fuel) (hx : x.mem = s.mem) :
    NdrConformantStringBufferSize fuel x psz pFormat =
      .ok { x with BufferLength := (ALIGN_LENGTH x.BufferLength 4 + 12 +
        ((n + 1) * (if pFormat.byte 0 = RPC_FC_C_CSTRING then 1 else 2) + BUFFER_PARANOIA))
          % 4294967296 } := by
  rcases hstr with ⟨ht, hs⟩ | ⟨ht, hs⟩
  · have hl := strlen_of_IsCString s.mem n psz fuel hs hfuel
    simp only [NdrConformantStringBufferSize, SizeVariance, SizeConformance, ht, if_true, hx, hl,
      ALIGN_LENGTH_4]
    congr 2
    omega
  · have hl := strlenW_of_IsWString s.mem n psz fuel hs hfuel
    have hne : RPC_FC_C_WSTRING ≠ RPC_FC_C_CSTRING := by decide
    simp only [NdrConformantStringBufferSize, SizeVariance, SizeConformance, ht, hne, if_false,
      if_true, hx, hl, ALIGN_LENGTH_4]
    congr 2
    omega

theorem NdrConformantArrayBufferSize_step (NdrBufferSizer : Nat → Option NDR_BUFFERSIZE)
    (StubDesc : MIDL_STUB_DESC) (fuel n : Nat) (s x : MIDL_STUB_MESSAGE) (pMemory : Nat)
    (pFormat : PFORMAT_STRING)
    (hconf : ∀ y, SameButLength y s →
      (ComputeConformance StubDesc y pMemory (pFormat.add 4) 0).1 = { y with MaxCount := n })
    (hpp : s.IgnoreEmbeddedPointers = true ∨
      ((pFormat.add 4).add (corrDescStep s)).byte 0 ≠ RPC_FC_PP)
    (hx : SameButLength x s) :
    NdrConformantArrayBufferSize NdrBufferSizer StubDesc fuel x pMemory pFormat =
      .ok { x with
        MaxCount := n
        BufferLength :=
          (ALIGN_LENGTH ((ALIGN_LENGTH x.BufferLength 4 + 4) % 4294967296)
              ((pFormat.byte 1 + 1) % 256) +
            n % 4294967296 * pFormat.WORD 2 % 4294967296) % 4294967296 } := by
  have hc := hconf x hx
  have hcur := ComputeConformance_cursor StubDesc x pMemory (pFormat.add 4) 0
  have hflag : x.fHasNewCorrDesc = s.fHasNewCorrDesc := by
    have := congrArg MIDL_STUB_MESSAGE.fHasNewCorrDesc hx; exact this
  have hign : x.IgnoreEmbeddedPointers = s.IgnoreEmbeddedPointers := by
    have := congrArg MIDL_STUB_MESSAGE.IgnoreEmbeddedPointers hx; exact this
  rw [hc] at hcur
  have hstep : corrDescStep { x with MaxCount := n } = corrDescStep s := by
    simp only [corrDescStep, hflag]
  rw [hstep] at hcur
  unfold NdrConformantArrayBufferSize
  simp only [hc, hcur, SizeConformance, EmbeddedPointerBufferSize]
  rcases hpp with h | h
  · rw [if_pos (by rw [← h, ← hign])]
  · rw [if_pos h]
    split_ifs <;> rfl

/-- C12: a buffer-size operation run twice in succession on the same memory value
returns normally both times, each run takes the 32-bit running length `L` to the length padded
to the alignment of the operation plus an amount fixed by the value, reduced modulo `2^32`, and
the second run adds the same amount as the first whenever both runs start from a multiple of
that alignment: the wire size for `NdrBaseTypeBufferSize`, 4 for
`NdrConformantStringBufferSize`, the larger of 4 and the element alignment for
`NdrConformantArrayBufferSize` over an array without embedded pointers.  Neither run modifies
`Buffer`, the buffer contents or the memory. -/
theorem BufferSize_twice_same_delta_when_aligned :
    (∀ (s : MIDL_STUB_MESSAGE) (pMemory : Nat) (pFormat : PFORMAT_STRING),
      s.BufferLength < 4294967296 →
      ∃ A sz, (A = 1 ∨ A = 2 ∨ A = 4 ∨ A = 8) ∧ (sz = A ∨ sz = 0 ∧ A = 1) ∧
        RunsTwice (fun x => NdrBaseTypeBufferSize x pMemory pFormat) s
          (fun L => (ALIGN_LENGTH L A + sz) % 4294967296) A) ∧
    (∀ (fuel n : Nat) (s : MIDL_STUB_MESSAGE) (psz : Nat) (pFormat : PFORMAT_STRING),
      (pFormat.byte 0 = RPC_FC_C_CSTRING ∧ IsCString s.mem psz n ∨
        pFormat.byte 0 = RPC_FC_C_WSTRING ∧ IsWString s.mem psz n) →
      n < fuel →
        RunsTwice (fun x => NdrConformantStringBufferSize fuel x psz pFormat) s
          (fun L => (ALIGN_LENGTH L 4 + 12 +
            ((n + 1) * (if pFormat.byte 0 = RPC_FC_C_CSTRING then 1 else 2) + BUFFER_PARANOIA))
              % 4294967296)
          4) ∧
    (∀ (NdrBufferSizer : Nat → Option NDR_BUFFERSIZE) (StubDesc : MIDL_STUB_DESC)
      (fuel n : Nat) (s : MIDL_STUB_MESSAGE) (pMemory : Nat) (pFormat : PFORMAT_STRING),
      ((pFormat.byte 1 + 1) % 256 = 1 ∨ (pFormat.byte 1 + 1) % 256 = 2 ∨
        (pFormat.byte 1 + 1) % 256 = 4 ∨ (pFormat.byte 1 + 1) % 256 = 8) →
      (∀ y, SameButLength y s →
        (ComputeConformance StubDesc y pMemory (pFormat.add 4) 0).1 = { y with MaxCount := n }) →
      (s.IgnoreEmbeddedPointers = true ∨
        ((pFormat.add 4).add (corrDescStep s)).byte 0 ≠ RPC_FC_PP) →
        RunsTwice
          (fun x => NdrConformantArrayBufferSize NdrBufferSizer StubDesc fuel x pMemory pFormat) s
          (fun L => (ALIGN_LENGTH ((ALIGN_LENGTH L 4 + 4) % 4294967296)
              ((pFormat.byte 1 + 1) % 256) +
            n % 4294967296 * pFormat.WORD 2 % 4294967296) % 4294967296)
          (max 4 ((pFormat.byte 1 + 1) % 256))) := by
  refine ⟨?_, ?_, ?_⟩
  · intro s pMemory pFormat hs
    obtain ⟨A, sz, hA, hsz, hrun⟩ := NdrBaseTypeBufferSizeTag_eq (pFormat.byte 0)
    refine ⟨A, sz, hA, hsz, ?_⟩
    refine RunsTwice_of_eq _ s _ A _ _ (hrun s pMemory hs)
      (hrun _ pMemory (Nat.mod_lt _ (by norm_num)))
      (SameButLength_length s s _ (SameButLength_refl s))
      (SameButLength_length _ s _ (SameButLength_length s s _ (SameButLength_refl s)))
      rfl rfl ?_
    intro ha hb
    simp only [] at hb ⊢
    rcases hA with rfl | rfl | rfl | rfl <;>
      simp only [ALIGN_LENGTH_1, ALIGN_LENGTH_2, ALIGN_LENGTH_4, ALIGN_LENGTH_8] at hb ⊢ <;>
      omega
  · intro fuel n s psz pFormat hstr hfuel
    have e1 : SameButLength
        { s with BufferLength := (ALIGN_LENGTH s.BufferLength 4 + 12 +
          ((n + 1) * (if pFormat.byte 0 = RPC_FC_C_CSTRING then 1 else 2) + BUFFER_PARANOIA))
            % 4294967296 } s :=
      SameButLength_length s s _ (SameButLength_refl s)
    refine RunsTwice_of_eq _ s _ 4 _ _
      (NdrConformantStringBufferSize_step fuel n s s psz pFormat hstr hfuel rfl)
      (NdrConformantStringBufferSize_step fuel n s _ psz pFormat hstr hfuel rfl)
      e1 (SameButLength_length _ s _ e1) rfl rfl ?_
    intro ha hb
    generalize (n + 1) * (if pFormat.byte 0 = RPC_FC_C_CSTRING then 1 else 2)
      + BUFFER_PARANOIA = c at hb ⊢
    simp only [ALIGN_LENGTH_4] at hb ⊢
    omega
  · intro NdrBufferSizer StubDesc fuel n s pMemory pFormat hA hconf hpp
    have e1 : SameButLength
        { s with
          MaxCount := n
          BufferLength :=
            (ALIGN_LENGTH ((ALIGN_LENGTH s.BufferLength 4 + 4) % 4294967296)
                ((pFormat.byte 1 + 1) % 256) +
              n % 4294967296 * pFormat.WORD 2 % 4294967296) % 4294967296 } s :=
      SameButLength_step s s _ _ (SameButLength_refl s)
    refine RunsTwice_of_eq _ s _ _ _ _
      (NdrConformantArrayBufferSize_step NdrBufferSizer StubDesc fuel n s s pMemory pFormat
        hconf hpp (SameButLength_refl s))
      (NdrConformantArrayBufferSize_step NdrBufferSizer StubDesc fuel n s _ pMemory pFormat
        hconf hpp e1)
      e1 (SameButLength_step _ s _ _ e1) rfl rfl ?_
    generalize n % 4294967296 * pFormat.WORD 2 % 4294967296 = c
    generalize (pFormat.byte 1 + 1) % 256 = A at hA
    intro ha hb
    rcases hA with rfl | rfl | rfl | rfl <;>
      simp only [ALIGN_LENGTH_1, ALIGN_LENGTH_2, ALIGN_LENGTH_4, ALIGN_LENGTH_8] at hb ⊢ <;>
      norm_num at ha hb <;> omega

/-- C12, as stated: sizing a LONG from the running length 1 adds 7 the first time and 4 the
second; sizing the string "hello" from the running length 64 adds 38 the first time and 40
the second; sizing a LONG from the running length `0xFFFFFFFC` takes the 32-bit length to 0
the first time and to 4 the second. -/
theorem BufferSize_twice_unequal_delta :
    (∃ s1 s2, NdrBaseTypeBufferSize sizingMsg 100 longFormat = .ok s1 ∧
      NdrBaseTypeBufferSize s1 100 longFormat = .ok s2 ∧
      sizingMsg.BufferLength = 1 ∧ s1.BufferLength = 8 ∧ s2.BufferLength = 12) ∧
    (∃ s1 s2, NdrConformantStringBufferSize 8 helloMsg 100 cstringFormat = .ok s1 ∧
      NdrConformantStringBufferSize 8 s1 100 cstringFormat = .ok s2 ∧
      helloMsg.BufferLength = 64 ∧ s1.BufferLength = 102 ∧ s2.BufferLength = 142) ∧
    (∃ s1 s2,
      NdrBaseTypeBufferSize { longMsg with BufferLength := 0xFFFFFFFC } 100 longFormat
        = .ok s1 ∧
      NdrBaseTypeBufferSize s1 100 longFormat = .ok s2 ∧
      s1.BufferLength = 0 ∧ s2.BufferLength = 4) :=
  ⟨⟨_, _, rfl, rfl, by decide, by decide, by decide⟩,
    ⟨_, _, rfl, rfl, by decide, by decide, by decide⟩,
    ⟨_, _, rfl, rfl, by decide, by decide⟩⟩

/-- Two runs over a LONG from the running length 64 add 4 each; two runs over the string "llo"
from 64 add 36 each; two runs over an array of two 16-bit integers from 64 add 8 each; two
runs over a LONG from the running length `0xFFFFFFF8` give `0xFFFFFFFC` and then 0, each 4
more modulo `2^32`. -/
theorem BufferSize_twice_same_delta_when_aligned_witness :
    (∃ s1 s2, NdrBaseTypeBufferSize longMsg 100 longFormat = .ok s1 ∧
      NdrBaseTypeBufferSize s1 100 longFormat = .ok s2 ∧
      s1.BufferLength = 68 ∧ s2.BufferLength = 72 ∧
      s2.BufferLength - s1.BufferLength = s1.BufferLength - longMsg.BufferLength ∧
      s2.Buffer = longMsg.Buffer ∧ s2.mem = longMsg.mem ∧ s2.wire = longMsg.wire) ∧
    ((cstringFormat.byte 0 = RPC_FC_C_CSTRING ∧ IsCString helloMsg.mem 102 3) ∧
      ∃ s1 s2, NdrConformantStringBufferSize 8 helloMsg 102 cstringFormat = .ok s1 ∧
        NdrConformantStringBufferSize 8 s1 102 cstringFormat = .ok s2 ∧
        s1.BufferLength = 100 ∧ s2.BufferLength = 136 ∧
        s2.BufferLength - s1.BufferLength = s1.BufferLength - helloMsg.BufferLength ∧
        s2.Buffer = helloMsg.Buffer ∧ s2.mem = helloMsg.mem ∧ s2.wire = helloMsg.wire) ∧
    (((shortPairFormat.byte 1 + 1) % 256 = 2 ∧
        ((shortPairFormat.add 4).add (corrDescStep shortArrayMsg)).byte 0 ≠ RPC_FC_PP) ∧
      ∃ s1 s2,
        NdrConformantArrayBufferSize (fun _ => none) noExprEval 4 shortArrayMsg 100
          shortPairFormat = .ok s1 ∧
        NdrConformantArrayBufferSize (fun _ => none) noExprEval 4 s1 100
          shortPairFormat = .ok s2 ∧
        s1.BufferLength = 72 ∧ s2.BufferLength = 80 ∧
        s2.BufferLength - s1.BufferLength = s1.BufferLength - shortArrayMsg.BufferLength ∧
        s2.Buffer = shortArrayMsg.Buffer ∧ s2.mem = shortArrayMsg.mem ∧
        s2.wire = shortArrayMsg.wire) ∧
    (∃ s1 s2,
      NdrBaseTypeBufferSize { longMsg with BufferLength := 0xFFFFFFF8 } 100 longFormat
        = .ok s1 ∧
      NdrBaseTypeBufferSize s1 100 longFormat = .ok s2 ∧
      s1.BufferLength = 0xFFFFFFFC ∧ s2.BufferLength = 0 ∧
      ((s2.BufferLength : Int) - s1.BufferLength) % 4294967296 = 4 ∧
      ((s1.BufferLength : Int) - 0xFFFFFFF8) % 4294967296 = 4) := by
  refine ⟨?_, ⟨⟨by decide, by decide⟩, ?_⟩, ⟨⟨by decide, by decide⟩, ?_⟩, ?_⟩
  · obtain ⟨A, sz, hA, hsz, s1, s2, h1, h2, b1, b2, -, hB, -, hm, -, hw, hd⟩ :=
      BufferSize_twice_same_delta_when_aligned.1 longMsg 100 longFormat (by decide)
    have k1 : s1 = { longMsg with BufferLength := 68 } := Except.ok.inj (h1.symm.trans rfl)
    subst k1
    have k2 : s2 = { longMsg with BufferLength := 72 } := Except.ok.inj (h2.symm.trans rfl)
    subst k2
    refine ⟨_, _, h1, h2, rfl, rfl, by decide, hB, hm, hw⟩
  · obtain ⟨s1, s2, h1, h2, b1, b2, -, hB, -, hm, -, hw, hd⟩ :=
      BufferSize_twice_same_delta_when_aligned.2.1 8 3 helloMsg 102 cstringFormat
        (Or.inl ⟨by decide, by decide⟩) (by decide)
    have e1 : s1.BufferLength = 100 := b1.trans (by decide)
    have e2 : s2.BufferLength = 136 := by rw [b2, e1]; decide
    exact ⟨s1, s2, h1, h2, e1, e2,
      (hd (by decide) (by rw [e1]; decide)).2 (by rw [e1]; decide) (by rw [e1, e2]; decide),
      hB, hm, hw⟩
  · obtain ⟨s1, s2, h1, h2, b1, b2, -, hB, -, hm, -, hw, hd⟩ :=
      BufferSize_twice_same_delta_when_aligned.2.2 (fun _ => none) noExprEval 4 2
        shortArrayMsg 100 shortPairFormat (by decide) (fun y _ => rfl)
        (Or.inr (by decide))
    have e1 : s1.BufferLength = 72 := b1.trans (by decide)
    have e2 : s2.BufferLength = 80 := by rw [b2, e1]; decide
    exact ⟨s1, s2, h1, h2, e1, e2,
      (hd (by decide) (by rw [e1]; decide)).2 (by rw [e1]; decide) (by rw [e1, e2]; decide),
      hB, hm, hw⟩
  · obtain ⟨A, sz, hA, hsz, s1, s2, h1, h2, b1, b2, -, -, -, -, -, -, hd⟩ :=
      BufferSize_twice_same_delta_when_aligned.1
        { longMsg with BufferLength := 0xFFFFFFF8 } 100 longFormat (by decide)
    have k1 : s1 = { longMsg with BufferLength := 0xFFFFFFFC } :=
      Except.ok.inj (h1.symm.trans rfl)
    subst k1
    have k2 : s2 = { longMsg with BufferLength := 0 } := Except.ok.inj (h2.symm.trans rfl)
    subst k2
    exact ⟨_, _, h1, h2, rfl, rfl, by decide, by decide⟩

/-! ## The tag check of the array marshallers -/

/-- C21: the array marshallers on a format whose first byte is not their tag.
`NdrConformantVaryingArrayMarshall` and `NdrComplexArrayMarshall` raise
`RPC_S_INTERNAL_ERROR` before anything is written.  `NdrConformantArrayMarshall` compares the
first byte with `RPC_FC_CARRAY` as well, but on a mismatch it only logs a `FIXME` and raises
nothing: whatever the first byte is, with no embedded-pointer layout it returns normally,
having written the conformance word and the `MaxCount * esize` bytes of the array. -/
theorem array_marshall_tag_check
    (NdrMarshaller : Nat → Option NDR_MARSHALL) (StubDesc : MIDL_STUB_DESC) (fuel : Nat)
    (s : MIDL_STUB_MESSAGE) (pMemory : Nat) (pFormat : PFORMAT_STRING) :
    (pFormat.byte 0 ≠ RPC_FC_CVARRAY →
      NdrConformantVaryingArrayMarshall NdrMarshaller StubDesc fuel s pMemory pFormat =
        .error .RPC_S_INTERNAL_ERROR) ∧
    (pFormat.byte 0 ≠ RPC_FC_BOGUS_ARRAY →
      NdrComplexArrayMarshall NdrMarshaller StubDesc fuel s pMemory pFormat =
        .error .RPC_S_INTERNAL_ERROR) ∧
    (∀ (c : MIDL_STUB_MESSAGE × PFORMAT_STRING) (b : Nat),
      c = ComputeConformance StubDesc s pMemory (pFormat.add 4) 0 →
      b = ALIGNED_LENGTH (WriteConformance c.1).Buffer ((pFormat.byte 1 + 1) % 256) →
      c.2.byte 0 ≠ RPC_FC_PP →
      NdrConformantArrayMarshall NdrMarshaller StubDesc fuel s pMemory pFormat =
        .ok { WriteConformance c.1 with
          wire := memcpy (WriteConformance c.1).wire b c.1.mem pMemory
            (c.1.MaxCount % 4294967296 * pFormat.WORD 2 % 4294967296)
          BufferMark := b
          Buffer := b + c.1.MaxCount % 4294967296 * pFormat.WORD 2 % 4294967296 }) := by
  refine ⟨?_, ?_, ?_⟩
  · intro h
    simp only [NdrConformantVaryingArrayMarshall, h, ne_eq, not_false_eq_true, if_true]
  · intro h
    simp only [NdrComplexArrayMarshall, h, ne_eq, not_false_eq_true, if_true]
  · intro c b hc hb h
    subst hc hb
    simp only [NdrConformantArrayMarshall, EmbeddedPointerMarshall, h, ne_eq,
      not_false_eq_true, if_true]
    rfl

/-- The conformant-array marshaller on a format whose first byte is `0x08`, not
`RPC_FC_CARRAY`: it raises no fault; from buffer offset 8 it writes the conformance 3 and the
6 bytes of the array and returns with the cursor at 18. -/
theorem NdrConformantArrayMarshall_wrong_tag_returns :
    wrongTagArrayFormat.byte 0 ≠ RPC_FC_CARRAY ∧
    ∃ s1, NdrConformantArrayMarshall (NdrMarshaller noExprEval 2) noExprEval 4 shortArrayMsg 100
        wrongTagArrayFormat = .ok s1 ∧
      s1.Buffer = 18 ∧ cells s1.wire 8 10 = [3, 0, 0, 0, 1, 0, 2, 0, 3, 0] :=
  ⟨by decide, _, rfl, by decide, by decide⟩

/-- The format with first byte `0x08` given to the three array marshallers: two raise
`RPC_S_INTERNAL_ERROR`, the conformant-array marshaller returns with the cursor at 18. -/
theorem array_marshall_tag_check_witness :
    NdrConformantVaryingArrayMarshall (NdrMarshaller noExprEval 2) noExprEval 4 shortArrayMsg
        100 wrongTagArrayFormat = .error .RPC_S_INTERNAL_ERROR ∧
    NdrComplexArrayMarshall (NdrMarshaller noExprEval 2) noExprEval 4 shortArrayMsg 100
        wrongTagArrayFormat = .error .RPC_S_INTERNAL_ERROR ∧
    ∃ s1, NdrConformantArrayMarshall (NdrMarshaller noExprEval 2) noExprEval 4 shortArrayMsg 100
        wrongTagArrayFormat = .ok s1 ∧ s1.Buffer = 18 := by
  have h := array_marshall_tag_check (NdrMarshaller noExprEval 2) noExprEval 4 shortArrayMsg
    100 wrongTagArrayFormat
  refine ⟨h.1 (by decide), h.2.1 (by decide), _, h.2.2 _ _ rfl rfl (by decide), by decide⟩

/-! ## Freeing through a pointer -/

/-- C22: `PointerFree`.  With the don't-free attribute set or a `NULL` pointer it returns at
once, for every table, so no free operation runs and nothing reaches the deallocator.
Otherwise it invokes the free operation of the referent (if the slot holds one); when that
operation returns, in the state `s1`, the referent is passed to the deallocator exactly when
the on-stack attribute is clear, the referent description is not `RPC_FC_IP`, and it is not
the case that the description is a conformant string while `ReuseBuffer` is set; in the other
cases the state is returned as the free operation left it.  A fault of the free operation is
the fault of `PointerFree`. -/
theorem PointerFree_deallocates_iff
    (NdrFreer : Nat → Option NDR_FREE) (s : MIDL_STUB_MESSAGE) (Pointer : Nat)
    (pFormat : PFORMAT_STRING) (referent : Nat) (r : Except Fault MIDL_STUB_MESSAGE)
    (href : referent =
      if pFormat.byte 1 &&& RPC_FC_P_DEREF ≠ 0 then load32 s.mem Pointer else Pointer)
    (hr : r =
      match NdrFreer ((pointerDesc pFormat).byte 0 &&& NDR_TABLE_MASK) with
      | some m => m s referent (pointerDesc pFormat)
      | none => .ok s) :
    (pFormat.byte 1 &&& RPC_FC_P_DONTFREE ≠ 0 ∨ Pointer = 0 →
      PointerFree NdrFreer s Pointer pFormat = .ok s) ∧
    (pFormat.byte 1 &&& RPC_FC_P_DONTFREE = 0 → Pointer ≠ 0 →
      (∀ e, r = .error e → PointerFree NdrFreer s Pointer pFormat = .error e) ∧
      ∀ s1, r = .ok s1 →
        ∃ s2, PointerFree NdrFreer s Pointer pFormat = .ok s2 ∧
          (s2 = NdrFree s1 referent ∨ s2 = s1) ∧
          (s2.freed = referent :: s1.freed ↔
            pFormat.byte 1 &&& RPC_FC_P_ONSTACK = 0 ∧
            (pointerDesc pFormat).byte 0 ≠ RPC_FC_IP ∧
            ¬ (((pointerDesc pFormat).byte 0 = RPC_FC_C_CSTRING ∨
                (pointerDesc pFormat).byte 0 = RPC_FC_C_WSTRING) ∧ s1.ReuseBuffer = true))) := by
  subst hr
  refine ⟨?_, ?_⟩
  · rintro (h | h)
    · simp only [PointerFree, h, ne_eq, not_false_eq_true, if_true]
    · simp only [PointerFree, h, if_true, ite_self]
  · intro hd hp
    have hne : ∀ (l : List Nat), ¬ (l = referent :: l) := by
      intro l h
      have := congrArg List.length h
      simp at this
    refine ⟨?_, ?_⟩
    · intro e he
      simp only [PointerFree, hd, ne_eq, not_true_eq_false, if_false, hp, ← href, he]
    · intro s1 h1
      simp only [PointerFree, hd, ne_eq, not_true_eq_false, if_false, hp, ← href, h1]
      by_cases hs : ((pointerDesc pFormat).byte 0 = RPC_FC_C_CSTRING ∨
          (pointerDesc pFormat).byte 0 = RPC_FC_C_WSTRING) ∧ s1.ReuseBuffer = true
      · rw [if_pos hs]
        exact ⟨s1, rfl, Or.inr rfl, fun h => absurd h (hne _), fun h => absurd hs h.2.2⟩
      · rw [if_neg hs]
        by_cases hip : (pointerDesc pFormat).byte 0 = RPC_FC_IP
        · rw [if_pos hip]
          exact ⟨s1, rfl, Or.inr rfl, fun h => absurd h (hne _), fun h => absurd hip h.2.1⟩
        · rw [if_neg hip]
          by_cases hst : pFormat.byte 1 &&& RPC_FC_P_ONSTACK = 0
          · rw [if_neg (by rw [hst]; simp)]
            exact ⟨_, rfl, Or.inl rfl, fun _ => ⟨hst, hip, hs⟩, fun _ => rfl⟩
          · rw [if_pos hst]
            exact ⟨s1, rfl, Or.inr rfl, fun h => absurd h (hne _), fun h => absurd h.1 hst⟩

/-- A unique pointer to a 32-bit integer at address 100 is passed to the deallocator; a
unique pointer to a string is not when `ReuseBuffer` is set; a `NULL` pointer is left alone. -/
theorem PointerFree_deallocates_iff_witness :
    (∃ s2, PointerFree (NdrFreer 2) longMsg 100 upFormat = .ok s2 ∧ s2.freed = [100]) ∧
    (∃ s2, PointerFree (NdrFreer 2) reuseMsg 100 upStringFormat = .ok s2 ∧ s2.freed = []) ∧
    PointerFree (NdrFreer 2) longMsg 0 upFormat = .ok longMsg := by
  have h1 := PointerFree_deallocates_iff (NdrFreer 2) longMsg 100 upFormat 100 (.ok longMsg)
    (by decide) rfl
  have h2 := PointerFree_deallocates_iff (NdrFreer 2) reuseMsg 100 upStringFormat 100
    (.ok reuseMsg) (by decide) rfl
  have h3 := PointerFree_deallocates_iff (NdrFreer 2) longMsg 0 upFormat 0 (.ok longMsg)
    (by decide) rfl
  refine ⟨?_, ?_, h3.1 (Or.inr rfl)⟩
  · obtain ⟨s2, e, -, hiff⟩ := (h1.2 (by decide) (by decide)).2 longMsg rfl
    exact ⟨s2, e, hiff.2 (by decide)⟩
  · obtain ⟨s2, e, hor, hiff⟩ := (h2.2 (by decide) (by decide)).2 reuseMsg rfl
    rcases hor with rfl | rfl
    · exact absurd (hiff.1 rfl) (by decide)
    · exact ⟨_, e, rfl⟩

/-! ## The dispatch tables -/

theorem tablePopulated_eq_true (i : Nat) :
    tablePopulated i = true ↔
      (1 ≤ i ∧ i ≤ 0x22) ∨ i = 0x25 ∨ i = 0x26 ∨ i = 0x2a ∨ i = 0x2b ∨ i = 0x2d ∨ i = 0x2e ∨
        i = 0x2f ∨ i = 0x34 := by
  simp only [tablePopulated, Bool.or_eq_true, Bool.and_eq_true, decide_eq_true_eq]
  omega

theorem tablePopulated_eq_false (i : Nat) :
    tablePopulated i = false ↔
      ¬ ((1 ≤ i ∧ i ≤ 0x22) ∨ i = 0x25 ∨ i = 0x26 ∨ i = 0x2a ∨ i = 0x2b ∨ i = 0x2d ∨ i = 0x2e ∨
        i = 0x2f ∨ i = 0x34) := by
  rw [← tablePopulated_eq_true, Bool.not_eq_true]

theorem freerPopulated_eq_true (i : Nat) :
    freerPopulated i = true ↔
      (1 ≤ i ∧ i ≤ 0x21) ∨ i = 0x2a ∨ i = 0x2b ∨ i = 0x2d ∨ i = 0x2e ∨ i = 0x2f ∨ i = 0x34 := by
  simp only [freerPopulated, Bool.or_eq_true, Bool.and_eq_true, decide_eq_true_eq]
  omega

theorem freerPopulated_eq_false (i : Nat) :
    freerPopulated i = false ↔
      ¬ ((1 ≤ i ∧ i ≤ 0x21) ∨ i = 0x2a ∨ i = 0x2b ∨ i = 0x2d ∨ i = 0x2e ∨ i = 0x2f ∨
        i = 0x34) := by
  rw [← freerPopulated_eq_true, Bool.not_eq_true]

theorem NdrMarshaller_isSome (StubDesc : MIDL_STUB_DESC) (fuel i : Nat) :
    (NdrMarshaller StubDesc fuel i).isSome = tablePopulated i := by
  cases fuel with
  | zero =>
    unfold NdrMarshaller
    simp only [apply_ite Option.isSome, Option.isSome_some, Option.isSome_none]
    cases tablePopulated i <;> rfl
  | succ n =>
    unfold NdrMarshaller
    simp only [apply_ite Option.isSome, Option.isSome_some, Option.isSome_none]
    by_cases hi : i < 64
    · interval_cases i <;> rfl
    · have e : tablePopulated i = false := by
        rw [tablePopulated_eq_false]
        omega
      rw [e]
      repeat rw [if_neg (by omega)]
      rfl

theorem NdrUnmarshaller_isSome (fuel i : Nat) :
    (NdrUnmarshaller fuel i).isSome = tablePopulated i := by
  cases fuel with
  | zero =>
    unfold NdrUnmarshaller
    simp only [apply_ite Option.isSome, Option.isSome_some, Option.isSome_none]
    cases tablePopulated i <;> rfl
  | succ n =>
    unfold NdrUnmarshaller
    simp only [apply_ite Option.isSome, Option.isSome_some, Option.isSome_none]
    by_cases hi : i < 64
    · interval_cases i <;> rfl
    · have e : tablePopulated i = false := by
        rw [tablePopulated_eq_false]
        omega
      rw [e]
      repeat rw [if_neg (by omega)]
      rfl

theorem NdrBufferSizer_isSome (StubDesc : MIDL_STUB_DESC) (fuel i : Nat) :
    (NdrBufferSizer StubDesc fuel i).isSome = tablePopulated i := by
  cases fuel with
  | zero =>
    unfold NdrBufferSizer
    simp only [apply_ite Option.isSome, Option.isSome_some, Option.isSome_none]
    cases tablePopulated i <;> rfl
  | succ n =>
    unfold NdrBufferSizer
    simp only [apply_ite Option.isSome, Option.isSome_some, Option.isSome_none]
    by_cases hi : i < 64
    · interval_cases i <;> rfl
    · have e : tablePopulated i = false := by
        rw [tablePopulated_eq_false]
        omega
      rw [e]
      repeat rw [if_neg (by omega)]
      rfl

theorem NdrFreer_isSome (fuel i : Nat) :
    (NdrFreer fuel i).isSome = freerPopulated i := by
  cases fuel with
  | zero =>
    unfold NdrFreer
    simp only [apply_ite Option.isSome, Option.isSome_some, Option.isSome_none]
    cases freerPopulated i <;> rfl
  | succ n =>
    unfold NdrFreer
    simp only [apply_ite Option.isSome, Option.isSome_some, Option.isSome_none]
    by_cases hi : i < 64
    · interval_cases i <;> rfl
    · have e : freerPopulated i = false := by
        rw [freerPopulated_eq_false]
        omega
      rw [e]
      repeat rw [if_neg (by omega)]
      rfl

/-- C25: the slots of the dispatch tables.  At every index the slots of `NdrMarshaller`,
`NdrUnmarshaller` and `NdrBufferSizer` are all populated or all empty.  The slot of `NdrFreer`
is populated exactly when they are and the index is none of the string slots `0x22`, `0x25`
and `0x26`: these three hold a marshaller, an unmarshaller and a buffer sizer but no free
operation. -/
theorem dispatch_tables_populated (StubDesc : MIDL_STUB_DESC) (fuel i : Nat) :
    (NdrUnmarshaller fuel i).isSome = (NdrMarshaller StubDesc fuel i).isSome ∧
    (NdrBufferSizer StubDesc fuel i).isSome = (NdrMarshaller StubDesc fuel i).isSome ∧
    ((NdrFreer fuel i).isSome = true ↔
      (NdrMarshaller StubDesc fuel i).isSome = true ∧ i ≠ 0x22 ∧ i ≠ 0x25 ∧ i ≠ 0x26) ∧
    (i = 0x22 ∨ i = 0x25 ∨ i = 0x26 →
      (NdrMarshaller StubDesc fuel i).isSome = true ∧ (NdrFreer fuel i).isSome = false) := by
  rw [NdrMarshaller_isSome, NdrUnmarshaller_isSome, NdrBufferSizer_isSome, NdrFreer_isSome]
  refine ⟨rfl, rfl, ?_, ?_⟩
  · rw [freerPopulated_eq_true, tablePopulated_eq_true]
    omega
  · rintro (rfl | rfl | rfl) <;> decide

/-- C25, as stated: slot `0x22` (`RPC_FC_C_CSTRING`) holds a marshaller, an unmarshaller and
a buffer sizer, and no free operation. -/
theorem string_slot_has_no_freer :
    (NdrMarshaller noExprEval 1 0x22).isSome = true ∧
    (NdrUnmarshaller 1 0x22).isSome = true ∧
    (NdrBufferSizer noExprEval 1 0x22).isSome = true ∧
    (NdrFreer 1 0x22).isSome = false :=
  ⟨rfl, rfl, rfl, rfl⟩

/-- The slots `0x08` (a base type), `0x22` (a string) and `0x23` (unused) of the four
tables. -/
theorem dispatch_tables_populated_witness :
    ((NdrMarshaller noExprEval 1 0x08).isSome = true ∧ (NdrFreer 1 0x08).isSome = true) ∧
    ((NdrMarshaller noExprEval 1 0x22).isSome = true ∧ (NdrFreer 1 0x22).isSome = false) ∧
    ((NdrMarshaller noExprEval 1 0x23).isSome = false ∧
      (NdrBufferSizer noExprEval 1 0x23).isSome = false) := by
  have h8 := dispatch_tables_populated noExprEval 1 0x08
  have h22 := dispatch_tables_populated noExprEval 1 0x22
  have h23 := dispatch_tables_populated noExprEval 1 0x23
  refine ⟨⟨rfl, ?_⟩, h22.2.2.2 (Or.inl rfl), ⟨rfl, ?_⟩⟩
  · exact h8.2.2.1.2 ⟨rfl, by decide, by decide, by decide⟩
  · rw [h23.2.1]; rfl

/-! ## Opcodes and tags without a case -/

theorem ComplexMarshall_skip (tbl : Nat → Option NDR_MARSHALL) (fuel : Nat)
    (s : MIDL_STUB_MESSAGE) (p : Nat) (f : PFORMAT_STRING) (pp : Option PFORMAT_STRING)
    (h : UnhandledOpcode (f.byte 0)) :
    ComplexMarshall tbl (fuel + 1) s p f pp = ComplexMarshall tbl fuel s p (f.add 1) pp := by
  obtain ⟨h1, h2, h3, h4, h5, h6, h7, h8, h9, h10, h11, -⟩ := h
  simp only [ComplexMarshall, h1, h2, h3, h4, h5, h6, h7, h8, h9, h10, h11, if_false, or_self]

theorem ComplexUnmarshall_skip (tbl : Nat → Option NDR_UNMARSHALL) (fMustAlloc : Bool)
    (fuel : Nat) (s : MIDL_STUB_MESSAGE) (p : Nat) (f : PFORMAT_STRING)
    (pp : Option PFORMAT_STRING) (h : UnhandledOpcode (f.byte 0)) :
    ComplexUnmarshall tbl fMustAlloc (fuel + 1) s p f pp =
      ComplexUnmarshall tbl fMustAlloc fuel s p (f.add 1) pp := by
  obtain ⟨h1, h2, h3, h4, h5, h6, h7, h8, h9, h10, h11, -⟩ := h
  simp only [ComplexUnmarshall, h1, h2, h3, h4, h5, h6, h7, h8, h9, h10, h11, if_false, or_self]

theorem ComplexBufferSize_skip (tbl : Nat → Option NDR_BUFFERSIZE) (fuel : Nat)
    (s : MIDL_STUB_MESSAGE) (p : Nat) (f : PFORMAT_STRING) (pp : Option PFORMAT_STRING)
    (h : UnhandledOpcode (f.byte 0)) :
    ComplexBufferSize tbl (fuel + 1) s p f pp = ComplexBufferSize tbl fuel s p (f.add 1) pp := by
  obtain ⟨h1, h2, h3, h4, h5, h6, h7, h8, h9, h10, h11, -⟩ := h
  simp only [ComplexBufferSize, h1, h2, h3, h4, h5, h6, h7, h8, h9, h10, h11, if_false, or_self]

theorem ComplexFree_skip (tbl : Nat → Option NDR_FREE) (fuel : Nat)
    (s : MIDL_STUB_MESSAGE) (p : Nat) (f : PFORMAT_STRING) (pp : Option PFORMAT_STRING)
    (h : UnhandledOpcode (f.byte 0)) :
    ComplexFree tbl (fuel + 1) s p f pp = ComplexFree tbl fuel s p (f.add 1) pp := by
  obtain ⟨h1, h2, h3, h4, h5, h6, h7, h8, h9, h10, h11, -⟩ := h
  simp only [ComplexFree, h1, h2, h3, h4, h5, h6, h7, h8, h9, h10, h11, if_false, or_self]

theorem unhandled_run_tail (f : PFORMAT_STRING) (k : Nat)
    (hrun : ∀ i : Nat, i < k + 1 → UnhandledOpcode (f.byte i))
    (hend : f.byte ((k + 1 : Nat) : Int) = RPC_FC_END) :
    (∀ i : Nat, i < k → UnhandledOpcode ((f.add 1).byte i)) ∧
      (f.add 1).byte (k : Int) = RPC_FC_END := by
  refine ⟨fun i hi => ?_, ?_⟩
  · have := hrun (i + 1) (by omega)
    simp only [PFORMAT_STRING.byte_add]
    have e : (1 : Int) + (i : Int) = ((i + 1 : Nat) : Int) := by push_cast; ring
    rw [e]; exact this
  · simp only [PFORMAT_STRING.byte_add]
    have e : (1 : Int) + (k : Int) = ((k + 1 : Nat) : Int) := by push_cast; ring
    rw [e]; exact hend

theorem Complex_unhandled_run (tblM : Nat → Option NDR_MARSHALL)
    (tblU : Nat → Option NDR_UNMARSHALL) (tblB : Nat → Option NDR_BUFFERSIZE)
    (tblF : Nat → Option NDR_FREE) (fMustAlloc : Bool) (s : MIDL_STUB_MESSAGE) (p : Nat)
    (pp : Option PFORMAT_STRING) :
    ∀ (k : Nat) (f : PFORMAT_STRING),
      (∀ i : Nat, i < k → UnhandledOpcode (f.byte i)) → f.byte (k : Int) = RPC_FC_END →
      ∀ fuel, k < fuel →
        ComplexMarshall tblM fuel s p f pp = .ok (s, p) ∧
        ComplexUnmarshall tblU fMustAlloc fuel s p f pp = .ok (s, p) ∧
        ComplexBufferSize tblB fuel s p f pp = .ok (s, p) ∧
        ComplexFree tblF fuel s p f pp = .ok (s, p) := by
  intro k
  induction k with
  | zero =>
    intro f _ hend fuel hfuel
    obtain ⟨n, rfl⟩ : ∃ n, fuel = n + 1 := ⟨fuel - 1, by omega⟩
    have h0 : f.byte 0 = RPC_FC_END := by simpa using hend
    simp only [ComplexMarshall, ComplexUnmarshall, ComplexBufferSize, ComplexFree, h0, if_true,
      and_self]
  | succ k ih =>
    intro f hrun hend fuel hfuel
    obtain ⟨n, rfl⟩ : ∃ n, fuel = n + 1 := ⟨fuel - 1, by omega⟩
    have h0 : UnhandledOpcode (f.byte 0) := by simpa using hrun 0 (by omega)
    obtain ⟨t1, t2⟩ := unhandled_run_tail f k hrun hend
    rw [ComplexMarshall_skip _ _ _ _ _ _ h0, ComplexUnmarshall_skip _ _ _ _ _ _ _ h0,
      ComplexBufferSize_skip _ _ _ _ _ _ h0, ComplexFree_skip _ _ _ _ _ _ h0]
    exact ih (f.add 1) t1 t2 n (by omega)

/-- C27: an opcode the complex-structure walkers have no case for, and a tag
`NdrBaseTypeMarshall` has no case for.  Each walker, at such an opcode, does what it does one
byte further in the format with the same state and the same memory cursor, so nothing is
written, counted or freed and no fault is raised for the opcode; over a run of such opcodes
closed by `RPC_FC_END` each walker returns the state and the memory cursor it was given.
`NdrBaseTypeMarshall` returns the state it was given. -/
theorem unhandled_opcode_is_skipped
    (f g : PFORMAT_STRING)
    (hop : UnhandledOpcode (f.byte 0)) (htag : UnhandledBaseType (g.byte 0)) :
    (∀ (tbl : Nat → Option NDR_MARSHALL) (fuel : Nat) (s : MIDL_STUB_MESSAGE) (p : Nat)
        (pp : Option PFORMAT_STRING),
      ComplexMarshall tbl (fuel + 1) s p f pp = ComplexMarshall tbl fuel s p (f.add 1) pp) ∧
    (∀ (tbl : Nat → Option NDR_UNMARSHALL) (fMustAlloc : Bool) (fuel : Nat)
        (s : MIDL_STUB_MESSAGE) (p : Nat) (pp : Option PFORMAT_STRING),
      ComplexUnmarshall tbl fMustAlloc (fuel + 1) s p f pp =
        ComplexUnmarshall tbl fMustAlloc fuel s p (f.add 1) pp) ∧
    (∀ (tbl : Nat → Option NDR_BUFFERSIZE) (fuel : Nat) (s : MIDL_STUB_MESSAGE) (p : Nat)
        (pp : Option PFORMAT_STRING),
      ComplexBufferSize tbl (fuel + 1) s p f pp =
        ComplexBufferSize tbl fuel s p (f.add 1) pp) ∧
    (∀ (tbl : Nat → Option NDR_FREE) (fuel : Nat) (s : MIDL_STUB_MESSAGE) (p : Nat)
        (pp : Option PFORMAT_STRING),
      ComplexFree tbl (fuel + 1) s p f pp = ComplexFree tbl fuel s p (f.add 1) pp) ∧
    (∀ (k : Nat), (∀ i : Nat, i < k → UnhandledOpcode (f.byte i)) →
        f.byte (k : Int) = RPC_FC_END →
      ∀ (tblM : Nat → Option NDR_MARSHALL) (tblU : Nat → Option NDR_UNMARSHALL)
        (tblB : Nat → Option NDR_BUFFERSIZE) (tblF : Nat → Option NDR_FREE)
        (fMustAlloc : Bool) (s : MIDL_STUB_MESSAGE) (p : Nat) (pp : Option PFORMAT_STRING)
        (fuel : Nat), k < fuel →
        ComplexMarshall tblM fuel s p f pp = .ok (s, p) ∧
        ComplexUnmarshall tblU fMustAlloc fuel s p f pp = .ok (s, p) ∧
        ComplexBufferSize tblB fuel s p f pp = .ok (s, p) ∧
        ComplexFree tblF fuel s p f pp = .ok (s, p)) ∧
    ∀ (s : MIDL_STUB_MESSAGE) (pMemory : Nat), NdrBaseTypeMarshall s pMemory g = .ok s := by
  refine ⟨fun tbl fuel s p pp => ComplexMarshall_skip tbl fuel s p f pp hop,
    fun tbl a fuel s p pp => ComplexUnmarshall_skip tbl a fuel s p f pp hop,
    fun tbl fuel s p pp => ComplexBufferSize_skip tbl fuel s p f pp hop,
    fun tbl fuel s p pp => ComplexFree_skip tbl fuel s p f pp hop, ?_, ?_⟩
  · intro k hrun hend tblM tblU tblB tblF a s p pp fuel hfuel
    exact Complex_unhandled_run tblM tblU tblB tblF a s p pp k f hrun hend fuel hfuel
  · intro s pMemory
    obtain ⟨h1, h2, h3, h4, h5, h6, h7, h8, h9, h10, h11, h12, h13, h14, h15⟩ := htag
    simp only [NdrBaseTypeMarshall, NdrBaseTypeMarshallTag, h1, h2, h3, h4, h5, h6, h7, h8, h9,
      h10, h11, h12, h13, h14, h15, or_self, if_false]

/-- The field stream `01 0b 77 5b` walked by the four walkers with the tables of the engine,
and `NdrBaseTypeMarshall` on the tag `0x77`: each returns the state and the memory cursor it
was given. -/
theorem unhandled_opcode_is_skipped_witness :
    (UnhandledOpcode (unknownFieldsFormat.byte 0) ∧ UnhandledBaseType (unknownTagFormat.byte 0) ∧
      (∀ i : Nat, i < 3 → UnhandledOpcode (unknownFieldsFormat.byte i)) ∧
      unknownFieldsFormat.byte 3 = RPC_FC_END) ∧
    ComplexMarshall (NdrMarshaller noExprEval 2) 4 longMsg 100 unknownFieldsFormat none =
      .ok (longMsg, 100) ∧
    ComplexUnmarshall (NdrUnmarshaller 2) false 4 longMsg 100 unknownFieldsFormat none =
      .ok (longMsg, 100) ∧
    ComplexBufferSize (NdrBufferSizer noExprEval 2) 4 longMsg 100 unknownFieldsFormat none =
      .ok (longMsg, 100) ∧
    ComplexFree (NdrFreer 2) 4 longMsg 100 unknownFieldsFormat none = .ok (longMsg, 100) ∧
    NdrBaseTypeMarshall longMsg 100 unknownTagFormat = .ok longMsg := by
  have h := unhandled_opcode_is_skipped unknownFieldsFormat unknownTagFormat (by decide)
    (by decide)
  obtain ⟨-, -, -, -, hrun, hbt⟩ := h
  obtain ⟨a, b, c, d⟩ := hrun 3 (by decide) (by decide) (NdrMarshaller noExprEval 2)
    (NdrUnmarshaller 2) (NdrBufferSizer noExprEval 2) (NdrFreer 2) false longMsg 100 none 4
    (by decide)
  exact ⟨⟨by decide, by decide, by decide, by decide⟩, a, b, c, d, hbt longMsg 100⟩

/-! ## Relative offsets in the format string -/

theorem toSHORT_of_lt (w : Nat) (hw : w < 65536) :
    toSHORT w = if w < 0x8000 then (w : Int) else (w : Int) - 0x10000 := by
  unfold toSHORT
  rw [Nat.mod_eq_of_lt hw]

theorem PFORMAT_STRING.SHORT_eq (f : PFORMAT_STRING) (k : Int) :
    f.SHORT k = if f.WORD k < 0x8000 then (f.WORD k : Int) else (f.WORD k : Int) - 0x10000 := by
  unfold PFORMAT_STRING.SHORT
  exact toSHORT_of_lt _ (PFORMAT_STRING.WORD_lt f k)

theorem PFORMAT_STRING.SHORT_ne_zero (f : PFORMAT_STRING) (k : Int) :
    f.SHORT k ≠ 0 ↔ f.WORD k ≠ 0 := by
  rw [PFORMAT_STRING.SHORT_eq]
  have := PFORMAT_STRING.WORD_lt f k
  split <;> omega

/-- C26: the 16-bit sub-description offsets.  With `w` the word of the offset field, taken
as signed the offset is `w` below `0x8000` and `w - 0x10000` from there on.  The pointer
operations (`pointerDesc`), the `RPC_FC_EMBEDDED_COMPLEX` case of the four walkers and
`NdrConformantStructMarshall` use the description at the position of the field plus the
signed offset.  The header of a complex structure is decoded as unsigned: the description is
at the position of the field plus `w`, which for `w` from `0x8000` on is `0x10000` bytes
after the description the signed offset selects. -/
theorem format_offset_decoding (pFormat : PFORMAT_STRING) :
    (pFormat.byte 1 &&& RPC_FC_P_SIMPLEPOINTER = 0 →
      pointerDesc pFormat =
        pFormat.add (2 + (if pFormat.WORD 2 < 0x8000 then (pFormat.WORD 2 : Int)
          else (pFormat.WORD 2 : Int) - 0x10000))) ∧
    (pFormat.byte 0 = RPC_FC_EMBEDDED_COMPLEX →
      ∀ desc : PFORMAT_STRING,
        desc = pFormat.add (2 + (if pFormat.WORD 2 < 0x8000 then (pFormat.WORD 2 : Int)
          else (pFormat.WORD 2 : Int) - 0x10000)) →
        (∀ (tbl : Nat → Option NDR_MARSHALL) (fuel : Nat) (s : MIDL_STUB_MESSAGE) (p : Nat)
            (pp : Option PFORMAT_STRING),
          ComplexMarshall tbl (fuel + 1) s p pFormat pp =
            match (match tbl (desc.byte 0 &&& NDR_TABLE_MASK) with
              | some m => m s (p + pFormat.byte 1) desc
              | none => .ok s) with
            | .error e => .error e
            | .ok s1 =>
              ComplexMarshall tbl fuel s1 (p + pFormat.byte 1 + EmbeddedComplexSize s desc)
                (pFormat.add 4) pp) ∧
        (∀ (tbl : Nat → Option NDR_BUFFERSIZE) (fuel : Nat) (s : MIDL_STUB_MESSAGE) (p : Nat)
            (pp : Option PFORMAT_STRING),
          ComplexBufferSize tbl (fuel + 1) s p pFormat pp =
            match (match tbl (desc.byte 0 &&& NDR_TABLE_MASK) with
              | some m => m s (p + pFormat.byte 1) desc
              | none => .ok s) with
            | .error e => .error e
            | .ok s1 =>
              ComplexBufferSize tbl fuel s1 (p + pFormat.byte 1 + EmbeddedComplexSize s desc)
                (pFormat.add 4) pp) ∧
        (∀ (tbl : Nat → Option NDR_FREE) (fuel : Nat) (s : MIDL_STUB_MESSAGE) (p : Nat)
            (pp : Option PFORMAT_STRING),
          ComplexFree tbl (fuel + 1) s p pFormat pp =
            match (match tbl (desc.byte 0 &&& NDR_TABLE_MASK) with
              | some m => m s (p + pFormat.byte 1) desc
              | none => .ok s) with
            | .error e => .error e
            | .ok s1 =>
              ComplexFree tbl fuel s1 (p + pFormat.byte 1 + EmbeddedComplexSize s desc)
                (pFormat.add 4) pp) ∧
        (∀ (tbl : Nat → Option NDR_UNMARSHALL) (fMustAlloc : Bool) (fuel : Nat)
            (s s0 : MIDL_STUB_MESSAGE) (p : Nat) (pp : Option PFORMAT_STRING),
          s0 = { s with
            mem := memset s.mem (p + pFormat.byte 1) 0 (EmbeddedComplexSize s desc) } →
          ComplexUnmarshall tbl fMustAlloc (fuel + 1) s p pFormat pp =
            match (match tbl (desc.byte 0 &&& NDR_TABLE_MASK) with
              | some m => m s0 (p + pFormat.byte 1) desc fMustAlloc
              | none => .ok (s0, p + pFormat.byte 1)) with
            | .error e => .error e
            | .ok (s1, q) =>
              ComplexUnmarshall tbl fMustAlloc fuel s1 (q + EmbeddedComplexSize s desc)
                (pFormat.add 4) pp)) ∧
    ((pFormat.byte 0 = RPC_FC_CPSTRUCT ∨ pFormat.byte 0 = RPC_FC_CSTRUCT) →
      pFormat.WORD 4 ≠ 0 →
      ∀ (tbl : Nat → Option NDR_MARSHALL) (StubDesc : MIDL_STUB_DESC) (fuel : Nat)
        (s : MIDL_STUB_MESSAGE) (pMemory : Nat),
        NdrConformantStructMarshall tbl StubDesc fuel s pMemory pFormat =
          match NdrConformantArrayMarshall tbl StubDesc fuel
              { s with
                wire := memcpy s.wire (ALIGNED_LENGTH s.Buffer (pFormat.byte 1 + 1)) s.mem
                  pMemory (pFormat.WORD 2)
                Buffer := ALIGNED_LENGTH s.Buffer (pFormat.byte 1 + 1) + pFormat.WORD 2 }
              (pMemory + pFormat.WORD 2)
              (pFormat.add (4 + (if pFormat.WORD 4 < 0x8000 then (pFormat.WORD 4 : Int)
                else (pFormat.WORD 4 : Int) - 0x10000))) with
          | .error e => .error e
          | .ok s2 =>
            if pFormat.byte 0 = RPC_FC_CPSTRUCT then
              EmbeddedPointerMarshall tbl fuel s2 pMemory (pFormat.add 6)
            else .ok s2) ∧
    complexStructHeader pFormat =
      (if pFormat.WORD 4 ≠ 0 then some (pFormat.add (4 + (pFormat.WORD 4 : Int))) else none,
        if pFormat.WORD 6 ≠ 0 then some (pFormat.add (6 + (pFormat.WORD 6 : Int))) else none) ∧
    (0x8000 ≤ pFormat.WORD 4 →
      (complexStructHeader pFormat).1 =
        some (pFormat.add (4 + ((pFormat.WORD 4 : Int) - 0x10000) + 0x10000))) ∧
    (0x8000 ≤ pFormat.WORD 6 →
      (complexStructHeader pFormat).2 =
        some (pFormat.add (6 + ((pFormat.WORD 6 : Int) - 0x10000) + 0x10000))) := by
  have hhdr : complexStructHeader pFormat =
      (if pFormat.WORD 4 ≠ 0 then some (pFormat.add (4 + (pFormat.WORD 4 : Int))) else none,
        if pFormat.WORD 6 ≠ 0 then some (pFormat.add (6 + (pFormat.WORD 6 : Int))) else none) := by
    simp only [complexStructHeader, PFORMAT_STRING.WORD_add, PFORMAT_STRING.add_add,
      Int.add_zero]
    norm_num
  refine ⟨?_, ?_, ?_, hhdr, ?_, ?_⟩
  · intro h
    simp only [pointerDesc, h, ne_eq, not_true_eq_false, if_false, PFORMAT_STRING.SHORT_add,
      PFORMAT_STRING.add_add, Int.add_zero, PFORMAT_STRING.SHORT_eq, PFORMAT_STRING.WORD_add]
  · intro h0 desc hdesc
    have hd : desc = (pFormat.add 2).add ((pFormat.add 2).SHORT 0) := by
      rw [hdesc]
      simp only [PFORMAT_STRING.SHORT_add, PFORMAT_STRING.add_add, Int.add_zero,
        PFORMAT_STRING.SHORT_eq, PFORMAT_STRING.WORD_add]
    have c1 : RPC_FC_EMBEDDED_COMPLEX ≠ RPC_FC_END := by decide
    have c2 : ¬ (RPC_FC_EMBEDDED_COMPLEX = RPC_FC_SHORT ∨ RPC_FC_EMBEDDED_COMPLEX = RPC_FC_USHORT) := by
      decide
    have c3 : ¬ (RPC_FC_EMBEDDED_COMPLEX = RPC_FC_LONG ∨ RPC_FC_EMBEDDED_COMPLEX = RPC_FC_ULONG
        ∨ RPC_FC_EMBEDDED_COMPLEX = RPC_FC_ENUM32) := by decide
    have c4 : RPC_FC_EMBEDDED_COMPLEX ≠ RPC_FC_POINTER := by decide
    have c5 : RPC_FC_EMBEDDED_COMPLEX ≠ RPC_FC_ALIGNM4 := by decide
    have c6 : RPC_FC_EMBEDDED_COMPLEX ≠ RPC_FC_ALIGNM8 := by decide
    have c7 : RPC_FC_EMBEDDED_COMPLEX ≠ RPC_FC_STRUCTPAD2 := by decide
    have e4 : (pFormat.add 2).add 2 = pFormat.add 4 := by
      rw [PFORMAT_STRING.add_add]; rfl
    refine ⟨?_, ?_, ?_, ?_⟩
    · intro tbl fuel s p pp
      simp only [ComplexMarshall, h0, c1, c2, c3, c4, c5, c6, c7, if_false, if_true, ← hd, e4]
    · intro tbl fuel s p pp
      simp only [ComplexBufferSize, h0, c1, c2, c3, c4, c5, c6, c7, if_false, if_true, ← hd, e4]
    · intro tbl fuel s p pp
      simp only [ComplexFree, h0, c1, c2, c3, c4, c5, c6, c7, if_false, if_true, ← hd, e4]
    · intro tbl a fuel s s0 p pp hs0
      subst hs0
      simp only [ComplexUnmarshall, h0, c1, c2, c3, c4, c5, c6, c7, if_false, if_true, ← hd, e4]
  · intro ht hw tbl StubDesc fuel s pMemory
    have hs : pFormat.SHORT 4 ≠ 0 := (PFORMAT_STRING.SHORT_ne_zero pFormat 4).2 hw
    have ht' : ¬ (pFormat.byte 0 ≠ RPC_FC_CPSTRUCT ∧ pFormat.byte 0 ≠ RPC_FC_CSTRUCT) := by
      rcases ht with h | h <;> simp [h]
    rw [PFORMAT_STRING.SHORT_eq] at hs
    simp only [NdrConformantStructMarshall, ht', if_false, ne_eq, not_false_eq_true,
      if_true, PFORMAT_STRING.add_add, PFORMAT_STRING.SHORT_eq, hs]
  · intro h
    rw [hhdr]
    have : pFormat.WORD 4 ≠ 0 := by omega
    simp only [this, ne_eq, not_false_eq_true, if_true]
    congr 2
    ring
  · intro h
    rw [hhdr]
    have : pFormat.WORD 6 ≠ 0 := by omega
    simp only [this, ne_eq, not_false_eq_true, if_true]
    congr 2
    ring

/-- The pointer description with the offset word `0xFFFC`: the referent description is 2
bytes before the pointer description (the field at byte 2, the offset -4).  The complex
structure header with the conformant-array word `0xFFF8`: the description used is 65532 bytes
after the start of the header, not 4 bytes before it (the field at byte 4, the offset -8). -/
theorem format_offset_decoding_witness :
    (negOffsetPointerFormat.WORD 2 = 0xFFFC ∧ negOffsetStructFormat.WORD 4 = 0xFFF8) ∧
    pointerDesc negOffsetPointerFormat = negOffsetPointerFormat.add (2 + -4) ∧
    (complexStructHeader negOffsetStructFormat).1 = some (negOffsetStructFormat.add 65532) ∧
    (complexStructHeader negOffsetStructFormat).1 ≠ some (negOffsetStructFormat.add (4 + -8)) := by
  have h1 := (format_offset_decoding negOffsetPointerFormat).1 (by decide)
  have h2 := (format_offset_decoding negOffsetStructFormat).2.2.2.2.1 (by decide)
  refine ⟨⟨by decide, by decide⟩, h1.trans rfl, h2.trans rfl, ?_⟩
  rw [h2]
  intro h
  have := congrArg (fun o => o.map PFORMAT_STRING.pos) h
  revert this
  decide

/-! ## The discriminant of a union on the two sides -/

theorem ComputeConformanceOrVariance_normal_count (StubDesc : MIDL_STUB_DESC)
    (s : MIDL_STUB_MESSAGE) (pMemory : Nat) (pFormat : PFORMAT_STRING) (dflt : Nat)
    (htype : pFormat.byte 0 &&& 0xf0 = RPC_FC_NORMAL_CONFORMANCE)
    (hop : pFormat.byte 1 = 0) :
    (ComputeConformanceOrVariance StubDesc s pMemory pFormat dflt).2.1 =
      some ((corrTypedLoad s.mem (pFormat.byte 0 &&& 0xf)
        (ptrAdd pMemory (pFormat.SHORT 2))).getD 0) := by
  have hp := IsConformanceOrVariancePresent_of_type pFormat (by rw [htype]; decide)
  have hcb : (0 : Nat) ≠ RPC_FC_CALLBACK := by decide
  have hdr : (0 : Nat) ≠ RPC_FC_DEREFERENCE := by decide
  simp only [ComputeConformanceOrVariance, ComputeConformanceOrVarianceCount, hp, htype,
    Bool.not_true, Bool.false_eq_true, if_false, if_true, corrResolve, hop, hcb, hdr,
    corrGrab]

/-- C30: a non-encapsulated union whose switch type `T` is also the type of its correlation
descriptor (normal conformance, no operator), with the discriminant stored at address `a` and
the same bytes in the receiving buffer at the cursor aligned for `T`.  The value `m` the
marshaller compares against the arm table is the one of `ComputeConformanceOrVariance`, the
value `u` the unmarshaller compares is the one of `unmarshall_discriminant`.  They are equal
for `USMALL`, `USHORT`, `LONG` and `ULONG`.  For `SMALL` and `SHORT` the unmarshaller
zero-extends what the marshaller sign-extends: they are equal exactly when the discriminant is
not negative, and differ in the upper bits otherwise. -/
theorem union_discriminant_both_sides
    (StubDesc : MIDL_STUB_DESC) (s r : MIDL_STUB_MESSAGE) (pMemory a T m u : Nat)
    (pFormat : PFORMAT_STRING)
    (hswitch : pFormat.byte 1 = T)
    (hnormal : pFormat.byte 2 &&& 0xf0 = RPC_FC_NORMAL_CONFORMANCE)
    (hdtype : pFormat.byte 2 &&& 0xf = T)
    (hop : pFormat.byte 3 = 0)
    (ha : a = get_conformance_address s pMemory (pFormat.add 2))
    (hm : (ComputeConformanceOrVariance StubDesc s pMemory (pFormat.add 2) 0).2.1 = some m)
    (hu : u = (unmarshall_discriminant r (pFormat.add 1)).1)
    (h8 : T = RPC_FC_SMALL ∨ T = RPC_FC_USMALL → load8 r.wire r.Buffer = load8 s.mem a)
    (h16 : T = RPC_FC_SHORT ∨ T = RPC_FC_USHORT →
      load16 r.wire (ALIGNED_LENGTH r.Buffer 2) = load16 s.mem a)
    (h32 : T = RPC_FC_LONG ∨ T = RPC_FC_ULONG →
      load32 r.wire (ALIGNED_LENGTH r.Buffer 4) = load32 s.mem a) :
    (T = RPC_FC_USMALL ∨ T = RPC_FC_USHORT ∨ T = RPC_FC_LONG ∨ T = RPC_FC_ULONG → m = u) ∧
    (T = RPC_FC_SMALL →
      u = load8 s.mem a ∧ m = (if u < 0x80 then u else 0xFFFFFF00 + u) ∧ (m = u ↔ u < 0x80)) ∧
    (T = RPC_FC_SHORT →
      u = load16 s.mem a ∧ m = (if u < 0x8000 then u else 0xFFFF0000 + u) ∧
        (m = u ↔ u < 0x8000)) := by
  have hb0 : (pFormat.add 2).byte 0 = pFormat.byte 2 := by
    rw [PFORMAT_STRING.byte_add]; rfl
  have hb1 : (pFormat.add 2).byte 1 = pFormat.byte 3 := by
    rw [PFORMAT_STRING.byte_add]; rfl
  have hb1' : (pFormat.add 1).byte 0 = pFormat.byte 1 := by
    rw [PFORMAT_STRING.byte_add]; rfl
  have hcount := ComputeConformanceOrVariance_normal_count StubDesc s pMemory (pFormat.add 2) 0
    (by rw [hb0]; exact hnormal) (by rw [hb1]; exact hop)
  have haddr : a = ptrAdd pMemory ((pFormat.add 2).SHORT 2) := by
    rw [ha]
    simp only [get_conformance_address, hb0, hnormal, hb1, hop, if_true, ne_eq,
      not_true_eq_false, if_false]
  rw [hcount, hb0, hdtype, ← haddr] at hm
  have hm' := Option.some.inj hm
  have l8 := load8_lt s.mem a
  have l16 := load16_lt s.mem a
  refine ⟨?_, ?_, ?_⟩
  · rintro (h | h | h | h)
    · have e := h8 (Or.inr h)
      subst h
      rw [← hm', hu]
      simp [corrTypedLoad, unmarshall_discriminant, hb1', hswitch, RPC_FC_LONG, RPC_FC_ULONG, RPC_FC_SHORT,
        RPC_FC_USHORT, RPC_FC_SMALL, RPC_FC_USMALL, RPC_FC_BYTE, RPC_FC_CHAR, e]
    · have e := h16 (Or.inr h)
      subst h
      rw [← hm', hu]
      simp [corrTypedLoad, unmarshall_discriminant, hb1', hswitch, RPC_FC_LONG, RPC_FC_ULONG, RPC_FC_SHORT,
        RPC_FC_USHORT, RPC_FC_SMALL, RPC_FC_USMALL, RPC_FC_BYTE, RPC_FC_CHAR, RPC_FC_WCHAR, e]
    · have e := h32 (Or.inl h)
      subst h
      rw [← hm', hu]
      simp [corrTypedLoad, unmarshall_discriminant, hb1', hswitch, RPC_FC_LONG, RPC_FC_ULONG, RPC_FC_SHORT,
        RPC_FC_USHORT, RPC_FC_SMALL, RPC_FC_USMALL, RPC_FC_BYTE, RPC_FC_CHAR, RPC_FC_WCHAR, e]
    · have e := h32 (Or.inr h)
      subst h
      rw [← hm', hu]
      simp [corrTypedLoad, unmarshall_discriminant, hb1', hswitch, RPC_FC_LONG, RPC_FC_ULONG, RPC_FC_SHORT,
        RPC_FC_USHORT, RPC_FC_SMALL, RPC_FC_USMALL, RPC_FC_BYTE, RPC_FC_CHAR, RPC_FC_WCHAR, e]
  · intro h
    have e := h8 (Or.inl h)
    subst h
    have hu' : u = load8 s.mem a := by
      rw [hu]
      simp [unmarshall_discriminant, hb1', hswitch, RPC_FC_SMALL, RPC_FC_BYTE, RPC_FC_CHAR, e]
    have hmv : m = if u < 0x80 then u else 0xFFFFFF00 + u := by
      rw [← hm', hu']
      simp [corrTypedLoad, RPC_FC_LONG, RPC_FC_ULONG, RPC_FC_SHORT, RPC_FC_USHORT, RPC_FC_SMALL,
        toDWORD_toCHAR _ l8]
    refine ⟨hu', hmv, ?_⟩
    rw [hmv]
    split <;> omega
  · intro h
    have e := h16 (Or.inl h)
    subst h
    have hu' : u = load16 s.mem a := by
      rw [hu]
      simp [unmarshall_discriminant, hb1', hswitch, RPC_FC_SMALL, RPC_FC_BYTE, RPC_FC_CHAR, RPC_FC_USMALL,
        RPC_FC_SHORT, RPC_FC_WCHAR, e]
    have hmv : m = if u < 0x8000 then u else 0xFFFF0000 + u := by
      rw [← hm', hu']
      simp [corrTypedLoad, RPC_FC_LONG, RPC_FC_ULONG, RPC_FC_SHORT,
        toDWORD_toSHORT _ l16]
    refine ⟨hu', hmv, ?_⟩
    rw [hmv]
    split <;> omega

/-- The union switched on a `SHORT` with the discriminant -1 and the single arm -1.  The
marshaller compares `0xFFFFFFFF`, finds the arm and writes the arm value after the
discriminant, 8 bytes in all.  The unmarshaller compares `0x0000FFFF`, finds no arm and
returns after the 2 bytes of the discriminant. -/
theorem union_discriminant_both_sides_witness :
    (shortUnionFormat.byte 1 = RPC_FC_SHORT ∧
      shortUnionFormat.byte 2 &&& 0xf0 = RPC_FC_NORMAL_CONFORMANCE ∧
      shortUnionFormat.byte 2 &&& 0xf = RPC_FC_SHORT ∧ shortUnionFormat.byte 3 = 0 ∧
      get_conformance_address shortUnionMsg 100 (shortUnionFormat.add 2) = 96 ∧
      load16 shortUnionReceiver.wire (ALIGNED_LENGTH shortUnionReceiver.Buffer 2) =
        load16 shortUnionMsg.mem 96) ∧
    ((ComputeConformanceOrVariance noExprEval shortUnionMsg 100 (shortUnionFormat.add 2) 0).2.1
        = some 0xFFFFFFFF ∧
      (unmarshall_discriminant shortUnionReceiver (shortUnionFormat.add 1)).1 = 0xFFFF) ∧
    (∃ s1, NdrNonEncapsulatedUnionMarshall (NdrMarshaller noExprEval 2) noExprEval
        shortUnionMsg 100 shortUnionFormat = .ok s1 ∧ s1.Buffer = 8 + 8 ∧
      cells s1.wire 8 8 = cells shortUnionReceiver.wire 8 8) ∧
    ∃ r1, NdrNonEncapsulatedUnionUnmarshall (NdrUnmarshaller 2) shortUnionReceiver 0
        shortUnionFormat false = .ok (r1, 0) ∧ r1.Buffer = 8 + 2 := by
  have hm : (ComputeConformanceOrVariance noExprEval shortUnionMsg 100
      (shortUnionFormat.add 2) 0).2.1 = some 0xFFFFFFFF := by decide
  have h := union_discriminant_both_sides noExprEval shortUnionMsg shortUnionReceiver 100 96
    RPC_FC_SHORT 0xFFFFFFFF
    (unmarshall_discriminant shortUnionReceiver (shortUnionFormat.add 1)).1 shortUnionFormat
    (by decide) (by decide) (by decide) (by decide) (by decide) hm rfl
    (fun h => absurd h (by decide)) (fun _ => by decide) (fun h => absurd h (by decide))
  obtain ⟨hu, -, -⟩ := h.2.2 rfl
  refine ⟨⟨by decide, by decide, by decide, by decide, by decide, by decide⟩,
    ⟨hm, hu.trans (by decide)⟩, ?_, ?_⟩
  · obtain ⟨a, ha, hb⟩ := Except_ok_of_toOption_map
      (NdrNonEncapsulatedUnionMarshall (NdrMarshaller noExprEval 2) noExprEval shortUnionMsg
        100 shortUnionFormat)
      (fun x => (x.Buffer, cells x.wire 8 8)) (8 + 8, cells shortUnionReceiver.wire 8 8)
      (by decide)
    exact ⟨a, ha, congrArg Prod.fst hb, congrArg Prod.snd hb⟩
  · obtain ⟨a, ha, hb⟩ := Except_ok_of_toOption_map
      (NdrNonEncapsulatedUnionUnmarshall (NdrUnmarshaller 2) shortUnionReceiver 0
        shortUnionFormat false)
      (fun x => (x.1.Buffer, x.2)) (8 + 2, 0) (by decide)
    obtain ⟨r1, q⟩ := a
    have hq : q = 0 := congrArg Prod.snd hb
    subst hq
    exact ⟨r1, ha, congrArg Prod.fst hb⟩

/-! ## Conformant structures -/

theorem NDR_LOCAL_UINT32_READ_lt (be : Bool) (w : MEMORY) (a : Nat) :
    NDR_LOCAL_UINT32_READ be w a < 4294967296 := by
  have h0 := load8_lt w a
  have h1 := load8_lt w (a + 1)
  have h2 := load8_lt w (a + 2)
  have h3 := load8_lt w (a + 3)
  cases be <;>
    simp only [NDR_LOCAL_UINT32_READ, LITTLE_ENDIAN_UINT32_READ, BIG_ENDIAN_UINT32_READ,
      Bool.false_eq_true, if_false, if_true] <;> omega

/-- C23: `NdrConformantStructUnmarshall` on a conformant structure with an array
description, when it has to allocate.  With `b` the cursor aligned for the structure, `n` the
conformance word after the fixed body of `memory_size` bytes and `esize` the element size of
the array, it makes one allocator call, of `memory_size + n * esize` bytes, then copies the
fixed body from `b` (the pre-scan for `n` has left the cursor there) and the array from behind
the conformance word.  For `RPC_FC_CPSTRUCT` the embedded-pointer pass follows, in that
state. -/
theorem NdrConformantStructUnmarshall_single_allocation
    (tbl : Nat → Option NDR_UNMARSHALL) (fuel : Nat) (s : MIDL_STUB_MESSAGE)
    (ppMemory : Nat) (pFormat arr : PFORMAT_STRING) (fMustAlloc : Bool) (b b1 n p : Nat)
    (htype : pFormat.byte 0 = RPC_FC_CSTRUCT ∨ pFormat.byte 0 = RPC_FC_CPSTRUCT)
    (hoff : pFormat.WORD 4 ≠ 0)
    (halloc : ppMemory = 0 ∨ fMustAlloc = true)
    (harr : arr = (pFormat.add 4).add (pFormat.SHORT 4))
    (hnopp : ((arr.add 4).add (corrDescStep s)).byte 0 ≠ RPC_FC_PP)
    (hb : b = ALIGNED_LENGTH s.Buffer (pFormat.byte 1 + 1))
    (hn : n = NDR_LOCAL_UINT32_READ s.NDR_LOCAL_IS_BIG_ENDIAN s.wire
      (ALIGNED_LENGTH (b + pFormat.WORD 2) 4))
    (hb1 : b1 = ALIGNED_LENGTH (ALIGNED_LENGTH (b + pFormat.WORD 2) 4 + 4)
      ((arr.byte 1 + 1) % 256))
    (hfit : pFormat.WORD 2 + n * arr.WORD 2 < 4294967296)
    (hp : p = s.pfnAllocate s.allocated (pFormat.WORD 2 + n * arr.WORD 2))
    (hnonnull : p + pFormat.WORD 2 ≠ 0) :
    ∃ s3,
      NdrConformantStructUnmarshall tbl fuel s ppMemory pFormat fMustAlloc =
        (if pFormat.byte 0 = RPC_FC_CPSTRUCT then
          match EmbeddedPointerUnmarshall tbl fuel s3 p (pFormat.add 6) fMustAlloc with
          | .error e => .error e
          | .ok s4 => .ok (s4, p)
        else .ok (s3, p)) ∧
      s3.allocated = (pFormat.WORD 2 + n * arr.WORD 2) :: s.allocated ∧
      s3.MaxCount = n ∧
      (∀ i, i < pFormat.WORD 2 → s3.mem (p + i) = s.wire (b + i)) ∧
      (∀ i, i < n * arr.WORD 2 → s3.mem (p + pFormat.WORD 2 + i) = s.wire (b1 + i)) ∧
      s3.Buffer = b1 + n * arr.WORD 2 ∧ s3.wire = s.wire := by
  have hnlt : n < 4294967296 := by rw [hn]; exact NDR_LOCAL_UINT32_READ_lt _ _ _
  have hs : pFormat.SHORT 4 ≠ 0 := (PFORMAT_STRING.SHORT_ne_zero pFormat 4).2 hoff
  have ht' : ¬ (pFormat.byte 0 ≠ RPC_FC_CPSTRUCT ∧ pFormat.byte 0 ≠ RPC_FC_CSTRUCT) := by
    rcases htype with h | h <;> simp [h]
  have hmul : n * arr.WORD 2 < 4294967296 := by omega
  refine ⟨{ s with
      Buffer := b1 + n * arr.WORD 2
      BufferMark := b1
      MaxCount := n
      allocated := (pFormat.WORD 2 + n * arr.WORD 2) :: s.allocated
      mem := memcpy (memcpy s.mem p s.wire b (pFormat.WORD 2)) (p + pFormat.WORD 2) s.wire b1
        (n * arr.WORD 2) }, ?_, rfl, rfl, ?_, ?_, rfl, rfl⟩
  · have hnopp' := hnopp
    simp only [corrDescStep] at hnopp'
    simp only [NdrConformantStructUnmarshall, ht', if_false, halloc, if_true, hs, ne_eq,
      not_false_eq_true, NdrConformantArrayMemorySize, ReadConformance, ← harr, ← hb, ← hn,
      Nat.mod_eq_of_lt hnlt, Nat.mod_eq_of_lt hmul, Nat.mod_eq_of_lt hfit, NdrAllocate, ← hp,
      NdrConformantArrayUnmarshall, Bool.false_eq_true, false_or, hnonnull, ← hb1,
      Option.map_some', EmbeddedPointerUnmarshall, corrDescStep, hnopp']
  · intro i hi
    show memcpy (memcpy s.mem p s.wire b (pFormat.WORD 2)) (p + pFormat.WORD 2) s.wire b1
      (n * arr.WORD 2) (p + i) = s.wire (b + i)
    rw [memcpy_out _ _ _ _ _ _ (Or.inl (by omega)), memcpy_in _ _ _ _ _ _ hi]
  · intro i hi
    show memcpy (memcpy s.mem p s.wire b (pFormat.WORD 2)) (p + pFormat.WORD 2) s.wire b1
      (n * arr.WORD 2) (p + pFormat.WORD 2 + i) = s.wire (b1 + i)
    rw [memcpy_in _ _ _ _ _ _ hi]

/-- The structure `{ n = 3; a = {1, 2, 3} }` unmarshalled from buffer offset 5 into fresh
memory: one allocation of 4 + 3 * 2 = 10 bytes, the fixed body copied from offset 8 and the
array from offset 16. -/
theorem NdrConformantStructUnmarshall_single_allocation_witness :
    (cstructFormat.byte 0 = RPC_FC_CSTRUCT ∧ cstructFormat.WORD 4 ≠ 0 ∧
      ((((cstructFormat.add 4).add (cstructFormat.SHORT 4)).add 4).add
        (corrDescStep cstructMsg)).byte 0 ≠ RPC_FC_PP ∧
      ALIGNED_LENGTH cstructMsg.Buffer (cstructFormat.byte 1 + 1) = 8 ∧
      NDR_LOCAL_UINT32_READ cstructMsg.NDR_LOCAL_IS_BIG_ENDIAN cstructMsg.wire
        (ALIGNED_LENGTH (8 + cstructFormat.WORD 2) 4) = 3 ∧
      cstructFormat.WORD 2 + 3 * (cstructFormat.add 8).WORD 2 = 10) ∧
    ∃ r1, NdrConformantStructUnmarshall (NdrUnmarshaller 2) 2 cstructMsg 0 cstructFormat false
        = .ok (r1, 4096) ∧
      r1.allocated = [10] ∧ r1.Buffer = 16 + 6 ∧
      cells r1.mem 4096 10 = [3, 0, 0, 0, 1, 0, 2, 0, 3, 0] := by
  obtain ⟨s3, h, hal, -, -, -, hB, -⟩ := NdrConformantStructUnmarshall_single_allocation
    (NdrUnmarshaller 2) 2 cstructMsg 0 cstructFormat (cstructFormat.add 8) false 8 16 3 4096
    (Or.inl (by decide)) (by decide) (Or.inl rfl) rfl (by decide) (by decide) (by decide)
    (by decide) (by decide) (by decide) (by decide)
  rw [if_neg (by decide)] at h
  obtain ⟨a, ha, hc⟩ := Except_ok_of_toOption_map
    (NdrConformantStructUnmarshall (NdrUnmarshaller 2) 2 cstructMsg 0 cstructFormat false)
    (fun x => cells x.1.mem 4096 10) [3, 0, 0, 0, 1, 0, 2, 0, 3, 0] (by decide)
  rw [h] at ha
  cases ha
  exact ⟨⟨by decide, by decide, by decide, by decide, by decide, by decide⟩,
    s3, h, hal, hB, hc⟩

/-! ## The dry run for the element size of a complex array -/

theorem FieldLayout_tail (f : PFORMAT_STRING) (k : Nat) (h : FieldLayout f (k + 1)) :
    FieldLayout (f.add 1) k := by
  obtain ⟨h1, h2⟩ := h
  refine ⟨fun i hi => ?_, ?_⟩
  · have := h1 (i + 1) (by omega)
    simp only [PFORMAT_STRING.byte_add]
    have e : (1 : Int) + (i : Int) = ((i + 1 : Nat) : Int) := by push_cast; ring
    rw [e]; exact this
  · simp only [PFORMAT_STRING.byte_add]
    have e : (1 : Int) + (k : Int) = ((k + 1 : Nat) : Int) := by push_cast; ring
    rw [e]; exact h2

theorem no_pointer_tail (f : PFORMAT_STRING) (k : Nat)
    (h : ∀ i : Nat, i < k + 1 → f.byte i ≠ RPC_FC_POINTER) :
    ∀ i : Nat, i < k → (f.add 1).byte i ≠ RPC_FC_POINTER := by
  intro i hi
  have := h (i + 1) (by omega)
  simp only [PFORMAT_STRING.byte_add]
  have e : (1 : Int) + (i : Int) = ((i + 1 : Nat) : Int) := by push_cast; ring
  rw [e]; exact this

theorem Complex_field_walk (tblS : Nat → Option NDR_MEMORYSIZE)
    (tblU : Nat → Option NDR_UNMARSHALL) (fMustAlloc : Bool) :
    ∀ (k : Nat) (f : PFORMAT_STRING), FieldLayout f k →
      ∀ (fuel : Nat) (s : MIDL_STUB_MESSAGE) (size : Nat), k < fuel →
        ∃ (m : MIDL_STUB_MESSAGE) (dry : Nat),
          ComplexStructMemorySizeLoop tblS fuel s f size = .ok (m, dry) ∧
          (∀ x, { m with Buffer := x } = { s with Buffer := x }) ∧
          (∀ (r : MIDL_STUB_MESSAGE) (p : Nat) (pp : Option PFORMAT_STRING)
              (r1 : MIDL_STUB_MESSAGE) (p1 : Nat),
            ComplexUnmarshall tblU fMustAlloc fuel r p f pp = .ok (r1, p1) →
              p1 + size = p + dry + 4 * countOpcode RPC_FC_ENUM32 f k) ∧
          ((∀ i : Nat, i < k → f.byte i ≠ RPC_FC_POINTER) →
            ∀ (r : MIDL_STUB_MESSAGE) (p : Nat) (pp : Option PFORMAT_STRING),
              ∃ r1 p1, ComplexUnmarshall tblU fMustAlloc fuel r p f pp = .ok (r1, p1)) := by
  intro k
  induction k with
  | zero =>
    intro f hf fuel s size hfuel
    have h0 : f.byte 0 = RPC_FC_END := by simpa using hf.2
    obtain ⟨fuel, rfl⟩ : ∃ n, fuel = n + 1 := ⟨fuel - 1, by omega⟩
    refine ⟨s, size, by simp only [ComplexStructMemorySizeLoop, h0, if_true], fun _ => rfl,
      ?_, ?_⟩
    · intro r p pp r1 p1 h
      simp only [ComplexUnmarshall, h0, if_true] at h
      cases h
      simp [countOpcode]
    · intro _ r p pp
      exact ⟨r, p, by simp only [ComplexUnmarshall, h0, if_true]⟩
  | succ k ih =>
    intro f hf fuel s size hfuel
    have hhead := hf.1 0 (by omega)
    simp only [Nat.cast_zero] at hhead
    have ih1 := ih (f.add 1) (FieldLayout_tail f k hf)
    obtain ⟨fuel, rfl⟩ : ∃ n, fuel = n + 1 := ⟨fuel - 1, by omega⟩
    rcases hhead with h | h | h | h | h | h | h | h
    · obtain ⟨m, dry, e, hm, hU, hN⟩ := ih1 fuel { s with Buffer := s.Buffer + 2 } (size + 2) (by omega)
      refine ⟨m, dry, ?_, ?_, ?_, ?_⟩
      · simp only [ComplexStructMemorySizeLoop, h]
        simp [RPC_FC_END, RPC_FC_SHORT, RPC_FC_USHORT, RPC_FC_LONG, RPC_FC_ULONG, RPC_FC_ENUM32, RPC_FC_POINTER, RPC_FC_ALIGNM4, RPC_FC_ALIGNM8, RPC_FC_STRUCTPAD2, RPC_FC_EMBEDDED_COMPLEX, RPC_FC_PAD]
        exact e
      · intro x
        rw [hm x]
      · intro r p pp r1 p1 hr
        simp only [ComplexUnmarshall, h] at hr
        simp [RPC_FC_END, RPC_FC_SHORT, RPC_FC_USHORT, RPC_FC_LONG, RPC_FC_ULONG, RPC_FC_ENUM32, RPC_FC_POINTER, RPC_FC_ALIGNM4, RPC_FC_ALIGNM8, RPC_FC_STRUCTPAD2, RPC_FC_EMBEDDED_COMPLEX, RPC_FC_PAD] at hr
        have := hU _ _ _ _ _ hr
        have hc : countOpcode RPC_FC_ENUM32 f (k + 1) =
            (if f.byte 0 = RPC_FC_ENUM32 then 1 else 0) +
              countOpcode RPC_FC_ENUM32 (f.add 1) k := rfl
        rw [hc, h]
        rw [if_neg (by decide)]
        omega
      · intro hnp r p pp
        simp only [ComplexUnmarshall, h]
        simp [RPC_FC_END, RPC_FC_SHORT, RPC_FC_USHORT, RPC_FC_LONG, RPC_FC_ULONG, RPC_FC_ENUM32, RPC_FC_POINTER, RPC_FC_ALIGNM4, RPC_FC_ALIGNM8, RPC_FC_STRUCTPAD2, RPC_FC_EMBEDDED_COMPLEX, RPC_FC_PAD]
        exact hN (no_pointer_tail f k hnp) _ _ _
    · obtain ⟨m, dry, e, hm, hU, hN⟩ := ih1 fuel { s with Buffer := s.Buffer + 2 } (size + 2) (by omega)
      refine ⟨m, dry, ?_, ?_, ?_, ?_⟩
      · simp only [ComplexStructMemorySizeLoop, h]
        simp [RPC_FC_END, RPC_FC_SHORT, RPC_FC_USHORT, RPC_FC_LONG, RPC_FC_ULONG, RPC_FC_ENUM32, RPC_FC_POINTER, RPC_FC_ALIGNM4, RPC_FC_ALIGNM8, RPC_FC_STRUCTPAD2, RPC_FC_EMBEDDED_COMPLEX, RPC_FC_PAD]
        exact e
      · intro x
        rw [hm x]
      · intro r p pp r1 p1 hr
        simp only [ComplexUnmarshall, h] at hr
        simp [RPC_FC_END, RPC_FC_SHORT, RPC_FC_USHORT, RPC_FC_LONG, RPC_FC_ULONG, RPC_FC_ENUM32, RPC_FC_POINTER, RPC_FC_ALIGNM4, RPC_FC_ALIGNM8, RPC_FC_STRUCTPAD2, RPC_FC_EMBEDDED_COMPLEX, RPC_FC_PAD] at hr
        have := hU _ _ _ _ _ hr
        have hc : countOpcode RPC_FC_ENUM32 f (k + 1) =
            (if f.byte 0 = RPC_FC_ENUM32 then 1 else 0) +
              countOpcode RPC_FC_ENUM32 (f.add 1) k := rfl
        rw [hc, h]
        rw [if_neg (by decide)]
        omega
      · intro hnp r p pp
        simp only [ComplexUnmarshall, h]
        simp [RPC_FC_END, RPC_FC_SHORT, RPC_FC_USHORT, RPC_FC_LONG, RPC_FC_ULONG, RPC_FC_ENUM32, RPC_FC_POINTER, RPC_FC_ALIGNM4, RPC_FC_ALIGNM8, RPC_FC_STRUCTPAD2, RPC_FC_EMBEDDED_COMPLEX, RPC_FC_PAD]
        exact hN (no_pointer_tail f k hnp) _ _ _
    · obtain ⟨m, dry, e, hm, hU, hN⟩ := ih1 fuel { s with Buffer := s.Buffer + 4 } (size + 4) (by omega)
      refine ⟨m, dry, ?_, ?_, ?_, ?_⟩
      · simp only [ComplexStructMemorySizeLoop, h]
        simp [RPC_FC_END, RPC_FC_SHORT, RPC_FC_USHORT, RPC_FC_LONG, RPC_FC_ULONG, RPC_FC_ENUM32, RPC_FC_POINTER, RPC_FC_ALIGNM4, RPC_FC_ALIGNM8, RPC_FC_STRUCTPAD2, RPC_FC_EMBEDDED_COMPLEX, RPC_FC_PAD]
        exact e
      · intro x
        rw [hm x]
      · intro r p pp r1 p1 hr
        simp only [ComplexUnmarshall, h] at hr
        simp [RPC_FC_END, RPC_FC_SHORT, RPC_FC_USHORT, RPC_FC_LONG, RPC_FC_ULONG, RPC_FC_ENUM32, RPC_FC_POINTER, RPC_FC_ALIGNM4, RPC_FC_ALIGNM8, RPC_FC_STRUCTPAD2, RPC_FC_EMBEDDED_COMPLEX, RPC_FC_PAD] at hr
        have := hU _ _ _ _ _ hr
        have hc : countOpcode RPC_FC_ENUM32 f (k + 1) =
            (if f.byte 0 = RPC_FC_ENUM32 then 1 else 0) +
              countOpcode RPC_FC_ENUM32 (f.add 1) k := rfl
        rw [hc, h]
        rw [if_neg (by decide)]
        omega
      · intro hnp r p pp
        simp only [ComplexUnmarshall, h]
        simp [RPC_FC_END, RPC_FC_SHORT, RPC_FC_USHORT, RPC_FC_LONG, RPC_FC_ULONG, RPC_FC_ENUM32, RPC_FC_POINTER, RPC_FC_ALIGNM4, RPC_FC_ALIGNM8, RPC_FC_STRUCTPAD2, RPC_FC_EMBEDDED_COMPLEX, RPC_FC_PAD]
        exact hN (no_pointer_tail f k hnp) _ _ _
    · obtain ⟨m, dry, e, hm, hU, hN⟩ := ih1 fuel { s with Buffer := s.Buffer + 4 } (size + 4) (by omega)
      refine ⟨m, dry, ?_, ?_, ?_, ?_⟩
      · simp only [ComplexStructMemorySizeLoop, h]
        simp [RPC_FC_END, RPC_FC_SHORT, RPC_FC_USHORT, RPC_FC_LONG, RPC_FC_ULONG, RPC_FC_ENUM32, RPC_FC_POINTER, RPC_FC_ALIGNM4, RPC_FC_ALIGNM8, RPC_FC_STRUCTPAD2, RPC_FC_EMBEDDED_COMPLEX, RPC_FC_PAD]
        exact e
      · intro x
        rw [hm x]
      · intro r p pp r1 p1 hr
        simp only [ComplexUnmarshall, h] at hr
        simp [RPC_FC_END, RPC_FC_SHORT, RPC_FC_USHORT, RPC_FC_LONG, RPC_FC_ULONG, RPC_FC_ENUM32, RPC_FC_POINTER, RPC_FC_ALIGNM4, RPC_FC_ALIGNM8, RPC_FC_STRUCTPAD2, RPC_FC_EMBEDDED_COMPLEX, RPC_FC_PAD] at hr
        have := hU _ _ _ _ _ hr
        have hc : countOpcode RPC_FC_ENUM32 f (k + 1) =
            (if f.byte 0 = RPC_FC_ENUM32 then 1 else 0) +
              countOpcode RPC_FC_ENUM32 (f.add 1) k := rfl
        rw [hc, h]
        rw [if_neg (by decide)]
        omega
      · intro hnp r p pp
        simp only [ComplexUnmarshall, h]
        simp [RPC_FC_END, RPC_FC_SHORT, RPC_FC_USHORT, RPC_FC_LONG, RPC_FC_ULONG, RPC_FC_ENUM32, RPC_FC_POINTER, RPC_FC_ALIGNM4, RPC_FC_ALIGNM8, RPC_FC_STRUCTPAD2, RPC_FC_EMBEDDED_COMPLEX, RPC_FC_PAD]
        exact hN (no_pointer_tail f k hnp) _ _ _
    · obtain ⟨m, dry, e, hm, hU, hN⟩ := ih1 fuel s size (by omega)
      refine ⟨m, dry, ?_, ?_, ?_, ?_⟩
      · simp only [ComplexStructMemorySizeLoop, h]
        simp [RPC_FC_END, RPC_FC_SHORT, RPC_FC_USHORT, RPC_FC_LONG, RPC_FC_ULONG, RPC_FC_ENUM32, RPC_FC_POINTER, RPC_FC_ALIGNM4, RPC_FC_ALIGNM8, RPC_FC_STRUCTPAD2, RPC_FC_EMBEDDED_COMPLEX, RPC_FC_PAD]
        exact e
      · intro x
        rw [hm x]
      · intro r p pp r1 p1 hr
        simp only [ComplexUnmarshall, h] at hr
        simp [RPC_FC_END, RPC_FC_SHORT, RPC_FC_USHORT, RPC_FC_LONG, RPC_FC_ULONG, RPC_FC_ENUM32, RPC_FC_POINTER, RPC_FC_ALIGNM4, RPC_FC_ALIGNM8, RPC_FC_STRUCTPAD2, RPC_FC_EMBEDDED_COMPLEX, RPC_FC_PAD] at hr
        have := hU _ _ _ _ _ hr
        have hc : countOpcode RPC_FC_ENUM32 f (k + 1) =
            (if f.byte 0 = RPC_FC_ENUM32 then 1 else 0) +
              countOpcode RPC_FC_ENUM32 (f.add 1) k := rfl
        rw [hc, h]
        rw [if_pos rfl]
        omega
      · intro hnp r p pp
        simp only [ComplexUnmarshall, h]
        simp [RPC_FC_END, RPC_FC_SHORT, RPC_FC_USHORT, RPC_FC_LONG, RPC_FC_ULONG, RPC_FC_ENUM32, RPC_FC_POINTER, RPC_FC_ALIGNM4, RPC_FC_ALIGNM8, RPC_FC_STRUCTPAD2, RPC_FC_EMBEDDED_COMPLEX, RPC_FC_PAD]
        exact hN (no_pointer_tail f k hnp) _ _ _
    · obtain ⟨m, dry, e, hm, hU, hN⟩ := ih1 fuel { s with Buffer := s.Buffer + 4 } (size + 4)
        (by omega)
      refine ⟨m, dry, ?_, ?_, ?_, ?_⟩
      · simp only [ComplexStructMemorySizeLoop, h]
        simp [RPC_FC_END, RPC_FC_SHORT, RPC_FC_USHORT, RPC_FC_LONG, RPC_FC_ULONG, RPC_FC_ENUM32, RPC_FC_POINTER, RPC_FC_ALIGNM4, RPC_FC_ALIGNM8, RPC_FC_STRUCTPAD2, RPC_FC_EMBEDDED_COMPLEX, RPC_FC_PAD]
        exact e
      · intro x
        rw [hm x]
      · intro r p pp r1 p1 hr
        simp only [ComplexUnmarshall, h] at hr
        simp [RPC_FC_END, RPC_FC_SHORT, RPC_FC_USHORT, RPC_FC_LONG, RPC_FC_ULONG, RPC_FC_ENUM32, RPC_FC_POINTER, RPC_FC_ALIGNM4, RPC_FC_ALIGNM8, RPC_FC_STRUCTPAD2, RPC_FC_EMBEDDED_COMPLEX, RPC_FC_PAD] at hr
        cases pp with
        | none => simp at hr
        | some q =>
          simp only [] at hr
          split at hr
          · cases hr
          · have := hU _ _ _ _ _ hr
            have hc : countOpcode RPC_FC_ENUM32 f (k + 1) =
                (if f.byte 0 = RPC_FC_ENUM32 then 1 else 0) +
                  countOpcode RPC_FC_ENUM32 (f.add 1) k := rfl
            rw [hc, h]
            rw [if_neg (by decide)]
            omega
      · intro hnp
        exact absurd h (hnp 0 (by omega))
    · obtain ⟨m, dry, e, hm, hU, hN⟩ := ih1 fuel { s with Buffer := s.Buffer + 2 } (size + 2) (by omega)
      refine ⟨m, dry, ?_, ?_, ?_, ?_⟩
      · simp only [ComplexStructMemorySizeLoop, h]
        simp [RPC_FC_END, RPC_FC_SHORT, RPC_FC_USHORT, RPC_FC_LONG, RPC_FC_ULONG, RPC_FC_ENUM32, RPC_FC_POINTER, RPC_FC_ALIGNM4, RPC_FC_ALIGNM8, RPC_FC_STRUCTPAD2, RPC_FC_EMBEDDED_COMPLEX, RPC_FC_PAD]
        exact e
      · intro x
        rw [hm x]
      · intro r p pp r1 p1 hr
        simp only [ComplexUnmarshall, h] at hr
        simp [RPC_FC_END, RPC_FC_SHORT, RPC_FC_USHORT, RPC_FC_LONG, RPC_FC_ULONG, RPC_FC_ENUM32, RPC_FC_POINTER, RPC_FC_ALIGNM4, RPC_FC_ALIGNM8, RPC_FC_STRUCTPAD2, RPC_FC_EMBEDDED_COMPLEX, RPC_FC_PAD] at hr
        have := hU _ _ _ _ _ hr
        have hc : countOpcode RPC_FC_ENUM32 f (k + 1) =
            (if f.byte 0 = RPC_FC_ENUM32 then 1 else 0) +
              countOpcode RPC_FC_ENUM32 (f.add 1) k := rfl
        rw [hc, h]
        rw [if_neg (by decide)]
        omega
      · intro hnp r p pp
        simp only [ComplexUnmarshall, h]
        simp [RPC_FC_END, RPC_FC_SHORT, RPC_FC_USHORT, RPC_FC_LONG, RPC_FC_ULONG, RPC_FC_ENUM32, RPC_FC_POINTER, RPC_FC_ALIGNM4, RPC_FC_ALIGNM8, RPC_FC_STRUCTPAD2, RPC_FC_EMBEDDED_COMPLEX, RPC_FC_PAD]
        exact hN (no_pointer_tail f k hnp) _ _ _
    · obtain ⟨m, dry, e, hm, hU, hN⟩ := ih1 fuel s size (by omega)
      refine ⟨m, dry, ?_, ?_, ?_, ?_⟩
      · simp only [ComplexStructMemorySizeLoop, h]
        simp [RPC_FC_END, RPC_FC_SHORT, RPC_FC_USHORT, RPC_FC_LONG, RPC_FC_ULONG, RPC_FC_ENUM32, RPC_FC_POINTER, RPC_FC_ALIGNM4, RPC_FC_ALIGNM8, RPC_FC_STRUCTPAD2, RPC_FC_EMBEDDED_COMPLEX, RPC_FC_PAD]
        exact e
      · intro x
        rw [hm x]
      · intro r p pp r1 p1 hr
        simp only [ComplexUnmarshall, h] at hr
        simp [RPC_FC_END, RPC_FC_SHORT, RPC_FC_USHORT, RPC_FC_LONG, RPC_FC_ULONG, RPC_FC_ENUM32, RPC_FC_POINTER, RPC_FC_ALIGNM4, RPC_FC_ALIGNM8, RPC_FC_STRUCTPAD2, RPC_FC_EMBEDDED_COMPLEX, RPC_FC_PAD] at hr
        have := hU _ _ _ _ _ hr
        have hc : countOpcode RPC_FC_ENUM32 f (k + 1) =
            (if f.byte 0 = RPC_FC_ENUM32 then 1 else 0) +
              countOpcode RPC_FC_ENUM32 (f.add 1) k := rfl
        rw [hc, h]
        rw [if_neg (by decide)]
        omega
      · intro hnp r p pp
        simp only [ComplexUnmarshall, h]
        simp [RPC_FC_END, RPC_FC_SHORT, RPC_FC_USHORT, RPC_FC_LONG, RPC_FC_ULONG, RPC_FC_ENUM32, RPC_FC_POINTER, RPC_FC_ALIGNM4, RPC_FC_ALIGNM8, RPC_FC_STRUCTPAD2, RPC_FC_EMBEDDED_COMPLEX, RPC_FC_PAD]
        exact hN (no_pointer_tail f k hnp) _ _ _

/-- C24: the element size of a complex array.  For an element layout of `k` fields out of
`SHORT`, `USHORT`, `LONG`, `ULONG`, `ENUM32`, `POINTER`, `STRUCTPAD2` and `PAD`, the dry run
`ComplexStructMemorySize` returns a size `dry` and changes nothing but the buffer cursor
(which `NdrComplexArrayUnmarshall` restores).  Whenever `ComplexUnmarshall` returns, it has
advanced the memory cursor by `dry` plus 4 bytes for each `ENUM32` field, and it does return
when the layout has no `POINTER` field: the two agree exactly when the layout has no `ENUM32`
field, which the dry run does not count. -/
theorem complex_element_dry_run_size
    (tblS : Nat → Option NDR_MEMORYSIZE) (tblU : Nat → Option NDR_UNMARSHALL)
    (fMustAlloc : Bool) (fuel k : Nat) (s : MIDL_STUB_MESSAGE) (f : PFORMAT_STRING)
    (hlay : FieldLayout f k) (hfuel : k < fuel) :
    ∃ (m : MIDL_STUB_MESSAGE) (dry : Nat),
      ComplexStructMemorySize tblS fuel s f = .ok (m, dry) ∧
      (∀ x, { m with Buffer := x } = { s with Buffer := x }) ∧
      (∀ (r : MIDL_STUB_MESSAGE) (p : Nat) (pp : Option PFORMAT_STRING)
          (r1 : MIDL_STUB_MESSAGE) (p1 : Nat),
        ComplexUnmarshall tblU fMustAlloc fuel r p f pp = .ok (r1, p1) →
          p1 = p + dry + 4 * countOpcode RPC_FC_ENUM32 f k) ∧
      ((∀ i : Nat, i < k → f.byte i ≠ RPC_FC_POINTER) →
        ∀ (r : MIDL_STUB_MESSAGE) (p : Nat) (pp : Option PFORMAT_STRING),
          ∃ r1, ComplexUnmarshall tblU fMustAlloc fuel r p f pp =
            .ok (r1, p + dry + 4 * countOpcode RPC_FC_ENUM32 f k)) ∧
      (∀ (r : MIDL_STUB_MESSAGE) (p : Nat) (pp : Option PFORMAT_STRING)
          (r1 : MIDL_STUB_MESSAGE) (p1 : Nat),
        ComplexUnmarshall tblU fMustAlloc fuel r p f pp = .ok (r1, p1) →
          (p1 = p + dry ↔ countOpcode RPC_FC_ENUM32 f k = 0)) := by
  obtain ⟨m, dry, e, hm, hU, hN⟩ :=
    Complex_field_walk tblS tblU fMustAlloc k f hlay fuel s 0 hfuel
  refine ⟨m, dry, e, hm, ?_, ?_, ?_⟩
  · intro r p pp r1 p1 h
    have := hU r p pp r1 p1 h
    omega
  · intro hnp r p pp
    obtain ⟨r1, p1, h⟩ := hN hnp r p pp
    have := hU r p pp r1 p1 h
    have e1 : p1 = p + dry + 4 * countOpcode RPC_FC_ENUM32 f k := by omega
    exact ⟨r1, by rw [h, e1]⟩
  · intro r p pp r1 p1 h
    have := hU r p pp r1 p1 h
    omega

/-- A complex array of two elements of the single field `ENUM32`, unmarshalled into fresh
memory: the dry run gives the element size 0 where `ComplexUnmarshall` advances by 4, so
`NdrComplexArrayUnmarshall` allocates 2 * 0 = 0 bytes and then stores 8 bytes at the address
the allocator returned. -/
theorem complex_element_dry_run_size_witness :
    (FieldLayout (enumArrayFormat.add 12) 1 ∧
      countOpcode RPC_FC_ENUM32 (enumArrayFormat.add 12) 1 = 1) ∧
    (∃ m, ComplexStructMemorySize (NdrMemorySizer 2) 2 enumArrayMsg (enumArrayFormat.add 12)
      = .ok (m, 0)) ∧
    (∃ r1, ComplexUnmarshall (NdrUnmarshaller 2) true 2 enumArrayMsg 4096
      (enumArrayFormat.add 12) none = .ok (r1, 4096 + 4)) ∧
    ∃ r1, NdrComplexArrayUnmarshall (NdrUnmarshaller 2) (NdrMemorySizer 2) 2 enumArrayMsg 0
        enumArrayFormat true = .ok (r1, 4096) ∧
      r1.allocated = [0] ∧ cells r1.mem 4096 8 = [1, 0, 0, 0, 2, 0, 0, 0] := by
  obtain ⟨m, dry, e, -, -, hN, -⟩ := complex_element_dry_run_size (NdrMemorySizer 2)
    (NdrUnmarshaller 2) true 2 1 enumArrayMsg (enumArrayFormat.add 12) (by decide) (by decide)
  have hd : dry = 0 := by
    obtain ⟨a, ha, hb⟩ := Except_ok_of_toOption_map
      (ComplexStructMemorySize (NdrMemorySizer 2) 2 enumArrayMsg (enumArrayFormat.add 12))
      Prod.snd 0 (by decide)
    rw [e] at ha
    cases ha
    exact hb
  subst hd
  obtain ⟨r1, h1⟩ := hN (by decide) enumArrayMsg 4096 none
  refine ⟨⟨by decide, by decide⟩, ⟨m, e⟩, ⟨r1, h1⟩, ?_⟩
  obtain ⟨a, ha, hb⟩ := Except_ok_of_toOption_map
    (NdrComplexArrayUnmarshall (NdrUnmarshaller 2) (NdrMemorySizer 2) 2 enumArrayMsg 0
      enumArrayFormat true)
    (fun x => (x.2, x.1.allocated, cells x.1.mem 4096 8)) (4096, [0], [1, 0, 0, 0, 2, 0, 0, 0])
    (by decide)
  obtain ⟨r2, q⟩ := a
  have hq : q = 4096 := congrArg Prod.fst hb
  subst hq
  exact ⟨r2, ha, congrArg (fun x => x.2.1) hb, congrArg (fun x => x.2.2) hb⟩

/-! ## USER handles -/

theorem handle_bits (a g : Nat) (ha : a < 65536) (hg : g < 65536) :
    ((a + (g <<< 16)) % 4294967296) &&& 0xffff = a ∧
    ((a + (g <<< 16)) % 4294967296) >>> 16 = g ∧
    a &&& 0xffff = a ∧ a >>> 16 = 0 := by
  have e1 : ∀ x : Nat, x &&& 0xffff = x % 65536 := fun x =>
    Nat.and_pow_two_sub_one_eq_mod x 16
  have e2 : ∀ x : Nat, x >>> 16 = x / 65536 := fun x => Nat.shiftRight_eq_div_pow x 16
  have e3 : g <<< 16 = g * 65536 := Nat.shiftLeft_eq g 16
  rw [e1, e1, e2, e2, e3]
  refine ⟨?_, ?_, ?_, ?_⟩ <;> omega

theorem handle_to_entry_of (t : user_handles) (h i : Nat) (hi : i < t.nb_handles)
    (hlow : h &&& 0xffff = i + FIRST_HANDLE) (htype : (t.handles i).type ≠ 0)
    (hgen : h >>> 16 = 0 ∨ h >>> 16 = (t.handles i).generation) :
    handle_to_entry t h = some i := by
  unfold handle_to_entry
  simp only [hlow]
  have e : ((i + FIRST_HANDLE : Nat) : Int) - (FIRST_HANDLE : Int) = (i : Int) := by
    push_cast; ring
  rw [e]
  simp only [Int.toNat_ofNat]
  rw [if_neg (by omega), if_neg htype, if_neg (by rcases hgen with h | h <;> simp [h])]

theorem alloc_user_entry_some (realloc_ok : Bool) (t t1 : user_handles) (i : Nat)
    (hok : user_handles_ok t) (h : alloc_user_entry realloc_ok t = (t1, some i)) :
    i < t1.nb_handles ∧ t1.nb_handles ≤ MAX_HANDLES := by
  obtain ⟨h1, h2, h3, -⟩ := hok
  unfold alloc_user_entry at h
  cases hf : t.freelist with
  | some j =>
    simp only [hf] at h
    simp only [freelist_in_table, hf, decide_eq_true_eq] at h3
    cases h
    exact ⟨h3, by simp only []; omega⟩
  | none =>
    simp only [hf] at h
    split_ifs at h with c1 c2 c3
    · cases h
    · cases h
    · cases h
      simp only []
      constructor
      · omega
      · have : min (t.allocated_handles + max 32 (t.allocated_handles / 2)) MAX_HANDLES
            ≤ MAX_HANDLES := Nat.min_le_right _ _
        omega
    · cases h
      simp only []
      omega

/-- C28: a handle just allocated.  In a well-formed table, for an object pointer `p` and a
type `type` with `0 < type < 65536` (the type is stored in an `unsigned short`), a non-zero
result `h` of `alloc_user_handle` resolves to `p` under `type`, and so does the handle
truncated to 16 bits; under any other type `h` resolves to `NULL`; and
`get_user_full_handle` gives `h` back from the truncated handle. -/
theorem alloc_user_handle_resolves
    (realloc_ok : Bool) (t t1 : user_handles) (p type h : Nat)
    (hok : user_handles_ok t) (htype : 0 < type ∧ type < 65536)
    (halloc : alloc_user_handle realloc_ok t p type = (t1, h)) (hnz : h ≠ 0) :
    get_user_object t1 h type = p ∧
    get_user_object t1 (h &&& 0xffff) type = p ∧
    (∀ type', type' ≠ type → get_user_object t1 h type' = 0) ∧
    get_user_full_handle t1 (h &&& 0xffff) = h := by
  unfold alloc_user_handle at halloc
  cases he : alloc_user_entry realloc_ok t with
  | mk t0 e =>
    cases e with
    | none =>
      simp only [he] at halloc
      cases halloc
      exact absurd rfl hnz
    | some i =>
      obtain ⟨hi, hmax⟩ := alloc_user_entry_some realloc_ok t t0 i hok he
      simp only [he] at halloc
      cases halloc
      set g := if ((t0.handles i).generation + 1) % 65536 ≥ 0xffff then 1
        else ((t0.handles i).generation + 1) % 65536 with hg
      have hglt : g < 65536 := by
        rw [hg]; split <;> omega
      have hmx : MAX_HANDLES = 65488 := rfl
      have hfh : FIRST_HANDLE = 32 := rfl
      obtain ⟨hb1, hb2, hb3, hb4⟩ := handle_bits (i + FIRST_HANDLE) g (by omega) hglt
      have hty : type % 65536 = type := Nat.mod_eq_of_lt htype.2
      have hh : entry_to_handle
          { t0 with
            handles := fun j =>
              if j = i then { ptr := p, type := type % 65536, generation := g }
              else t0.handles j } i
          = (i + FIRST_HANDLE + (g <<< 16)) % 4294967296 := by
        simp only [entry_to_handle, if_true]
      rw [hh]
      have hfull := handle_to_entry_of
        { t0 with
          handles := fun j =>
            if j = i then { ptr := p, type := type % 65536, generation := g }
            else t0.handles j }
        ((i + FIRST_HANDLE + (g <<< 16)) % 4294967296) i hi hb1
        (by simp only [if_true, hty]; omega) (Or.inr (by simp only [if_true]; exact hb2))
      have htrunc := handle_to_entry_of
        { t0 with
          handles := fun j =>
            if j = i then { ptr := p, type := type % 65536, generation := g }
            else t0.handles j }
        (i + FIRST_HANDLE) i hi hb3
        (by simp only [if_true, hty]; omega) (Or.inl hb4)
      rw [hb1]
      simp only [hty] at hfull htrunc hh ⊢
      refine ⟨?_, ?_, ?_, ?_⟩
      · simp only [get_user_object, hfull, if_true, hty, ne_eq, not_true_eq_false, if_false]
      · simp only [get_user_object, htrunc, if_true, hty, ne_eq, not_true_eq_false, if_false]
      · intro type' hne
        simp only [get_user_object, hfull, if_true, hty, ne_eq]
        rw [if_pos (fun e => hne e.symm)]
      · simp only [get_user_full_handle, hb4, ne_eq, not_true_eq_false, if_false, htrunc, hh]

/-- C28 at a concrete table: after three allocations and the release of the second handle,
`alloc_user_handle(0x8000, 3)` reuses the second entry with generation 2 and returns
`0x20021`; this handle and the truncated `0x21` resolve to `0x8000` under type 3, the handle
resolves to `NULL` under type 2, and `get_user_full_handle(0x21)` is `0x20021`. -/
theorem alloc_user_handle_resolves_witness :
    user_handles_ok freedHandles ∧
    (alloc_user_handle true freedHandles 0x8000 3).2 = 0x20021 ∧
    get_user_object (alloc_user_handle true freedHandles 0x8000 3).1 0x20021 3 = 0x8000 ∧
    get_user_object (alloc_user_handle true freedHandles 0x8000 3).1
      (0x20021 &&& 0xffff) 3 = 0x8000 ∧
    get_user_object (alloc_user_handle true freedHandles 0x8000 3).1 0x20021 2 = 0 ∧
    get_user_full_handle (alloc_user_handle true freedHandles 0x8000 3).1
      (0x20021 &&& 0xffff) = 0x20021 := by
  have h := alloc_user_handle_resolves true freedHandles
    (alloc_user_handle true freedHandles 0x8000 3).1 0x8000 3 0x20021
    (by decide) (by decide) (by rfl) (by decide)
  exact ⟨by decide, by decide, h.1, h.2.1, h.2.2.1 2 (by decide), h.2.2.2⟩

theorem next_user_handle_scan_some (t : user_handles) (type : Nat) :
    ∀ (n i j : Nat), next_user_handle_scan t type n i = some j →
      i ≤ j ∧ j < i + n ∧ (type = 0 ∨ (t.handles j).type = type) ∧
      ∀ k, i ≤ k → k < j → ¬ (type = 0 ∨ (t.handles k).type = type) := by
  intro n
  induction n with
  | zero => intro i j h; simp [next_user_handle_scan] at h
  | succ n ih =>
    intro i j h
    unfold next_user_handle_scan at h
    split_ifs at h with c
    · cases h
      exact ⟨le_refl _, by omega, c, fun k h1 h2 => by omega⟩
    · obtain ⟨h1, h2, h3, h4⟩ := ih (i + 1) j h
      refine ⟨by omega, by omega, h3, ?_⟩
      intro k hk1 hk2
      by_cases e : k = i
      · rw [e]; exact c
      · exact h4 k (by omega) hk2

theorem next_user_handle_scan_none (t : user_handles) (type : Nat) :
    ∀ (n i : Nat), next_user_handle_scan t type n i = none →
      ∀ k, i ≤ k → k < i + n → ¬ (type = 0 ∨ (t.handles k).type = type) := by
  intro n
  induction n with
  | zero => intro i _ k h1 h2; omega
  | succ n ih =>
    intro i h k hk1 hk2
    unfold next_user_handle_scan at h
    split_ifs at h with c
    by_cases e : k = i
    · rw [e]; exact c
    · exact ih (i + 1) h k (by omega) (by omega)

theorem entry_to_handle_round_trip (t : user_handles) (j : Nat) (hok : user_handles_ok t)
    (hj : j < t.nb_handles) (hlive : (t.handles j).type ≠ 0) :
    entry_to_handle t j ≠ 0 ∧ handle_to_entry t (entry_to_handle t j) = some j := by
  obtain ⟨h1, h2, -, h4⟩ := hok
  have hmx : MAX_HANDLES = 65488 := rfl
  have hfh : FIRST_HANDLE = 32 := rfl
  obtain ⟨hb1, hb2, -, -⟩ :=
    handle_bits (j + FIRST_HANDLE) (t.handles j).generation (by omega) (h4 j hj).2
  have e : entry_to_handle t j
      = (j + FIRST_HANDLE + ((t.handles j).generation <<< 16)) % 4294967296 := rfl
  rw [e]
  constructor
  · intro h0
    rw [h0] at hb1
    have : (0 : Nat) &&& 0xffff = 0 := by decide
    omega
  · exact handle_to_entry_of t _ j hj hb1 hlive (Or.inr hb2)

theorem next_user_handle_iterate_from (t : user_handles) (type : Nat)
    (hok : user_handles_ok t) (htype : type ≠ 0)
    (hptr : ∀ j, j < t.nb_handles → (t.handles j).type = type → (t.handles j).ptr ≠ 0) :
    ∀ (fuel a handle : Nat), t.nb_handles - a < fuel →
      (if handle = 0 then some 0 else (handle_to_entry t handle).map fun i => i + 1) = some a →
      next_user_handle_iterate t type fuel handle =
        ((List.range' a (t.nb_handles - a)).filter
          fun j => decide ((t.handles j).type = type)).map
          fun j => (entry_to_handle t j, (t.handles j).ptr) := by
  intro fuel
  induction fuel with
  | zero => intro a handle h; omega
  | succ n ih =>
    intro a handle hfuel hstart
    unfold next_user_handle_iterate
    have hnext : next_user_handle t handle type =
        match next_user_handle_scan t type (t.nb_handles - a) a with
        | some j => (entry_to_handle t j, (t.handles j).ptr)
        | none => (handle, 0) := by
      unfold next_user_handle
      simp only [hstart]
    cases hs : next_user_handle_scan t type (t.nb_handles - a) a with
    | none =>
      have hnone := next_user_handle_scan_none t type _ _ hs
      have hfil : (List.range' a (t.nb_handles - a)).filter
          (fun j => decide ((t.handles j).type = type)) = [] := by
        rw [List.filter_eq_nil_iff]
        intro k hk
        rw [List.mem_range'_1] at hk
        have := hnone k hk.1 hk.2
        simp only [decide_eq_true_eq]
        exact fun e => this (Or.inr e)
      rw [hfil]
      simp only [hnext, hs, if_true, List.map_nil]
    | some j =>
      obtain ⟨h1, h2, h3, h4⟩ := next_user_handle_scan_some t type _ _ _ hs
      have hjt : (t.handles j).type = type := h3.resolve_left htype
      have hjn : j < t.nb_handles := by omega
      obtain ⟨hnz, hrt⟩ := entry_to_handle_round_trip t j hok hjn (by rw [hjt]; exact htype)
      have hrec := ih (j + 1) (entry_to_handle t j) (by omega)
        (by rw [if_neg hnz, hrt]; rfl)
      have hsplit : List.range' a (t.nb_handles - a)
          = List.range' a (j - a) ++ j :: List.range' (j + 1) (t.nb_handles - (j + 1)) := by
        have e1 : t.nb_handles - a = (t.nb_handles - (j + 1) + 1) + (j - a) := by omega
        rw [e1, ← List.range'_append_1, List.range'_succ]
        have e2 : a + (j - a) = j := by omega
        rw [e2]
      have hfil : (List.range' a (j - a)).filter
          (fun j => decide ((t.handles j).type = type)) = [] := by
        rw [List.filter_eq_nil_iff]
        intro k hk
        rw [List.mem_range'_1] at hk
        have := h4 k hk.1 (by omega)
        simp only [decide_eq_true_eq]
        exact fun e => this (Or.inr e)
      rw [hsplit, List.filter_append, hfil, List.nil_append,
        List.filter_cons_of_pos (by simp only [hjt, decide_True]), List.map_cons, ← hrec]
      simp only [hnext, hs]
      rw [if_neg (hptr j hjn hjt)]

/-- C29, amended: for a non-zero type and a `*handle` that is 0 or valid, with `a` the first
index to examine (0, or one past the entry of `*handle`), `next_user_handle` returns the
object of the lowest-index entry of that type at or after `a` together with that entry's
handle, and returns `NULL` with `*handle` unchanged when there is none; and in a well-formed
table in which every entry of that type holds a non-`NULL` object pointer, iterating from 0
until `NULL` yields exactly the entries of that type, each once, in increasing index order. -/
theorem next_user_handle_visits_each_entry
    (t : user_handles) (type handle a fuel : Nat)
    (htype : type ≠ 0)
    (hstart : (if handle = 0 then some 0
      else (handle_to_entry t handle).map fun i => i + 1) = some a)
    (hfuel : t.nb_handles < fuel) :
    (∀ j, a ≤ j → j < t.nb_handles → (t.handles j).type = type →
      (∀ k, a ≤ k → k < j → (t.handles k).type ≠ type) →
      next_user_handle t handle type = (entry_to_handle t j, (t.handles j).ptr)) ∧
    ((∀ k, a ≤ k → k < t.nb_handles → (t.handles k).type ≠ type) →
      next_user_handle t handle type = (handle, 0)) ∧
    (user_handles_ok t →
      (∀ j, j < t.nb_handles → (t.handles j).type = type → (t.handles j).ptr ≠ 0) →
      next_user_handle_iterate t type fuel 0 =
        ((List.range t.nb_handles).filter
          fun j => decide ((t.handles j).type = type)).map
          fun j => (entry_to_handle t j, (t.handles j).ptr)) := by
  have hnext : next_user_handle t handle type =
      match next_user_handle_scan t type (t.nb_handles - a) a with
      | some j => (entry_to_handle t j, (t.handles j).ptr)
      | none => (handle, 0) := by
    unfold next_user_handle
    simp only [hstart]
  refine ⟨?_, ?_, ?_⟩
  · intro j hj1 hj2 hj3 hj4
    rw [hnext]
    cases hs : next_user_handle_scan t type (t.nb_handles - a) a with
    | none =>
      exact absurd (Or.inr hj3)
        (next_user_handle_scan_none t type _ _ hs j hj1 (by omega))
    | some j1 =>
      obtain ⟨h1, h2, h3, h4⟩ := next_user_handle_scan_some t type _ _ _ hs
      have e : j1 = j := by
        rcases Nat.lt_trichotomy j1 j with c | c | c
        · exact absurd (h3.resolve_left htype) (hj4 j1 h1 c)
        · exact c
        · exact absurd (Or.inr hj3) (h4 j hj1 c)
      rw [e]
  · intro hall
    rw [hnext]
    cases hs : next_user_handle_scan t type (t.nb_handles - a) a with
    | none => rfl
    | some j1 =>
      obtain ⟨h1, h2, h3, h4⟩ := next_user_handle_scan_some t type _ _ _ hs
      exact absurd (h3.resolve_left htype) (hall j1 h1 (by omega))
  · intro hok hptr
    have h := next_user_handle_iterate_from t type hok htype hptr fuel 0 0
      (by omega) (by rw [if_pos rfl])
    rw [h, List.range_eq_range']
    rfl

/-- C29, as stated: in the table reached by `alloc_user_handle(NULL, 1)` and
`alloc_user_handle(0x7000, 1)` both entries are live and of type 1, yet the first call of
`next_user_handle` from 0 returns the `NULL` object of the first entry (with `*handle` set to
`0x10020`), so iterating until `NULL` visits no entry at all, while a second call would
have reached the entry `0x10021`. -/
theorem next_user_handle_stops_at_null_object :
    user_handles_ok nullObjectHandles ∧
    nullObjectHandles.nb_handles = 2 ∧
    (nullObjectHandles.handles 0).type = 1 ∧ (nullObjectHandles.handles 1).type = 1 ∧
    next_user_handle nullObjectHandles 0 1 = (0x10020, 0) ∧
    next_user_handle nullObjectHandles 0x10020 1 = (0x10021, 0x7000) ∧
    next_user_handle_iterate nullObjectHandles 1 3 0 = [] ∧
    ((List.range nullObjectHandles.nb_handles).filter
      fun j => decide ((nullObjectHandles.handles j).type = 1)) = [0, 1] := by
  decide

/-- C29, amended, at a concrete table: after allocations of types 1, 2, 1, the call from the
first handle `0x10020` skips the entry of type 2 and returns the object `0x7000` with the
handle `0x10022`, and iterating from 0 yields the two entries of type 1 in order. -/
theorem next_user_handle_visits_each_entry_witness :
    user_handles_ok threeHandles ∧
    next_user_handle threeHandles 0x10020 1 = (0x10022, 0x7000) ∧
    next_user_handle_iterate threeHandles 1 4 0 = [(0x10020, 0x5000), (0x10022, 0x7000)] := by
  obtain ⟨h1, -, h3⟩ := next_user_handle_visits_each_entry threeHandles 1 0x10020 1 4
    (by decide) (by decide) (by decide)
  refine ⟨by decide, ?_, ?_⟩
  · exact h1 2 (by decide) (by decide) (by decide)
      (by intro k hk1 hk2; interval_cases k; decide)
  · exact h3 (by decide) (by decide)

/-! ## The trailing conformant array of a complex structure -/

/-- C31: the memory address given to the conformant-array operation of a complex structure
with a trailing conformant array `ca`.  `NdrComplexStructBufferSize`,
`NdrComplexStructUnmarshall` and `NdrComplexStructFree` pass the address `p` at which their
field walk ended.  `NdrComplexStructMarshall` drops the result of its field walk and passes
`pMemory`, the address of the start of the structure. -/
theorem NdrComplexStruct_trailing_array_address
    (tblM : Nat → Option NDR_MARSHALL) (tblU : Nat → Option NDR_UNMARSHALL)
    (tblB : Nat → Option NDR_BUFFERSIZE) (tblF : Nat → Option NDR_FREE)
    (StubDesc : MIDL_STUB_DESC) (fuel : Nat) (s : MIDL_STUB_MESSAGE) (pMemory : Nat)
    (pFormat ca : PFORMAT_STRING)
    (hca : (complexStructHeader pFormat).1 = some ca) :
    (∀ (s1 : MIDL_STUB_MESSAGE) (p : Nat),
      ComplexMarshall tblM fuel
        { s with Buffer := ALIGNED_LENGTH s.Buffer (pFormat.byte 1 + 1), Memory := pMemory }
        pMemory (pFormat.add 8) (complexStructHeader pFormat).2 = .ok (s1, p) →
      NdrComplexStructMarshall tblM StubDesc fuel s pMemory pFormat =
        match NdrConformantArrayMarshall tblM StubDesc fuel s1 pMemory ca with
        | .error e => .error e
        | .ok s2 => .ok { s2 with Memory := s.Memory }) ∧
    (∀ (s1 : MIDL_STUB_MESSAGE) (p : Nat),
      ComplexBufferSize tblB fuel
        { s with
          BufferLength := ALIGN_LENGTH s.BufferLength (pFormat.byte 1 + 1)
          Memory := pMemory }
        pMemory (pFormat.add 8) (complexStructHeader pFormat).2 = .ok (s1, p) →
      NdrComplexStructBufferSize tblB StubDesc fuel s pMemory pFormat =
        match NdrConformantArrayBufferSize tblB StubDesc fuel s1 p ca with
        | .error e => .error e
        | .ok s2 => .ok { s2 with Memory := s.Memory }) ∧
    (∀ (s1 : MIDL_STUB_MESSAGE) (p : Nat),
      pMemory ≠ 0 →
      ComplexUnmarshall tblU false fuel
        { s with Buffer := ALIGNED_LENGTH s.Buffer (pFormat.byte 1 + 1) }
        pMemory (pFormat.add 8) (complexStructHeader pFormat).2 = .ok (s1, p) →
      NdrComplexStructUnmarshall tblU fuel s pMemory pFormat false =
        match NdrConformantArrayUnmarshall tblU fuel s1 p ca false with
        | .error e => .error e
        | .ok (s2, _) => .ok (s2, pMemory)) ∧
    (∀ (s1 : MIDL_STUB_MESSAGE) (p : Nat),
      ComplexFree tblF fuel { s with Memory := pMemory } pMemory (pFormat.add 8)
        (complexStructHeader pFormat).2 = .ok (s1, p) →
      NdrComplexStructFree tblF fuel s pMemory pFormat =
        match NdrConformantArrayFree tblF fuel s1 p ca with
        | .error e => .error e
        | .ok s2 => .ok { s2 with Memory := s.Memory }) := by
  refine ⟨?_, ?_, ?_, ?_⟩
  · intro s1 p h
    simp only [NdrComplexStructMarshall, h, hca]
  · intro s1 p h
    simp only [NdrComplexStructBufferSize, h, hca]
  · intro s1 p hp h
    simp only [NdrComplexStructUnmarshall, hp, Bool.false_eq_true, false_or, if_false, h, hca]
  · intro s1 p h
    simp only [NdrComplexStructFree, h, hca]

/-- The structure `{ n = 3; a = {1, 2, 3} }` at address 100, marshalled from buffer offset 8:
the field walk ends at address 104, where the array is stored, and the buffer-size pass sizes
the array from there; the marshaller writes the field, the conformance 3 and then the 6
bytes found at address 100, `03 00 00 00 01 00`, where the array bytes are
`01 00 02 00 03 00`.  Unmarshalled into the structure at address 200, the array part reads
`03 00 00 00 01 00`. -/
theorem NdrComplexStruct_trailing_array_address_witness :
    (complexStructHeader trailingArrayFormat).1 = some (trailingArrayFormat.add 10) ∧
    (∃ s1, ComplexMarshall (NdrMarshaller noExprEval 2) 4
        { trailingArrayMsg with
          Buffer := ALIGNED_LENGTH trailingArrayMsg.Buffer (trailingArrayFormat.byte 1 + 1)
          Memory := 100 }
        100 (trailingArrayFormat.add 8) (complexStructHeader trailingArrayFormat).2
        = .ok (s1, 104)) ∧
    cells trailingArrayMsg.mem 104 6 = [1, 0, 2, 0, 3, 0] ∧
    (∃ s2, NdrComplexStructMarshall (NdrMarshaller noExprEval 2) noExprEval 4 trailingArrayMsg
        100 trailingArrayFormat = .ok s2 ∧ s2.Buffer = 22 ∧
      cells s2.wire 8 14 = [3, 0, 0, 0,  3, 0, 0, 0,  3, 0, 0, 0, 1, 0] ∧
      ∃ r, NdrComplexStructUnmarshall (NdrUnmarshaller 2) 4
          (mkStubMsg 8 64 s2.wire (fun _ => 0)) 200 trailingArrayFormat false = .ok (r, 200) ∧
        cells r.mem 200 10 = [3, 0, 0, 0,  3, 0, 0, 0, 1, 0]) := by
  have h := (NdrComplexStruct_trailing_array_address (NdrMarshaller noExprEval 2)
    (NdrUnmarshaller 2) (NdrBufferSizer noExprEval 2) (NdrFreer 2) noExprEval 4
    trailingArrayMsg 100 trailingArrayFormat (trailingArrayFormat.add 10) rfl).1
  refine ⟨rfl, ⟨_, rfl⟩, by decide, ?_⟩
  have h1 := h _ 104 rfl
  refine ⟨_, h1, by decide, by decide, _, rfl, by decide⟩

/-! ## Conformant varying arrays: the format positions of both directions -/

theorem ComputeVariance_cursor (StubDesc : MIDL_STUB_DESC)
    (s : MIDL_STUB_MESSAGE) (pMemory : Nat) (pFormat : PFORMAT_STRING) (dflt : Nat) :
    (ComputeVariance StubDesc s pMemory pFormat dflt).2 =
      pFormat.add (corrDescStep (ComputeVariance StubDesc s pMemory pFormat dflt).1) := by
  unfold ComputeVariance ComputeConformanceOrVariance
  simp only []
  split <;> rfl

/-- C32: the format positions used by the two directions of a conformant varying array.
`NdrConformantVaryingArrayMarshall` resolves the conformance at `pFormat + 4`, the variance
one descriptor further and hands the embedded-pointer pass the position one more descriptor
further, with `BufferMark` at the start of the array data.  `NdrConformantVaryingArrayUnmarshall`
starts its readers at `pFormat` itself: the presence of the variance is tested one descriptor
after `pFormat`, the embedded-pointer pass gets the position two descriptors after `pFormat`,
4 bytes before the layout, and `BufferMark` is left as it was. -/
theorem NdrConformantVaryingArray_format_positions
    (tblM : Nat → Option NDR_MARSHALL) (tblU : Nat → Option NDR_UNMARSHALL)
    (StubDesc : MIDL_STUB_DESC) (fuel : Nat) (s r : MIDL_STUB_MESSAGE)
    (pMemory ppMemory : Nat) (pFormat : PFORMAT_STRING) (fMustAlloc : Bool)
    (htag : pFormat.byte 0 = RPC_FC_CVARRAY) :
    (∀ (c v : MIDL_STUB_MESSAGE × PFORMAT_STRING) (w : MIDL_STUB_MESSAGE) (b : Nat),
      c = ComputeConformance StubDesc s pMemory (pFormat.add 4) 0 →
      v = ComputeVariance StubDesc c.1 pMemory ((pFormat.add 4).add (corrDescStep c.1)) 0 →
      w = WriteVariance (WriteConformance v.1) →
      b = ALIGNED_LENGTH w.Buffer ((pFormat.byte 1 + 1) % 256) →
      NdrConformantVaryingArrayMarshall tblM StubDesc fuel s pMemory pFormat =
        EmbeddedPointerMarshall tblM fuel
          { w with
            wire := memcpy w.wire b w.mem (pMemory + w.Offset % 4294967296)
              ((w.ActualCount % 4294967296) * pFormat.WORD 2 % 4294967296)
            BufferMark := b
            Buffer := b + (w.ActualCount % 4294967296) * pFormat.WORD 2 % 4294967296 }
          pMemory (((pFormat.add 4).add (corrDescStep c.1)).add (corrDescStep v.1))) ∧
    (∀ (v : MIDL_STUB_MESSAGE) (b : Nat) (a : MIDL_STUB_MESSAGE × Nat),
      v = (ReadVariance (ReadConformance r (some pFormat)).1
        (some (pFormat.add (corrDescStep r)))).1 →
      b = ALIGNED_LENGTH v.Buffer ((pFormat.byte 1 + 1) % 256) →
      a = (if ppMemory = 0 ∨ fMustAlloc = true then
          NdrAllocate { v with Buffer := b }
            ((v.MaxCount % 4294967296) * pFormat.WORD 2 % 4294967296)
        else ({ v with Buffer := b }, ppMemory)) →
      NdrConformantVaryingArrayUnmarshall tblU fuel r ppMemory pFormat fMustAlloc =
        (match EmbeddedPointerUnmarshall tblU fuel
            { a.1 with
              mem := memcpy a.1.mem (a.2 + v.Offset % 4294967296) v.wire b
                ((v.ActualCount % 4294967296) * pFormat.WORD 2 % 4294967296)
              Buffer := b + (v.ActualCount % 4294967296) * pFormat.WORD 2 % 4294967296 }
            a.2 ((pFormat.add (corrDescStep r)).add (corrDescStep r)) fMustAlloc with
          | .ok s3 => .ok (s3, a.2)
          | .error e => .error e) ∧
      a.1.BufferMark = r.BufferMark ∧ v.wire = r.wire ∧
      v.MaxCount = NDR_LOCAL_UINT32_READ r.NDR_LOCAL_IS_BIG_ENDIAN r.wire
        (ALIGNED_LENGTH r.Buffer 4) ∧
      (IsConformanceOrVariancePresent (pFormat.add (corrDescStep r)) = false →
        v.Offset = 0 ∧ v.ActualCount = v.MaxCount ∧ v.Buffer = ALIGNED_LENGTH r.Buffer 4 + 4) ∧
      (IsConformanceOrVariancePresent (pFormat.add (corrDescStep r)) = true →
        v.Offset = NDR_LOCAL_UINT32_READ r.NDR_LOCAL_IS_BIG_ENDIAN r.wire
          (ALIGNED_LENGTH (ALIGNED_LENGTH r.Buffer 4 + 4) 4) ∧
        v.ActualCount = NDR_LOCAL_UINT32_READ r.NDR_LOCAL_IS_BIG_ENDIAN r.wire
          (ALIGNED_LENGTH (ALIGNED_LENGTH r.Buffer 4 + 4) 4 + 4) ∧
        v.Buffer = ALIGNED_LENGTH (ALIGNED_LENGTH r.Buffer 4 + 4) 4 + 8)) := by
  constructor
  · intro c v w b hc hv hw hb
    subst hc hv hw hb
    unfold NdrConformantVaryingArrayMarshall
    simp only [htag, ne_eq, not_true_eq_false, if_false]
    rw [ComputeVariance_cursor, ComputeConformance_cursor]
  · intro v b a hv hb ha
    have hv1 : v.wire = r.wire := by
      subst hv; simp only [ReadVariance, ReadConformance]; split <;> rfl
    have hv2 : v.BufferMark = r.BufferMark := by
      subst hv; simp only [ReadVariance, ReadConformance]; split <;> rfl
    have hv3 : v.mem = r.mem := by
      subst hv; simp only [ReadVariance, ReadConformance]; split <;> rfl
    refine ⟨?_, ?_, hv1, ?_, ?_, ?_⟩
    · subst ha hb hv
      unfold NdrConformantVaryingArrayUnmarshall
      simp only [htag, ne_eq, not_true_eq_false, if_false]
      by_cases hal : ppMemory = 0 ∨ fMustAlloc = true
      · simp only [hal, if_true]
        rfl
      · simp only [hal, if_false]
        rfl
    · subst ha
      split
      · exact hv2
      · exact hv2
    · subst hv; simp only [ReadVariance, ReadConformance]; split <;> rfl
    · intro hp
      subst hv
      simp only [ReadVariance, ReadConformance, hp, Bool.not_false, if_true, and_self]
    · intro hp
      subst hv
      simp only [ReadVariance, ReadConformance, hp, Bool.not_true, Bool.false_eq_true, if_false,
        and_self]

/-- An array of one unique pointer to the value `0x12345678`.  The marshaller hands the
embedded-pointer pass the layout at offset 12 of the description (`RPC_FC_PP`), with
`BufferMark` at the pointer cell, and writes 20 bytes: the words 1, 0, 1, the pointer cell
and the referent.  The unmarshaller hands its embedded-pointer pass offset 8, the variance
descriptor, which is no layout: it returns after the pointer cell, 4 bytes short of the
referent, with the one allocation of the array and the sender's address 200 in the cell. -/
theorem NdrConformantVaryingArray_format_positions_witness :
    pointerCVArrayFormat.byte 0 = RPC_FC_CVARRAY ∧
    ((pointerCVArrayFormat.add 12).byte 0 = RPC_FC_PP ∧
      (pointerCVArrayFormat.add 8).byte 0 ≠ RPC_FC_PP) ∧
    (∃ s2, NdrConformantVaryingArrayMarshall (NdrMarshaller noExprEval 3) noExprEval 4
        pointerCVArrayMsg 100 pointerCVArrayFormat =
          EmbeddedPointerMarshall (NdrMarshaller noExprEval 3) 4 s2 100
            (pointerCVArrayFormat.add 12) ∧
      s2.BufferMark = 20 ∧ s2.Buffer = 24) ∧
    (∃ s3, NdrConformantVaryingArrayMarshall (NdrMarshaller noExprEval 3) noExprEval 4
        pointerCVArrayMsg 100 pointerCVArrayFormat = .ok s3 ∧ s3.Buffer = 28 ∧
      cells s3.wire 8 20 = cells pointerCVArrayReceiver.wire 8 20) ∧
    (∃ r2, NdrConformantVaryingArrayUnmarshall (NdrUnmarshaller 3) 4 pointerCVArrayReceiver 0
        pointerCVArrayFormat true =
          (match EmbeddedPointerUnmarshall (NdrUnmarshaller 3) 4 r2 4096
              (pointerCVArrayFormat.add 8) true with
            | .ok s3 => .ok (s3, 4096)
            | .error e => .error e) ∧
      r2.BufferMark = pointerCVArrayReceiver.BufferMark ∧ r2.Buffer = 24) ∧
    ∃ r3, NdrConformantVaryingArrayUnmarshall (NdrUnmarshaller 3) 4 pointerCVArrayReceiver 0
        pointerCVArrayFormat true = .ok (r3, 4096) ∧
      r3.Buffer = 24 ∧ r3.allocated = [4] ∧ cells r3.mem 4096 4 = [200, 0, 0, 0] := by
  obtain ⟨hm, hu⟩ := NdrConformantVaryingArray_format_positions (NdrMarshaller noExprEval 3)
    (NdrUnmarshaller 3) noExprEval 4 pointerCVArrayMsg pointerCVArrayReceiver 100 0
    pointerCVArrayFormat true (by decide)
  refine ⟨by decide, by decide, ⟨_, hm _ _ _ _ rfl rfl rfl rfl, by decide, by decide⟩,
    ⟨_, rfl, by decide, by decide⟩, ⟨_, (hu _ _ _ rfl rfl rfl).1, by decide, by decide⟩,
    ⟨_, rfl, by decide, by decide, by decide⟩⟩

/-! ## Buffer offsets of the fields of a complex structure -/

/-- C33: the field stream `SHORT, ALIGNM4, LONG, END` in `ComplexMarshall` and
`ComplexUnmarshall`.  From the buffer cursor `b` the 16-bit field is copied at `b` and the
32-bit field at `b + 2`: `RPC_FC_ALIGNM4` aligns the memory cursor only, the buffer cursor is
never padded.  When `b` is a multiple of 4 the 32-bit field is therefore at an offset that
is 2 modulo 4. -/
theorem Complex_short_alignm4_long_offsets
    (tblM : Nat → Option NDR_MARSHALL) (tblU : Nat → Option NDR_UNMARSHALL)
    (fMustAlloc : Bool) (fuel : Nat) (s : MIDL_STUB_MESSAGE) (p : Nat) (f : PFORMAT_STRING)
    (pp : Option PFORMAT_STRING)
    (h0 : f.byte 0 = RPC_FC_SHORT) (h1 : f.byte 1 = RPC_FC_ALIGNM4)
    (h2 : f.byte 2 = RPC_FC_LONG) (h3 : f.byte 3 = RPC_FC_END) (hfuel : 3 < fuel) :
    ComplexMarshall tblM fuel s p f pp =
      .ok ({ s with
          wire := memcpy (memcpy s.wire s.Buffer s.mem p 2) (s.Buffer + 2) s.mem
            (ALIGNED_LENGTH (p + 2) 4) 4
          Buffer := s.Buffer + 2 + 4 },
        ALIGNED_LENGTH (p + 2) 4 + 4) ∧
    ComplexUnmarshall tblU fMustAlloc fuel s p f pp =
      .ok ({ s with
          mem := memcpy (memcpy s.mem p s.wire s.Buffer 2) (ALIGNED_LENGTH (p + 2) 4) s.wire
            (s.Buffer + 2) 4
          Buffer := s.Buffer + 2 + 4 },
        ALIGNED_LENGTH (p + 2) 4 + 4) ∧
    (s.Buffer % 4 = 0 → (s.Buffer + 2) % 4 = 2) := by
  obtain ⟨n, rfl⟩ : ∃ n, fuel = n + 4 := ⟨fuel - 4, by omega⟩
  have e1 : (f.add 1).byte 0 = RPC_FC_ALIGNM4 := by rw [PFORMAT_STRING.byte_add]; exact h1
  have e2 : ((f.add 1).add 1).byte 0 = RPC_FC_LONG := by
    rw [PFORMAT_STRING.byte_add, PFORMAT_STRING.byte_add]; exact h2
  have e3 : (((f.add 1).add 1).add 1).byte 0 = RPC_FC_END := by
    rw [PFORMAT_STRING.byte_add, PFORMAT_STRING.byte_add, PFORMAT_STRING.byte_add]; exact h3
  refine ⟨?_, ?_, fun h => by omega⟩
  · simp [ComplexMarshall, h0, e1, e2, e3, RPC_FC_SHORT, RPC_FC_ALIGNM4, RPC_FC_LONG,
      RPC_FC_END, RPC_FC_USHORT, RPC_FC_ULONG, RPC_FC_ENUM32, RPC_FC_POINTER]
  · simp [ComplexUnmarshall, h0, e1, e2, e3, RPC_FC_SHORT, RPC_FC_ALIGNM4, RPC_FC_LONG,
      RPC_FC_END, RPC_FC_USHORT, RPC_FC_ULONG, RPC_FC_ENUM32, RPC_FC_POINTER]

/-- The structure `{ a = 0x1122; b = 0x12345678 }` marshalled from buffer offset 8, which is
aligned to the alignment 4 of the structure: `a` is written at offset 8 and `b` at offset 10,
6 bytes in all, and the unmarshaller reads `b` back from offset 10. -/
theorem Complex_short_alignm4_long_offsets_witness :
    (∃ s1, ComplexMarshall (NdrMarshaller noExprEval 2) 4 shortLongStructMsg 100
        (shortLongStructFormat.add 8) none = .ok (s1, 108) ∧
      s1.Buffer = 14 ∧ cells s1.wire 8 6 = [0x22, 0x11, 0x78, 0x56, 0x34, 0x12]) ∧
    (shortLongStructMsg.Buffer + 2) % 4 = 2 ∧
    (∃ s2, NdrComplexStructMarshall (NdrMarshaller noExprEval 2) noExprEval 4
        shortLongStructMsg 100 shortLongStructFormat = .ok s2 ∧
      s2.Buffer = 14 ∧ cells s2.wire 8 6 = [0x22, 0x11, 0x78, 0x56, 0x34, 0x12] ∧
      ∃ r, NdrComplexStructUnmarshall (NdrUnmarshaller 2) 4 (mkStubMsg 8 64 s2.wire (fun _ => 0))
          200 shortLongStructFormat false = .ok (r, 200) ∧
        r.Buffer = 14 ∧ cells r.mem 200 8 = [0x22, 0x11, 0, 0, 0x78, 0x56, 0x34, 0x12]) := by
  obtain ⟨hm, -, hb⟩ := Complex_short_alignm4_long_offsets (NdrMarshaller noExprEval 2)
    (NdrUnmarshaller 2) false 4 shortLongStructMsg 100 (shortLongStructFormat.add 8) none
    (by decide) (by decide) (by decide) (by decide) (by decide)
  exact ⟨⟨_, hm, by decide, by decide⟩, hb (by decide),
    ⟨_, rfl, by decide, by decide, _, rfl, by decide, by decide⟩⟩

/-! ## Variable-repeat groups of an embedded-pointer layout -/

/-- C34: one variable-repeat group in the four embedded-pointer passes.  The group is
repeated `MaxCount` times with the stride and pointer count of its header, and in repetition
`i` the pointer `u` is taken at `pMemory + i * stride` plus the memory offset of its entry:
neither the marker byte after the group tag (`RPC_FC_FIXED_OFFSET` or
`RPC_FC_VARIABLE_OFFSET`) nor `Offset` enters the location, which holds no `Offset * stride`
term. -/
theorem EmbeddedPointer_variable_repeat_locations
    (tblM : Nat → Option NDR_MARSHALL) (tblU : Nat → Option NDR_UNMARSHALL)
    (tblB : Nat → Option NDR_BUFFERSIZE) (tblF : Nat → Option NDR_FREE)
    (Mark pMemory : Nat) (fMustAlloc : Bool) (fuel : Nat) (s : MIDL_STUB_MESSAGE)
    (f : PFORMAT_STRING)
    (h0 : f.byte 0 = RPC_FC_VARIABLE_REPEAT) :
    repeatHeader s f = (s.MaxCount % 4294967296, f.WORD 2, f.WORD 6, 8) ∧
    EmbeddedPointerMarshallLoop tblM Mark pMemory (fuel + 1) s f =
      (match (List.range (s.MaxCount % 4294967296)).foldlM (fun x i =>
          (List.range (f.WORD 6)).foldlM (fun x u =>
            PointerMarshall tblM x
              (ptrAdd (Mark + i * f.WORD 2 % 4294967296) (((f.add 8).add (8 * (u : Int))).SHORT 2))
              (load32 x.mem
                (ptrAdd (pMemory + i * f.WORD 2 % 4294967296)
                  (((f.add 8).add (8 * (u : Int))).SHORT 0)))
              (((f.add 8).add (8 * (u : Int))).add 4)) x) s with
        | .error e => .error e
        | .ok s1 =>
          EmbeddedPointerMarshallLoop tblM Mark pMemory fuel s1
            ((f.add 8).add (8 * (f.WORD 6 : Int)))) ∧
    EmbeddedPointerUnmarshallLoop tblU Mark pMemory fMustAlloc (fuel + 1) s f =
      (match (List.range (s.MaxCount % 4294967296)).foldlM (fun x i =>
          (List.range (f.WORD 6)).foldlM (fun x u =>
            match PointerUnmarshall tblU
                { x with
                  mem := store32 x.mem
                    (ptrAdd (pMemory + i * f.WORD 2 % 4294967296)
                      (((f.add 8).add (8 * (u : Int))).SHORT 0)) 0 }
                (ptrAdd (Mark + i * f.WORD 2 % 4294967296)
                  (((f.add 8).add (8 * (u : Int))).SHORT 2))
                0 (((f.add 8).add (8 * (u : Int))).add 4) fMustAlloc with
            | Except.ok (s1, p) =>
              Except.ok { s1 with
                mem := store32 s1.mem
                  (ptrAdd (pMemory + i * f.WORD 2 % 4294967296)
                    (((f.add 8).add (8 * (u : Int))).SHORT 0)) p }
            | Except.error e => Except.error e) x) s with
        | .error e => .error e
        | .ok s1 =>
          EmbeddedPointerUnmarshallLoop tblU Mark pMemory fMustAlloc fuel s1
            ((f.add 8).add (8 * (f.WORD 6 : Int)))) ∧
    EmbeddedPointerBufferSizeLoop tblB pMemory (fuel + 1) s f =
      (match (List.range (s.MaxCount % 4294967296)).foldlM (fun x i =>
          (List.range (f.WORD 6)).foldlM (fun x u =>
            PointerBufferSize tblB x
              (load32 x.mem
                (ptrAdd (pMemory + i * f.WORD 2 % 4294967296)
                  (((f.add 8).add (8 * (u : Int))).SHORT 0)))
              (((f.add 8).add (8 * (u : Int))).add 4)) x) s with
        | .error e => .error e
        | .ok s1 =>
          EmbeddedPointerBufferSizeLoop tblB pMemory fuel s1
            ((f.add 8).add (8 * (f.WORD 6 : Int)))) ∧
    EmbeddedPointerFreeLoop tblF pMemory (fuel + 1) s f =
      (match (List.range (s.MaxCount % 4294967296)).foldlM (fun x i =>
          (List.range (f.WORD 6)).foldlM (fun x u =>
            PointerFree tblF x
              (load32 x.mem
                (ptrAdd (pMemory + i * f.WORD 2 % 4294967296)
                  (((f.add 8).add (8 * (u : Int))).SHORT 0)))
              (((f.add 8).add (8 * (u : Int))).add 4)) x) s with
        | .error e => .error e
        | .ok s1 =>
          EmbeddedPointerFreeLoop tblF pMemory fuel s1
            ((f.add 8).add (8 * (f.WORD 6 : Int)))) := by
  have hh : repeatHeader s f = (s.MaxCount % 4294967296, f.WORD 2, f.WORD 6, 8) := by
    simp [repeatHeader, h0, RPC_FC_VARIABLE_REPEAT, RPC_FC_FIXED_REPEAT]
  have he : f.byte 0 ≠ RPC_FC_END := by rw [h0]; decide
  refine ⟨hh, ?_, ?_, ?_, ?_⟩
  · simp only [EmbeddedPointerMarshallLoop, he, if_false, hh]
  · simp only [EmbeddedPointerUnmarshallLoop, he, if_false, hh]
  · simp only [EmbeddedPointerBufferSizeLoop, he, if_false, hh]
  · simp only [EmbeddedPointerFreeLoop, he, if_false, hh]

/-- An array of three pointers with `MaxCount = 2` and `Offset = 1`.  With the group marked
`RPC_FC_VARIABLE_OFFSET` the marshalling pass takes the pointers at addresses 100 and 104
(referents `0x11` and `0x22`), the same as with `RPC_FC_FIXED_OFFSET`; a shift by
`Offset * stride = 4` would have taken those at 104 and 108 (referents `0x22` and `0x33`). -/
theorem EmbeddedPointer_variable_repeat_locations_witness :
    (variableOffsetGroup.byte 0 = RPC_FC_VARIABLE_REPEAT ∧
      variableOffsetGroup.byte 1 = RPC_FC_VARIABLE_OFFSET ∧
      fixedOffsetGroup.byte 1 = RPC_FC_FIXED_OFFSET ∧
      pointerTripleMsg.Offset * variableOffsetGroup.WORD 2 = 4) ∧
    repeatHeader pointerTripleMsg variableOffsetGroup = (2, 4, 1, 8) ∧
    (∃ s1, EmbeddedPointerMarshallLoop (NdrMarshaller noExprEval 3) 8 100 3 pointerTripleMsg
        variableOffsetGroup = .ok s1 ∧
      s1.Buffer = 24 ∧
      cells s1.wire 8 16 = [200, 0, 0, 0,  204, 0, 0, 0,  0x11, 0, 0, 0,  0x22, 0, 0, 0] ∧
      ∃ s2, EmbeddedPointerMarshallLoop (NdrMarshaller noExprEval 3) 8 100 3 pointerTripleMsg
          fixedOffsetGroup = .ok s2 ∧
        s2.Buffer = 24 ∧ cells s2.wire 8 16 = cells s1.wire 8 16) := by
  obtain ⟨hh, -, -, -, -⟩ := EmbeddedPointer_variable_repeat_locations
    (NdrMarshaller noExprEval 3) (NdrUnmarshaller 3) (NdrBufferSizer noExprEval 3) (NdrFreer 3)
    8 100 false 2 pointerTripleMsg variableOffsetGroup (by decide)
  exact ⟨by decide, hh, _, rfl, by decide, by decide, _, rfl, by decide, by decide⟩

/-! ## The arm table of a union -/

theorem armScan_match (d : Nat) :
    ∀ (n : Nat) (f : PFORMAT_STRING) (i : Nat), i < n → f.ULONG (6 * (i : Int)) = d →
      (∀ j : Nat, j < i → f.ULONG (6 * (j : Int)) ≠ d) →
      armScan d n f = (true, f.add (6 * (i : Int) + 4)) := by
  intro n
  induction n with
  | zero => intro f i hi; omega
  | succ n ih =>
    intro f i hi hd hlt
    unfold armScan
    cases i with
    | zero =>
      have h0 : d = f.ULONG 0 := by simpa using hd.symm
      rw [if_pos h0]
      simp
    | succ i =>
      have h0 : d ≠ f.ULONG 0 := by
        have := hlt 0 (by omega)
        simpa using this.symm
      rw [if_neg h0]
      have e : ∀ j : Nat, (6 : Int) + 6 * (j : Int) = 6 * ((j + 1 : Nat) : Int) := by
        intro j; push_cast; ring
      rw [ih (f.add 6) i (by omega)
        (by rw [PFORMAT_STRING.ULONG_add, e]; exact hd)
        (fun j hj => by rw [PFORMAT_STRING.ULONG_add, e]; exact hlt (j + 1) (by omega))]
      rw [PFORMAT_STRING.add_add]
      congr 2
      push_cast
      ring

/-- C35: the arm selector of a union.  With `k` the low 12 bits of the first word of the arm
table, entry `i` has its case value at byte `2 + 6 * i` and its type/offset word 4 bytes
further, and the default word is at byte `2 + 6 * k`.  For the first entry whose case value
is the discriminant the result is the position of its type/offset word; when no entry
matches it is the position of the default word, unless that word is 0 or `0xFFFF`, in which
case it is `NULL`. -/
theorem get_arm_offset_from_union_arm_selector_first_match
    (x : MIDL_STUB_MESSAGE) (d : Nat) (arms : PFORMAT_STRING) :
    (∀ i : Nat, i < (arms.WORD 0 &&& 0x0fff) → arms.ULONG (2 + 6 * (i : Int)) = d →
      (∀ j : Nat, j < i → arms.ULONG (2 + 6 * (j : Int)) ≠ d) →
      get_arm_offset_from_union_arm_selector x d arms =
        some (arms.add (2 + 6 * (i : Int) + 4))) ∧
    ((∀ i : Nat, i < (arms.WORD 0 &&& 0x0fff) → arms.ULONG (2 + 6 * (i : Int)) ≠ d) →
      get_arm_offset_from_union_arm_selector x d arms =
        if arms.WORD (2 + 6 * ((arms.WORD 0 &&& 0x0fff : Nat) : Int)) = 0 ∨
            arms.WORD (2 + 6 * ((arms.WORD 0 &&& 0x0fff : Nat) : Int)) = 0xffff then none
        else some (arms.add (2 + 6 * ((arms.WORD 0 &&& 0x0fff : Nat) : Int)))) := by
  constructor
  · intro i hi hd hlt
    unfold get_arm_offset_from_union_arm_selector
    have h := armScan_match d (arms.WORD 0 &&& 0x0fff) (arms.add 2) i hi
      (by rw [PFORMAT_STRING.ULONG_add]; exact hd)
      (fun j hj => by rw [PFORMAT_STRING.ULONG_add]; exact hlt j hj)
    simp only [h, Bool.not_true, Bool.false_eq_true, if_false, PFORMAT_STRING.add_add]
    congr 2
  · intro hno
    unfold get_arm_offset_from_union_arm_selector
    have h := armScan_no_match d (arms.WORD 0 &&& 0x0fff) (arms.add 2)
      (fun i hi => by rw [PFORMAT_STRING.ULONG_add]; exact hno i hi)
    simp only [h, PFORMAT_STRING.WORD_add, PFORMAT_STRING.add_add, Int.add_zero,
      Bool.not_false, if_true]
    by_cases c1 : arms.WORD (2 + 6 * ((arms.WORD 0 &&& 0x0fff : Nat) : Int)) = 0xffff
    · simp [c1]
    · by_cases c2 : arms.WORD (2 + 6 * ((arms.WORD 0 &&& 0x0fff : Nat) : Int)) = 0
      · simp [c2]
      · simp [c1, c2]

/-- The arm table with the case values 5, 7, 7 and the default word `0x8008`: the
discriminant 7 selects the type/offset word of the second entry, at byte 12, not that of the
third; the discriminant 9 selects the default word at byte 20.  In the arm table of
`shortUnionFormat`, whose default word is 0, the discriminant 7 selects nothing. -/
theorem get_arm_offset_from_union_arm_selector_first_match_witness :
    (threeArmTable.WORD 0 &&& 0x0fff = 3 ∧ threeArmTable.ULONG 8 = 7 ∧
      threeArmTable.ULONG 14 = 7 ∧ threeArmTable.WORD 20 = 0x8008 ∧
      (shortUnionFormat.add 10).WORD 8 = 0) ∧
    get_arm_offset_from_union_arm_selector shortUnionMsg 7 threeArmTable =
      some (threeArmTable.add 12) ∧
    get_arm_offset_from_union_arm_selector shortUnionMsg 9 threeArmTable =
      some (threeArmTable.add 20) ∧
    get_arm_offset_from_union_arm_selector shortUnionMsg 7 (shortUnionFormat.add 10) = none := by
  obtain ⟨h1, -⟩ := get_arm_offset_from_union_arm_selector_first_match shortUnionMsg 7
    threeArmTable
  obtain ⟨-, h2⟩ := get_arm_offset_from_union_arm_selector_first_match shortUnionMsg 9
    threeArmTable
  obtain ⟨-, h3⟩ := get_arm_offset_from_union_arm_selector_first_match shortUnionMsg 7
    (shortUnionFormat.add 10)
  refine ⟨by decide, ?_, ?_, ?_⟩
  · exact h1 1 (by decide) (by decide) (by intro j hj; interval_cases j; decide)
  · rw [h2 (by decide), if_neg (by decide)]
    rfl
  · rw [h3 (by decide), if_pos (by decide)]

/-! ## Sizing and marshalling a conformant string -/

theorem ALIGNED_LENGTH_4_le (x : Nat) : ALIGNED_LENGTH x 4 ≤ x + 3 := by
  rw [ALIGNED_LENGTH_4]; omega

/-- C36: a NUL-terminated string of `n` characters of `esize` bytes.  From the 32-bit length
`L` the buffer-size pass gives `ALIGNED_LENGTH L 4 + 12 + (n + 1) * esize + 20` reduced modulo
`2^32` and leaves `Buffer` alone; the marshaller, started at the cursor `o` with its assertion
satisfied, stops at `ALIGNED_LENGTH o 4 + 12 + (n + 1) * esize`, so for `o = L` the sized
length is `BUFFER_PARANOIA` more than that offset modulo `2^32`, and exactly so whenever that
sum is a 32-bit value.  A buffer sized from length 0 for a string with
`(n + 1) * esize + 32 < 2^32` satisfies the assertion `BufferLength >= len * esize + 13`, and
the marshaller started anywhere in front of it stops within `BufferLength` bytes of where it
started. -/
theorem NdrConformantString_size_covers_marshall
    (fuel n esize : Nat) (s m : MIDL_STUB_MESSAGE) (psz : Nat) (pFormat : PFORMAT_STRING)
    (hstr : pFormat.byte 0 = RPC_FC_C_CSTRING ∧ esize = 1 ∧ IsCString s.mem psz n ∨
      pFormat.byte 0 = RPC_FC_C_WSTRING ∧ esize = 2 ∧ IsWString s.mem psz n)
    (hfuel : n < fuel) (hmem : m.mem = s.mem)
    (hfit : (n + 1) * esize + 13 < 4294967296) :
    ∃ s1, NdrConformantStringBufferSize fuel s psz pFormat = .ok s1 ∧
      s1.Buffer = s.Buffer ∧
      s1.BufferLength =
        (ALIGNED_LENGTH s.BufferLength 4 + 12 + (n + 1) * esize + BUFFER_PARANOIA)
          % 4294967296 ∧
      (m.BufferLength ≥ (n + 1) * esize + 13 → m.Buffer ≠ 0 →
        ∃ m1, NdrConformantStringMarshall fuel m psz pFormat = .ok m1 ∧
          m1.Buffer = ALIGNED_LENGTH m.Buffer 4 + 12 + (n + 1) * esize ∧
          (m.Buffer = s.BufferLength →
            s1.BufferLength = (m1.Buffer + BUFFER_PARANOIA) % 4294967296 ∧
            (m1.Buffer + BUFFER_PARANOIA < 4294967296 →
              s1.BufferLength = m1.Buffer + BUFFER_PARANOIA))) ∧
      (s.BufferLength = 0 → (n + 1) * esize + 32 < 4294967296 →
        s1.BufferLength ≥ (n + 1) * esize + 13 ∧
        (m.BufferLength = s1.BufferLength → m.Buffer ≠ 0 →
          ∃ m1, NdrConformantStringMarshall fuel m psz pFormat = .ok m1 ∧
            m1.Buffer ≤ m.Buffer + m.BufferLength)) := by
  have hidem := fun x => ALIGNED_LENGTH_4_idem x
  have hle := ALIGNED_LENGTH_4_le m.Buffer
  have hpar : BUFFER_PARANOIA = 20 := rfl
  have h0 : ALIGNED_LENGTH 0 4 = 0 := by decide
  have hmarsh : m.BufferLength ≥ (n + 1) * esize + 13 → m.Buffer ≠ 0 →
      ∃ m1, NdrConformantStringMarshall fuel m psz pFormat = .ok m1 ∧
        m1.Buffer = ALIGNED_LENGTH m.Buffer 4 + 12 + (n + 1) * esize := by
    intro hlen hbuf
    rcases hstr with ⟨ht, he, hs⟩ | ⟨ht, he, hs⟩
    · subst he
      have hl := strlen_of_IsCString s.mem n psz fuel hs hfuel
      have hn1 : (n + 1) % 4294967296 = n + 1 := Nat.mod_eq_of_lt (by omega)
      have ha : ((n + 1) * 1 + 13) % 4294967296 = (n + 1) * 1 + 13 := Nat.mod_eq_of_lt hfit
      have hb : (n + 1) * 1 % 4294967296 = (n + 1) * 1 := Nat.mod_eq_of_lt (by omega)
      exact ⟨_, by
        simp only [NdrConformantStringMarshall, ht, if_true, hmem, hl, hn1, ha, hb]
        rw [if_pos ⟨hlen, hbuf⟩], by
        simp only [WriteVariance, WriteConformance, hidem]⟩
    · subst he
      have hl := strlenW_of_IsWString s.mem n psz fuel hs hfuel
      have hn1 : (n + 1) % 4294967296 = n + 1 := Nat.mod_eq_of_lt (by omega)
      have ha : ((n + 1) * 2 + 13) % 4294967296 = (n + 1) * 2 + 13 := Nat.mod_eq_of_lt hfit
      have hb : (n + 1) * 2 % 4294967296 = (n + 1) * 2 := Nat.mod_eq_of_lt (by omega)
      have hne : RPC_FC_C_WSTRING ≠ RPC_FC_C_CSTRING := by decide
      exact ⟨_, by
        simp only [NdrConformantStringMarshall, ht, hne, if_false, if_true, hmem, hl, hn1, ha, hb]
        rw [if_pos ⟨hlen, hbuf⟩], by
        simp only [WriteVariance, WriteConformance, hidem]⟩
  have hsize : ∃ s1, NdrConformantStringBufferSize fuel s psz pFormat = .ok s1 ∧
      s1.Buffer = s.Buffer ∧
      s1.BufferLength =
        (ALIGNED_LENGTH s.BufferLength 4 + 12 + (n + 1) * esize + BUFFER_PARANOIA)
          % 4294967296 := by
    have hstep := NdrConformantStringBufferSize_step fuel n s s psz pFormat
      (hstr.imp (fun h => ⟨h.1, h.2.2⟩) (fun h => ⟨h.1, h.2.2⟩)) hfuel rfl
    have hes : (if pFormat.byte 0 = RPC_FC_C_CSTRING then 1 else 2) = esize := by
      rcases hstr with ⟨ht, he, -⟩ | ⟨ht, he, -⟩
      · rw [if_pos ht, he]
      · rw [if_neg (by rw [ht]; decide), he]
    rw [hes] at hstep
    refine ⟨_, hstep, rfl, ?_⟩
    simp only [ALIGN_LENGTH_eq s.BufferLength 4 (by simp)]
    omega
  obtain ⟨s1, hs1, hbuf1, hlen1⟩ := hsize
  refine ⟨s1, hs1, hbuf1, hlen1, ?_, ?_⟩
  · intro hlen hbuf
    obtain ⟨m1, hm1, hc1⟩ := hmarsh hlen hbuf
    refine ⟨m1, hm1, hc1, fun ho => ?_⟩
    have e : s1.BufferLength = (m1.Buffer + BUFFER_PARANOIA) % 4294967296 := by
      rw [hlen1, hc1, ho]
    exact ⟨e, fun hlt => by rw [e, Nat.mod_eq_of_lt hlt]⟩
  · intro hz hfit32
    rw [hz, h0] at hlen1
    have hl : s1.BufferLength = (n + 1) * esize + 32 := by
      rw [hlen1, hpar]
      omega
    refine ⟨by omega, ?_⟩
    intro hml hbuf
    obtain ⟨m1, hm1, hc1⟩ := hmarsh (by omega) hbuf
    exact ⟨m1, hm1, by omega⟩

/-- The string "hello" (6 bytes with the NUL).  Sized from the length 8 the buffer-size pass
gives 46, and the marshaller started at the cursor 8 stops at 26, which is 20 less.  Sized
from the length 0 it gives 38, and the marshaller given `BufferLength = 38` at the cursor 8
passes its assertion and stops at 26, within the 38 bytes. -/
theorem NdrConformantString_size_covers_marshall_witness :
    (cstringFormat.byte 0 = RPC_FC_C_CSTRING ∧ IsCString helloMsg.mem 100 5) ∧
    (∃ s1 m1,
      NdrConformantStringBufferSize 8 { helloMsg with BufferLength := 8 } 100 cstringFormat
        = .ok s1 ∧
      NdrConformantStringMarshall 8 helloMsg 100 cstringFormat = .ok m1 ∧
      s1.BufferLength = 46 ∧ m1.Buffer = 26 ∧ s1.BufferLength = m1.Buffer + BUFFER_PARANOIA) ∧
    (∃ s1 m1,
      NdrConformantStringBufferSize 8 { helloMsg with BufferLength := 0 } 100 cstringFormat
        = .ok s1 ∧
      s1.BufferLength = 38 ∧
      NdrConformantStringMarshall 8 { helloMsg with BufferLength := 38 } 100 cstringFormat
        = .ok m1 ∧
      m1.Buffer ≤ 8 + 38) := by
  obtain ⟨s1, hs1, -, hl1, hm, -⟩ := NdrConformantString_size_covers_marshall 8 5 1
    { helloMsg with BufferLength := 8 } helloMsg 100 cstringFormat
    (Or.inl ⟨by decide, rfl, by decide⟩) (by decide) rfl (by decide)
  obtain ⟨m1, hm1, hc1, he1⟩ := hm (by decide) (by decide)
  obtain ⟨s2, hs2, -, hl2, -, hz⟩ := NdrConformantString_size_covers_marshall 8 5 1
    { helloMsg with BufferLength := 0 } { helloMsg with BufferLength := 38 } 100 cstringFormat
    (Or.inl ⟨by decide, rfl, by decide⟩) (by decide) rfl (by decide)
  obtain ⟨-, hz2⟩ := hz rfl (by decide)
  have hl2' : s2.BufferLength = 38 := hl2.trans (by decide)
  obtain ⟨m2, hm2, hc2⟩ := hz2 hl2'.symm (by decide)
  exact ⟨⟨by decide, by decide⟩,
    ⟨s1, m1, hs1, hm1, hl1.trans (by decide), hc1.trans (by decide),
      (he1 rfl).2 (by rw [hc1]; decide)⟩,
    ⟨s2, m2, hs2, hl2', hm2, hc2⟩⟩

/-! ## Sizing and marshalling a base type -/

/-- C37: a base type with a tag `NdrBaseTypeMarshall` has a case for.  From the 32-bit length
`L` the buffer-size operation returns with `Buffer` untouched and with `BufferLength` the
length `L` padded to the alignment of the type plus its width, reduced modulo `2^32`; the
marshaller started at the cursor `L` raises `RPC_X_ENUM_VALUE_OUT_OF_RANGE` for an `ENUM16`
value above `0xFFFF` and otherwise stops at an offset that is that `BufferLength` modulo
`2^32`, and exactly that `BufferLength` whenever the offset is a 32-bit value.  The width is 2
for `ENUM16` and 4 for `ERROR_STATUS_T`. -/
theorem NdrBaseTypeBufferSize_is_marshall_cursor
    (s m : MIDL_STUB_MESSAGE) (pMemory : Nat) (pFormat : PFORMAT_STRING)
    (htag : ¬ UnhandledBaseType (pFormat.byte 0))
    (hL : m.Buffer = s.BufferLength) :
    ∃ s1, NdrBaseTypeBufferSize s pMemory pFormat = .ok s1 ∧
      s1.Buffer = s.Buffer ∧
      (pFormat.byte 0 = RPC_FC_ENUM16 ∧ load32 m.mem pMemory > USHRT_MAX →
        NdrBaseTypeMarshall m pMemory pFormat = .error .RPC_X_ENUM_VALUE_OUT_OF_RANGE) ∧
      (¬ (pFormat.byte 0 = RPC_FC_ENUM16 ∧ load32 m.mem pMemory > USHRT_MAX) →
        ∃ m1, NdrBaseTypeMarshall m pMemory pFormat = .ok m1 ∧
          s1.BufferLength = m1.Buffer % 4294967296 ∧
          (m1.Buffer < 4294967296 → s1.BufferLength = m1.Buffer)) ∧
      (pFormat.byte 0 = RPC_FC_ENUM16 →
        s1.BufferLength = (ALIGNED_LENGTH s.BufferLength 2 + 2) % 4294967296) ∧
      (pFormat.byte 0 = RPC_FC_ERROR_STATUS_T →
        s1.BufferLength = (ALIGNED_LENGTH s.BufferLength 4 + 4) % 4294967296) := by
  have ak : ∀ (x A : Nat), A = 2 ∨ A = 4 ∨ A = 8 →
      (ALIGN_LENGTH x A + A) % 4294967296 = (ALIGNED_LENGTH x A + A) % 4294967296 := by
    intro x A hA
    rw [ALIGN_LENGTH_eq x A (Or.inr hA)]
    omega
  have ae : ∀ (x A : Nat), A = 2 ∨ A = 4 ∨ A = 8 → ALIGNED_LENGTH x A + A < 4294967296 →
      (ALIGN_LENGTH x A + A) % 4294967296 = ALIGNED_LENGTH x A + A := by
    intro x A hA hlt
    rw [ak x A hA, Nat.mod_eq_of_lt hlt]
  unfold NdrBaseTypeBufferSize NdrBaseTypeMarshall
  generalize pFormat.byte 0 = t at htag
  have ht : t = 1 ∨ t = 2 ∨ t = 3 ∨ t = 4 ∨ t = 5 ∨ t = 6 ∨ t = 7 ∨ t = 8 ∨ t = 9 ∨ t = 10 ∨
      t = 11 ∨ t = 12 ∨ t = 13 ∨ t = 14 ∨ t = 16 := by
    simp only [UnhandledBaseType, RPC_FC_BYTE, RPC_FC_CHAR, RPC_FC_SMALL, RPC_FC_USMALL,
      RPC_FC_WCHAR, RPC_FC_SHORT, RPC_FC_USHORT, RPC_FC_LONG, RPC_FC_ULONG, RPC_FC_FLOAT,
      RPC_FC_HYPER, RPC_FC_DOUBLE, RPC_FC_ENUM16, RPC_FC_ENUM32, RPC_FC_ERROR_STATUS_T] at htag
    omega
  rcases ht with rfl | rfl | rfl | rfl | rfl | rfl | rfl | rfl | rfl | rfl | rfl | rfl | rfl |
    rfl | rfl
  case inr.inr.inr.inr.inr.inr.inr.inr.inr.inr.inr.inr.inl =>
    refine ⟨{ s with BufferLength := (ALIGN_LENGTH s.BufferLength 2 + 2) % 4294967296 },
      rfl, rfl, ?_, ?_, fun _ => ak _ 2 (by simp), fun h => absurd h (by decide)⟩
    · intro h
      rw [show (13 : Nat) = RPC_FC_ENUM16 from rfl, NdrBaseTypeMarshallTag_enum16, if_pos h.2]
    · intro h
      have h2 : ¬ load32 m.mem pMemory > USHRT_MAX := fun c => h ⟨rfl, c⟩
      rw [show (13 : Nat) = RPC_FC_ENUM16 from rfl, NdrBaseTypeMarshallTag_enum16, if_neg h2]
      exact ⟨_, rfl, by simp only [hL]; exact ak _ 2 (by simp),
        fun hlt => by simp only [hL] at hlt ⊢; exact ae _ 2 (by simp) hlt⟩
  all_goals
    refine ⟨_, rfl, rfl, fun h => absurd h.1 (by decide), fun _ => ⟨_, rfl, ?_, ?_⟩,
      fun h => absurd h (by decide), ?_⟩
  all_goals first
    | (intro h; exact absurd h (by decide))
    | (intro h; exact ak _ 4 (by simp))
    | (simp only [hL]; done)
    | (simp only [hL]; exact ak _ 2 (by simp))
    | (simp only [hL]; exact ak _ 4 (by simp))
    | (simp only [hL]; exact ak _ 8 (by simp))
    | (intro hlt; simp only [hL] at hlt ⊢; exact Nat.mod_eq_of_lt hlt)
    | (intro hlt; simp only [hL] at hlt ⊢; exact ae _ 2 (by simp) hlt)
    | (intro hlt; simp only [hL] at hlt ⊢; exact ae _ 4 (by simp) hlt)
    | (intro hlt; simp only [hL] at hlt ⊢; exact ae _ 8 (by simp) hlt)

/-- A 32-bit integer sized from the length 5 and marshalled from the cursor 5: both give 12.
A 16-bit enumeration sized from the length 5: 8, two bytes after the padded length 6. -/
theorem NdrBaseTypeBufferSize_is_marshall_cursor_witness :
    (¬ UnhandledBaseType (longFormat.byte 0) ∧ oddMsg.Buffer = 5) ∧
    (∃ s1 m1, NdrBaseTypeBufferSize { oddMsg with BufferLength := 5 } 100 longFormat = .ok s1 ∧
      NdrBaseTypeMarshall oddMsg 100 longFormat = .ok m1 ∧
      s1.BufferLength = 12 ∧ m1.Buffer = 12 ∧ s1.Buffer = 5) ∧
    ∃ s2, NdrBaseTypeBufferSize { oddMsg with BufferLength := 5 } 100 enum16Format = .ok s2 ∧
      s2.BufferLength = 8 := by
  obtain ⟨s1, hs1, hb1, -, hm, -, -⟩ := NdrBaseTypeBufferSize_is_marshall_cursor
    { oddMsg with BufferLength := 5 } oddMsg 100 longFormat (by decide) rfl
  obtain ⟨m1, hm1, -, hc1⟩ := hm (by decide)
  obtain ⟨s2, hs2, -, -, -, he, -⟩ := NdrBaseTypeBufferSize_is_marshall_cursor
    { oddMsg with BufferLength := 5 } oddMsg 100 enum16Format (by decide) rfl
  have e1 : m1.Buffer = 12 := by
    have h : NdrBaseTypeMarshall oddMsg 100 longFormat = .ok
        { oddMsg with
          wire := store32 oddMsg.wire 8 (load32 oddMsg.mem 100), Buffer := 12 } := rfl
    rw [h] at hm1
    cases hm1
    rfl
  exact ⟨⟨by decide, rfl⟩,
    ⟨s1, m1, hs1, hm1, (hc1 (by rw [e1]; decide)).trans e1, e1, hb1⟩,
    ⟨s2, hs2, (he rfl).trans (by decide)⟩⟩

/-- A 32-bit integer sized from the length `0xFFFFFFFE`: the padded length wraps to 0 and the
new length is 4, the marshaller's offset `0x100000004` reduced modulo `2^32`. -/
theorem NdrBaseTypeBufferSize_wraps_at_32_bits :
    ∃ s1 m1,
      NdrBaseTypeBufferSize { longMsg with BufferLength := 0xFFFFFFFE } 100 longFormat
        = .ok s1 ∧
      NdrBaseTypeMarshall { longMsg with Buffer := 0xFFFFFFFE } 100 longFormat = .ok m1 ∧
      s1.BufferLength = 4 ∧ m1.Buffer = 0x100000004 :=
  ⟨_, _, rfl, rfl, by decide, by decide⟩

/-! ## The copy of a conformant varying array into its allocation -/

/-- C38: `NdrConformantVaryingArrayUnmarshall` when it allocates, on a description with no
embedded-pointer pass to run.  With `M`, `O`, `A` the three words read from the buffer
(`MaxCount`, `Offset`, `ActualCount`) and `p` the address returned for the one allocation of
`M * esize` bytes (modulo 2^32), the `A * esize` bytes (modulo 2^32) that follow in the buffer
are stored from `p + O` on and nothing else changes in memory: the three words are used as
read, no comparison between them is made, so the bytes stored lie within the allocation only
if the sender chose `O + A * esize` at most `M * esize`. -/
theorem NdrConformantVaryingArrayUnmarshall_copies_as_read
    (tblU : Nat → Option NDR_UNMARSHALL) (fuel : Nat) (r : MIDL_STUB_MESSAGE)
    (ppMemory : Nat) (pFormat : PFORMAT_STRING) (fMustAlloc : Bool) (M O A b p : Nat)
    (htag : pFormat.byte 0 = RPC_FC_CVARRAY)
    (halloc : ppMemory = 0 ∨ fMustAlloc = true)
    (hpresent : IsConformanceOrVariancePresent (pFormat.add (corrDescStep r)) = true)
    (hnopp : ((pFormat.add (corrDescStep r)).add (corrDescStep r)).byte 0 ≠ RPC_FC_PP)
    (hM : M = NDR_LOCAL_UINT32_READ r.NDR_LOCAL_IS_BIG_ENDIAN r.wire (ALIGNED_LENGTH r.Buffer 4))
    (hO : O = NDR_LOCAL_UINT32_READ r.NDR_LOCAL_IS_BIG_ENDIAN r.wire
      (ALIGNED_LENGTH r.Buffer 4 + 4))
    (hA : A = NDR_LOCAL_UINT32_READ r.NDR_LOCAL_IS_BIG_ENDIAN r.wire
      (ALIGNED_LENGTH r.Buffer 4 + 4 + 4))
    (hb : b = ALIGNED_LENGTH (ALIGNED_LENGTH r.Buffer 4 + 4 + 8) ((pFormat.byte 1 + 1) % 256))
    (hp : p = r.pfnAllocate r.allocated (M * pFormat.WORD 2 % 4294967296)) :
    ∃ r1, NdrConformantVaryingArrayUnmarshall tblU fuel r ppMemory pFormat fMustAlloc
        = .ok (r1, p) ∧
      r1.allocated = (M * pFormat.WORD 2 % 4294967296) :: r.allocated ∧
      (∀ i, i < A * pFormat.WORD 2 % 4294967296 → r1.mem (p + O + i) = r.wire (b + i)) ∧
      (∀ a, a < p + O ∨ p + O + A * pFormat.WORD 2 % 4294967296 ≤ a → r1.mem a = r.mem a) ∧
      r1.Buffer = b + A * pFormat.WORD 2 % 4294967296 := by
  have hMlt : M % 4294967296 = M := by
    rw [hM]; exact Nat.mod_eq_of_lt (NDR_LOCAL_UINT32_READ_lt _ _ _)
  have hOlt : O % 4294967296 = O := by
    rw [hO]; exact Nat.mod_eq_of_lt (NDR_LOCAL_UINT32_READ_lt _ _ _)
  have hAlt : A % 4294967296 = A := by
    rw [hA]; exact Nat.mod_eq_of_lt (NDR_LOCAL_UINT32_READ_lt _ _ _)
  have hidem := ALIGNED_LENGTH_4_idem r.Buffer
  have hpresent' := hpresent
  have hnopp' := hnopp
  simp only [corrDescStep] at hpresent' hnopp'
  have heq : NdrConformantVaryingArrayUnmarshall tblU fuel r ppMemory pFormat fMustAlloc =
      .ok ({ r with
          MaxCount := M, Offset := O, ActualCount := A
          allocated := (M * pFormat.WORD 2 % 4294967296) :: r.allocated
          mem := memcpy r.mem (p + O) r.wire b (A * pFormat.WORD 2 % 4294967296)
          Buffer := b + A * pFormat.WORD 2 % 4294967296 }, p) := by
    unfold NdrConformantVaryingArrayUnmarshall
    simp only [htag, ne_eq, not_true_eq_false, if_false, ReadConformance, ReadVariance,
      Option.map_some', corrDescStep, hpresent', Bool.not_true, Bool.false_eq_true, halloc,
      if_true, NdrAllocate, hidem, ← hM, ← hO, ← hA, hMlt, hOlt, hAlt, ← hb, ← hp,
      EmbeddedPointerUnmarshall, hnopp', not_false_eq_true, ne_eq]
  exact ⟨_, heq, rfl, fun i hi => memcpy_in _ _ _ _ _ _ hi, fun a ha => memcpy_out _ _ _ _ _ _ ha,
    rfl⟩

/-- A buffer announcing `MaxCount = 1`, `Offset = 0` and `ActualCount = 5` for an array of
32-bit integers: the unmarshaller allocates 1 * 4 = 4 bytes at address 4096 and stores the
5 * 4 = 20 bytes that follow from there on, so the cells 4100 to 4115 are written past the
4 bytes allocated. -/
theorem NdrConformantVaryingArrayUnmarshall_copies_as_read_witness :
    (longCVArrayFormat.byte 0 = RPC_FC_CVARRAY ∧ longCVArrayFormat.WORD 2 = 4 ∧
      NDR_LOCAL_UINT32_READ false overlongCVArrayReceiver.wire 8 = 1 ∧
      NDR_LOCAL_UINT32_READ false overlongCVArrayReceiver.wire 12 = 0 ∧
      NDR_LOCAL_UINT32_READ false overlongCVArrayReceiver.wire 16 = 5) ∧
    ∃ r1, NdrConformantVaryingArrayUnmarshall (NdrUnmarshaller 2) 4 overlongCVArrayReceiver 0
        longCVArrayFormat true = .ok (r1, 4096) ∧
      r1.allocated = [4] ∧
      cells r1.mem 4096 20 =
        [0x11, 0, 0, 0,  0x22, 0, 0, 0,  0x33, 0, 0, 0,  0x44, 0, 0, 0,  0x55, 0, 0, 0] ∧
      (∀ i, i < 20 → r1.mem (4096 + 0 + i) = overlongCVArrayReceiver.wire (20 + i)) := by
  obtain ⟨r1, h1, h2, h3, -, -⟩ := NdrConformantVaryingArrayUnmarshall_copies_as_read
    (NdrUnmarshaller 2) 4 overlongCVArrayReceiver 0 longCVArrayFormat true 1 0 5 20 4096
    (by decide) (by decide) (by decide) (by decide) (by decide) (by decide) (by decide)
    (by decide) (by decide)
  refine ⟨by decide, r1, h1, h2, ?_, h3⟩
  have e : NdrConformantVaryingArrayUnmarshall (NdrUnmarshaller 2) 4 overlongCVArrayReceiver 0
      longCVArrayFormat true = .ok (_, 4096) := rfl
  rw [e] at h1
  cases h1
  decide

/-! ## Releasing and reusing a USER handle -/

theorem handle_to_entry_some (t : user_handles) (h i : Nat)
    (hv : handle_to_entry t h = some i) :
    h &&& 0xffff = i + FIRST_HANDLE ∧ i < t.nb_handles ∧ (t.handles i).type ≠ 0 ∧
      (h >>> 16 = 0 ∨ h >>> 16 = (t.handles i).generation) := by
  unfold handle_to_entry at hv
  simp only [] at hv
  split_ifs at hv with c1 c2 c3
  simp only [Option.some.injEq] at hv
  have hfh : FIRST_HANDLE = 32 := rfl
  have hi : (((h &&& 0xffff : Nat) : Int) - (FIRST_HANDLE : Int)) = (i : Int) := by
    have := Int.toNat_of_nonneg (a := ((h &&& 0xffff : Nat) : Int) - (FIRST_HANDLE : Int))
      (by omega)
    omega
  rw [hv] at c2 c3
  refine ⟨by omega, by omega, c2, ?_⟩
  by_cases e : h >>> 16 = 0
  · exact Or.inl e
  · right
    by_contra c
    exact c3 ⟨e, c⟩

theorem handle_to_entry_free (t : user_handles) (h i : Nat)
    (hlow : h &&& 0xffff = i + FIRST_HANDLE) (hfree : (t.handles i).type = 0) :
    handle_to_entry t h = none := by
  unfold handle_to_entry
  simp only [hlow]
  have e : ((i + FIRST_HANDLE : Nat) : Int) - (FIRST_HANDLE : Int) = (i : Int) := by
    push_cast; ring
  rw [e]
  simp only [Int.toNat_ofNat, hfree]
  split_ifs <;> rfl

theorem handle_to_entry_stale (t : user_handles) (h i : Nat)
    (hlow : h &&& 0xffff = i + FIRST_HANDLE)
    (hgen : h >>> 16 ≠ 0 ∧ h >>> 16 ≠ (t.handles i).generation) :
    handle_to_entry t h = none := by
  unfold handle_to_entry
  simp only [hlow]
  have e : ((i + FIRST_HANDLE : Nat) : Int) - (FIRST_HANDLE : Int) = (i : Int) := by
    push_cast; ring
  rw [e]
  simp only [Int.toNat_ofNat]
  split_ifs <;> rfl

theorem alloc_user_handle_from_freelist (realloc_ok : Bool) (t : user_handles) (i p type : Nat)
    (hf : t.freelist = some i) :
    alloc_user_handle realloc_ok t p type =
      ({ t with
          freelist := ptr_as_entry (t.handles i).ptr
          handles := fun j =>
            if j = i then
              { ptr := p, type := type % 65536,
                generation :=
                  if ((t.handles i).generation + 1) % 65536 ≥ 0xffff then 1
                  else ((t.handles i).generation + 1) % 65536 }
            else t.handles j },
        (i + FIRST_HANDLE +
          ((if ((t.handles i).generation + 1) % 65536 ≥ 0xffff then 1
            else ((t.handles i).generation + 1) % 65536) <<< 16)) % 4294967296) := by
  simp only [alloc_user_handle, alloc_user_entry, hf, entry_to_handle, if_true]

/-- C39: a valid full handle `h` (non-zero generation word) of the entry `i` in a well-formed
table, released and then followed by an allocation for the object `p` of a type
`0 < type < 65536`.  After `free_user_handle(h)` the handle resolves to `NULL` under every
type and a second `free_user_handle(h)` fails, leaving the table as it is.  The next
`alloc_user_handle` returns a non-zero handle `h2` of the same entry whose generation word
differs from that of `h`; `h` still resolves to `NULL` under every type, `h2` and its low 16
bits resolve to `p`, and any handle of that entry that resolves has the generation word of
`h2` or 0. -/
theorem free_then_alloc_user_handle
    (realloc_ok : Bool) (t t1 t2 : user_handles) (h i p type h2 : Nat)
    (hok : user_handles_ok t)
    (hvalid : handle_to_entry t h = some i) (hgen : h >>> 16 ≠ 0)
    (htype : 0 < type ∧ type < 65536)
    (hfree : t1 = (free_user_handle t h).1)
    (halloc : (t2, h2) = alloc_user_handle realloc_ok t1 p type) :
    (free_user_handle t h).2 = some (t.handles i).ptr ∧
    (∀ ty, get_user_object t1 h ty = 0) ∧
    free_user_handle t1 h = (t1, none) ∧
    h2 ≠ 0 ∧ h2 &&& 0xffff = h &&& 0xffff ∧ h2 >>> 16 ≠ h >>> 16 ∧
    (∀ ty, get_user_object t2 h ty = 0) ∧
    get_user_object t2 h2 type = p ∧ get_user_object t2 (h2 &&& 0xffff) type = p ∧
    (∀ h', h' &&& 0xffff = h &&& 0xffff → handle_to_entry t2 h' ≠ none →
      h' >>> 16 = 0 ∨ h' >>> 16 = h2 >>> 16) := by
  obtain ⟨hlow, hi, hlive, hg⟩ := handle_to_entry_some t h i hvalid
  have hg' : h >>> 16 = (t.handles i).generation := hg.resolve_left hgen
  obtain ⟨hnb, hmax, -, hfields⟩ := hok
  have hglt : (t.handles i).generation < 65536 := (hfields i hi).2
  have hmx : MAX_HANDLES = 65488 := rfl
  have hfh : FIRST_HANDLE = 32 := rfl
  have ht1 : t1 = (free_user_entry t i).1 := by
    rw [hfree]; simp only [free_user_handle, hvalid]
  have ht1i : t1.handles i =
      { ptr := entry_as_ptr t.freelist, type := 0, generation := (t.handles i).generation } := by
    rw [ht1]; simp only [free_user_entry, if_true]
  have ht1f : t1.freelist = some i := by rw [ht1]; rfl
  have ht1n : t1.nb_handles = t.nb_handles := by rw [ht1]; rfl
  have hnone1 : handle_to_entry t1 h = none :=
    handle_to_entry_free t1 h i hlow (by rw [ht1i])
  set g := (if ((t1.handles i).generation + 1) % 65536 ≥ 0xffff then 1
    else ((t1.handles i).generation + 1) % 65536) with hgdef
  have hgne : g ≠ (t.handles i).generation := by
    rw [hgdef, ht1i]; simp only []; split <;> omega
  have hg16 : g < 65536 := by
    rw [hgdef]; split <;> omega
  rw [alloc_user_handle_from_freelist realloc_ok t1 i p type ht1f] at halloc
  simp only [Prod.mk.injEq] at halloc
  obtain ⟨ht2, hh2⟩ := halloc
  rw [← hgdef] at ht2 hh2
  obtain ⟨hb1, hb2, hb3, hb4⟩ := handle_bits (i + FIRST_HANDLE) g (by omega) hg16
  rw [← hh2] at hb1 hb2
  have ht2i : t2.handles i = { ptr := p, type := type % 65536, generation := g } := by
    rw [ht2]; simp only [if_true]
  have ht2n : t2.nb_handles = t.nb_handles := by rw [ht2]; exact ht1n
  have hty : type % 65536 = type := Nat.mod_eq_of_lt htype.2
  have hres : handle_to_entry t2 h2 = some i :=
    handle_to_entry_of t2 h2 i (by omega) hb1 (by rw [ht2i]; simp only [hty]; omega)
      (Or.inr (by rw [ht2i]; exact hb2))
  have hres' : handle_to_entry t2 (h2 &&& 0xffff) = some i := by
    rw [hb1]
    exact handle_to_entry_of t2 (i + FIRST_HANDLE) i (by omega) hb3
      (by rw [ht2i]; simp only [hty]; omega) (Or.inl hb4)
  have hstale : handle_to_entry t2 h = none :=
    handle_to_entry_stale t2 h i hlow ⟨hgen, by rw [ht2i, hg']; exact fun e => hgne e.symm⟩
  refine ⟨?_, ?_, ?_, ?_, ?_, ?_, ?_, ?_, ?_, ?_⟩
  · simp only [free_user_handle, hvalid, free_user_entry]
  · intro ty
    simp only [get_user_object, hnone1]
  · simp only [free_user_handle, hnone1]
  · intro h0
    rw [h0] at hb1
    have : (0 : Nat) &&& 0xffff = 0 := by decide
    omega
  · rw [hb1, hlow]
  · rw [hb2, hg']; exact hgne
  · intro ty
    simp only [get_user_object, hstale]
  · simp only [get_user_object, hres, ht2i, hty, ne_eq, not_true_eq_false, if_false]
  · simp only [get_user_object, hres', ht2i, hty, ne_eq, not_true_eq_false, if_false]
  · intro h' hl hne
    cases hr : handle_to_entry t2 h' with
    | none => exact absurd hr hne
    | some j =>
      obtain ⟨hjl, -, -, hjg⟩ := handle_to_entry_some t2 h' j hr
      have hji : j = i := by omega
      rw [hji, ht2i] at hjg
      rw [hb2]
      exact hjg

/-- The handle `0x10021` of the second of three entries: released, it resolves to `NULL` and
cannot be released again; the next allocation returns `0x20021` for the same entry
(generation 2 instead of 1), under which the new object `0x8000` is found, while `0x10021`
still resolves to `NULL`. -/
theorem free_then_alloc_user_handle_witness :
    (user_handles_ok threeHandles ∧ handle_to_entry threeHandles 0x10021 = some 1) ∧
    (free_user_handle threeHandles 0x10021).2 = some 0x6000 ∧
    get_user_object freedHandles 0x10021 2 = 0 ∧
    (free_user_handle freedHandles 0x10021).2 = none ∧
    (alloc_user_handle true freedHandles 0x8000 3).2 = 0x20021 ∧
    get_user_object (alloc_user_handle true freedHandles 0x8000 3).1 0x10021 2 = 0 ∧
    get_user_object (alloc_user_handle true freedHandles 0x8000 3).1 0x10021 3 = 0 ∧
    get_user_object (alloc_user_handle true freedHandles 0x8000 3).1 0x20021 3 = 0x8000 ∧
    get_user_object (alloc_user_handle true freedHandles 0x8000 3).1 0x21 3 = 0x8000 := by
  obtain ⟨h1, h2, h3, -, -, -, h7, h8, h9, -⟩ := free_then_alloc_user_handle true threeHandles
    freedHandles (alloc_user_handle true freedHandles 0x8000 3).1 0x10021 1 0x8000 3 0x20021
    (by decide) (by decide) (by decide) (by decide) rfl rfl
  refine ⟨⟨by decide, by decide⟩, h1, h2 2, ?_, by decide, h7 2, h7 3, h8, h9⟩
  rw [h3]

/-! ## The invariant of the handle table -/

theorem ptr_as_entry_entry_as_ptr (x : Option Nat) : ptr_as_entry (entry_as_ptr x) = x := by
  cases x with
  | none => rfl
  | some i => simp [ptr_as_entry, entry_as_ptr]

theorem free_chain_mem (t : user_handles) :
    ∀ (l : List Nat) (head : Option Nat), free_chain t head l →
      ∀ j ∈ l, j < t.nb_handles ∧ (t.handles j).type = 0 := by
  intro l
  induction l with
  | nil => intro head _ j hj; cases hj
  | cons a l ih =>
    intro head h j hj
    obtain ⟨-, h1, h2, h3⟩ := h
    rcases List.mem_cons.mp hj with rfl | hj
    · exact ⟨h1, h2⟩
    · exact ih _ h3 j hj

theorem free_chain_congr (t u : user_handles) (hnb : t.nb_handles ≤ u.nb_handles) :
    ∀ (l : List Nat) (head : Option Nat), (∀ j ∈ l, u.handles j = t.handles j) →
      free_chain t head l → free_chain u head l := by
  intro l
  induction l with
  | nil => intro head _ h; exact h
  | cons a l ih =>
    intro head hsame h
    obtain ⟨h0, h1, h2, h3⟩ := h
    have ea := hsame a (List.mem_cons_self a l)
    refine ⟨h0, by omega, by rw [ea]; exact h2, ?_⟩
    rw [ea]
    exact ih _ (fun j hj => hsame j (List.mem_cons_of_mem a hj)) h3

theorem user_handles_inv_empty : user_handles_inv emptyHandles :=
  ⟨Nat.le_refl _, by decide, fun i hi => absurd hi (Nat.not_lt_zero i), [], List.nodup_nil, rfl⟩

theorem alloc_user_handle_fresh (realloc_ok : Bool) (t : user_handles) (p type a : Nat)
    (hf : t.freelist = none)
    (ha : t.nb_handles < t.allocated_handles ∧ a = t.allocated_handles ∨
      t.allocated_handles ≤ t.nb_handles ∧ realloc_ok = true ∧
        a = min (t.allocated_handles + max 32 (t.allocated_handles / 2)) MAX_HANDLES ∧
        t.allocated_handles < a) :
    alloc_user_handle realloc_ok t p type =
      ({ t with
          allocated_handles := a
          nb_handles := t.nb_handles + 1
          handles := fun j =>
            if j = t.nb_handles then { ptr := p, type := type % 65536, generation := 1 }
            else t.handles j },
        (t.nb_handles + FIRST_HANDLE + (1 <<< 16)) % 4294967296) := by
  rcases ha with ⟨h1, rfl⟩ | ⟨h1, h2, rfl, h4⟩
  · simp only [alloc_user_handle, alloc_user_entry, hf, ge_iff_le, Nat.not_le.mpr h1, if_false,
      entry_to_handle, if_true]
    refine Prod.ext ?_ rfl
    simp only []
    congr 1
    funext j
    split <;> simp_all
  · simp only [alloc_user_handle, alloc_user_entry, hf, ge_iff_le, h1, if_true,
      Nat.not_le.mpr h4, if_false, h2, Bool.not_true, Bool.false_eq_true, entry_to_handle]
    refine Prod.ext ?_ rfl
    simp only []
    congr 1
    funext j
    split <;> simp_all

theorem alloc_user_handle_fails (realloc_ok : Bool) (t : user_handles) (p type : Nat)
    (hf : t.freelist = none) (h1 : t.allocated_handles ≤ t.nb_handles)
    (h2 : realloc_ok = false ∨
      min (t.allocated_handles + max 32 (t.allocated_handles / 2)) MAX_HANDLES
        ≤ t.allocated_handles) :
    alloc_user_handle realloc_ok t p type = (t, 0) := by
  simp only [alloc_user_handle, alloc_user_entry, hf, ge_iff_le, h1, if_true]
  split_ifs with c1 c2
  · rfl
  · rfl
  · rcases h2 with h2 | h2
    · simp [h2] at c2
    · exact absurd h2 c1

theorem free_chain_none (t : user_handles) (l : List Nat) (h : free_chain t none l) : l = [] := by
  cases l with
  | nil => rfl
  | cons a l => exact absurd h.1 (by simp)

theorem alloc_generation_range (g : Nat) (h1 : 1 ≤ g) (h2 : g ≤ 0xFFFE) :
    1 ≤ (if (g + 1) % 65536 ≥ 0xffff then 1 else (g + 1) % 65536) ∧
      (if (g + 1) % 65536 ≥ 0xffff then 1 else (g + 1) % 65536) ≤ 0xFFFE := by
  split <;> omega

theorem user_handles_inv_alloc (realloc_ok : Bool) (t : user_handles) (p type : Nat)
    (hinv : user_handles_inv t) :
    user_handles_inv (alloc_user_handle realloc_ok t p type).1 := by
  obtain ⟨h1, h2, h3, l, hnd, hch⟩ := hinv
  have hty : type % 65536 < 65536 := Nat.mod_lt _ (by norm_num)
  cases hf : t.freelist with
  | some i =>
    rw [alloc_user_handle_from_freelist realloc_ok t i p type hf]
    rw [hf] at hch
    cases l with
    | nil => exact absurd hch (by simp [free_chain])
    | cons a l =>
      obtain ⟨ha, hi, -, hrest⟩ := hch
      simp only [Option.some.injEq] at ha
      subst ha
      obtain ⟨hnot, hnd'⟩ := List.nodup_cons.mp hnd
      refine ⟨h1, h2, ?_, l, hnd', ?_⟩
      · intro j hj
        simp only []
        by_cases e : j = i
        · subst e
          simp only [if_true]
          obtain ⟨g1, g2, -⟩ := h3 j hj
          obtain ⟨r1, r2⟩ := alloc_generation_range _ g1 g2
          exact ⟨r1, r2, hty⟩
        · simp only [e, if_false]
          exact h3 j hj
      · refine free_chain_congr t _ (by exact Nat.le_refl _) l _ ?_ hrest
        intro j hj
        have e : j ≠ i := fun e => hnot (e ▸ hj)
        simp only [e, if_false]
  | none =>
    rw [hf] at hch
    have hl := free_chain_none t l hch
    subst hl
    by_cases c1 : t.nb_handles < t.allocated_handles
    · rw [alloc_user_handle_fresh realloc_ok t p type t.allocated_handles hf (Or.inl ⟨c1, rfl⟩)]
      refine ⟨by simp only []; omega, h2, ?_, [], List.nodup_nil, hf⟩
      intro j hj
      simp only [] at hj ⊢
      by_cases e : j = t.nb_handles
      · simp only [e, if_true]
        exact ⟨Nat.le_refl _, by norm_num, hty⟩
      · simp only [e, if_false]
        exact h3 j (by omega)
    · by_cases c2 : realloc_ok = true ∧
          t.allocated_handles <
            min (t.allocated_handles + max 32 (t.allocated_handles / 2)) MAX_HANDLES
      · rw [alloc_user_handle_fresh realloc_ok t p type _ hf
          (Or.inr ⟨by omega, c2.1, rfl, c2.2⟩)]
        refine ⟨by simp only []; omega, Nat.min_le_right _ _, ?_, [], List.nodup_nil, hf⟩
        intro j hj
        simp only [] at hj ⊢
        by_cases e : j = t.nb_handles
        · simp only [e, if_true]
          exact ⟨Nat.le_refl _, by norm_num, hty⟩
        · simp only [e, if_false]
          exact h3 j (by omega)
      · rw [alloc_user_handle_fails realloc_ok t p type hf (by omega)
          (by
            by_cases c3 : realloc_ok = true
            · right
              exact Nat.le_of_not_lt (fun h => c2 ⟨c3, h⟩)
            · left
              simpa using c3)]
        exact ⟨h1, h2, h3, [], List.nodup_nil, by show free_chain t t.freelist []; rw [hf]; rfl⟩

theorem user_handles_inv_free (t : user_handles) (h : Nat) (hinv : user_handles_inv t) :
    user_handles_inv (free_user_handle t h).1 := by
  obtain ⟨h1, h2, h3, l, hnd, hch⟩ := hinv
  cases hv : handle_to_entry t h with
  | none =>
    simp only [free_user_handle, hv]
    exact ⟨h1, h2, h3, l, hnd, hch⟩
  | some i =>
    obtain ⟨-, hi, hlive, -⟩ := handle_to_entry_some t h i hv
    have hmem := free_chain_mem t l _ hch
    have hnot : i ∉ l := fun hin => hlive (hmem i hin).2
    simp only [free_user_handle, hv, free_user_entry]
    refine ⟨h1, h2, ?_, i :: l, List.nodup_cons.mpr ⟨hnot, hnd⟩, ?_⟩
    · intro j hj
      simp only []
      by_cases e : j = i
      · subst e
        simp only [if_true]
        obtain ⟨g1, g2, -⟩ := h3 j hj
        exact ⟨g1, g2, by norm_num⟩
      · simp only [e, if_false]
        exact h3 j hj
    · refine ⟨rfl, hi, by simp only [if_true], ?_⟩
      simp only [if_true, ptr_as_entry_entry_as_ptr]
      refine free_chain_congr t _ (by exact Nat.le_refl _) l _ ?_ hch
      intro j hj
      have e : j ≠ i := fun e => hnot (e ▸ hj)
      simp only [e, if_false]

theorem user_handles_inv_foldl (calls : List user_call) :
    ∀ t : user_handles, user_handles_inv t →
      user_handles_inv (calls.foldl run_user_call t) := by
  induction calls with
  | nil => intro t h; exact h
  | cons c calls ih =>
    intro t h
    simp only [List.foldl_cons]
    apply ih
    cases c with
    | alloc ok p ty => exact user_handles_inv_alloc ok t p ty h
    | free hd => exact user_handles_inv_free t hd h

theorem user_handles_inv_head (t : user_handles) (i : Nat) (hinv : user_handles_inv t)
    (hf : t.freelist = some i) : i < t.nb_handles := by
  obtain ⟨-, -, -, l, -, hch⟩ := hinv
  rw [hf] at hch
  cases l with
  | nil => exact absurd hch (by simp [free_chain])
  | cons a l =>
    obtain ⟨ha, hi, -, -⟩ := hch
    simp only [Option.some.injEq] at ha
    rw [ha]; exact hi

theorem user_handles_ok_of_inv (t : user_handles) (hinv : user_handles_inv t) :
    user_handles_ok t := by
  have hhead := user_handles_inv_head t
  obtain ⟨h1, h2, h3, -⟩ := id hinv
  refine ⟨h1, h2, ?_, fun i hi => ⟨(h3 i hi).2.2, by have := (h3 i hi).2.1; omega⟩⟩
  unfold freelist_in_table
  cases hf : t.freelist with
  | none => rfl
  | some i => simpa using hhead i hinv hf

/-- Every table reached from the empty table is well formed. -/
theorem run_user_calls_ok (calls : List user_call) : user_handles_ok (run_user_calls calls) :=
  user_handles_ok_of_inv _ (user_handles_inv_foldl calls emptyHandles user_handles_inv_empty)

/-- C40: the table reached from the empty table by any sequence of `alloc_user_handle` and
`free_user_handle` calls.  Its counters satisfy
`nb_handles <= allocated_handles <= MAX_HANDLES = 65488`, and every entry in use has a
generation from 1 to `0xFFFE`.  A further `alloc_user_handle` returns 0 or a handle whose low
16 bits are from 32 to 65519 and whose high 16 bits are from 1 to `0xFFFE`; it returns 0 when
the free list is empty and the table holds `MAX_HANDLES` entries, and a handle (not 0) when
the free list is not empty, when the array has room, or when the array is below `MAX_HANDLES`
and `realloc` succeeds. -/
theorem reachable_user_handles_invariant
    (calls : List user_call) (realloc_ok : Bool) (p type : Nat) :
    (run_user_calls calls).nb_handles ≤ (run_user_calls calls).allocated_handles ∧
    (run_user_calls calls).allocated_handles ≤ MAX_HANDLES ∧ MAX_HANDLES = 65488 ∧
    (∀ i : Nat, i < (run_user_calls calls).nb_handles →
      ((run_user_calls calls).handles i).type ≠ 0 →
      1 ≤ ((run_user_calls calls).handles i).generation ∧
        ((run_user_calls calls).handles i).generation ≤ 0xFFFE) ∧
    ((alloc_user_handle realloc_ok (run_user_calls calls) p type).2 = 0 ∨
      (32 ≤ (alloc_user_handle realloc_ok (run_user_calls calls) p type).2 &&& 0xffff ∧
        (alloc_user_handle realloc_ok (run_user_calls calls) p type).2 &&& 0xffff < 65520 ∧
        1 ≤ (alloc_user_handle realloc_ok (run_user_calls calls) p type).2 >>> 16 ∧
        (alloc_user_handle realloc_ok (run_user_calls calls) p type).2 >>> 16 ≤ 0xFFFE)) ∧
    ((run_user_calls calls).freelist = none →
      (run_user_calls calls).nb_handles = MAX_HANDLES →
      (alloc_user_handle realloc_ok (run_user_calls calls) p type).2 = 0) ∧
    ((run_user_calls calls).freelist ≠ none ∨
        (run_user_calls calls).nb_handles < (run_user_calls calls).allocated_handles ∨
        (realloc_ok = true ∧ (run_user_calls calls).allocated_handles < MAX_HANDLES) →
      (alloc_user_handle realloc_ok (run_user_calls calls) p type).2 ≠ 0) := by
  have hinv : user_handles_inv (run_user_calls calls) :=
    user_handles_inv_foldl calls emptyHandles user_handles_inv_empty
  generalize run_user_calls calls = t at hinv ⊢
  have hinv' := hinv
  obtain ⟨h1, h2, h3, -⟩ := hinv
  have hmx : MAX_HANDLES = 65488 := rfl
  have hfh : FIRST_HANDLE = 32 := rfl
  -- the outcomes of the allocation
  have hcases :
      (alloc_user_handle realloc_ok t p type).2 = 0 ∧ t.freelist = none ∧
          t.allocated_handles ≤ t.nb_handles ∧
          (realloc_ok = false ∨ t.allocated_handles = MAX_HANDLES) ∨
      ∃ i g, i + FIRST_HANDLE < 65520 ∧ 1 ≤ g ∧ g ≤ 0xFFFE ∧
        (alloc_user_handle realloc_ok t p type).2 =
          (i + FIRST_HANDLE + (g <<< 16)) % 4294967296 := by
    cases hf : t.freelist with
    | some i =>
      right
      have hi := user_handles_inv_head t i hinv' hf
      obtain ⟨g1, g2, -⟩ := h3 i hi
      obtain ⟨r1, r2⟩ := alloc_generation_range _ g1 g2
      exact ⟨i, _, by omega, r1, r2,
        by rw [alloc_user_handle_from_freelist realloc_ok t i p type hf]⟩
    | none =>
      by_cases c1 : t.nb_handles < t.allocated_handles
      · right
        exact ⟨t.nb_handles, 1, by omega, Nat.le_refl _, by norm_num, by
          rw [alloc_user_handle_fresh realloc_ok t p type t.allocated_handles hf
            (Or.inl ⟨c1, rfl⟩)]⟩
      · by_cases c2 : realloc_ok = true ∧
            t.allocated_handles <
              min (t.allocated_handles + max 32 (t.allocated_handles / 2)) MAX_HANDLES
        · right
          have hlt : t.allocated_handles < MAX_HANDLES :=
            Nat.lt_of_lt_of_le c2.2 (Nat.min_le_right _ _)
          exact ⟨t.nb_handles, 1, by omega, Nat.le_refl _, by norm_num, by
            rw [alloc_user_handle_fresh realloc_ok t p type _ hf
              (Or.inr ⟨by omega, c2.1, rfl, c2.2⟩)]⟩
        · left
          have hfail : realloc_ok = false ∨
              min (t.allocated_handles + max 32 (t.allocated_handles / 2)) MAX_HANDLES
                ≤ t.allocated_handles := by
            by_cases c3 : realloc_ok = true
            · right
              exact Nat.le_of_not_lt (fun h => c2 ⟨c3, h⟩)
            · left
              simpa using c3
          refine ⟨by rw [alloc_user_handle_fails realloc_ok t p type hf (by omega) hfail],
            rfl, by omega, ?_⟩
          rcases hfail with hfail | hfail
          · exact Or.inl hfail
          · right
            have hmax : 32 ≤ max 32 (t.allocated_handles / 2) := Nat.le_max_left _ _
            rcases Nat.le_total (t.allocated_handles + max 32 (t.allocated_handles / 2))
              MAX_HANDLES with c | c
            · rw [Nat.min_eq_left c] at hfail; omega
            · rw [Nat.min_eq_right c] at hfail; omega
  refine ⟨h1, h2, rfl, fun i hi _ => ⟨(h3 i hi).1, (h3 i hi).2.1⟩, ?_, ?_, ?_⟩
  · rcases hcases with ⟨h0, -⟩ | ⟨i, g, hi, g1, g2, he⟩
    · exact Or.inl h0
    · right
      obtain ⟨b1, b2, -, -⟩ := handle_bits (i + FIRST_HANDLE) g (by omega) (by omega)
      rw [he, b1, b2]
      omega
  · intro hf hfull
    rcases hcases with ⟨h0, -⟩ | ⟨i, g, hi, g1, g2, he⟩
    · exact h0
    · rw [alloc_user_handle_fails realloc_ok t p type hf (by omega)
        (Or.inr (by
          have : t.allocated_handles = MAX_HANDLES := by omega
          rw [this]
          exact Nat.min_le_right _ _))]
  · intro hsucc
    rcases hcases with ⟨h0, hf, hle, hno⟩ | ⟨i, g, hi, g1, g2, he⟩
    · exfalso
      rcases hsucc with c | c | c
      · exact c hf
      · omega
      · rcases hno with hno | hno
        · rw [hno] at c; exact absurd c.1 (by simp)
        · omega
    · obtain ⟨b1, -, -, -⟩ := handle_bits (i + FIRST_HANDLE) g (by omega) (by omega)
      intro h0
      rw [he] at h0
      rw [h0] at b1
      have : (0 : Nat) &&& 0xffff = 0 := by decide
      omega

/-- Three allocations and the release of the second handle, from the empty table: 3 entries
in an array of 32, and the next allocation returns `0x20021`, entry 1 with generation 2. -/
theorem reachable_user_handles_invariant_witness :
    run_user_calls [.alloc true 0x5000 1, .alloc true 0x6000 2, .alloc true 0x7000 1,
      .free 0x10021] = freedHandles ∧
    freedHandles.nb_handles = 3 ∧ freedHandles.allocated_handles = 32 ∧
    (alloc_user_handle true freedHandles 0x8000 3).2 = 0x20021 ∧
    ((alloc_user_handle true freedHandles 0x8000 3).2 = 0 ∨
      (32 ≤ (alloc_user_handle true freedHandles 0x8000 3).2 &&& 0xffff ∧
        (alloc_user_handle true freedHandles 0x8000 3).2 &&& 0xffff < 65520 ∧
        1 ≤ (alloc_user_handle true freedHandles 0x8000 3).2 >>> 16 ∧
        (alloc_user_handle true freedHandles 0x8000 3).2 >>> 16 ≤ 0xFFFE)) := by
  obtain ⟨-, -, -, -, h, -, -⟩ := reachable_user_handles_invariant
    [.alloc true 0x5000 1, .alloc true 0x6000 2, .alloc true 0x7000 1, .free 0x10021]
    true 0x8000 3
  exact ⟨rfl, by decide, by decide, by decide, h⟩

end NDR
